import Mathlib

/-!
# BPN: a single-hidden-layer back-propagation network and its trainer

Shallow embedding of `Src/NeuralNetwork/NeuralNetwork.{h,cpp}` and
`Src/NeuralNetwork/NeuralNetworkTrainer.{h,cpp}`.

Modelling conventions

* `double` is an arbitrary linearly ordered field `α` (the real numbers in the
  theorems that speak about real arithmetic); `std::exp` is not part of the
  repository and is taken as a parameter `exp : α → α`, instantiated with
  `Real.exp` where its properties matter.  The accuracies and mean squared
  errors of the two trainers are values of `Stat α`: the quotient of a sum by
  the size of an empty set is NaN, as in IEEE arithmetic, and every
  comparison with NaN is false.
* `int32_t`, `uint32_t` and `size_t` counters and indices are natural numbers:
  the model covers the executions in which no index computation leaves the
  machine range (signed overflow has no defined behaviour in C++).
* `std::vector<T>` is `List T`.  Every element access is bounds checked in the
  model: an access outside the vector stops the execution with
  `Fault.outOfBounds`, a failed `assert` stops it with `Fault.assertion`.
* A member function is a function from the object state to `Exec` of the new
  object state.  The trainer reaches its network through `m_pNetwork`; the
  pointee is carried as a field of the trainer state.
* `for (i = 0; i < n; i++)` is `forLoop n`, a range-based `for` is `forEach`,
  the `while` of `Train` is `whileLoop`, which carries an explicit iteration
  budget and reports `Fault.outOfFuel` when the budget does not suffice.
-/

namespace BPN

set_option linter.unusedSectionVars false

/-! ## Execution monad, checked vector access, loops -/

/-- Reasons for which an execution stops without returning. -/
inductive Fault where
  | assertion
  | outOfBounds
  | outOfFuel
  deriving DecidableEq, Repr

/-- Result of running a piece of code: a value, or the fault that stopped it. -/
abbrev Exec (σ : Type) : Type := Except Fault σ

/-- The C `assert`: continues when the condition holds. -/
def check (c : Prop) [Decidable c] : Exec Unit :=
  if c then Except.ok () else Except.error Fault.assertion

/-- Read `xs[i]`. -/
def rd {β : Type} (xs : List β) (i : Nat) : Exec β :=
  match xs[i]? with
  | some v => Except.ok v
  | none => Except.error Fault.outOfBounds

/-- Write `xs[i] = v`. -/
def wr {β : Type} (xs : List β) (i : Nat) (v : β) : Exec (List β) :=
  if i < xs.length then Except.ok (xs.set i v) else Except.error Fault.outOfBounds

/-- Read `xs.back()`. -/
def back {β : Type} (xs : List β) : Exec β :=
  match xs.getLast? with
  | some v => Except.ok v
  | none => Except.error Fault.outOfBounds

/-- Write `xs.back() = v`. -/
def setBack {β : Type} (xs : List β) (v : β) : Exec (List β) :=
  if 0 < xs.length then Except.ok (xs.set (xs.length - 1) v) else Except.error Fault.outOfBounds

/-- The call `xs.resize(n)` on a vector of numbers: keeps the first `n` elements and
pads with value-initialised (zero) elements. -/
def resize {β : Type} [Zero β] (xs : List β) (n : Nat) : List β :=
  xs.take n ++ List.replicate (n - xs.length) 0

/-- The call `memset(xs.data(), 0, xs.size() * sizeof(T))`. -/
def memsetZero {β : Type} [Zero β] (xs : List β) : List β :=
  List.replicate xs.length 0

/-- The call `memcpy(dst.data(), src.data(), count * sizeof(T))`. -/
def memcpy {β : Type} (dst src : List β) (count : Nat) : Exec (List β) :=
  if count ≤ dst.length ∧ count ≤ src.length then
    Except.ok (src.take count ++ dst.drop count)
  else Except.error Fault.outOfBounds

/-- The loop `for (i = 0; i < n; i++) body(i)`: runs `body 0`, ..., `body (n-1)` in
this order on the running state and stops at the first fault. -/
def forLoop {σ : Type} : Nat → (Nat → σ → Exec σ) → σ → Exec σ
  | 0, _, s => Except.ok s
  | k + 1, body, s => forLoop k body s >>= body k

/-- The loop `for (auto const& e : xs) body(e)`. -/
def forEach {β σ : Type} : List β → (β → σ → Exec σ) → σ → Exec σ
  | [], _, s => Except.ok s
  | e :: es, body, s => body e s >>= forEach es body

/-- The loop `while (cond) body` with an iteration budget. -/
def whileLoop {σ : Type} : Nat → (σ → Bool) → (σ → Exec σ) → σ → Exec σ
  | 0, cond, _, s => if cond s then Except.error Fault.outOfFuel else Except.ok s
  | fuel + 1, cond, body, s =>
      if cond s then body s >>= whileLoop fuel cond body else Except.ok s

/-! ## Network (NeuralNetwork.h, NeuralNetwork.cpp) -/

/-- The struct `Network::Settings`. -/
structure NetworkSettings where
  m_numInputs : Nat
  m_numHidden : Nat
  m_numOutputs : Nat
  deriving DecidableEq, Repr

/-- The data members of `class Network`. -/
structure Network (α : Type) where
  m_numInputs : Nat
  m_numHidden : Nat
  m_numOutputs : Nat
  m_inputNeurons : List α
  m_hiddenNeurons : List α
  m_outputNeurons : List α
  m_clampedOutputs : List Int
  m_weightsInputHidden : List α
  m_weightsHiddenOutput : List α

section NetworkOps

variable {α : Type} [LinearOrderedField α]

/-- The function `Network::SigmoidActivationFunction`. -/
def SigmoidActivationFunction (exp : α → α) (x : α) : α :=
  1 / (1 + exp (-x))

/-- The function `Network::ClampOutputValue`. -/
def ClampOutputValue (x : α) : Int :=
  if x < 0.1 then 0
  else if x > 0.9 then 1
  else -1

/-- The function `Network::GetInputHiddenWeightIndex`. -/
def GetInputHiddenWeightIndex (net : Network α) (inputIdx hiddenIdx : Nat) : Nat :=
  inputIdx * net.m_numHidden + hiddenIdx

/-- The function `Network::GetHiddenOutputWeightIndex`. -/
def GetHiddenOutputWeightIndex (net : Network α) (hiddenIdx outputIdx : Nat) : Nat :=
  hiddenIdx * net.m_numOutputs + outputIdx

/-- The accessor `Network::GetInputHiddenWeights`. -/
def GetInputHiddenWeights (net : Network α) : List α := net.m_weightsInputHidden

/-- The accessor `Network::GetHiddenOutputWeights`. -/
def GetHiddenOutputWeights (net : Network α) : List α := net.m_weightsHiddenOutput

/-- The member initialiser list of both constructors: the three dimensions are
set, every vector is still empty. -/
def Network.members (settings : NetworkSettings) : Network α where
  m_numInputs := settings.m_numInputs
  m_numHidden := settings.m_numHidden
  m_numOutputs := settings.m_numOutputs
  m_inputNeurons := []
  m_hiddenNeurons := []
  m_outputNeurons := []
  m_clampedOutputs := []
  m_weightsInputHidden := []
  m_weightsHiddenOutput := []

/-- The function `Network::InitializeNetwork`. -/
def InitializeNetwork (net : Network α) : Exec (Network α) := do
  let totalNumInputs := net.m_numInputs + 1
  let totalNumHiddens := net.m_numHidden + 1
  let inputNeurons := memsetZero (resize net.m_inputNeurons totalNumInputs)
  let hiddenNeurons := memsetZero (resize net.m_hiddenNeurons totalNumHiddens)
  let outputNeurons := memsetZero (resize net.m_outputNeurons net.m_numOutputs)
  let clampedOutputs := memsetZero (resize net.m_clampedOutputs net.m_numOutputs)
  let inputNeurons ← setBack inputNeurons (-1)
  let hiddenNeurons ← setBack hiddenNeurons (-1)
  let numInputHiddenWeights := totalNumInputs * totalNumHiddens
  let numHiddenOutputWeights := totalNumHiddens * net.m_numOutputs
  pure { net with
    m_inputNeurons := inputNeurons
    m_hiddenNeurons := hiddenNeurons
    m_outputNeurons := outputNeurons
    m_clampedOutputs := clampedOutputs
    m_weightsInputHidden := resize net.m_weightsInputHidden numInputHiddenWeights
    m_weightsHiddenOutput := resize net.m_weightsHiddenOutput numHiddenOutputWeights }

/-- The function `Network::InitializeWeights`.  The normal-distribution generator is
external; `draw k` is the value of its `k`-th call. -/
def InitializeWeights (draw : Nat → α) (net : Network α) : Exec (Network α) := do
  let s ← forLoop (net.m_numInputs + 1) (fun inputIdx s =>
    forLoop net.m_numHidden (fun hiddenIdx (s : List α × Nat) => do
      let weightIdx := GetInputHiddenWeightIndex net inputIdx hiddenIdx
      let weight := draw s.2
      let w ← wr s.1 weightIdx weight
      pure (w, s.2 + 1)) s) (net.m_weightsInputHidden, 0)
  let r ← forLoop (net.m_numHidden + 1) (fun hiddenIdx r =>
    forLoop net.m_numOutputs (fun outputIdx (r : List α × Nat) => do
      let weightIdx := GetHiddenOutputWeightIndex net hiddenIdx outputIdx
      let weight := draw r.2
      let w ← wr r.1 weightIdx weight
      pure (w, r.2 + 1)) r) (net.m_weightsHiddenOutput, s.2)
  pure { net with m_weightsInputHidden := s.1, m_weightsHiddenOutput := r.1 }

/-- The function `Network::LoadWeights`. -/
def LoadWeights (net : Network α) (weights : List α) : Exec (Network α) := do
  let numInputHiddenWeights := net.m_numInputs * net.m_numHidden
  let numHiddenOutputWeights := net.m_numHidden * net.m_numOutputs
  check (weights.length = numInputHiddenWeights + numHiddenOutputWeights)
  let s ← forLoop numInputHiddenWeights (fun InputHiddenIdx (s : List α × Nat) => do
    let v ← rd weights s.2
    let w ← wr s.1 InputHiddenIdx v
    pure (w, s.2 + 1)) (net.m_weightsInputHidden, 0)
  let r ← forLoop numHiddenOutputWeights (fun HiddenOutputIdx (r : List α × Nat) => do
    let v ← rd weights r.2
    let w ← wr r.1 HiddenOutputIdx v
    pure (w, r.2 + 1)) (net.m_weightsHiddenOutput, s.2)
  pure { net with m_weightsInputHidden := s.1, m_weightsHiddenOutput := r.1 }

/-- The constructor `Network::Network( Settings const& )`. -/
def Network.create (draw : Nat → α) (settings : NetworkSettings) : Exec (Network α) := do
  let net : Network α := Network.members settings
  check (settings.m_numInputs > 0 ∧ settings.m_numOutputs > 0 ∧ settings.m_numHidden > 0)
  let net ← InitializeNetwork net
  InitializeWeights draw net

/-- The constructor `Network::Network( Settings const&, std::vector<double> const& )`. -/
def Network.load (settings : NetworkSettings) (weights : List α) : Exec (Network α) := do
  let net : Network α := Network.members settings
  check (settings.m_numInputs > 0 ∧ settings.m_numOutputs > 0 ∧ settings.m_numHidden > 0)
  let net ← InitializeNetwork net
  LoadWeights net weights

/-- The function `Network::Evaluate`.  The returned reference is the member
`m_clampedOutputs` of the resulting state. -/
def Evaluate (exp : α → α) (net : Network α) (input : List α) : Exec (Network α) := do
  check (input.length = net.m_numInputs)
  let ib ← back net.m_inputNeurons
  let hb ← back net.m_hiddenNeurons
  check (ib = -1 ∧ hb = -1)
  let inputNeurons ← memcpy net.m_inputNeurons input input.length
  let hiddenNeurons ← forLoop net.m_numHidden (fun hiddenIdx hid => do
    let hid ← wr hid hiddenIdx 0
    let hid ← forLoop (net.m_numInputs + 1) (fun inputIdx hid => do
      let weightIdx := GetInputHiddenWeightIndex net inputIdx hiddenIdx
      let acc ← rd hid hiddenIdx
      let x ← rd inputNeurons inputIdx
      let w ← rd net.m_weightsInputHidden weightIdx
      wr hid hiddenIdx (acc + x * w)) hid
    let acc ← rd hid hiddenIdx
    wr hid hiddenIdx (SigmoidActivationFunction exp acc)) net.m_hiddenNeurons
  let oc ← forLoop net.m_numOutputs (fun outputIdx (oc : List α × List Int) => do
    let out ← wr oc.1 outputIdx 0
    let out ← forLoop (net.m_numHidden + 1) (fun hiddenIdx out => do
      let weightIdx := GetHiddenOutputWeightIndex net hiddenIdx outputIdx
      let acc ← rd out outputIdx
      let x ← rd hiddenNeurons hiddenIdx
      let w ← rd net.m_weightsHiddenOutput weightIdx
      wr out outputIdx (acc + x * w)) out
    let acc ← rd out outputIdx
    let out ← wr out outputIdx (SigmoidActivationFunction exp acc)
    let y ← rd out outputIdx
    let clamped ← wr oc.2 outputIdx (ClampOutputValue y)
    pure (out, clamped)) (net.m_outputNeurons, net.m_clampedOutputs)
  pure { net with
    m_inputNeurons := inputNeurons
    m_hiddenNeurons := hiddenNeurons
    m_outputNeurons := oc.1
    m_clampedOutputs := oc.2 }

end NetworkOps

/-! ## NetworkTrainer (NeuralNetworkTrainer.h, NeuralNetworkTrainer.cpp) -/

/-- The struct `TrainingEntry`. -/
structure TrainingEntry (α : Type) where
  m_inputs : List α
  m_expectedOutputs : List Int

/-- The typedef `TrainingSet`. -/
abbrev TrainingSet (α : Type) : Type := List (TrainingEntry α)

/-- The struct `TrainingData`. -/
structure TrainingData (α : Type) where
  m_trainingSet : TrainingSet α
  m_generalizationSet : TrainingSet α
  m_validationSet : TrainingSet α

/-- The struct `NetworkTrainer::Settings`. -/
structure TrainerSettings (α : Type) where
  m_learningRate : α
  m_momentum : α
  m_useBatchLearning : Bool
  m_maxEpochs : Nat
  m_desiredAccuracy : α

/-- A `double` that holds an accuracy or a mean squared error: a real number, NaN (the
result of `0.0 / 0`) or an infinity (the result of `x / 0` for a nonzero `x`). -/
inductive Stat (α : Type) where
  | real (x : α)
  | nan
  | inf (negative : Bool)

section StatOps

variable {α : Type} [LinearOrderedField α]

/-- The quotient `x / n` of the `double` `x` by the count `n`, which is converted to
`double`: a division by zero gives NaN when `x` is zero and an infinity with the sign
of `x` otherwise. -/
def Stat.quot (x : α) (n : Nat) : Stat α :=
  if n = 0 then (if x = 0 then Stat.nan else Stat.inf (decide (x < 0)))
  else Stat.real (x / (n : α))

/-- The value `100.0 - (q * 100.0)` for a quotient `q`. -/
def Stat.percent : Stat α → Stat α
  | Stat.real q => Stat.real (100 - q * 100)
  | Stat.nan => Stat.nan
  | Stat.inf negative => Stat.inf (!negative)

/-- The comparison `s < d` of `double`s; every comparison with NaN is false. -/
def Stat.lt (s : Stat α) (d : α) : Bool :=
  match s with
  | Stat.real x => decide (x < d)
  | Stat.nan => false
  | Stat.inf negative => negative

/-- The comparison `s >= d` of `double`s; every comparison with NaN is false. -/
def Stat.ge (s : Stat α) (d : α) : Prop :=
  match s with
  | Stat.real x => d ≤ x
  | Stat.nan => False
  | Stat.inf negative => negative = false

end StatOps

/-- The data members of `class NetworkTrainer`; `m_pNetwork` holds the state of the
network the pointer refers to. -/
structure NetworkTrainer (α : Type) where
  m_pNetwork : Network α
  m_learningRate : α
  m_momentum : α
  m_desiredAccuracy : α
  m_maxEpochs : Nat
  m_useBatchLearning : Bool
  m_deltaInputHidden : List α
  m_deltaHiddenOutput : List α
  m_errorGradientsHidden : List α
  m_errorGradientsOutput : List α
  m_currentEpoch : Nat
  m_trainingSetAccuracy : Stat α
  m_validationSetAccuracy : Stat α
  m_generalizationSetAccuracy : Stat α
  m_trainingSetMSE : Stat α
  m_validationSetMSE : Stat α
  m_generalizationSetMSE : Stat α

section TrainerOps

variable {α : Type} [LinearOrderedField α]

/-- The constructor `NetworkTrainer::NetworkTrainer`; the pointer is not null. -/
def NetworkTrainer.create (settings : TrainerSettings α) (pNetwork : Network α) :
    NetworkTrainer α where
  m_pNetwork := pNetwork
  m_learningRate := settings.m_learningRate
  m_momentum := settings.m_momentum
  m_desiredAccuracy := settings.m_desiredAccuracy
  m_maxEpochs := settings.m_maxEpochs
  m_useBatchLearning := settings.m_useBatchLearning
  m_currentEpoch := 0
  m_trainingSetAccuracy := Stat.real 0
  m_validationSetAccuracy := Stat.real 0
  m_generalizationSetAccuracy := Stat.real 0
  m_trainingSetMSE := Stat.real 0
  m_validationSetMSE := Stat.real 0
  m_generalizationSetMSE := Stat.real 0
  m_deltaInputHidden := memsetZero (resize [] pNetwork.m_weightsInputHidden.length)
  m_deltaHiddenOutput := memsetZero (resize [] pNetwork.m_weightsHiddenOutput.length)
  m_errorGradientsHidden := memsetZero (resize [] pNetwork.m_hiddenNeurons.length)
  m_errorGradientsOutput := memsetZero (resize [] pNetwork.m_outputNeurons.length)

/-- The function `NetworkTrainer::GetOutputErrorGradient`. -/
def GetOutputErrorGradient (desiredValue outputValue : α) : α :=
  outputValue * (1 - outputValue) * (desiredValue - outputValue)

/-- The function `NetworkTrainer::GetHiddenErrorGradient`. -/
def GetHiddenErrorGradient (t : NetworkTrainer α) (hiddenIdx : Nat) : Exec α := do
  let weightedSum ← forLoop t.m_pNetwork.m_numOutputs (fun outputIdx (weightedSum : α) => do
    let weightIdx := GetHiddenOutputWeightIndex t.m_pNetwork hiddenIdx outputIdx
    let w ← rd t.m_pNetwork.m_weightsHiddenOutput weightIdx
    let g ← rd t.m_errorGradientsOutput outputIdx
    pure (weightedSum + w * g)) 0
  let hn ← rd t.m_pNetwork.m_hiddenNeurons hiddenIdx
  pure (hn * (1 - hn) * weightedSum)

/-- The function `NetworkTrainer::UpdateWeights`.  The state of the first loop nest is
the pair (`m_weightsInputHidden`, `m_deltaInputHidden`), the state of the second is
the pair (`m_weightsHiddenOutput`, `m_deltaInputHidden`): these are the only
vectors the loops write. -/
def UpdateWeights (t : NetworkTrainer α) : Exec (NetworkTrainer α) := do
  let net := t.m_pNetwork
  let s ← forLoop (net.m_numInputs + 1) (fun InputIdx s =>
    forLoop (net.m_numHidden + 1) (fun hiddenIdx (s : List α × List α) => do
      let weightIdx := GetInputHiddenWeightIndex net InputIdx hiddenIdx
      let d ← rd s.2 weightIdx
      let w ← rd s.1 weightIdx
      let wIH ← wr s.1 weightIdx (w + d)
      if t.m_useBatchLearning then
        let dIH ← wr s.2 weightIdx 0
        pure (wIH, dIH)
      else
        pure (wIH, s.2)) s) (net.m_weightsInputHidden, t.m_deltaInputHidden)
  let r ← forLoop (net.m_numHidden + 1) (fun hiddenIdx r =>
    forLoop net.m_numOutputs (fun outputIdx (r : List α × List α) => do
      let weightIdx := GetHiddenOutputWeightIndex net hiddenIdx outputIdx
      let d ← rd t.m_deltaHiddenOutput weightIdx
      let w ← rd r.1 weightIdx
      let wHO ← wr r.1 weightIdx (w + d)
      if t.m_useBatchLearning then
        let dIH ← wr r.2 weightIdx 0
        pure (wHO, dIH)
      else
        pure (wHO, r.2)) r) (net.m_weightsHiddenOutput, s.2)
  pure { t with
    m_pNetwork := { net with m_weightsInputHidden := s.1, m_weightsHiddenOutput := r.1 }
    m_deltaInputHidden := r.2 }

/-- The function `NetworkTrainer::Backpropagate`.  The state of the first loop nest is
the pair (`m_errorGradientsOutput`, `m_deltaHiddenOutput`), the state of the second
is the pair (`m_errorGradientsHidden`, `m_deltaInputHidden`). -/
def Backpropagate (t : NetworkTrainer α) (expectedOutputs : List Int) :
    Exec (NetworkTrainer α) := do
  let net := t.m_pNetwork
  let s ← forLoop net.m_numOutputs (fun OutputIdx (s : List α × List α) => do
    let e ← rd expectedOutputs OutputIdx
    let y ← rd net.m_outputNeurons OutputIdx
    let gO ← wr s.1 OutputIdx (GetOutputErrorGradient (e : α) y)
    let dHO ← forLoop (net.m_numHidden + 1) (fun hiddenIdx (dHO : List α) => do
      let weightIdx := GetHiddenOutputWeightIndex net hiddenIdx OutputIdx
      let hn ← rd net.m_hiddenNeurons hiddenIdx
      let g ← rd gO OutputIdx
      let d ← rd dHO weightIdx
      if t.m_useBatchLearning then
        wr dHO weightIdx (d + t.m_learningRate * hn * g)
      else
        wr dHO weightIdx (t.m_learningRate * hn * g + t.m_momentum * d)) s.2
    pure (gO, dHO)) (t.m_errorGradientsOutput, t.m_deltaHiddenOutput)
  let t := { t with m_errorGradientsOutput := s.1, m_deltaHiddenOutput := s.2 }
  let r ← forLoop (net.m_numHidden + 1) (fun hiddenIdx (r : List α × List α) => do
    let gh ← GetHiddenErrorGradient t hiddenIdx
    let gH ← wr r.1 hiddenIdx gh
    let dIH ← forLoop (net.m_numInputs + 1) (fun inputIdx (dIH : List α) => do
      let weightIdx := GetInputHiddenWeightIndex net inputIdx hiddenIdx
      let x ← rd net.m_inputNeurons inputIdx
      let g ← rd gH hiddenIdx
      let d ← rd dIH weightIdx
      if t.m_useBatchLearning then
        wr dIH weightIdx (d + t.m_learningRate * x * g)
      else
        wr dIH weightIdx (t.m_learningRate * x * g + t.m_momentum * d)) r.2
    pure (gH, dIH)) (t.m_errorGradientsHidden, t.m_deltaInputHidden)
  let t := { t with m_errorGradientsHidden := r.1, m_deltaInputHidden := r.2 }
  if !t.m_useBatchLearning then UpdateWeights t else pure t

/-- The loop over the output units inside `NetworkTrainer::RunEpoch`: compares the
clamped outputs with the expected outputs (as integers) and adds the squared errors
to `MSE`.  The state is the pair (`resultCorrect`, `MSE`). -/
def RunEpochOutputs (net : Network α) (expectedOutputs : List Int) (MSE : α) :
    Exec (Bool × α) :=
  forLoop net.m_numOutputs (fun outputIdx (s : Bool × α) => do
    let c ← rd net.m_clampedOutputs outputIdx
    let e ← rd expectedOutputs outputIdx
    let resultCorrect := if c ≠ e then false else s.1
    let y ← rd net.m_outputNeurons outputIdx
    pure (resultCorrect, s.2 + (y - (e : α)) ^ 2)) (true, MSE)

/-- The loop over the output units inside `NetworkTrainer::GetSetAccuracyAndMSE`: the
clamped output is converted to `double` before the comparison.  The state is the
pair (`correctResult`, `MSE`). -/
def GetSetOutputs (net : Network α) (expectedOutputs : List Int) (MSE : α) :
    Exec (Bool × α) :=
  forLoop net.m_numOutputs (fun outputIdx (s : Bool × α) => do
    let c ← rd net.m_clampedOutputs outputIdx
    let e ← rd expectedOutputs outputIdx
    let correctResult := if (c : α) ≠ (e : α) then false else s.1
    let y ← rd net.m_outputNeurons outputIdx
    pure (correctResult, s.2 + (y - (e : α)) ^ 2)) (true, MSE)

/-- The first part of the body of the range-based loop of `NetworkTrainer::RunEpoch`
for one entry: forward pass, back-propagation and the loop over the output units.
The result is the trainer with the pair (`resultCorrect`, `MSE`). -/
def RunEpochEntry (exp : α → α) (trainingEntry : TrainingEntry α) (t : NetworkTrainer α)
    (MSE : α) : Exec (NetworkTrainer α × Bool × α) := do
  let net ← Evaluate exp t.m_pNetwork trainingEntry.m_inputs
  let t ← Backpropagate { t with m_pNetwork := net } trainingEntry.m_expectedOutputs
  let c ← RunEpochOutputs t.m_pNetwork trainingEntry.m_expectedOutputs MSE
  pure (t, c)

/-- The whole body of the range-based loop of `NetworkTrainer::RunEpoch`; the state is
the triple (trainer, `incorrectEntries`, `MSE`). -/
def RunEpochStep (exp : α → α) (trainingEntry : TrainingEntry α)
    (s : NetworkTrainer α × α × α) : Exec (NetworkTrainer α × α × α) := do
  let r ← RunEpochEntry exp trainingEntry s.1 s.2.2
  if !r.2.1 then
    pure (r.1, s.2.1 + 1, r.2.2)
  else
    pure (r.1, s.2.1, r.2.2)

/-- The function `NetworkTrainer::RunEpoch`. -/
def RunEpoch (exp : α → α) (t : NetworkTrainer α) (trainingSet : TrainingSet α) :
    Exec (NetworkTrainer α) := do
  let s ← forEach trainingSet (RunEpochStep exp) (t, 0, 0)
  let incorrectEntries := s.2.1
  let MSE := s.2.2
  let t ← (if s.1.m_useBatchLearning then UpdateWeights s.1 else pure s.1)
  pure { t with
    m_trainingSetAccuracy := (Stat.quot incorrectEntries trainingSet.length).percent
    m_trainingSetMSE := Stat.quot MSE (t.m_pNetwork.m_numOutputs * trainingSet.length) }

/-- The first part of the body of the range-based loop of
`NetworkTrainer::GetSetAccuracyAndMSE` for one entry: forward pass and the loop over
the output units.  The result is the trainer with the pair (`correctResult`, `MSE`). -/
def GetSetEntry (exp : α → α) (trainingEntry : TrainingEntry α) (t : NetworkTrainer α)
    (MSE : α) : Exec (NetworkTrainer α × Bool × α) := do
  let net ← Evaluate exp t.m_pNetwork trainingEntry.m_inputs
  let t := { t with m_pNetwork := net }
  let c ← GetSetOutputs t.m_pNetwork trainingEntry.m_expectedOutputs MSE
  pure (t, c)

/-- The whole body of the range-based loop of `NetworkTrainer::GetSetAccuracyAndMSE`;
the state is the triple (trainer, `numIncorrectResults`, `MSE`). -/
def GetSetStep (exp : α → α) (trainingEntry : TrainingEntry α)
    (s : NetworkTrainer α × α × α) : Exec (NetworkTrainer α × α × α) := do
  let r ← GetSetEntry exp trainingEntry s.1 s.2.2
  if !r.2.1 then
    pure (r.1, s.2.1 + 1, r.2.2)
  else
    pure (r.1, s.2.1, r.2.2)

/-- The function `NetworkTrainer::GetSetAccuracyAndMSE`.  The result is the trainer
(whose network has been evaluated) with the values left in the two reference
parameters `accuracy` and `MSE`. -/
def GetSetAccuracyAndMSE (exp : α → α) (t : NetworkTrainer α) (trainingSet : TrainingSet α) :
    Exec (NetworkTrainer α × Stat α × Stat α) := do
  let s ← forEach trainingSet (GetSetStep exp) (t, 0, 0)
  let numIncorrectResults := s.2.1
  let MSE := s.2.2
  let accuracy := (Stat.quot numIncorrectResults trainingSet.length).percent
  pure (s.1, accuracy,
    Stat.quot MSE (s.1.m_pNetwork.m_numOutputs * trainingSet.length))

/-- The condition of the `while` loop of `NetworkTrainer::Train`. -/
def TrainCondition (t : NetworkTrainer α) : Bool :=
  (t.m_trainingSetAccuracy.lt t.m_desiredAccuracy ||
    t.m_generalizationSetAccuracy.lt t.m_desiredAccuracy) &&
    decide (t.m_currentEpoch < t.m_maxEpochs)

/-- The body of the `while` loop of `NetworkTrainer::Train` (console output left out). -/
def TrainBody (exp : α → α) (trainingData : TrainingData α) (t : NetworkTrainer α) :
    Exec (NetworkTrainer α) := do
  let t ← RunEpoch exp t trainingData.m_trainingSet
  let g ← GetSetAccuracyAndMSE exp t trainingData.m_generalizationSet
  let t := { g.1 with m_generalizationSetAccuracy := g.2.1, m_generalizationSetMSE := g.2.2 }
  pure { t with m_currentEpoch := t.m_currentEpoch + 1 }

/-- The reset of the training state at the start of `NetworkTrainer::Train`. -/
def TrainReset (t : NetworkTrainer α) : NetworkTrainer α :=
  { t with
    m_currentEpoch := 0
    m_trainingSetAccuracy := Stat.real 0
    m_validationSetAccuracy := Stat.real 0
    m_generalizationSetAccuracy := Stat.real 0
    m_trainingSetMSE := Stat.real 0
    m_validationSetMSE := Stat.real 0
    m_generalizationSetMSE := Stat.real 0 }

/-- The function `NetworkTrainer::Train` (console output left out); `fuel` is the
iteration budget of its `while` loop. -/
def Train (exp : α → α) (fuel : Nat) (t : NetworkTrainer α) (trainingData : TrainingData α) :
    Exec (NetworkTrainer α) := do
  let t := TrainReset t
  let t ← whileLoop fuel TrainCondition (TrainBody exp trainingData) t
  let v ← GetSetAccuracyAndMSE exp t trainingData.m_validationSet
  pure { v.1 with m_validationSetAccuracy := v.2.1, m_validationSetMSE := v.2.2 }

end TrainerOps

/-! ## Class invariant and reference activations -/

/-- Class invariant of `Network`: the vector sizes fixed by `InitializeNetwork`. -/
structure Network.Shaped {α : Type} (net : Network α) : Prop where
  inputNeurons : net.m_inputNeurons.length = net.m_numInputs + 1
  hiddenNeurons : net.m_hiddenNeurons.length = net.m_numHidden + 1
  outputNeurons : net.m_outputNeurons.length = net.m_numOutputs
  clampedOutputs : net.m_clampedOutputs.length = net.m_numOutputs
  weightsInputHidden :
    net.m_weightsInputHidden.length = (net.m_numInputs + 1) * (net.m_numHidden + 1)
  weightsHiddenOutput :
    net.m_weightsHiddenOutput.length = (net.m_numHidden + 1) * net.m_numOutputs

/-- Both bias slots (the last input and the last hidden activation) hold `-1`. -/
def Network.BiasSet {α : Type} [LinearOrderedField α] (net : Network α) : Prop :=
  net.m_inputNeurons.getLast? = some (-1) ∧ net.m_hiddenNeurons.getLast? = some (-1)

section Reference
variable {α : Type} [LinearOrderedField α]

/-- Reference value of hidden activation `j` for the input `x`:
`sigma (sum_{i<n} x_i * W1[i*h+j] - W1[n*h+j])` with `sigma z = 1/(1+e^(-z))`. -/
def Reference.hidden (exp : α → α) (net : Network α) (x : List α) (j : Nat) : α :=
  1 / (1 + exp (-(∑ i in Finset.range net.m_numInputs,
      x.getD i 0 * net.m_weightsInputHidden.getD (i * net.m_numHidden + j) 0
    - net.m_weightsInputHidden.getD (net.m_numInputs * net.m_numHidden + j) 0)))

/-- Reference value of output activation `k` for the input `x`:
`sigma (sum_{j<h} hidden_j * W2[j*m+k] - W2[h*m+k])`. -/
def Reference.output (exp : α → α) (net : Network α) (x : List α) (k : Nat) : α :=
  1 / (1 + exp (-(∑ j in Finset.range net.m_numHidden,
      Reference.hidden exp net x j * net.m_weightsHiddenOutput.getD (j * net.m_numOutputs + k) 0
    - net.m_weightsHiddenOutput.getD (net.m_numHidden * net.m_numOutputs + k) 0)))

end Reference

/-- The vectors `InitializeNetwork` leaves behind for the dimensions in `settings`. -/
def Network.blank (α : Type) [LinearOrderedField α] (settings : NetworkSettings) : Network α where
  m_numInputs := settings.m_numInputs
  m_numHidden := settings.m_numHidden
  m_numOutputs := settings.m_numOutputs
  m_inputNeurons := List.replicate settings.m_numInputs 0 ++ [-1]
  m_hiddenNeurons := List.replicate settings.m_numHidden 0 ++ [-1]
  m_outputNeurons := List.replicate settings.m_numOutputs 0
  m_clampedOutputs := List.replicate settings.m_numOutputs 0
  m_weightsInputHidden :=
    List.replicate ((settings.m_numInputs + 1) * (settings.m_numHidden + 1)) 0
  m_weightsHiddenOutput :=
    List.replicate ((settings.m_numHidden + 1) * settings.m_numOutputs) 0

/-! ## Frame relations of the trainer -/

/-- The relation "`t'` agrees with `t` on everything but the network, the delta and
gradient buffers and the training-set statistics". -/
structure NetworkTrainer.EpochFrame {α : Type} (t t' : NetworkTrainer α) : Prop where
  learningRate : t'.m_learningRate = t.m_learningRate
  momentum : t'.m_momentum = t.m_momentum
  desiredAccuracy : t'.m_desiredAccuracy = t.m_desiredAccuracy
  maxEpochs : t'.m_maxEpochs = t.m_maxEpochs
  useBatchLearning : t'.m_useBatchLearning = t.m_useBatchLearning
  currentEpoch : t'.m_currentEpoch = t.m_currentEpoch
  validationSetAccuracy : t'.m_validationSetAccuracy = t.m_validationSetAccuracy
  generalizationSetAccuracy : t'.m_generalizationSetAccuracy = t.m_generalizationSetAccuracy
  validationSetMSE : t'.m_validationSetMSE = t.m_validationSetMSE
  generalizationSetMSE : t'.m_generalizationSetMSE = t.m_generalizationSetMSE

/-- The trainer `t` with its network replaced by `net`. -/
def NetworkTrainer.withNetwork {α : Type} (t : NetworkTrainer α) (net : Network α) :
    NetworkTrainer α :=
  { t with m_pNetwork := net }

/-! ## Invariant of the trainer, well-sized entries, budget faults -/

/-- Class invariant of `NetworkTrainer` for a network of dimensions `n`, `h`, `m`: the
network satisfies its own invariant with both bias slots at `-1`, and the buffers have
the sizes given by the constructor. -/
structure NetworkTrainer.ShapedAs {α : Type} [LinearOrderedField α] (t : NetworkTrainer α)
    (n h m : Nat) : Prop where
  numInputs : t.m_pNetwork.m_numInputs = n
  numHidden : t.m_pNetwork.m_numHidden = h
  numOutputs : t.m_pNetwork.m_numOutputs = m
  network : t.m_pNetwork.Shaped
  bias : t.m_pNetwork.BiasSet
  deltaInputHidden : t.m_deltaInputHidden.length = (n + 1) * (h + 1)
  deltaHiddenOutput : t.m_deltaHiddenOutput.length = (h + 1) * m
  errorGradientsHidden : t.m_errorGradientsHidden.length = h + 1
  errorGradientsOutput : t.m_errorGradientsOutput.length = m

/-- A training entry whose vectors have the sizes the network expects. -/
def TrainingEntry.Fits {α : Type} (e : TrainingEntry α) (n m : Nat) : Prop :=
  e.m_inputs.length = n ∧ e.m_expectedOutputs.length = m


/-- The execution does not stop for lack of loop budget. -/
def NoFuelFault {σ : Type} (x : Exec σ) : Prop := x ≠ Except.error Fault.outOfFuel

/-- Training data all of whose entries have the sizes the network expects. -/
def TrainingData.Fits {α : Type} (data : TrainingData α) (n m : Nat) : Prop :=
  (∀ e, e ∈ data.m_trainingSet → e.Fits n m) ∧
  (∀ e, e ∈ data.m_generalizationSet → e.Fits n m) ∧
  (∀ e, e ∈ data.m_validationSet → e.Fits n m)

/-! ## Concrete networks used to instantiate the theorems -/

/-- A small concrete network of shape 1-1-1 over the rationals. -/
def sampleNet : Network ℚ where
  m_numInputs := 1
  m_numHidden := 1
  m_numOutputs := 1
  m_inputNeurons := [0, -1]
  m_hiddenNeurons := [0, -1]
  m_outputNeurons := [0]
  m_clampedOutputs := [0]
  m_weightsInputHidden := [1, 0, 0, 0]
  m_weightsHiddenOutput := [2, 0]

/-- The network `sampleNet` over the reals. -/
def sampleNetReal : Network ℝ where
  m_numInputs := 1
  m_numHidden := 1
  m_numOutputs := 1
  m_inputNeurons := [0, -1]
  m_hiddenNeurons := [0, -1]
  m_outputNeurons := [0]
  m_clampedOutputs := [0]
  m_weightsInputHidden := [1, 0, 0, 0]
  m_weightsHiddenOutput := [2, 0]


/-- A stochastic trainer for `sampleNet`: learning rate `1/2`, no momentum, at most one
epoch, desired accuracy `90`. -/
def sampleTrainer : NetworkTrainer ℚ :=
  NetworkTrainer.create ⟨1 / 2, 0, false, 1, 90⟩ sampleNet

/-- The same trainer asked for the desired accuracy `0`. -/
def lazyTrainer : NetworkTrainer ℚ :=
  NetworkTrainer.create ⟨1 / 2, 0, false, 1, 0⟩ sampleNet

/-- Training data with one training entry and empty generalization and validation
sets. -/
def sampleData : TrainingData ℚ where
  m_trainingSet := [⟨[0], [0]⟩]
  m_generalizationSet := []
  m_validationSet := []

/-- Training data whose three sets hold the one entry with input `[0]` and target `[0]`. -/
def fullData : TrainingData ℚ where
  m_trainingSet := [⟨[0], [0]⟩]
  m_generalizationSet := [⟨[0], [0]⟩]
  m_validationSet := [⟨[0], [0]⟩]

/-- Training data whose three sets are empty. -/
def emptyData (α : Type) : TrainingData α where
  m_trainingSet := []
  m_generalizationSet := []
  m_validationSet := []

section TallyDef
variable {α : Type} [LinearOrderedField α]

/-- The number of entries of a training set that `RunEpoch` tallies as incorrect when
its entry loop starts with the trainer `t` and the accumulator `MSE`: the entries for
which the loop over the output units leaves `resultCorrect` false, every entry being
processed in the state its predecessors left behind. -/
def RunEpochIncorrect (exp : α → α) :
    List (TrainingEntry α) → NetworkTrainer α → α → Nat
  | [], _, _ => 0
  | e :: es, t, MSE =>
    match RunEpochEntry exp e t MSE with
    | Except.ok r => (if r.2.1 then 0 else 1) + RunEpochIncorrect exp es r.1 r.2.2
    | Except.error _ => 0

end TallyDef

/-- The relation "`net'` agrees with `net` on the dimensions, the three activation
vectors and the clamped outputs" (the two weight arrays may differ). -/
structure Network.ActivationFrame {α : Type} (net net' : Network α) : Prop where
  numInputs : net'.m_numInputs = net.m_numInputs
  numHidden : net'.m_numHidden = net.m_numHidden
  numOutputs : net'.m_numOutputs = net.m_numOutputs
  inputNeurons : net'.m_inputNeurons = net.m_inputNeurons
  hiddenNeurons : net'.m_hiddenNeurons = net.m_hiddenNeurons
  outputNeurons : net'.m_outputNeurons = net.m_outputNeurons
  clampedOutputs : net'.m_clampedOutputs = net.m_clampedOutputs

section SquaredErrorDef
variable {α : Type} [LinearOrderedField α]

/-- The sum, over the entries of a training set and the output units, of the squared
differences between the output activation produced by the `Evaluate` call made for
the entry and the expected output, when the entry loop of `RunEpoch` starts with the
trainer `t`; every entry is evaluated in the state its predecessors left behind. -/
def RunEpochSquaredError (exp : α → α) : List (TrainingEntry α) → NetworkTrainer α → α
  | [], _ => 0
  | e :: es, t =>
    match Evaluate exp t.m_pNetwork e.m_inputs with
    | Except.ok net =>
      match Backpropagate { t with m_pNetwork := net } e.m_expectedOutputs with
      | Except.ok u =>
        (∑ k in Finset.range net.m_numOutputs,
          (net.m_outputNeurons.getD k 0 - ((e.m_expectedOutputs.getD k 0 : Int) : α)) ^ 2)
        + RunEpochSquaredError exp es u
      | Except.error _ => 0
    | Except.error _ => 0

end SquaredErrorDef

/-- A batch-mode trainer for `sampleNet`: learning rate `1/2`, no momentum, at most one
epoch, desired accuracy `90`. -/
def batchTrainer : NetworkTrainer ℚ :=
  NetworkTrainer.create ⟨1 / 2, 0, true, 1, 90⟩ sampleNet

/-- The network of shape 1-1-1 with input->hidden weights `0` and hidden->output
weights `2` (hidden unit) and `1` (bias), as `Network::Network( Settings )` leaves it
when the generator draws `0, 0, 2, 1`. -/
def slipNet (α : Type) [LinearOrderedField α] : Network α where
  m_numInputs := 1
  m_numHidden := 1
  m_numOutputs := 1
  m_inputNeurons := [0, -1]
  m_hiddenNeurons := [0, -1]
  m_outputNeurons := [0]
  m_clampedOutputs := [0]
  m_weightsInputHidden := [0, 0, 0, 0]
  m_weightsHiddenOutput := [2, 1]

/-- A fresh trainer for `slipNet` with learning rate `1` and momentum `0`. -/
def slipTrainer (α : Type) [LinearOrderedField α] (batch : Bool) : NetworkTrainer α :=
  NetworkTrainer.create ⟨1, 0, batch, 1, 90⟩ (slipNet α)

/-- A fresh stochastic trainer for `slipNet` with learning rate `1`, momentum `0`, at
most `3` epochs and desired accuracy `90`. -/
def idleTrainer (α : Type) [LinearOrderedField α] : NetworkTrainer α :=
  NetworkTrainer.create ⟨1, 0, false, 3, 90⟩ (slipNet α)

/-- The one-entry training set with input `[1]` and target `[1]`. -/
def slipSet (α : Type) [LinearOrderedField α] : TrainingSet α := [⟨[1], [1]⟩]

/-- The network `slipNet` after `Evaluate` on the input `[1]`. -/
def slipEvaluated (α : Type) [LinearOrderedField α] : Network α :=
  { slipNet α with
    m_inputNeurons := [1, -1]
    m_hiddenNeurons := [1 / 2, -1]
    m_outputNeurons := [1 / 2]
    m_clampedOutputs := [-1] }

/-- The trainer state that the two loop nests of `Backpropagate` leave behind when
`slipTrainer` has evaluated the input `[1]` and back-propagates the target `[1]`: in
stochastic mode the state on which `Backpropagate` then calls `UpdateWeights`, in batch
mode the state on which `RunEpoch` calls it after its entry loop. -/
def slipUpdateState (α : Type) [LinearOrderedField α] (batch : Bool) : NetworkTrainer α :=
  { slipTrainer α batch with
    m_pNetwork := slipEvaluated α
    m_deltaInputHidden := if batch then [1 / 16, -5 / 16, 1 / 4, 0] else [1 / 16, -1 / 4, 1 / 4, 0]
    m_deltaHiddenOutput := [1 / 16, -1 / 8]
    m_errorGradientsHidden := [1 / 16, -1 / 4]
    m_errorGradientsOutput := [1 / 8] }

/-- The trainer state that `UpdateWeights` leaves behind when called on
`slipUpdateState`. -/
def slipUpdated (α : Type) [LinearOrderedField α] (batch : Bool) : NetworkTrainer α :=
  { slipUpdateState α batch with
    m_pNetwork := { slipEvaluated α with
      m_weightsInputHidden :=
        if batch then [1 / 16, -5 / 16, 1 / 4, 0] else [1 / 16, -1 / 2, 1 / 4, 0]
      m_weightsHiddenOutput := [33 / 16, 7 / 8] }
    m_deltaInputHidden := if batch then [0, 0, 0, 0] else [1 / 16, -1 / 4, 1 / 4, 0] }

section XorDef

/-- A weight list for the shape `(2, 2, 1)`: input->hidden weights `[0, -10, 0, 0]`
followed by hidden->output weights `[40, -60]`. -/
def xorWeights (α : Type) [LinearOrderedField α] : List α := [0, -10, 0, 0, 40, -60]

/-- The network the weight-loading constructor builds from `xorWeights`. -/
def xorNet (α : Type) [LinearOrderedField α] : Network α where
  m_numInputs := 2
  m_numHidden := 2
  m_numOutputs := 1
  m_inputNeurons := [0, 0, -1]
  m_hiddenNeurons := [0, 0, -1]
  m_outputNeurons := [0]
  m_clampedOutputs := [0]
  m_weightsInputHidden := [0, -10, 0, 0, 0, 0, 0, 0, 0]
  m_weightsHiddenOutput := [40, -60, 0]

end XorDef

section DeltaDef
variable {α : Type} [LinearOrderedField α]

/-- The value one visit of a `Backpropagate` loop writes into a delta slot holding `d`,
for the activation `x` at the source of the weight and the error gradient `g` at its
target: `d + learningRate*x*g` in batch mode,
`learningRate*x*g + momentum*d` in stochastic mode. -/
def Reference.delta (t : NetworkTrainer α) (d x g : α) : α :=
  if t.m_useBatchLearning then d + t.m_learningRate * x * g
  else t.m_learningRate * x * g + t.m_momentum * d

/-- The activation the second loop nest of `Evaluate` computes for output unit `k` of a
network with `h` hidden units and `m` outputs, from the hidden activations `hid` (bias
slot included) and the hidden->output weights `w`:
`sigma (sum_{j<=h} hid_j * w[j*m+k])`. -/
def Reference.outputLayer (exp : α → α) (hid w : List α) (h m k : Nat) : α :=
  1 / (1 + exp (-(∑ j in Finset.range (h + 1), hid.getD j 0 * w.getD (j * m + k) 0)))

end DeltaDef

section AscentDef

/-- A fresh stochastic trainer for `slipNet` with learning rate `-1` and momentum `0`. -/
def ascentTrainer (α : Type) [LinearOrderedField α] : NetworkTrainer α :=
  NetworkTrainer.create ⟨-1, 0, false, 1, 90⟩ (slipNet α)

/-- The network `slipNet` after `Evaluate` on the input `[0]`. -/
def ascentEvaluated (α : Type) [LinearOrderedField α] : Network α :=
  { slipNet α with
    m_inputNeurons := [0, -1]
    m_hiddenNeurons := [1 / 2, -1]
    m_outputNeurons := [1 / 2]
    m_clampedOutputs := [-1] }

/-- The state `Backpropagate` leaves behind when `ascentTrainer` has evaluated the input
`[0]` and back-propagates the target `[1]`. -/
def ascentUpdated (α : Type) [LinearOrderedField α] : NetworkTrainer α :=
  { ascentTrainer α with
    m_pNetwork := { ascentEvaluated α with
      m_weightsInputHidden := [0, 0, -1 / 4, 0]
      m_weightsHiddenOutput := [31 / 16, 9 / 8] }
    m_deltaInputHidden := [0, 0, -1 / 4, 0]
    m_deltaHiddenOutput := [-1 / 16, 1 / 8]
    m_errorGradientsHidden := [1 / 16, -1 / 4]
    m_errorGradientsOutput := [1 / 8] }

/-- The network of shape 1-1-1 with input->hidden weights `0` and hidden->output
weights `8` (hidden unit) and `4` (bias). -/
def steepNet (α : Type) [LinearOrderedField α] : Network α where
  m_numInputs := 1
  m_numHidden := 1
  m_numOutputs := 1
  m_inputNeurons := [0, -1]
  m_hiddenNeurons := [0, -1]
  m_outputNeurons := [0]
  m_clampedOutputs := [0]
  m_weightsInputHidden := [0, 0, 0, 0]
  m_weightsHiddenOutput := [8, 4]

/-- A fresh stochastic trainer for `steepNet` with learning rate `1` and momentum `0`. -/
def steepTrainer (α : Type) [LinearOrderedField α] : NetworkTrainer α :=
  NetworkTrainer.create ⟨1, 0, false, 1, 90⟩ (steepNet α)

/-- The network `steepNet` after `Evaluate` on the input `[-4]`. -/
def steepEvaluated (α : Type) [LinearOrderedField α] : Network α :=
  { steepNet α with
    m_inputNeurons := [-4, -1]
    m_hiddenNeurons := [1 / 2, -1]
    m_outputNeurons := [1 / 2]
    m_clampedOutputs := [-1] }

/-- The state `Backpropagate` leaves behind when `steepTrainer` has evaluated the input
`[-4]` and back-propagates the target `[1]`. -/
def steepUpdated (α : Type) [LinearOrderedField α] : NetworkTrainer α :=
  { steepTrainer α with
    m_pNetwork := { steepEvaluated α with
      m_weightsInputHidden := [-1, 8, 1, 0]
      m_weightsHiddenOutput := [129 / 16, 31 / 8] }
    m_deltaInputHidden := [-1, 4, 1, 0]
    m_deltaHiddenOutput := [1 / 16, -1 / 8]
    m_errorGradientsHidden := [1 / 4, -1]
    m_errorGradientsOutput := [1 / 8] }

end AscentDef

section SizesDef

/-- The relation "`t'` has both weight arrays and both delta buffers of the same lengths
as `t`". -/
def NetworkTrainer.SameSizes {α : Type} (t t' : NetworkTrainer α) : Prop :=
  t'.m_pNetwork.m_weightsInputHidden.length = t.m_pNetwork.m_weightsInputHidden.length ∧
  t'.m_pNetwork.m_weightsHiddenOutput.length = t.m_pNetwork.m_weightsHiddenOutput.length ∧
  t'.m_deltaInputHidden.length = t.m_deltaInputHidden.length ∧
  t'.m_deltaHiddenOutput.length = t.m_deltaHiddenOutput.length

/-- Each delta buffer has the length of the weight array it corresponds to. -/
def NetworkTrainer.DeltaSized {α : Type} (t : NetworkTrainer α) : Prop :=
  t.m_deltaInputHidden.length = t.m_pNetwork.m_weightsInputHidden.length ∧
  t.m_deltaHiddenOutput.length = t.m_pNetwork.m_weightsHiddenOutput.length

end SizesDef

section WideDef

/-- The network `Network::Network( Settings, weights )` builds for the shape
`(1, 1, 3)` from the weight list `[0, 0, 0, 0]`. -/
def wideNet (α : Type) [LinearOrderedField α] : Network α where
  m_numInputs := 1
  m_numHidden := 1
  m_numOutputs := 3
  m_inputNeurons := [0, -1]
  m_hiddenNeurons := [0, -1]
  m_outputNeurons := [0, 0, 0]
  m_clampedOutputs := [0, 0, 0]
  m_weightsInputHidden := [0, 0, 0, 0]
  m_weightsHiddenOutput := [0, 0, 0, 0, 0, 0]

/-- A fresh batch-mode trainer for `wideNet`. -/
def wideTrainer (α : Type) [LinearOrderedField α] : NetworkTrainer α :=
  NetworkTrainer.create ⟨1, 0, true, 1, 90⟩ (wideNet α)

end WideDef

section ReaderDef

/-- The loop `for ( ; i < hi; i++ ) body(i)` entered with `i = lo`: runs `body lo`, ...,
`body (hi-1)` in this order (no iteration when `hi <= lo`). -/
def forRange {σ : Type} (lo hi : Nat) (body : Nat → σ → Exec σ) (s : σ) : Exec σ :=
  forLoop (hi - lo) (fun k s => body (lo + k) s) s

/-- The data members of `class TrainingDataReader`. -/
structure TrainingDataReader (α : Type) where
  m_filename : String
  m_numInputs : Nat
  m_numOutputs : Nat
  m_entries : List (TrainingEntry α)
  m_data : TrainingData α

/-- The function `TrainingDataReader::CreateTrainingData`.  `std::random_shuffle` is
external: `shuffle` is the rearrangement it makes.  The products `0.6 * numEntries` and
`0.2 * numEntries` are taken in exact rational arithmetic; the conversion to
`int32_t` of a non-negative value is the floor.  `entryIdx` after each loop is the
bound of that loop, the bounds being increasing. -/
def CreateTrainingData {α : Type}
    (shuffle : List (TrainingEntry α) → List (TrainingEntry α))
    (r : TrainingDataReader α) : Exec (TrainingDataReader α) := do
  check (r.m_entries.length ≠ 0)
  let entries := shuffle r.m_entries
  let numEntries := entries.length
  let numTrainingEntries := ⌊(0.6 : ℚ) * (numEntries : ℚ)⌋₊
  let numGeneralizationEntries := ⌈(0.2 : ℚ) * (numEntries : ℚ)⌉₊
  let trainingSet ← forRange 0 numTrainingEntries (fun entryIdx set => do
    let e ← rd entries entryIdx
    pure (set ++ [e])) r.m_data.m_trainingSet
  let generalizationSet ← forRange numTrainingEntries
    (numTrainingEntries + numGeneralizationEntries) (fun entryIdx set => do
      let e ← rd entries entryIdx
      pure (set ++ [e])) r.m_data.m_generalizationSet
  let validationSet ← forRange (numTrainingEntries + numGeneralizationEntries) numEntries
    (fun entryIdx set => do
      let e ← rd entries entryIdx
      pure (set ++ [e])) r.m_data.m_validationSet
  pure { r with
    m_entries := entries
    m_data := { m_trainingSet := trainingSet
                m_generalizationSet := generalizationSet
                m_validationSet := validationSet } }

end ReaderDef

/-! ## The 2008 network and trainer (`Neural Network/neuralNetwork.cpp`,
`Neural Network/neuralNetworkTrainer.{h,cpp}`, `Neural Network/dataReader.h`)

The arrays `double*` and `double**` are lists and lists of rows, every element access
is bounds checked; `int` and `long` counters that only count up from `0` are natural
numbers, `epoch`, `maxEpochs` and the log counters are integers.  Console and file
output is left out; `logFile.is_open()` is the member `logFileOpen`. -/

namespace Legacy

section LegacyNetworkDef

/-- Read `xs[i][j]`. -/
def rd2 {β : Type} (xs : List (List β)) (i j : Nat) : Exec β := do
  let row ← rd xs i
  rd row j

/-- Write `xs[i][j] = v`. -/
def wr2 {β : Type} (xs : List (List β)) (i j : Nat) (v : β) : Exec (List (List β)) := do
  let row ← rd xs i
  let row ← wr row j v
  wr xs i row

/-- The data members of `class neuralNetwork`, as `neuralNetwork.cpp` uses them (its
header is not part of the source tree). -/
structure neuralNetwork (α : Type) where
  nInput : Nat
  nHidden : Nat
  nOutput : Nat
  inputNeurons : List α
  hiddenNeurons : List α
  outputNeurons : List α
  wInputHidden : List (List α)
  wHiddenOutput : List (List α)

/-- The class `dataEntry`. -/
structure dataEntry (α : Type) where
  pattern : List α
  target : List α

/-- The class `trainingDataSet`. -/
structure trainingDataSet (α : Type) where
  trainingSet : List (dataEntry α)
  generalizationSet : List (dataEntry α)
  validationSet : List (dataEntry α)

/-- The array `xs` has `r` rows of `c` entries each. -/
def Rect {β : Type} (xs : List (List β)) (r c : Nat) : Prop :=
  xs.length = r ∧ ∀ row ∈ xs, row.length = c

/-- The sizes the constructor `neuralNetwork::neuralNetwork` allocates, which no
member function changes: `nInput + 1`, `nHidden + 1` and `nOutput` neurons,
`wInputHidden[nInput + 1][nHidden]`, `wHiddenOutput[nHidden + 1][nOutput]`. -/
def neuralNetwork.Shaped {α : Type} (nn : neuralNetwork α) : Prop :=
  nn.inputNeurons.length = nn.nInput + 1 ∧
  nn.hiddenNeurons.length = nn.nHidden + 1 ∧
  nn.outputNeurons.length = nn.nOutput ∧
  Rect nn.wInputHidden (nn.nInput + 1) nn.nHidden ∧
  Rect nn.wHiddenOutput (nn.nHidden + 1) nn.nOutput

variable {α : Type} [LinearOrderedField α]

/-- The function `neuralNetwork::activationFunction`. -/
def activationFunction (exp : α → α) (x : α) : α :=
  1 / (1 + exp (-x))

/-- The function `neuralNetwork::clampOutput`. -/
def clampOutput (x : α) : Int :=
  if x < 0.1 then 0
  else if x > 0.9 then 1
  else -1

/-- The function `neuralNetwork::feedForward`. -/
def feedForward (exp : α → α) (nn : neuralNetwork α) (pattern : List α) :
    Exec (neuralNetwork α) := do
  let inputNeurons ← forLoop nn.nInput (fun i inp => do
    let p ← rd pattern i
    wr inp i p) nn.inputNeurons
  let hiddenNeurons ← forLoop nn.nHidden (fun j hid => do
    let hid ← wr hid j 0
    let hid ← forLoop (nn.nInput + 1) (fun i hid => do
      let acc ← rd hid j
      let x ← rd inputNeurons i
      let w ← rd2 nn.wInputHidden i j
      wr hid j (acc + x * w)) hid
    let acc ← rd hid j
    wr hid j (activationFunction exp acc)) nn.hiddenNeurons
  let outputNeurons ← forLoop nn.nOutput (fun k out => do
    let out ← wr out k 0
    let out ← forLoop (nn.nHidden + 1) (fun j out => do
      let acc ← rd out k
      let x ← rd hiddenNeurons j
      let w ← rd2 nn.wHiddenOutput j k
      wr out k (acc + x * w)) out
    let acc ← rd out k
    wr out k (activationFunction exp acc)) nn.outputNeurons
  pure { nn with
    inputNeurons := inputNeurons
    hiddenNeurons := hiddenNeurons
    outputNeurons := outputNeurons }

/-- The function `neuralNetwork::getSetAccuracy`; the result is the network (whose
activations the forward passes overwrite) with the returned value. -/
def getSetAccuracy (exp : α → α) (nn : neuralNetwork α) (set : List (dataEntry α)) :
    Exec (neuralNetwork α × Stat α) := do
  let s ← forLoop set.length (fun tp (s : neuralNetwork α × α) => do
    let entry ← rd set tp
    let nn ← feedForward exp s.1 entry.pattern
    let correctResult ← forLoop nn.nOutput (fun k (correctResult : Bool) => do
      let y ← rd nn.outputNeurons k
      let t ← rd entry.target k
      pure (if ((clampOutput y : Int) : α) ≠ t then false else correctResult)) true
    if !correctResult then
      pure (nn, s.2 + 1)
    else
      pure (nn, s.2)) (nn, 0)
  pure (s.1, (Stat.quot s.2 set.length).percent)

/-- The function `neuralNetwork::getSetMSE`; the result is the network with the
returned value. -/
def getSetMSE (exp : α → α) (nn : neuralNetwork α) (set : List (dataEntry α)) :
    Exec (neuralNetwork α × Stat α) := do
  let s ← forLoop set.length (fun tp (s : neuralNetwork α × α) => do
    let entry ← rd set tp
    let nn ← feedForward exp s.1 entry.pattern
    let mse ← forLoop nn.nOutput (fun k (mse : α) => do
      let y ← rd nn.outputNeurons k
      let t ← rd entry.target k
      pure (mse + (y - t) ^ 2)) s.2
    pure (nn, mse)) (nn, 0)
  pure (s.1, Stat.quot s.2 (s.1.nOutput * set.length))

/-- The part of `neuralNetwork::saveWeights` that runs when the file could be opened:
the values it writes, in the order in which it writes them (the text format and the
separating commas are left out). -/
def saveWeights (nn : neuralNetwork α) : Exec (List α) := do
  let out ← forLoop (nn.nInput + 1) (fun i out =>
    forLoop nn.nHidden (fun j (out : List α) => do
      let w ← rd2 nn.wInputHidden i j
      pure (out ++ [w])) out) []
  forLoop (nn.nHidden + 1) (fun i out =>
    forLoop nn.nOutput (fun j (out : List α) => do
      let w ← rd2 nn.wHiddenOutput i j
      pure (out ++ [w])) out) out

/-- The part of `neuralNetwork::loadWeights` that runs when the file could be opened,
on the vector `weights` of the values parsed from it.  The result is the network with
the returned flag. -/
def loadWeights (nn : neuralNetwork α) (weights : List α) :
    Exec (neuralNetwork α × Bool) := do
  if weights.length ≠ (nn.nInput + 1) * nn.nHidden + (nn.nHidden + 1) * nn.nOutput then
    pure (nn, false)
  else
    let s ← forLoop (nn.nInput + 1) (fun i s =>
      forLoop nn.nHidden (fun j (s : List (List α) × Nat) => do
        let v ← rd weights s.2
        let w ← wr2 s.1 i j v
        pure (w, s.2 + 1)) s) (nn.wInputHidden, 0)
    let r ← forLoop (nn.nHidden + 1) (fun i r =>
      forLoop nn.nOutput (fun j (r : List (List α) × Nat) => do
        let v ← rd weights r.2
        let w ← wr2 r.1 i j v
        pure (w, r.2 + 1)) r) (nn.wHiddenOutput, s.2)
    pure ({ nn with wInputHidden := s.1, wHiddenOutput := r.1 }, true)

end LegacyNetworkDef

section LegacyTrainerDef

/-- The data members of `class neuralNetworkTrainer`; `NN` holds the state of the
network the pointer refers to, `logFileOpen` tells whether `logFile` is open. -/
structure neuralNetworkTrainer (α : Type) where
  NN : neuralNetwork α
  learningRate : α
  momentum : α
  epoch : Int
  maxEpochs : Int
  desiredAccuracy : α
  deltaInputHidden : List (List α)
  deltaHiddenOutput : List (List α)
  hiddenErrorGradients : List α
  outputErrorGradients : List α
  trainingSetAccuracy : Stat α
  validationSetAccuracy : Stat α
  generalizationSetAccuracy : Stat α
  trainingSetMSE : Stat α
  validationSetMSE : Stat α
  generalizationSetMSE : Stat α
  useBatch : Bool
  loggingEnabled : Bool
  logFileOpen : Bool
  logResolution : Int
  lastEpochLogged : Int

variable {α : Type} [LinearOrderedField α]

/-- The constructor `neuralNetworkTrainer::neuralNetworkTrainer` with the defaults of
`neuralNetworkTrainer.h` (`LEARNING_RATE 0.001`, `MOMENTUM 0.9`, `MAX_EPOCHS 1500`,
`DESIRED_ACCURACY 90`).  The constructor does not initialise `loggingEnabled`,
`logResolution` and `lastEpochLogged`: their values are parameters. -/
def neuralNetworkTrainer.create (nn : neuralNetwork α) (loggingEnabled : Bool)
    (logResolution lastEpochLogged : Int) : neuralNetworkTrainer α where
  NN := nn
  epoch := 0
  learningRate := 0.001
  momentum := 0.9
  maxEpochs := 1500
  desiredAccuracy := 90
  useBatch := false
  trainingSetAccuracy := Stat.real 0
  validationSetAccuracy := Stat.real 0
  generalizationSetAccuracy := Stat.real 0
  trainingSetMSE := Stat.real 0
  validationSetMSE := Stat.real 0
  generalizationSetMSE := Stat.real 0
  deltaInputHidden := List.replicate (nn.nInput + 1) (List.replicate nn.nHidden 0)
  deltaHiddenOutput := List.replicate (nn.nHidden + 1) (List.replicate nn.nOutput 0)
  hiddenErrorGradients := List.replicate (nn.nHidden + 1) 0
  outputErrorGradients := List.replicate (nn.nOutput + 1) 0
  loggingEnabled := loggingEnabled
  logFileOpen := false
  logResolution := logResolution
  lastEpochLogged := lastEpochLogged

/-- The function `neuralNetworkTrainer::setTrainingParameters`. -/
def setTrainingParameters (t : neuralNetworkTrainer α) (lR m : α) (batch : Bool) :
    neuralNetworkTrainer α :=
  { t with learningRate := lR, momentum := m, useBatch := batch }

/-- The function `neuralNetworkTrainer::setStoppingConditions`. -/
def setStoppingConditions (t : neuralNetworkTrainer α) (mEpochs : Int) (dAccuracy : α) :
    neuralNetworkTrainer α :=
  { t with maxEpochs := mEpochs, desiredAccuracy := dAccuracy }

/-- The function `neuralNetworkTrainer::enableLogging`; `opens` tells whether
`logFile.open` succeeds. -/
def enableLogging (t : neuralNetworkTrainer α) (opens : Bool) (resolution : Int) :
    neuralNetworkTrainer α :=
  if !t.logFileOpen then
    if opens then
      { t with
        logFileOpen := true
        loggingEnabled := true
        logResolution := resolution
        lastEpochLogged := -resolution }
    else t
  else t

/-- The function `neuralNetworkTrainer::getOutputErrorGradient`. -/
def getOutputErrorGradient (desiredValue outputValue : α) : α :=
  outputValue * (1 - outputValue) * (desiredValue - outputValue)

/-- The function `neuralNetworkTrainer::getHiddenErrorGradient`. -/
def getHiddenErrorGradient (t : neuralNetworkTrainer α) (j : Nat) : Exec α := do
  let weightedSum ← forLoop t.NN.nOutput (fun k (weightedSum : α) => do
    let w ← rd2 t.NN.wHiddenOutput j k
    let g ← rd t.outputErrorGradients k
    pure (weightedSum + w * g)) 0
  let hn ← rd t.NN.hiddenNeurons j
  pure (hn * (1 - hn) * weightedSum)

/-- The function `neuralNetworkTrainer::updateWeights`. -/
def updateWeights (t : neuralNetworkTrainer α) : Exec (neuralNetworkTrainer α) := do
  let s ← forLoop (t.NN.nInput + 1) (fun i s =>
    forLoop t.NN.nHidden (fun j (s : List (List α) × List (List α)) => do
      let w ← rd2 s.1 i j
      let d ← rd2 s.2 i j
      let wIH ← wr2 s.1 i j (w + d)
      if t.useBatch then
        let dIH ← wr2 s.2 i j 0
        pure (wIH, dIH)
      else
        pure (wIH, s.2)) s) (t.NN.wInputHidden, t.deltaInputHidden)
  let r ← forLoop (t.NN.nHidden + 1) (fun j r =>
    forLoop t.NN.nOutput (fun k (r : List (List α) × List (List α)) => do
      let w ← rd2 r.1 j k
      let d ← rd2 r.2 j k
      let wHO ← wr2 r.1 j k (w + d)
      if t.useBatch then
        let dHO ← wr2 r.2 j k 0
        pure (wHO, dHO)
      else
        pure (wHO, r.2)) r) (t.NN.wHiddenOutput, t.deltaHiddenOutput)
  pure { t with
    NN := { t.NN with wInputHidden := s.1, wHiddenOutput := r.1 }
    deltaInputHidden := s.2
    deltaHiddenOutput := r.2 }

/-- The function `neuralNetworkTrainer::backpropagate`.  The state of the first loop
nest is the pair (`outputErrorGradients`, `deltaHiddenOutput`), the state of the second
is the pair (`hiddenErrorGradients`, `deltaInputHidden`). -/
def backpropagate (t : neuralNetworkTrainer α) (desiredOutputs : List α) :
    Exec (neuralNetworkTrainer α) := do
  let s ← forLoop t.NN.nOutput (fun k (s : List α × List (List α)) => do
    let e ← rd desiredOutputs k
    let y ← rd t.NN.outputNeurons k
    let gO ← wr s.1 k (getOutputErrorGradient e y)
    let dHO ← forLoop (t.NN.nHidden + 1) (fun j (dHO : List (List α)) => do
      let hn ← rd t.NN.hiddenNeurons j
      let g ← rd gO k
      let d ← rd2 dHO j k
      if !t.useBatch then
        wr2 dHO j k (t.learningRate * hn * g + t.momentum * d)
      else
        wr2 dHO j k (d + t.learningRate * hn * g)) s.2
    pure (gO, dHO)) (t.outputErrorGradients, t.deltaHiddenOutput)
  let t := { t with outputErrorGradients := s.1, deltaHiddenOutput := s.2 }
  let r ← forLoop t.NN.nHidden (fun j (r : List α × List (List α)) => do
    let gh ← getHiddenErrorGradient t j
    let gH ← wr r.1 j gh
    let dIH ← forLoop (t.NN.nInput + 1) (fun i (dIH : List (List α)) => do
      let x ← rd t.NN.inputNeurons i
      let g ← rd gH j
      let d ← rd2 dIH i j
      if !t.useBatch then
        wr2 dIH i j (t.learningRate * x * g + t.momentum * d)
      else
        wr2 dIH i j (d + t.learningRate * x * g)) r.2
    pure (gH, dIH)) (t.hiddenErrorGradients, t.deltaInputHidden)
  let t := { t with hiddenErrorGradients := r.1, deltaInputHidden := r.2 }
  if !t.useBatch then updateWeights t else pure t

/-- The function `neuralNetworkTrainer::runTrainingEpoch`.  The state of its loop is
the triple (trainer, `incorrectPatterns`, `mse`). -/
def runTrainingEpoch (exp : α → α) (t : neuralNetworkTrainer α)
    (trainingSet : List (dataEntry α)) : Exec (neuralNetworkTrainer α) := do
  let s ← forLoop trainingSet.length (fun tp (s : neuralNetworkTrainer α × α × α) => do
    let entry ← rd trainingSet tp
    let nn ← feedForward exp s.1.NN entry.pattern
    let t ← backpropagate { s.1 with NN := nn } entry.target
    let c ← forLoop t.NN.nOutput (fun k (c : Bool × α) => do
      let y ← rd t.NN.outputNeurons k
      let d ← rd entry.target k
      let patternCorrect := if ((clampOutput y : Int) : α) ≠ d then false else c.1
      pure (patternCorrect, c.2 + (y - d) ^ 2)) (true, s.2.2)
    if !c.1 then
      pure (t, s.2.1 + 1, c.2)
    else
      pure (t, s.2.1, c.2)) (t, 0, 0)
  let incorrectPatterns := s.2.1
  let mse := s.2.2
  let t ← (if s.1.useBatch then updateWeights s.1 else pure s.1)
  pure { t with
    trainingSetAccuracy := (Stat.quot incorrectPatterns trainingSet.length).percent
    trainingSetMSE := Stat.quot mse (t.NN.nOutput * trainingSet.length) }

/-- The condition of the `while` loop of `neuralNetworkTrainer::trainNetwork`. -/
def trainCondition (t : neuralNetworkTrainer α) : Bool :=
  (t.trainingSetAccuracy.lt t.desiredAccuracy ||
    t.generalizationSetAccuracy.lt t.desiredAccuracy) &&
    decide (t.epoch < t.maxEpochs)

/-- The body of the `while` loop of `neuralNetworkTrainer::trainNetwork`. -/
def trainBody (exp : α → α) (tSet : trainingDataSet α) (t : neuralNetworkTrainer α) :
    Exec (neuralNetworkTrainer α) := do
  let t ← runTrainingEpoch exp t tSet.trainingSet
  let a ← getSetAccuracy exp t.NN tSet.generalizationSet
  let t := { t with NN := a.1, generalizationSetAccuracy := a.2 }
  let m ← getSetMSE exp t.NN tSet.generalizationSet
  let t := { t with NN := m.1, generalizationSetMSE := m.2 }
  let t :=
    if t.loggingEnabled && t.logFileOpen && decide (t.epoch - t.lastEpochLogged = t.logResolution)
    then { t with lastEpochLogged := t.epoch }
    else t
  pure { t with epoch := t.epoch + 1 }

/-- The function `neuralNetworkTrainer::trainNetwork`; `fuel` is the iteration budget
of its `while` loop. -/
def trainNetwork (exp : α → α) (fuel : Nat) (t : neuralNetworkTrainer α)
    (tSet : trainingDataSet α) : Exec (neuralNetworkTrainer α) := do
  let t := { t with epoch := 0, lastEpochLogged := -t.logResolution }
  let t ← whileLoop fuel trainCondition (trainBody exp tSet) t
  let a ← getSetAccuracy exp t.NN tSet.validationSet
  let t := { t with NN := a.1, validationSetAccuracy := a.2 }
  let m ← getSetMSE exp t.NN tSet.validationSet
  pure { t with NN := m.1, validationSetMSE := m.2 }

end LegacyTrainerDef

section LegacyScenarioDef

/-- The 2008 network with the shape and the logical weights of `BPN.slipNet`: one
input, one hidden unit, one output, input->hidden weights `0`, hidden->output weights
`2` (hidden unit) and `1` (bias). -/
def slipNet (α : Type) [LinearOrderedField α] : neuralNetwork α where
  nInput := 1
  nHidden := 1
  nOutput := 1
  inputNeurons := [0, -1]
  hiddenNeurons := [0, -1]
  outputNeurons := [0]
  wInputHidden := [[0], [0]]
  wHiddenOutput := [[2], [1]]

/-- A 2008 network with one input, one hidden unit and one output: activations `x`, `h`,
`o`, input->hidden weights `a` (input) and `b` (bias), hidden->output weights `w`
(hidden unit) and `v` (bias). -/
def unitNet {α : Type} [LinearOrderedField α] (x h o a b w v : α) : neuralNetwork α where
  nInput := 1
  nHidden := 1
  nOutput := 1
  inputNeurons := [x, -1]
  hiddenNeurons := [h, -1]
  outputNeurons := [o]
  wInputHidden := [[a], [b]]
  wHiddenOutput := [[w], [v]]

/-- A fresh 2008 trainer for `slipNet`, logging off, set to stochastic learning with
learning rate `1` and momentum `0`. -/
def slipTrainer (α : Type) [LinearOrderedField α] : neuralNetworkTrainer α :=
  setTrainingParameters (neuralNetworkTrainer.create (slipNet α) false 1 (-1)) 1 0 false

/-- The network `slipNet` after `feedForward` on the pattern `[1]`. -/
def slipFed (α : Type) [LinearOrderedField α] : neuralNetwork α :=
  { slipNet α with
    inputNeurons := [1, -1]
    hiddenNeurons := [1 / 2, -1]
    outputNeurons := [1 / 2] }

/-- The state `backpropagate` leaves behind when `slipTrainer` has fed the pattern
`[1]` forward and back-propagates the target `[1]`. -/
def slipTrained (α : Type) [LinearOrderedField α] : neuralNetworkTrainer α :=
  { slipTrainer α with
    NN := { slipFed α with
      wInputHidden := [[1 / 16], [-1 / 16]]
      wHiddenOutput := [[33 / 16], [7 / 8]] }
    deltaInputHidden := [[1 / 16], [-1 / 16]]
    deltaHiddenOutput := [[1 / 16], [-1 / 8]]
    hiddenErrorGradients := [1 / 16, 0]
    outputErrorGradients := [1 / 8, 0] }

/-- A data set whose training, generalization and validation set each hold the one
entry with pattern `[1]` and target `[1]`. -/
def slipData (α : Type) [LinearOrderedField α] : trainingDataSet α where
  trainingSet := [⟨[1], [1]⟩]
  generalizationSet := [⟨[1], [1]⟩]
  validationSet := [⟨[1], [1]⟩]

/-- The trainer `slipTrainer` with the stopping conditions `maxEpochs = 1`,
`desiredAccuracy = 90`, holding the training and generalization accuracies `acc`. -/
def staleTrainer (α : Type) [LinearOrderedField α] (acc : α) : neuralNetworkTrainer α :=
  { setStoppingConditions (slipTrainer α) 1 90 with
    trainingSetAccuracy := Stat.real acc
    generalizationSetAccuracy := Stat.real acc }

end LegacyScenarioDef

end Legacy

/-! ## Basic facts about the execution monad and the loops -/

section Basics

variable {σ β : Type}

@[simp] theorem ok_bind (a : σ) (f : σ → Exec β) : (Except.ok a >>= f) = f a := rfl

@[simp] theorem error_bind (e : Fault) (f : σ → Exec β) :
    ((Except.error e : Exec σ) >>= f) = Except.error e := rfl

@[simp] theorem pure_eq_ok (a : σ) : (pure a : Exec σ) = Except.ok a := rfl

theorem Stat.quot_of_ne {α : Type} [LinearOrderedField α] (x : α) {n : Nat} (h : n ≠ 0) :
    Stat.quot x n = Stat.real (x / (n : α)) := by
  simp [Stat.quot, h]

theorem Stat.quot_zero_zero {α : Type} [LinearOrderedField α] :
    Stat.quot (0 : α) 0 = Stat.nan := by
  simp [Stat.quot]

theorem Stat.percent_real {α : Type} [LinearOrderedField α] (q : α) :
    (Stat.real q).percent = Stat.real (100 - q * 100) := rfl

theorem Stat.lt_real {α : Type} [LinearOrderedField α] (x d : α) :
    (Stat.real x).lt d = decide (x < d) := rfl

theorem bind_eq_ok {x : Exec σ} {f : σ → Exec β} {b : β} :
    (x >>= f) = Except.ok b ↔ ∃ a, x = Except.ok a ∧ f a = Except.ok b := by
  cases x with
  | error e => simp
  | ok a => simp

@[simp] theorem forLoop_zero (body : Nat → σ → Exec σ) (s : σ) :
    forLoop 0 body s = Except.ok s := rfl

theorem forLoop_succ (k : Nat) (body : Nat → σ → Exec σ) (s : σ) :
    forLoop (k + 1) body s = (forLoop k body s >>= body k) := rfl

@[simp] theorem forEach_nil (body : β → σ → Exec σ) (s : σ) :
    forEach [] body s = Except.ok s := rfl

theorem forEach_cons (e : β) (es : List β) (body : β → σ → Exec σ) (s : σ) :
    forEach (e :: es) body s = (body e s >>= forEach es body) := rfl

theorem check_ok {c : Prop} [Decidable c] (h : c) : check c = Except.ok () := by
  simp [check, h]

theorem check_error {c : Prop} [Decidable c] (h : ¬ c) :
    check c = Except.error Fault.assertion := by
  simp [check, h]

theorem rd_ok {xs : List β} {i : Nat} (h : i < xs.length) : rd xs i = Except.ok xs[i] := by
  simp [rd, List.getElem?_eq_getElem h]

theorem rd_getD {xs : List β} {i : Nat} (h : i < xs.length) (d : β) :
    rd xs i = Except.ok (xs.getD i d) := by
  simp [rd, List.getD_eq_getElem?_getD, List.getElem?_eq_getElem h]

theorem rd_error {xs : List β} {i : Nat} (h : xs.length ≤ i) :
    rd xs i = Except.error Fault.outOfBounds := by
  simp [rd, List.getElem?_eq_none h]

theorem rd_eq_ok_iff {xs : List β} {i : Nat} {v : β} :
    rd xs i = Except.ok v ↔ xs[i]? = some v := by
  unfold rd
  cases h : xs[i]? <;> simp

theorem wr_ok {xs : List β} {i : Nat} (h : i < xs.length) (v : β) :
    wr xs i v = Except.ok (xs.set i v) := by
  simp [wr, h]

theorem wr_error {xs : List β} {i : Nat} (h : xs.length ≤ i) (v : β) :
    wr xs i v = Except.error Fault.outOfBounds := by
  simp [wr, Nat.not_lt.mpr h]

/-- Loop rule: an invariant that every iteration re-establishes, together with the
fact that no iteration faults, gives a returning loop whose final state satisfies
the invariant. -/
theorem forLoop_rule (P : Nat → σ → Prop) (n : Nat) (body : Nat → σ → Exec σ) (s : σ)
    (h0 : P 0 s)
    (hstep : ∀ i s, i < n → P i s → ∃ s', body i s = Except.ok s' ∧ P (i + 1) s') :
    ∃ s', forLoop n body s = Except.ok s' ∧ P n s' := by
  induction n with
  | zero => exact ⟨s, rfl, h0⟩
  | succ k ih =>
    obtain ⟨s1, h1, hP1⟩ := ih (fun i s hi hP => hstep i s (Nat.lt_succ_of_lt hi) hP)
    obtain ⟨s2, h2, hP2⟩ := hstep k s1 (Nat.lt_succ_self k) hP1
    exact ⟨s2, by rw [forLoop_succ, h1, ok_bind, h2], hP2⟩

/-- Loop rule for returning runs: whatever the loop returns satisfies an invariant
that every returning iteration preserves. -/
theorem forLoop_post (P : Nat → σ → Prop) (n : Nat) (body : Nat → σ → Exec σ) (s s' : σ)
    (h0 : P 0 s)
    (hstep : ∀ i s s', i < n → P i s → body i s = Except.ok s' → P (i + 1) s')
    (hrun : forLoop n body s = Except.ok s') : P n s' := by
  induction n generalizing s' with
  | zero =>
    simp at hrun
    exact hrun ▸ h0
  | succ k ih =>
    rw [forLoop_succ, bind_eq_ok] at hrun
    obtain ⟨s1, h1, h2⟩ := hrun
    exact hstep k s1 s' (Nat.lt_succ_self k)
      (ih s1 (fun i s s' hi hP => hstep i s s' (Nat.lt_succ_of_lt hi) hP) h1) h2

end Basics
/-! ## The concrete networks satisfy the class invariant -/

theorem sampleNet_shaped : sampleNet.Shaped := ⟨rfl, rfl, rfl, rfl, rfl, rfl⟩

theorem sampleNet_biasSet : sampleNet.BiasSet := ⟨rfl, rfl⟩

theorem sampleNetReal_shaped : sampleNetReal.Shaped := ⟨rfl, rfl, rfl, rfl, rfl, rfl⟩

theorem sampleNetReal_biasSet : sampleNetReal.BiasSet := ⟨rfl, rfl⟩

/-! ## The forward pass in closed form -/

section EvalLemmas
variable {α : Type} [LinearOrderedField α]

theorem forLoop_dot (xs inp W : List α) (j : Nat) (idx : Nat → Nat) (N : Nat)
    (hj : j < xs.length) (hinp : N ≤ inp.length) (hW : ∀ i, i < N → idx i < W.length) :
    forLoop N (fun i (ys : List α) => do
      let acc ← rd ys j
      let x ← rd inp i
      let w ← rd W (idx i)
      wr ys j (acc + x * w)) xs
    = Except.ok (xs.set j (xs.getD j 0 +
        ∑ i in Finset.range N, inp.getD i 0 * W.getD (idx i) 0)) := by
  induction N with
  | zero =>
    simp only [forLoop_zero, Finset.range_zero, Finset.sum_empty, add_zero]
    congr 1
    apply List.ext_getElem?
    intro k
    rw [List.getElem?_set]
    by_cases hjk : j = k
    · subst hjk
      simp [hj, List.getD_eq_getElem?_getD]
    · simp [hjk]
  | succ k ih =>
    rw [forLoop_succ, ih (Nat.le_of_succ_le hinp) (fun i hi => hW i (Nat.lt_succ_of_lt hi))]
    have hj' : j < (xs.set j (xs.getD j 0 +
        ∑ i in Finset.range k, inp.getD i 0 * W.getD (idx i) 0)).length := by
      simpa using hj
    simp only [ok_bind]
    rw [rd_getD hj' 0, ok_bind, rd_getD (Nat.lt_of_succ_le hinp) 0, ok_bind,
      rd_getD (hW k (Nat.lt_succ_self k)) 0, ok_bind, wr_ok hj', List.set_set,
      Finset.sum_range_succ]
    congr 2
    simp [List.getD_eq_getElem?_getD, hj, add_assoc]

theorem tabulate_step {β : Type} (F : Nat → β) (k : Nat) (xs : List β) (hk : k < xs.length) :
    ((List.range k).map F ++ xs.drop k).set k (F k)
      = (List.range (k + 1)).map F ++ xs.drop (k + 1) := by
  apply List.ext_getElem?
  intro i
  rw [List.getElem?_set]
  simp only [List.length_append, List.length_map, List.length_range, List.length_drop]
  by_cases hki : k = i
  · subst hki
    have : k < k + (xs.length - k) := by omega
    rw [if_pos rfl, if_pos this, List.getElem?_append_left (by simp),
      List.getElem?_map, List.getElem?_range (Nat.lt_succ_self k)]
    rfl
  · simp only [hki, if_false]
    rcases Nat.lt_or_gt_of_ne hki with h | h
    · rw [List.getElem?_append_right (by simp; omega),
        List.getElem?_append_right (by simp; omega)]
      simp
      congr 1
      omega
    · rw [List.getElem?_append_left (by simp; omega),
        List.getElem?_append_left (by simp; omega)]
      simp [List.range_succ, List.getElem?_append_left, h]

theorem tabulate_length {β : Type} (F : Nat → β) (k : Nat) (xs : List β) (hk : k ≤ xs.length) :
    ((List.range k).map F ++ xs.drop k).length = xs.length := by
  simp; omega

theorem forLoop_tabulate {β : Type} (F : Nat → β) (N : Nat) (xs : List β)
    (body : Nat → List β → Exec (List β)) (hN : N ≤ xs.length)
    (hbody : ∀ j ys, j < N → ys.length = xs.length → body j ys = Except.ok (ys.set j (F j))) :
    forLoop N body xs = Except.ok ((List.range N).map F ++ xs.drop N) := by
  induction N with
  | zero => simp
  | succ k ih =>
    rw [forLoop_succ, ih (Nat.le_of_succ_le hN) (fun j ys hj => hbody j ys (Nat.lt_succ_of_lt hj)),
      ok_bind, hbody k _ (Nat.lt_succ_self k) (tabulate_length F k xs (Nat.le_of_succ_le hN)),
      tabulate_step F k xs hN]

theorem forLoop_tabulate2 {β γ : Type} (F : Nat → β) (G : Nat → γ) (N : Nat)
    (xs : List β) (ys : List γ) (body : Nat → List β × List γ → Exec (List β × List γ))
    (hx : N ≤ xs.length) (hy : N ≤ ys.length)
    (hbody : ∀ j (s : List β × List γ), j < N → s.1.length = xs.length →
      s.2.length = ys.length → body j s = Except.ok (s.1.set j (F j), s.2.set j (G j))) :
    forLoop N body (xs, ys)
      = Except.ok ((List.range N).map F ++ xs.drop N, (List.range N).map G ++ ys.drop N) := by
  induction N with
  | zero => simp
  | succ k ih =>
    rw [forLoop_succ, ih (Nat.le_of_succ_le hx) (Nat.le_of_succ_le hy)
        (fun j s hj => hbody j s (Nat.lt_succ_of_lt hj)),
      ok_bind, hbody k _ (Nat.lt_succ_self k) (tabulate_length F k xs (Nat.le_of_succ_le hx))
        (tabulate_length G k ys (Nat.le_of_succ_le hy)),
      tabulate_step F k xs hx, tabulate_step G k ys hy]

theorem drop_eq_singleton_of_getLast? {β : Type} (xs : List β) (n : Nat) (v : β)
    (hlen : xs.length = n + 1) (hlast : xs.getLast? = some v) : xs.drop n = [v] := by
  have hne : xs ≠ [] := by
    intro h; simp [h] at hlen
  rw [List.getLast?_eq_getLast _ hne] at hlast
  have hv : xs.getLast hne = v := by simpa using hlast
  rw [List.getLast_eq_getElem] at hv
  apply List.ext_getElem?
  intro i
  rw [List.getElem?_drop]
  cases i with
  | zero =>
    simp only [Nat.add_zero, List.getElem?_cons_zero]
    rw [List.getElem?_eq_getElem (by omega)]
    congr 1
    rw [← hv]
    congr 1
    omega
  | succ i =>
    simp only [List.getElem?_cons_succ, List.getElem?_nil]
    exact List.getElem?_eq_none (by omega)

theorem getD_set_self {β : Type} {xs : List β} {j : Nat} (h : j < xs.length) (v d : β) :
    (xs.set j v).getD j d = v := by
  simp [List.getD_eq_getElem?_getD, h]

theorem getD_tabulate_lt {β : Type} (F : Nat → β) (N : Nat) (tl : List β) (d : β) (j : Nat)
    (hj : j < N) : ((List.range N).map F ++ tl).getD j d = F j := by
  rw [List.getD_eq_getElem?_getD, List.getElem?_append_left (by simpa using hj)]
  simp [List.getElem?_range hj]

theorem getD_tabulate_eq {β : Type} (F : Nat → β) (N : Nat) (v : β) (tl : List β) (d : β) :
    ((List.range N).map F ++ v :: tl).getD N d = v := by
  rw [List.getD_eq_getElem?_getD, List.getElem?_append_right (by simp)]
  simp


/-- Closed form of `Evaluate` on a well-shaped network with both bias slots at `-1`
and an input of the right length: the call returns, leaves dimensions and weights
alone and tabulates the reference activations. -/
theorem Evaluate_ok (exp : α → α) (net : Network α) (input : List α)
    (hs : net.Shaped) (hb : net.BiasSet) (hlen : input.length = net.m_numInputs) :
    Evaluate exp net input = Except.ok { net with
      m_inputNeurons := input ++ [-1]
      m_hiddenNeurons := (List.range net.m_numHidden).map (Reference.hidden exp net input) ++ [-1]
      m_outputNeurons := (List.range net.m_numOutputs).map (Reference.output exp net input)
      m_clampedOutputs := (List.range net.m_numOutputs).map
        (fun k => ClampOutputValue (Reference.output exp net input k)) } := by
  obtain ⟨hbi, hbh⟩ := hb
  have hdropI := drop_eq_singleton_of_getLast? _ _ _ hs.inputNeurons hbi
  have hdropH := drop_eq_singleton_of_getLast? _ _ _ hs.hiddenNeurons hbh
  -- the hidden layer
  have hhid : forLoop net.m_numHidden (fun hiddenIdx hid => do
      let hid ← wr hid hiddenIdx 0
      let hid ← forLoop (net.m_numInputs + 1) (fun inputIdx hid => do
        let weightIdx := GetInputHiddenWeightIndex net inputIdx hiddenIdx
        let acc ← rd hid hiddenIdx
        let x ← rd (input ++ [-1]) inputIdx
        let w ← rd net.m_weightsInputHidden weightIdx
        wr hid hiddenIdx (acc + x * w)) hid
      let acc ← rd hid hiddenIdx
      wr hid hiddenIdx (SigmoidActivationFunction exp acc)) net.m_hiddenNeurons
      = Except.ok ((List.range net.m_numHidden).map (Reference.hidden exp net input) ++ [-1]) := by
    refine (forLoop_tabulate (Reference.hidden exp net input) net.m_numHidden
      net.m_hiddenNeurons _ (by rw [hs.hiddenNeurons]; omega) ?_).trans (by rw [hdropH])
    · intro j ys hj hys
      have hjy : j < ys.length := by rw [hys, hs.hiddenNeurons]; omega
      have hjy0 : j < (ys.set j 0).length := by simpa using hjy
      rw [wr_ok hjy, ok_bind]
      simp only [GetInputHiddenWeightIndex]
      rw [forLoop_dot (ys.set j 0) (input ++ [-1]) net.m_weightsInputHidden j
        (fun i => i * net.m_numHidden + j) (net.m_numInputs + 1) hjy0 (by simp [hlen])
        (by
          intro i hi
          rw [hs.weightsInputHidden]
          have : i * net.m_numHidden ≤ net.m_numInputs * net.m_numHidden :=
            Nat.mul_le_mul_right _ (Nat.le_of_lt_succ hi)
          nlinarith)]
      rw [ok_bind, rd_getD (by simpa using hjy) 0, ok_bind, wr_ok (by simpa using hjy),
        List.set_set, List.set_set]
      congr 2
      rw [getD_set_self hjy0 _ 0, getD_set_self hjy 0 0, zero_add, Finset.sum_range_succ]
      unfold Reference.hidden SigmoidActivationFunction
      congr 4
      have hlast : (input ++ [-1]).getD net.m_numInputs 0 = (-1 : α) := by
        rw [List.getD_eq_getElem?_getD, List.getElem?_append_right (by omega)]
        simp [hlen]
      rw [hlast, sub_eq_add_neg]
      congr 1
      · apply Finset.sum_congr rfl
        intro i hi
        have hi' : i < input.length := by rw [hlen]; exact Finset.mem_range.mp hi
        rw [List.getD_append _ _ _ _ hi']
      · ring
  -- the output layer
  have hout : forLoop net.m_numOutputs (fun outputIdx (oc : List α × List Int) => do
      let out ← wr oc.1 outputIdx 0
      let out ← forLoop (net.m_numHidden + 1) (fun hiddenIdx out => do
        let weightIdx := GetHiddenOutputWeightIndex net hiddenIdx outputIdx
        let acc ← rd out outputIdx
        let x ← rd ((List.range net.m_numHidden).map (Reference.hidden exp net input) ++ [-1])
          hiddenIdx
        let w ← rd net.m_weightsHiddenOutput weightIdx
        wr out outputIdx (acc + x * w)) out
      let acc ← rd out outputIdx
      let out ← wr out outputIdx (SigmoidActivationFunction exp acc)
      let y ← rd out outputIdx
      let clamped ← wr oc.2 outputIdx (ClampOutputValue y)
      pure (out, clamped)) (net.m_outputNeurons, net.m_clampedOutputs)
      = Except.ok ((List.range net.m_numOutputs).map (Reference.output exp net input),
          (List.range net.m_numOutputs).map
            (fun k => ClampOutputValue (Reference.output exp net input k))) := by
    refine (forLoop_tabulate2 (Reference.output exp net input)
      (fun k => ClampOutputValue (Reference.output exp net input k)) net.m_numOutputs
      net.m_outputNeurons net.m_clampedOutputs _ (by rw [hs.outputNeurons])
      (by rw [hs.clampedOutputs]) ?_).trans ?_
    · intro k s hk hs1 hs2
      have hk1 : k < s.1.length := by rw [hs1, hs.outputNeurons]; exact hk
      have hk2 : k < s.2.length := by rw [hs2, hs.clampedOutputs]; exact hk
      have hk0 : k < (s.1.set k 0).length := by simpa using hk1
      rw [wr_ok hk1, ok_bind]
      simp only [GetHiddenOutputWeightIndex]
      rw [forLoop_dot (s.1.set k 0) _ net.m_weightsHiddenOutput k
        (fun j => j * net.m_numOutputs + k) (net.m_numHidden + 1) hk0 (by simp)
        (by
          intro j hj
          rw [hs.weightsHiddenOutput]
          have : j * net.m_numOutputs ≤ net.m_numHidden * net.m_numOutputs :=
            Nat.mul_le_mul_right _ (Nat.le_of_lt_succ hj)
          nlinarith)]
      rw [ok_bind, rd_getD (by simpa using hk1) 0, ok_bind, wr_ok (by simpa using hk1),
        ok_bind, rd_getD (by simpa using hk1) 0, ok_bind, wr_ok hk2, ok_bind,
        List.set_set, List.set_set]
      have hval : SigmoidActivationFunction exp
          (((s.1.set k 0).set k ((s.1.set k 0).getD k 0 +
            ∑ j in Finset.range (net.m_numHidden + 1),
              ((List.range net.m_numHidden).map (Reference.hidden exp net input) ++ [-1]).getD j 0
                * net.m_weightsHiddenOutput.getD (j * net.m_numOutputs + k) 0)).getD k 0)
          = Reference.output exp net input k := by
        rw [getD_set_self hk0 _ 0, getD_set_self hk1 0 0, zero_add, Finset.sum_range_succ]
        unfold Reference.output SigmoidActivationFunction
        congr 4
        rw [getD_tabulate_eq, sub_eq_add_neg]
        congr 1
        · apply Finset.sum_congr rfl
          intro j hj
          rw [getD_tabulate_lt _ _ _ _ _ (Finset.mem_range.mp hj)]
        · ring
      rw [hval, getD_set_self hk1 _ 0]
      rfl
    · rw [List.drop_of_length_le (by rw [hs.outputNeurons]),
        List.drop_of_length_le (by rw [hs.clampedOutputs])]
      simp
  have hback1 : back net.m_inputNeurons = Except.ok (-1) := by simp [back, hbi]
  have hback2 : back net.m_hiddenNeurons = Except.ok (-1) := by simp [back, hbh]
  have hcpy : memcpy net.m_inputNeurons input input.length = Except.ok (input ++ [-1]) := by
    have : input.length ≤ net.m_inputNeurons.length := by rw [hs.inputNeurons, hlen]; omega
    simp only [memcpy, this, le_refl, and_self, if_true, List.take_length]
    rw [hlen, hdropI]
  unfold Evaluate
  rw [check_ok hlen, ok_bind, hback1, ok_bind, hback2, ok_bind, check_ok ⟨rfl, rfl⟩, ok_bind,
    hcpy, ok_bind, hhid, ok_bind, hout, ok_bind]
  rfl

end EvalLemmas

/-! ## The constructors in closed form -/

section Construct

variable {α : Type} [LinearOrderedField α]

theorem replicate_succ_set_last {β : Type} (n : Nat) (z v : β) :
    (List.replicate (n + 1) z).set n v = List.replicate n z ++ [v] := by
  induction n with
  | zero => rfl
  | succ k ih =>
    rw [List.replicate_succ, List.set_cons_succ, ih, List.replicate_succ, List.cons_append]

theorem InitializeNetwork_members (settings : NetworkSettings) :
    InitializeNetwork (Network.members settings : Network α)
      = Except.ok (Network.blank α settings) := by
  simp [InitializeNetwork, Network.members, Network.blank, setBack, memsetZero, resize,
    replicate_succ_set_last]

theorem blank_shaped (settings : NetworkSettings) : (Network.blank α settings).Shaped := by
  constructor <;> simp [Network.blank]

theorem blank_biasSet (settings : NetworkSettings) : (Network.blank α settings).BiasSet := by
  constructor <;> simp [Network.blank]

theorem map_range_getD (src : List α) (k0 N : Nat) (h : k0 + N ≤ src.length) :
    (List.range N).map (fun i => src.getD (k0 + i) 0) = (src.drop k0).take N := by
  apply List.ext_getElem?
  intro i
  by_cases hi : i < N
  · rw [List.getElem?_map, List.getElem?_range hi, List.getElem?_take_of_lt hi,
      List.getElem?_drop, Option.map_some', List.getD_eq_getElem?_getD,
      List.getElem?_eq_getElem (by omega)]
    simp
  · rw [List.getElem?_eq_none (by simp; omega), List.getElem?_eq_none (by simp; omega)]

/-- The copy loop of `LoadWeights`: `dst[i] = src[k0 + i]` for `i < N`. -/
theorem forLoop_copy (src dst : List α) (k0 N : Nat) (hsrc : k0 + N ≤ src.length)
    (hdst : N ≤ dst.length) :
    forLoop N (fun i (s : List α × Nat) => do
      let v ← rd src s.2
      let w ← wr s.1 i v
      pure (w, s.2 + 1)) (dst, k0)
    = Except.ok ((src.drop k0).take N ++ dst.drop N, k0 + N) := by
  induction N with
  | zero => simp
  | succ k ih =>
    rw [forLoop_succ, ih (by omega) (by omega), ok_bind]
    simp only
    rw [rd_getD (by omega) 0, ok_bind, wr_ok (by simp; omega), ok_bind, pure_eq_ok,
      ← map_range_getD src k0 k (by omega), ← map_range_getD src k0 (k + 1) hsrc,
      tabulate_step (fun i => src.getD (k0 + i) 0) k dst hdst]
    rfl


theorem LoadWeights_blank (settings : NetworkSettings) (weights : List α)
    (hlen : weights.length = settings.m_numInputs * settings.m_numHidden
      + settings.m_numHidden * settings.m_numOutputs) :
    LoadWeights (Network.blank α settings) weights = Except.ok { Network.blank α settings with
      m_weightsInputHidden := weights.take (settings.m_numInputs * settings.m_numHidden)
        ++ List.replicate (settings.m_numInputs + settings.m_numHidden + 1) 0
      m_weightsHiddenOutput := weights.drop (settings.m_numInputs * settings.m_numHidden)
        ++ List.replicate settings.m_numOutputs 0 } := by
  unfold LoadWeights
  have hdims : (Network.blank α settings).m_numInputs = settings.m_numInputs
      ∧ (Network.blank α settings).m_numHidden = settings.m_numHidden
      ∧ (Network.blank α settings).m_numOutputs = settings.m_numOutputs := ⟨rfl, rfl, rfl⟩
  obtain ⟨h1, h2, h3⟩ := hdims
  rw [h1, h2, h3]
  dsimp only
  rw [check_ok hlen, ok_bind]
  have hW1 : (Network.blank α settings).m_weightsInputHidden.length
      = (settings.m_numInputs + 1) * (settings.m_numHidden + 1) := by simp [Network.blank]
  have hW2 : (Network.blank α settings).m_weightsHiddenOutput.length
      = (settings.m_numHidden + 1) * settings.m_numOutputs := by simp [Network.blank]
  rw [forLoop_copy weights _ 0 _ (by omega) (by rw [hW1]; nlinarith), ok_bind]
  simp only
  rw [forLoop_copy weights _ _ _ (by omega) (by rw [hW2]; nlinarith), ok_bind, pure_eq_ok]
  congr 2
  · simp only [List.drop_zero, Network.blank, List.drop_replicate]
    congr 2
    have : (settings.m_numInputs + 1) * (settings.m_numHidden + 1)
        = settings.m_numInputs * settings.m_numHidden
          + (settings.m_numInputs + settings.m_numHidden + 1) := by ring
    omega
  · simp only [Network.blank, List.drop_replicate, Nat.zero_add]
    congr 1
    · exact List.take_of_length_le (by simp; omega)
    · congr 1
      have : (settings.m_numHidden + 1) * settings.m_numOutputs
        = settings.m_numHidden * settings.m_numOutputs + settings.m_numOutputs := by ring
      omega

/-- The weight-loading constructor in closed form. -/
theorem Network.load_ok (settings : NetworkSettings) (weights : List α)
    (hpos : settings.m_numInputs > 0 ∧ settings.m_numOutputs > 0 ∧ settings.m_numHidden > 0)
    (hlen : weights.length = settings.m_numInputs * settings.m_numHidden
      + settings.m_numHidden * settings.m_numOutputs) :
    Network.load settings weights = Except.ok { Network.blank α settings with
      m_weightsInputHidden := weights.take (settings.m_numInputs * settings.m_numHidden)
        ++ List.replicate (settings.m_numInputs + settings.m_numHidden + 1) 0
      m_weightsHiddenOutput := weights.drop (settings.m_numInputs * settings.m_numHidden)
        ++ List.replicate settings.m_numOutputs 0 } := by
  unfold Network.load
  rw [check_ok hpos, ok_bind, InitializeNetwork_members, ok_bind, LoadWeights_blank _ _ hlen]

theorem Network.load_wrong_length (settings : NetworkSettings) (weights : List α)
    (hlen : weights.length ≠ settings.m_numInputs * settings.m_numHidden
      + settings.m_numHidden * settings.m_numOutputs) :
    Network.load settings weights = (Except.error Fault.assertion : Exec (Network α)) := by
  unfold Network.load
  by_cases hpos : settings.m_numInputs > 0 ∧ settings.m_numOutputs > 0 ∧ settings.m_numHidden > 0
  · rw [check_ok hpos, ok_bind, InitializeNetwork_members, ok_bind]
    unfold LoadWeights
    dsimp only
    rw [check_error (by exact hlen)]
    rfl
  · rw [check_error hpos]
    rfl

/-- A nest of two counting loops that only writes inside the vector keeps its length
and does not fault. -/
theorem forLoop_fill {β : Type} (draw : Nat → β) (idx : Nat → Nat → Nat) (N M L : Nat)
    (hidx : ∀ i j, i < N → j < M → idx i j < L) (s : List β × Nat) (hs : s.1.length = L) :
    ∃ s', forLoop N (fun i s =>
        forLoop M (fun j (s : List β × Nat) => do
          let w ← wr s.1 (idx i j) (draw s.2)
          pure (w, s.2 + 1)) s) s = Except.ok s' ∧ s'.1.length = L := by
  apply forLoop_rule (fun _ (s : List β × Nat) => s.1.length = L) _ _ _ hs
  intro i s hi hP
  apply forLoop_rule (fun _ (s : List β × Nat) => s.1.length = L) _ _ _ hP
  intro j s hj hP
  rw [wr_ok (by rw [hP]; exact hidx i j hi hj), ok_bind]
  exact ⟨_, rfl, by simpa using hP⟩

theorem InitializeWeights_ok (draw : Nat → α) (net : Network α) (hs : net.Shaped) :
    ∃ w1 w2, InitializeWeights draw net = Except.ok { net with
        m_weightsInputHidden := w1, m_weightsHiddenOutput := w2 }
      ∧ w1.length = net.m_weightsInputHidden.length
      ∧ w2.length = net.m_weightsHiddenOutput.length := by
  unfold InitializeWeights
  obtain ⟨s, hrun1, hlen1⟩ := forLoop_fill draw (fun i j => GetInputHiddenWeightIndex net i j)
    (net.m_numInputs + 1) net.m_numHidden net.m_weightsInputHidden.length
    (by
      intro i j hi hj
      rw [hs.weightsInputHidden]
      unfold GetInputHiddenWeightIndex
      have : i * net.m_numHidden ≤ net.m_numInputs * net.m_numHidden :=
        Nat.mul_le_mul_right _ (Nat.le_of_lt_succ hi)
      nlinarith) (net.m_weightsInputHidden, 0) rfl
  obtain ⟨r, hrun2, hlen2⟩ := forLoop_fill draw (fun i j => GetHiddenOutputWeightIndex net i j)
    (net.m_numHidden + 1) net.m_numOutputs net.m_weightsHiddenOutput.length
    (by
      intro i j hi hj
      rw [hs.weightsHiddenOutput]
      unfold GetHiddenOutputWeightIndex
      have : i * net.m_numOutputs ≤ net.m_numHidden * net.m_numOutputs :=
        Nat.mul_le_mul_right _ (Nat.le_of_lt_succ hi)
      nlinarith) (net.m_weightsHiddenOutput, s.2) rfl
  refine ⟨s.1, r.1, ?_, hlen1, hlen2⟩
  rw [hrun1, ok_bind, hrun2, ok_bind]
  rfl

/-- The randomising constructor returns for positive dimensions; its result has the
vectors of `Network.blank` except for the two weight arrays, whose sizes are kept. -/
theorem Network.create_ok (draw : Nat → α) (settings : NetworkSettings)
    (hpos : settings.m_numInputs > 0 ∧ settings.m_numOutputs > 0 ∧ settings.m_numHidden > 0) :
    ∃ w1 w2, Network.create draw settings = Except.ok { Network.blank α settings with
        m_weightsInputHidden := w1, m_weightsHiddenOutput := w2 }
      ∧ w1.length = (settings.m_numInputs + 1) * (settings.m_numHidden + 1)
      ∧ w2.length = (settings.m_numHidden + 1) * settings.m_numOutputs := by
  obtain ⟨w1, w2, hrun, h1, h2⟩ := InitializeWeights_ok draw (Network.blank α settings)
    (blank_shaped settings)
  refine ⟨w1, w2, ?_, ?_, ?_⟩
  · unfold Network.create
    rw [check_ok hpos, ok_bind, InitializeNetwork_members, ok_bind, hrun]
  · rw [h1]; simp [Network.blank]
  · rw [h2]; simp [Network.blank]

theorem Network.create_not_pos (draw : Nat → α) (settings : NetworkSettings)
    (hpos : ¬ (settings.m_numInputs > 0 ∧ settings.m_numOutputs > 0 ∧ settings.m_numHidden > 0)) :
    Network.create draw settings = (Except.error Fault.assertion : Exec (Network α)) := by
  unfold Network.create
  rw [check_error hpos]
  rfl

theorem Network.load_not_pos (settings : NetworkSettings) (weights : List α)
    (hpos : ¬ (settings.m_numInputs > 0 ∧ settings.m_numOutputs > 0 ∧ settings.m_numHidden > 0)) :
    Network.load settings weights = (Except.error Fault.assertion : Exec (Network α)) := by
  unfold Network.load
  rw [check_error hpos]
  rfl

end Construct

/-! ## What the trainer operations leave unchanged -/

section Frames
variable {α : Type} [LinearOrderedField α]

theorem EpochFrame.refl (t : NetworkTrainer α) : NetworkTrainer.EpochFrame t t :=
  ⟨rfl, rfl, rfl, rfl, rfl, rfl, rfl, rfl, rfl, rfl⟩

theorem EpochFrame.trans {t1 t2 t3 : NetworkTrainer α} (h12 : NetworkTrainer.EpochFrame t1 t2)
    (h23 : NetworkTrainer.EpochFrame t2 t3) : NetworkTrainer.EpochFrame t1 t3 :=
  ⟨h23.1.trans h12.1, h23.2.trans h12.2, h23.3.trans h12.3, h23.4.trans h12.4,
    h23.5.trans h12.5, h23.6.trans h12.6, h23.7.trans h12.7, h23.8.trans h12.8,
    h23.9.trans h12.9, h23.10.trans h12.10⟩

theorem UpdateWeights_frame {t t' : NetworkTrainer α} (h : UpdateWeights t = Except.ok t') :
    NetworkTrainer.EpochFrame t t' := by
  unfold UpdateWeights at h
  simp only [bind_eq_ok, pure_eq_ok, Except.ok.injEq] at h
  obtain ⟨s, _, r, _, rfl⟩ := h
  exact ⟨rfl, rfl, rfl, rfl, rfl, rfl, rfl, rfl, rfl, rfl⟩

theorem Backpropagate_frame {t t' : NetworkTrainer α} {e : List Int}
    (h : Backpropagate t e = Except.ok t') : NetworkTrainer.EpochFrame t t' := by
  unfold Backpropagate at h
  simp only [bind_eq_ok] at h
  obtain ⟨s, _, r, _, h⟩ := h
  split_ifs at h
  · refine EpochFrame.trans ?_ (UpdateWeights_frame h)
    exact ⟨rfl, rfl, rfl, rfl, rfl, rfl, rfl, rfl, rfl, rfl⟩
  · simp only [pure_eq_ok, Except.ok.injEq] at h
    subst h
    exact ⟨rfl, rfl, rfl, rfl, rfl, rfl, rfl, rfl, rfl, rfl⟩

theorem Evaluate_dims {exp : α → α} {net net' : Network α} {x : List α}
    (h : Evaluate exp net x = Except.ok net') :
    net'.m_numInputs = net.m_numInputs ∧ net'.m_numHidden = net.m_numHidden ∧
      net'.m_numOutputs = net.m_numOutputs ∧
      net'.m_weightsInputHidden = net.m_weightsInputHidden ∧
      net'.m_weightsHiddenOutput = net.m_weightsHiddenOutput := by
  unfold Evaluate at h
  simp only [bind_eq_ok, pure_eq_ok, Except.ok.injEq] at h
  obtain ⟨_, _, _, _, _, _, _, _, _, _, _, _, _, _, rfl⟩ := h
  exact ⟨rfl, rfl, rfl, rfl, rfl⟩

theorem RunEpochEntry_frame {exp : α → α} {e : TrainingEntry α} {t : NetworkTrainer α}
    {MSE : α} {r : NetworkTrainer α × Bool × α} (h : RunEpochEntry exp e t MSE = Except.ok r) :
    NetworkTrainer.EpochFrame t r.1 := by
  unfold RunEpochEntry at h
  simp only [bind_eq_ok, pure_eq_ok, Except.ok.injEq] at h
  obtain ⟨net, _, t1, ht, c, _, rfl⟩ := h
  refine EpochFrame.trans ?_ (Backpropagate_frame ht)
  exact ⟨rfl, rfl, rfl, rfl, rfl, rfl, rfl, rfl, rfl, rfl⟩

theorem RunEpochStep_frame {exp : α → α} {e : TrainingEntry α}
    {s s' : NetworkTrainer α × α × α} (h : RunEpochStep exp e s = Except.ok s') :
    NetworkTrainer.EpochFrame s.1 s'.1 := by
  unfold RunEpochStep at h
  simp only [bind_eq_ok] at h
  obtain ⟨r, hr, h⟩ := h
  have h1 : s'.1 = r.1 := by
    split_ifs at h <;> simp only [pure_eq_ok, Except.ok.injEq] at h <;> rw [← h]
  rw [h1]
  exact RunEpochEntry_frame hr

theorem forEach_post {β σ : Type} (P : σ → Prop) (body : β → σ → Exec σ)
    (hstep : ∀ e s s', P s → body e s = Except.ok s' → P s') (es : List β) (s s' : σ)
    (h0 : P s) (hrun : forEach es body s = Except.ok s') : P s' := by
  induction es generalizing s with
  | nil =>
    simp at hrun
    exact hrun ▸ h0
  | cons e es ih =>
    rw [forEach_cons, bind_eq_ok] at hrun
    obtain ⟨s1, h1, h2⟩ := hrun
    exact ih s1 (hstep e s s1 h0 h1) h2

theorem RunEpoch_frame {exp : α → α} {t t' : NetworkTrainer α} {S : TrainingSet α}
    (h : RunEpoch exp t S = Except.ok t') : NetworkTrainer.EpochFrame t t' := by
  unfold RunEpoch at h
  simp only [bind_eq_ok] at h
  obtain ⟨s, hs, t1, ht1, h⟩ := h
  have hf : NetworkTrainer.EpochFrame t s.1 :=
    forEach_post (fun s => NetworkTrainer.EpochFrame t s.1) (RunEpochStep exp)
      (fun e s s' hP hrun => EpochFrame.trans hP (RunEpochStep_frame hrun)) S (t, 0, 0) s
      (EpochFrame.refl t) hs
  have hf1 : NetworkTrainer.EpochFrame s.1 t1 := by
    split_ifs at ht1
    · exact UpdateWeights_frame ht1
    · simp only [pure_eq_ok, Except.ok.injEq] at ht1
      subst ht1
      exact EpochFrame.refl _
  simp only [pure_eq_ok, Except.ok.injEq] at h
  subst h
  exact EpochFrame.trans (EpochFrame.trans hf hf1) ⟨rfl, rfl, rfl, rfl, rfl, rfl, rfl, rfl, rfl, rfl⟩

/-- `GetSetAccuracyAndMSE` changes nothing of the trainer but the network. -/
theorem GetSetEntry_frame {exp : α → α} {e : TrainingEntry α} {t : NetworkTrainer α}
    {MSE : α} {r : NetworkTrainer α × Bool × α} (h : GetSetEntry exp e t MSE = Except.ok r)
    (N : Network α) : r.1.withNetwork N = t.withNetwork N := by
  unfold GetSetEntry at h
  simp only [bind_eq_ok, pure_eq_ok, Except.ok.injEq] at h
  obtain ⟨net, _, c, _, rfl⟩ := h
  rfl

theorem GetSetStep_frame {exp : α → α} {e : TrainingEntry α}
    {s s' : NetworkTrainer α × α × α} (h : GetSetStep exp e s = Except.ok s')
    (N : Network α) : s'.1.withNetwork N = s.1.withNetwork N := by
  unfold GetSetStep at h
  simp only [bind_eq_ok] at h
  obtain ⟨r, hr, h⟩ := h
  have h1 : s'.1 = r.1 := by
    split_ifs at h <;> simp only [pure_eq_ok, Except.ok.injEq] at h <;> rw [← h]
  rw [h1]
  exact GetSetEntry_frame hr N

theorem GetSetAccuracyAndMSE_frame {exp : α → α} {t : NetworkTrainer α} {S : TrainingSet α}
    {r : NetworkTrainer α × Stat α × Stat α} (h : GetSetAccuracyAndMSE exp t S = Except.ok r)
    (N : Network α) : r.1.withNetwork N = t.withNetwork N := by
  unfold GetSetAccuracyAndMSE at h
  simp only [bind_eq_ok, pure_eq_ok, Except.ok.injEq] at h
  obtain ⟨s, hs, rfl⟩ := h
  exact forEach_post (fun s => s.1.withNetwork N = t.withNetwork N) (GetSetStep exp)
    (fun e s s' hP hrun => (GetSetStep_frame hrun N).trans hP) S (t, 0, 0) s rfl hs

end Frames

/-! ## The trainer operations return on well-sized states -/

section Success
variable {α : Type} [LinearOrderedField α]

theorem forLoop_nest_rule {σ : Type} (P : σ → Prop) (N M : Nat) (body : Nat → Nat → σ → Exec σ)
    (hbody : ∀ i j s, i < N → j < M → P s → ∃ s', body i j s = Except.ok s' ∧ P s')
    (s : σ) (hs : P s) :
    ∃ s', forLoop N (fun i s => forLoop M (fun j s => body i j s) s) s = Except.ok s' ∧ P s' := by
  apply forLoop_rule (fun _ s => P s) _ _ _ hs
  intro i s hi hP
  apply forLoop_rule (fun _ s => P s) _ _ _ hP
  intro j s hj hP
  exact hbody i j s hi hj hP

theorem idx_lt_of_le {i j a b : Nat} (hi : i ≤ a) (hj : j < b) : i * b + j < (a + 1) * b := by
  have : i * b ≤ a * b := Nat.mul_le_mul_right _ hi
  nlinarith

theorem idx_lt_of_le_le {i j a b : Nat} (hi : i ≤ a) (hj : j ≤ b) :
    i * b + j < (a + 1) * (b + 1) := by
  have : i * b ≤ a * b := Nat.mul_le_mul_right _ hi
  nlinarith

/-- `UpdateWeights` returns and keeps the invariant, in stochastic mode for every
shape and in batch mode when `m ≤ n + 1`. -/
theorem UpdateWeights_ok (t : NetworkTrainer α) (n h m : Nat) (hs : t.ShapedAs n h m)
    (hb : t.m_useBatchLearning = true → m ≤ n + 1) :
    ∃ t', UpdateWeights t = Except.ok t' ∧ t'.ShapedAs n h m := by
  obtain ⟨hn, hh, hm, hnet, hbias, hdIH, hdHO, hgH, hgO⟩ := hs
  subst hn hh hm
  have hW1 := hnet.weightsInputHidden
  have hW2 := hnet.weightsHiddenOutput
  unfold UpdateWeights
  simp only [GetInputHiddenWeightIndex, GetHiddenOutputWeightIndex]
  obtain ⟨s, hrun1, hs1, hs2⟩ := forLoop_nest_rule
    (fun (s : List α × List α) => s.1.length = (t.m_pNetwork.m_numInputs + 1) * (t.m_pNetwork.m_numHidden + 1) ∧ s.2.length = (t.m_pNetwork.m_numInputs + 1) * (t.m_pNetwork.m_numHidden + 1))
    (t.m_pNetwork.m_numInputs + 1) (t.m_pNetwork.m_numHidden + 1) (fun InputIdx hiddenIdx (s : List α × List α) => do
      let d ← rd s.2 (InputIdx * t.m_pNetwork.m_numHidden + hiddenIdx)
      let w ← rd s.1 (InputIdx * t.m_pNetwork.m_numHidden + hiddenIdx)
      let wIH ← wr s.1 (InputIdx * t.m_pNetwork.m_numHidden + hiddenIdx) (w + d)
      if t.m_useBatchLearning then
        let dIH ← wr s.2 (InputIdx * t.m_pNetwork.m_numHidden + hiddenIdx) 0
        pure (wIH, dIH)
      else
        pure (wIH, s.2))
    (by
      intro i j s hi hj hP
      have hidx : i * t.m_pNetwork.m_numHidden + j < (t.m_pNetwork.m_numInputs + 1) * (t.m_pNetwork.m_numHidden + 1) :=
        idx_lt_of_le_le (Nat.le_of_lt_succ hi) (Nat.le_of_lt_succ hj)
      beta_reduce
      rw [rd_ok (by rw [hP.2]; exact hidx), ok_bind, rd_ok (by rw [hP.1]; exact hidx), ok_bind,
        wr_ok (by rw [hP.1]; exact hidx), ok_bind]
      split_ifs
      · rw [wr_ok (by rw [hP.2]; exact hidx), ok_bind]
        exact ⟨_, rfl, by simpa using hP.1, by simpa using hP.2⟩
      · exact ⟨_, rfl, by simpa using hP.1, hP.2⟩)
    (t.m_pNetwork.m_weightsInputHidden, t.m_deltaInputHidden) ⟨hW1, hdIH⟩
  obtain ⟨r, hrun2, hr1, hr2⟩ := forLoop_nest_rule
    (fun (r : List α × List α) => r.1.length = (t.m_pNetwork.m_numHidden + 1) * t.m_pNetwork.m_numOutputs ∧ r.2.length = (t.m_pNetwork.m_numInputs + 1) * (t.m_pNetwork.m_numHidden + 1))
    (t.m_pNetwork.m_numHidden + 1) t.m_pNetwork.m_numOutputs (fun hiddenIdx outputIdx (r : List α × List α) => do
      let d ← rd t.m_deltaHiddenOutput (hiddenIdx * t.m_pNetwork.m_numOutputs + outputIdx)
      let w ← rd r.1 (hiddenIdx * t.m_pNetwork.m_numOutputs + outputIdx)
      let wHO ← wr r.1 (hiddenIdx * t.m_pNetwork.m_numOutputs + outputIdx) (w + d)
      if t.m_useBatchLearning then
        let dIH ← wr r.2 (hiddenIdx * t.m_pNetwork.m_numOutputs + outputIdx) 0
        pure (wHO, dIH)
      else
        pure (wHO, r.2))
    (by
      intro j k r hj hk hP
      have hidx : j * t.m_pNetwork.m_numOutputs + k < (t.m_pNetwork.m_numHidden + 1) * t.m_pNetwork.m_numOutputs := idx_lt_of_le (Nat.le_of_lt_succ hj) hk
      beta_reduce
      rw [rd_ok (by rw [hdHO]; exact hidx), ok_bind, rd_ok (by rw [hP.1]; exact hidx), ok_bind,
        wr_ok (by rw [hP.1]; exact hidx), ok_bind]
      split_ifs with hbatch
      · have hmn := hb hbatch
        have hidx2 : j * t.m_pNetwork.m_numOutputs + k < (t.m_pNetwork.m_numInputs + 1) * (t.m_pNetwork.m_numHidden + 1) := by
          have : (t.m_pNetwork.m_numHidden + 1) * t.m_pNetwork.m_numOutputs ≤ (t.m_pNetwork.m_numHidden + 1) * (t.m_pNetwork.m_numInputs + 1) := Nat.mul_le_mul_left _ hmn
          nlinarith
        rw [wr_ok (by rw [hP.2]; exact hidx2), ok_bind]
        exact ⟨_, rfl, by simpa using hP.1, by simpa using hP.2⟩
      · exact ⟨_, rfl, by simpa using hP.1, hP.2⟩)
    (t.m_pNetwork.m_weightsHiddenOutput, s.2) ⟨hW2, hs2⟩
  rw [hrun1, ok_bind, hrun2, ok_bind]
  exact ⟨_, rfl, rfl, rfl, rfl, ⟨hnet.1, hnet.2, hnet.3, hnet.4, hs1, hr1⟩, hbias, hr2, hdHO,
    hgH, hgO⟩


/-- The inner loop of both halves of `Backpropagate` returns and keeps the size of the
delta buffer when every index it uses is inside its vector. -/
theorem deltaLoop_ok (batch : Bool) (lr mom : α) (src grad : List α) (gi : Nat)
    (idx : Nat → Nat) (N L : Nat) (hsrc : N ≤ src.length) (hg : gi < grad.length)
    (hidx : ∀ i, i < N → idx i < L) (d0 : List α) (hd0 : d0.length = L) :
    ∃ dl, forLoop N (fun i (dl : List α) => do
        let x ← rd src i
        let g ← rd grad gi
        let d ← rd dl (idx i)
        if batch then
          wr dl (idx i) (d + lr * x * g)
        else
          wr dl (idx i) (lr * x * g + mom * d)) d0 = Except.ok dl ∧ dl.length = L := by
  apply forLoop_rule (fun _ (dl : List α) => dl.length = L) _ _ _ hd0
  intro i dl hi hQ
  rw [rd_ok (Nat.lt_of_lt_of_le hi hsrc), ok_bind, rd_ok hg, ok_bind,
    rd_ok (by rw [hQ]; exact hidx i hi), ok_bind]
  split_ifs
  · rw [wr_ok (by rw [hQ]; exact hidx i hi)]
    exact ⟨_, rfl, by simpa using hQ⟩
  · rw [wr_ok (by rw [hQ]; exact hidx i hi)]
    exact ⟨_, rfl, by simpa using hQ⟩

theorem GetHiddenErrorGradient_ok (t : NetworkTrainer α) (hiddenIdx : Nat)
    (hW2 : t.m_pNetwork.m_weightsHiddenOutput.length
      = (t.m_pNetwork.m_numHidden + 1) * t.m_pNetwork.m_numOutputs)
    (hgO : t.m_errorGradientsOutput.length = t.m_pNetwork.m_numOutputs)
    (hhid : t.m_pNetwork.m_hiddenNeurons.length = t.m_pNetwork.m_numHidden + 1)
    (hj : hiddenIdx ≤ t.m_pNetwork.m_numHidden) :
    ∃ g, GetHiddenErrorGradient t hiddenIdx = Except.ok g := by
  unfold GetHiddenErrorGradient
  simp only [GetHiddenOutputWeightIndex]
  obtain ⟨ws, hrun, -⟩ := forLoop_rule (fun _ (_ : α) => True) t.m_pNetwork.m_numOutputs
    (fun outputIdx (weightedSum : α) => do
      let w ← rd t.m_pNetwork.m_weightsHiddenOutput
        (hiddenIdx * t.m_pNetwork.m_numOutputs + outputIdx)
      let g ← rd t.m_errorGradientsOutput outputIdx
      pure (weightedSum + w * g)) 0 trivial
    (by
      intro k s hk _
      beta_reduce
      rw [rd_ok (by rw [hW2]; exact idx_lt_of_le hj hk), ok_bind, rd_ok (by rw [hgO]; exact hk),
        ok_bind]
      exact ⟨_, rfl, trivial⟩)
  rw [hrun, ok_bind, rd_ok (by rw [hhid]; omega), ok_bind]
  exact ⟨_, rfl⟩

/-- `Backpropagate` returns and keeps the invariant when the expected-output vector has
`m` entries, in both modes: in batch mode it does not call `UpdateWeights`, and in
stochastic mode `UpdateWeights` writes no delta slot. -/
theorem Backpropagate_returns (t : NetworkTrainer α) (n h m : Nat)
    (expectedOutputs : List Int) (hs : t.ShapedAs n h m) (he : expectedOutputs.length = m) :
    ∃ t', Backpropagate t expectedOutputs = Except.ok t' ∧ t'.ShapedAs n h m := by
  obtain ⟨hn, hh, hm, hnet, hbias, hdIH, hdHO, hgH, hgO⟩ := hs
  subst hn hh hm
  unfold Backpropagate
  simp only [GetInputHiddenWeightIndex, GetHiddenOutputWeightIndex]
  obtain ⟨s, hrun1, hs1, hs2⟩ := forLoop_rule
    (fun _ (s : List α × List α) => s.1.length = t.m_pNetwork.m_numOutputs
      ∧ s.2.length = (t.m_pNetwork.m_numHidden + 1) * t.m_pNetwork.m_numOutputs)
    t.m_pNetwork.m_numOutputs
    (fun OutputIdx (s : List α × List α) => do
      let e ← rd expectedOutputs OutputIdx
      let y ← rd t.m_pNetwork.m_outputNeurons OutputIdx
      let gO ← wr s.1 OutputIdx (GetOutputErrorGradient (e : α) y)
      let dHO ← forLoop (t.m_pNetwork.m_numHidden + 1) (fun hiddenIdx (dHO : List α) => do
        let hn ← rd t.m_pNetwork.m_hiddenNeurons hiddenIdx
        let g ← rd gO OutputIdx
        let d ← rd dHO (hiddenIdx * t.m_pNetwork.m_numOutputs + OutputIdx)
        if t.m_useBatchLearning then
          wr dHO (hiddenIdx * t.m_pNetwork.m_numOutputs + OutputIdx)
            (d + t.m_learningRate * hn * g)
        else
          wr dHO (hiddenIdx * t.m_pNetwork.m_numOutputs + OutputIdx)
            (t.m_learningRate * hn * g + t.m_momentum * d)) s.2
      pure (gO, dHO))
    (t.m_errorGradientsOutput, t.m_deltaHiddenOutput) ⟨hgO, hdHO⟩
    (by
      intro k s hk hP
      beta_reduce
      rw [rd_getD (by rw [he]; exact hk) 0, ok_bind,
        rd_getD (by rw [hnet.outputNeurons]; exact hk) 0, ok_bind,
        wr_ok (by rw [hP.1]; exact hk), ok_bind]
      obtain ⟨d, hrun, hd⟩ := deltaLoop_ok t.m_useBatchLearning t.m_learningRate t.m_momentum
        t.m_pNetwork.m_hiddenNeurons
        (s.1.set k (GetOutputErrorGradient ((expectedOutputs.getD k 0 : Int) : α)
          (t.m_pNetwork.m_outputNeurons.getD k 0))) k
        (fun j => j * t.m_pNetwork.m_numOutputs + k) (t.m_pNetwork.m_numHidden + 1)
        ((t.m_pNetwork.m_numHidden + 1) * t.m_pNetwork.m_numOutputs)
        (by rw [hnet.hiddenNeurons]) (by simpa [hP.1] using hk)
        (fun j hj => idx_lt_of_le (Nat.le_of_lt_succ hj) hk) s.2 hP.2
      rw [hrun, ok_bind]
      exact ⟨_, rfl, by simpa using hP.1, hd⟩)
  rw [hrun1, ok_bind]
  obtain ⟨r, hrun2, hr1, hr2⟩ := forLoop_rule
    (fun _ (r : List α × List α) => r.1.length = t.m_pNetwork.m_numHidden + 1
      ∧ r.2.length = (t.m_pNetwork.m_numInputs + 1) * (t.m_pNetwork.m_numHidden + 1))
    (t.m_pNetwork.m_numHidden + 1)
    (fun hiddenIdx (r : List α × List α) => do
      let gh ← GetHiddenErrorGradient
        { t with m_errorGradientsOutput := s.1, m_deltaHiddenOutput := s.2 } hiddenIdx
      let gH ← wr r.1 hiddenIdx gh
      let dIH ← forLoop (t.m_pNetwork.m_numInputs + 1) (fun inputIdx (dIH : List α) => do
        let x ← rd t.m_pNetwork.m_inputNeurons inputIdx
        let g ← rd gH hiddenIdx
        let d ← rd dIH (inputIdx * t.m_pNetwork.m_numHidden + hiddenIdx)
        if t.m_useBatchLearning then
          wr dIH (inputIdx * t.m_pNetwork.m_numHidden + hiddenIdx)
            (d + t.m_learningRate * x * g)
        else
          wr dIH (inputIdx * t.m_pNetwork.m_numHidden + hiddenIdx)
            (t.m_learningRate * x * g + t.m_momentum * d)) r.2
      pure (gH, dIH))
    (t.m_errorGradientsHidden, t.m_deltaInputHidden) ⟨hgH, hdIH⟩
    (by
      intro j r hj hP
      beta_reduce
      obtain ⟨gh, hgh⟩ := GetHiddenErrorGradient_ok
        { t with m_errorGradientsOutput := s.1, m_deltaHiddenOutput := s.2 } j
        hnet.weightsHiddenOutput hs1 hnet.hiddenNeurons (Nat.le_of_lt_succ hj)
      rw [hgh, ok_bind, wr_ok (by rw [hP.1]; exact hj), ok_bind]
      obtain ⟨d, hrun, hd⟩ := deltaLoop_ok t.m_useBatchLearning t.m_learningRate t.m_momentum
        t.m_pNetwork.m_inputNeurons (r.1.set j gh) j
        (fun i => i * t.m_pNetwork.m_numHidden + j) (t.m_pNetwork.m_numInputs + 1)
        ((t.m_pNetwork.m_numInputs + 1) * (t.m_pNetwork.m_numHidden + 1))
        (by rw [hnet.inputNeurons]) (by simpa [hP.1] using hj)
        (fun i hi => idx_lt_of_le_le (Nat.le_of_lt_succ hi) (Nat.le_of_lt_succ hj)) r.2 hP.2
      rw [hrun, ok_bind]
      exact ⟨_, rfl, by simpa using hP.1, hd⟩)
  rw [hrun2, ok_bind]
  have hshaped : NetworkTrainer.ShapedAs
      { t with m_errorGradientsOutput := s.1, m_deltaHiddenOutput := s.2,
               m_errorGradientsHidden := r.1, m_deltaInputHidden := r.2 }
      t.m_pNetwork.m_numInputs t.m_pNetwork.m_numHidden t.m_pNetwork.m_numOutputs :=
    ⟨rfl, rfl, rfl, hnet, hbias, hr2, hs2, hr1, hs1⟩
  split_ifs with hmode
  · exact UpdateWeights_ok _ _ _ _ hshaped (fun hb => by
      have hb' : t.m_useBatchLearning = true := hb
      simp [hb'] at hmode)
  · exact ⟨_, rfl, hshaped⟩

/-- `Backpropagate` returns and keeps the invariant when the expected-output vector has
`m` entries, in stochastic mode for every shape and in batch mode when `m ≤ n + 1`. -/
theorem Backpropagate_ok (t : NetworkTrainer α) (n h m : Nat) (expectedOutputs : List Int)
    (hs : t.ShapedAs n h m) (he : expectedOutputs.length = m)
    (_hb : t.m_useBatchLearning = true → m ≤ n + 1) :
    ∃ t', Backpropagate t expectedOutputs = Except.ok t' ∧ t'.ShapedAs n h m :=
  Backpropagate_returns t n h m expectedOutputs hs he

end Success

/-! ## Loop budget and the main loop of `Train` -/

section Fuel
variable {σ β : Type}

theorem NoFuelFault.ok (a : σ) : NoFuelFault (Except.ok a) := by
  intro h; cases h

theorem NoFuelFault.pure (a : σ) : NoFuelFault (pure a : Exec σ) := by
  intro h; cases h

theorem NoFuelFault.bind {x : Exec σ} {f : σ → Exec β} (hx : NoFuelFault x)
    (hf : ∀ a, NoFuelFault (f a)) : NoFuelFault (x >>= f) := by
  cases x with
  | error e =>
    intro h
    apply hx
    cases e <;> first | rfl | cases h
  | ok a => exact hf a

theorem NoFuelFault.check (c : Prop) [Decidable c] : NoFuelFault (check c) := by
  unfold BPN.check
  split_ifs <;> intro h <;> cases h

theorem NoFuelFault.rd (xs : List β) (i : Nat) : NoFuelFault (rd xs i) := by
  unfold BPN.rd
  split <;> intro h <;> cases h

theorem NoFuelFault.wr (xs : List β) (i : Nat) (v : β) : NoFuelFault (wr xs i v) := by
  unfold BPN.wr
  split_ifs <;> intro h <;> cases h

theorem NoFuelFault.back (xs : List β) : NoFuelFault (back xs) := by
  unfold BPN.back
  split <;> intro h <;> cases h

theorem NoFuelFault.memcpy (dst src : List β) (n : Nat) : NoFuelFault (memcpy dst src n) := by
  unfold BPN.memcpy
  split_ifs <;> intro h <;> cases h

theorem NoFuelFault.ite (c : Prop) [Decidable c] {x y : Exec σ} (hx : NoFuelFault x)
    (hy : NoFuelFault y) : NoFuelFault (if c then x else y) := by
  split_ifs <;> assumption

theorem NoFuelFault.forLoop (n : Nat) (body : Nat → σ → Exec σ)
    (hbody : ∀ i s, NoFuelFault (body i s)) (s : σ) : NoFuelFault (forLoop n body s) := by
  induction n with
  | zero => exact NoFuelFault.ok s
  | succ k ih => exact NoFuelFault.bind ih (hbody k)

theorem NoFuelFault.forEach (es : List β) (body : β → σ → Exec σ)
    (hbody : ∀ e s, NoFuelFault (body e s)) (s : σ) : NoFuelFault (forEach es body s) := by
  induction es generalizing s with
  | nil => exact NoFuelFault.ok s
  | cons e es ih => exact NoFuelFault.bind (hbody e s) ih

end Fuel

section FuelOps
variable {α : Type} [LinearOrderedField α]

theorem NoFuelFault.Evaluate (exp : α → α) (net : Network α) (x : List α) :
    NoFuelFault (Evaluate exp net x) := by
  unfold BPN.Evaluate
  repeat' first
    | exact NoFuelFault.check _
    | exact NoFuelFault.rd _ _
    | exact NoFuelFault.wr _ _ _
    | exact NoFuelFault.back _
    | exact NoFuelFault.memcpy _ _ _
    | exact NoFuelFault.pure _
    | apply NoFuelFault.forLoop
    | apply NoFuelFault.bind
    | intro _

theorem NoFuelFault.UpdateWeights (t : NetworkTrainer α) : NoFuelFault (UpdateWeights t) := by
  unfold BPN.UpdateWeights
  repeat' first
    | exact NoFuelFault.rd _ _
    | exact NoFuelFault.wr _ _ _
    | exact NoFuelFault.pure _
    | apply NoFuelFault.forLoop
    | apply NoFuelFault.bind
    | apply NoFuelFault.ite
    | intro _

theorem NoFuelFault.GetHiddenErrorGradient (t : NetworkTrainer α) (j : Nat) :
    NoFuelFault (GetHiddenErrorGradient t j) := by
  unfold BPN.GetHiddenErrorGradient
  repeat' first
    | exact NoFuelFault.rd _ _
    | exact NoFuelFault.pure _
    | apply NoFuelFault.forLoop
    | apply NoFuelFault.bind
    | intro _

theorem NoFuelFault.Backpropagate (t : NetworkTrainer α) (e : List Int) :
    NoFuelFault (Backpropagate t e) := by
  unfold BPN.Backpropagate
  repeat' first
    | exact NoFuelFault.rd _ _
    | exact NoFuelFault.wr _ _ _
    | exact NoFuelFault.pure _
    | exact NoFuelFault.GetHiddenErrorGradient _ _
    | exact NoFuelFault.UpdateWeights _
    | apply NoFuelFault.forLoop
    | apply NoFuelFault.bind
    | apply NoFuelFault.ite
    | intro _

theorem NoFuelFault.RunEpoch (exp : α → α) (t : NetworkTrainer α) (S : TrainingSet α) :
    NoFuelFault (RunEpoch exp t S) := by
  unfold BPN.RunEpoch BPN.RunEpochStep BPN.RunEpochEntry BPN.RunEpochOutputs
  repeat' first
    | exact NoFuelFault.rd _ _
    | exact NoFuelFault.pure _
    | exact NoFuelFault.Evaluate _ _ _
    | exact NoFuelFault.Backpropagate _ _
    | exact NoFuelFault.UpdateWeights _
    | apply NoFuelFault.forLoop
    | apply NoFuelFault.forEach
    | apply NoFuelFault.bind
    | apply NoFuelFault.ite
    | intro _

theorem NoFuelFault.GetSetAccuracyAndMSE (exp : α → α) (t : NetworkTrainer α)
    (S : TrainingSet α) : NoFuelFault (GetSetAccuracyAndMSE exp t S) := by
  unfold BPN.GetSetAccuracyAndMSE BPN.GetSetStep BPN.GetSetEntry BPN.GetSetOutputs
  repeat' first
    | exact NoFuelFault.rd _ _
    | exact NoFuelFault.pure _
    | exact NoFuelFault.Evaluate _ _ _
    | apply NoFuelFault.forLoop
    | apply NoFuelFault.forEach
    | apply NoFuelFault.bind
    | apply NoFuelFault.ite
    | intro _

theorem NoFuelFault.TrainBody (exp : α → α) (data : TrainingData α) (t : NetworkTrainer α) :
    NoFuelFault (TrainBody exp data t) := by
  unfold BPN.TrainBody
  repeat' first
    | exact NoFuelFault.pure _
    | exact NoFuelFault.RunEpoch _ _ _
    | exact NoFuelFault.GetSetAccuracyAndMSE _ _ _
    | apply NoFuelFault.bind
    | intro _


theorem whileLoop_zero {σ : Type} (cond : σ → Bool) (body : σ → Exec σ) (s : σ) :
    whileLoop 0 cond body s
      = if cond s then Except.error Fault.outOfFuel else Except.ok s := rfl

theorem whileLoop_succ {σ : Type} (fuel : Nat) (cond : σ → Bool) (body : σ → Exec σ) (s : σ) :
    whileLoop (fuel + 1) cond body s
      = if cond s then body s >>= whileLoop fuel cond body else Except.ok s := rfl

/-- A run that does not exhaust its budget is not changed by a larger budget. -/
theorem whileLoop_mono {σ : Type} (cond : σ → Bool) (body : σ → Exec σ) :
    ∀ (f : Nat) (s : σ), NoFuelFault (whileLoop f cond body s) →
      ∀ f', f ≤ f' → whileLoop f' cond body s = whileLoop f cond body s := by
  intro f
  induction f with
  | zero =>
    intro s hno f' _
    rw [whileLoop_zero] at hno ⊢
    cases hc : cond s with
    | true =>
      rw [hc] at hno
      exact absurd rfl hno
    | false =>
      cases f' with
      | zero => rw [whileLoop_zero, hc]
      | succ g => rw [whileLoop_succ, hc]; rfl
  | succ f ih =>
    intro s hno f' hle
    obtain ⟨g, rfl⟩ : ∃ g, f' = g + 1 := ⟨f' - 1, by omega⟩
    rw [whileLoop_succ] at hno ⊢
    rw [whileLoop_succ]
    cases hc : cond s with
    | false => rfl
    | true =>
      rw [hc] at hno
      simp only [if_true] at hno ⊢
      cases hb : body s with
      | error e => rfl
      | ok s' =>
        rw [hb, ok_bind] at hno
        rw [ok_bind, ok_bind]
        exact ih s' hno g (by omega)

/-- With a measure that every returning iteration decreases and that is positive
whenever the loop condition holds, a budget of at least `μ s` iterations is never
exhausted. -/
theorem whileLoop_noFuelFault {σ : Type} (μ : σ → Nat) (cond : σ → Bool) (body : σ → Exec σ)
    (hdec : ∀ s s', cond s = true → body s = Except.ok s' → μ s' < μ s)
    (hpos : ∀ s, cond s = true → 0 < μ s)
    (hbody : ∀ s, NoFuelFault (body s)) :
    ∀ (f : Nat) (s : σ), μ s ≤ f → NoFuelFault (whileLoop f cond body s) := by
  intro f
  induction f with
  | zero =>
    intro s hs
    rw [whileLoop_zero]
    cases hc : cond s with
    | true =>
      have := hpos s hc
      omega
    | false => exact NoFuelFault.ok s
  | succ f ih =>
    intro s hs
    rw [whileLoop_succ]
    cases hc : cond s with
    | false => exact NoFuelFault.ok s
    | true =>
      simp only [if_true]
      cases hb : body s with
      | error e =>
        have := hbody s
        rw [hb] at this
        exact this
      | ok s' =>
        have hlt := hdec s s' hc hb
        exact ih s' (by omega)

/-- What a returning `while` loop leaves behind: an invariant kept by the returning
iterations holds and the condition is false. -/
theorem whileLoop_post {σ : Type} (P : σ → Prop) (cond : σ → Bool) (body : σ → Exec σ)
    (hstep : ∀ s s', P s → cond s = true → body s = Except.ok s' → P s') :
    ∀ (f : Nat) (s s' : σ), P s → whileLoop f cond body s = Except.ok s' →
      P s' ∧ cond s' = false := by
  intro f
  induction f with
  | zero =>
    intro s s' hP hrun
    rw [whileLoop_zero] at hrun
    cases hc : cond s with
    | true => rw [hc] at hrun; cases hrun
    | false =>
      rw [hc] at hrun
      simp only [Bool.false_eq_true, if_false, Except.ok.injEq] at hrun
      subst hrun
      exact ⟨hP, hc⟩
  | succ f ih =>
    intro s s' hP hrun
    rw [whileLoop_succ] at hrun
    cases hc : cond s with
    | false =>
      rw [hc] at hrun
      simp only [Bool.false_eq_true, if_false, Except.ok.injEq] at hrun
      subst hrun
      exact ⟨hP, hc⟩
    | true =>
      rw [hc] at hrun
      simp only [if_true, bind_eq_ok] at hrun
      obtain ⟨s1, hb, hrest⟩ := hrun
      exact ih s1 s' (hstep s s1 hP hc hb) hrest

/-- A `while` loop whose iterations return, keep an invariant and decrease a measure
returns when the budget is at least the measure. -/
theorem whileLoop_rule {σ : Type} (P : σ → Prop) (μ : σ → Nat) (cond : σ → Bool)
    (body : σ → Exec σ)
    (hstep : ∀ s, P s → cond s = true → ∃ s', body s = Except.ok s' ∧ P s' ∧ μ s' < μ s) :
    ∀ (f : Nat) (s : σ), P s → μ s ≤ f →
      ∃ s', whileLoop f cond body s = Except.ok s' ∧ P s' ∧ cond s' = false := by
  intro f
  induction f with
  | zero =>
    intro s hP hs
    rw [whileLoop_zero]
    cases hc : cond s with
    | true =>
      obtain ⟨s', _, _, hlt⟩ := hstep s hP hc
      omega
    | false => exact ⟨s, rfl, hP, hc⟩
  | succ f ih =>
    intro s hP hs
    rw [whileLoop_succ]
    cases hc : cond s with
    | false => exact ⟨s, rfl, hP, hc⟩
    | true =>
      obtain ⟨s1, hb, hP1, hlt⟩ := hstep s hP hc
      simp only [if_true]
      rw [hb, ok_bind]
      exact ih s1 hP1 (by omega)


theorem GetSetAccuracyAndMSE_fields {exp : α → α} {t : NetworkTrainer α} {S : TrainingSet α}
    {r : NetworkTrainer α × Stat α × Stat α} (h : GetSetAccuracyAndMSE exp t S = Except.ok r) :
    r.1.m_maxEpochs = t.m_maxEpochs ∧ r.1.m_currentEpoch = t.m_currentEpoch ∧
      r.1.m_desiredAccuracy = t.m_desiredAccuracy ∧
      r.1.m_trainingSetAccuracy = t.m_trainingSetAccuracy ∧
      r.1.m_generalizationSetAccuracy = t.m_generalizationSetAccuracy := by
  have hf := GetSetAccuracyAndMSE_frame h t.m_pNetwork
  have h1 : (r.1.withNetwork t.m_pNetwork).m_maxEpochs
      = (t.withNetwork t.m_pNetwork).m_maxEpochs := by rw [hf]
  have h2 : (r.1.withNetwork t.m_pNetwork).m_currentEpoch
      = (t.withNetwork t.m_pNetwork).m_currentEpoch := by rw [hf]
  have h3 : (r.1.withNetwork t.m_pNetwork).m_desiredAccuracy
      = (t.withNetwork t.m_pNetwork).m_desiredAccuracy := by rw [hf]
  have h4 : (r.1.withNetwork t.m_pNetwork).m_trainingSetAccuracy
      = (t.withNetwork t.m_pNetwork).m_trainingSetAccuracy := by rw [hf]
  have h5 : (r.1.withNetwork t.m_pNetwork).m_generalizationSetAccuracy
      = (t.withNetwork t.m_pNetwork).m_generalizationSetAccuracy := by rw [hf]
  exact ⟨h1, h2, h3, h4, h5⟩

/-- A returning iteration of the main loop of `Train` adds one to the epoch counter and
leaves `m_maxEpochs` and `m_desiredAccuracy` alone. -/
theorem TrainBody_fields {exp : α → α} {data : TrainingData α} {t t' : NetworkTrainer α}
    (h : TrainBody exp data t = Except.ok t') :
    t'.m_maxEpochs = t.m_maxEpochs ∧ t'.m_currentEpoch = t.m_currentEpoch + 1 ∧
      t'.m_desiredAccuracy = t.m_desiredAccuracy := by
  unfold TrainBody at h
  simp only [bind_eq_ok, pure_eq_ok, Except.ok.injEq] at h
  obtain ⟨t1, hrun, g, hget, rfl⟩ := h
  have hf := RunEpoch_frame hrun
  obtain ⟨h1, h2, h3, -, -⟩ := GetSetAccuracyAndMSE_fields hget
  exact ⟨h1.trans hf.maxEpochs, by simp only [h2, hf.currentEpoch],
    h3.trans hf.desiredAccuracy⟩

theorem TrainCondition_epoch {t : NetworkTrainer α} (h : TrainCondition t = true) :
    t.m_currentEpoch < t.m_maxEpochs := by
  unfold TrainCondition at h
  simp only [Bool.and_eq_true, decide_eq_true_eq] at h
  exact h.2

/-- The main loop of `Train`, started after the reset, never needs more than
`m_maxEpochs` iterations. -/
theorem TrainLoop_noFuelFault (exp : α → α) (data : TrainingData α) (t : NetworkTrainer α)
    (fuel : Nat) (hfuel : t.m_maxEpochs ≤ fuel) :
    NoFuelFault (whileLoop fuel TrainCondition (TrainBody exp data) (TrainReset t)) := by
  apply whileLoop_noFuelFault (fun s => s.m_maxEpochs - s.m_currentEpoch)
  · intro s s' hc hb
    obtain ⟨h1, h2, -⟩ := TrainBody_fields hb
    have := TrainCondition_epoch hc
    simp only [h1, h2]
    omega
  · intro s hc
    have := TrainCondition_epoch hc
    omega
  · exact NoFuelFault.TrainBody exp data
  · simpa [TrainReset] using hfuel

/-- State of the trainer at the exit of the main loop of a returning `Train`. -/
theorem Train_eq_ok {exp : α → α} {fuel : Nat} {t t' : NetworkTrainer α}
    {data : TrainingData α} (h : Train exp fuel t data = Except.ok t') :
    ∃ s, whileLoop fuel TrainCondition (TrainBody exp data) (TrainReset t) = Except.ok s ∧
      t'.m_maxEpochs = s.m_maxEpochs ∧ t'.m_currentEpoch = s.m_currentEpoch ∧
      t'.m_desiredAccuracy = s.m_desiredAccuracy ∧
      t'.m_trainingSetAccuracy = s.m_trainingSetAccuracy ∧
      t'.m_generalizationSetAccuracy = s.m_generalizationSetAccuracy := by
  unfold Train at h
  simp only [bind_eq_ok, pure_eq_ok, Except.ok.injEq] at h
  obtain ⟨s, hloop, v, hget, rfl⟩ := h
  obtain ⟨h1, h2, h3, h4, h5⟩ := GetSetAccuracyAndMSE_fields hget
  exact ⟨s, hloop, h1, h2, h3, h4, h5⟩

end FuelOps

/-! ## Epochs and `Train` return on well-sized data -/

section Success2

variable {α : Type} [LinearOrderedField α]

/-- `Evaluate` keeps the class invariant, the bias slots and the dimensions. -/
theorem Evaluate_shaped (exp : α → α) (net : Network α) (x : List α)
    (hs : net.Shaped) (hb : net.BiasSet) (hx : x.length = net.m_numInputs) :
    ∃ net', Evaluate exp net x = Except.ok net' ∧ net'.Shaped ∧ net'.BiasSet ∧
      net'.m_numInputs = net.m_numInputs ∧ net'.m_numHidden = net.m_numHidden ∧
      net'.m_numOutputs = net.m_numOutputs := by
  refine ⟨_, Evaluate_ok exp net x hs hb hx, ⟨?_, ?_, ?_, ?_, hs.5, hs.6⟩, ⟨?_, ?_⟩,
    rfl, rfl, rfl⟩
  · simp [hx]
  · simp
  · simp
  · simp
  · simp
  · simp

theorem forEach_rule {β σ : Type} (P : σ → Prop) (body : β → σ → Exec σ) (es : List β)
    (hstep : ∀ e s, e ∈ es → P s → ∃ s', body e s = Except.ok s' ∧ P s') (s : σ) (h0 : P s) :
    ∃ s', forEach es body s = Except.ok s' ∧ P s' := by
  induction es generalizing s with
  | nil => exact ⟨s, rfl, h0⟩
  | cons e es ih =>
    obtain ⟨s1, h1, hP1⟩ := hstep e s (List.mem_cons_self _ _) h0
    obtain ⟨s2, h2, hP2⟩ := ih (fun e s he hP => hstep e s (List.mem_cons_of_mem _ he) hP) s1 hP1
    exact ⟨s2, by rw [forEach_cons, h1, ok_bind, h2], hP2⟩

theorem RunEpochOutputs_ok (net : Network α) (expectedOutputs : List Int) (MSE : α)
    (hs : net.Shaped) (he : expectedOutputs.length = net.m_numOutputs) :
    ∃ c, RunEpochOutputs net expectedOutputs MSE = Except.ok c := by
  unfold RunEpochOutputs
  obtain ⟨c, hrun, -⟩ := forLoop_rule (fun _ (_ : Bool × α) => True) net.m_numOutputs
    (fun outputIdx (s : Bool × α) => do
      let c ← rd net.m_clampedOutputs outputIdx
      let e ← rd expectedOutputs outputIdx
      let resultCorrect := if c ≠ e then false else s.1
      let y ← rd net.m_outputNeurons outputIdx
      pure (resultCorrect, s.2 + (y - (e : α)) ^ 2)) (true, MSE) trivial
    (by
      intro k s hk _
      beta_reduce
      rw [rd_ok (by rw [hs.clampedOutputs]; exact hk), ok_bind, rd_ok (by rw [he]; exact hk),
        ok_bind, rd_ok (by rw [hs.outputNeurons]; exact hk), ok_bind]
      exact ⟨_, rfl, trivial⟩)
  exact ⟨c, hrun⟩

theorem GetSetOutputs_ok (net : Network α) (expectedOutputs : List Int) (MSE : α)
    (hs : net.Shaped) (he : expectedOutputs.length = net.m_numOutputs) :
    ∃ c, GetSetOutputs net expectedOutputs MSE = Except.ok c := by
  unfold GetSetOutputs
  obtain ⟨c, hrun, -⟩ := forLoop_rule (fun _ (_ : Bool × α) => True) net.m_numOutputs
    (fun outputIdx (s : Bool × α) => do
      let c ← rd net.m_clampedOutputs outputIdx
      let e ← rd expectedOutputs outputIdx
      let correctResult := if (c : α) ≠ (e : α) then false else s.1
      let y ← rd net.m_outputNeurons outputIdx
      pure (correctResult, s.2 + (y - (e : α)) ^ 2)) (true, MSE) trivial
    (by
      intro k s hk _
      beta_reduce
      rw [rd_ok (by rw [hs.clampedOutputs]; exact hk), ok_bind, rd_ok (by rw [he]; exact hk),
        ok_bind, rd_ok (by rw [hs.outputNeurons]; exact hk), ok_bind]
      exact ⟨_, rfl, trivial⟩)
  exact ⟨c, hrun⟩

theorem RunEpochEntry_ok (exp : α → α) (e : TrainingEntry α) (t : NetworkTrainer α) (MSE : α)
    (n h m : Nat) (hs : t.ShapedAs n h m) (he : e.Fits n m)
    (hb : t.m_useBatchLearning = true → m ≤ n + 1) :
    ∃ r, RunEpochEntry exp e t MSE = Except.ok r ∧ r.1.ShapedAs n h m := by
  unfold RunEpochEntry
  obtain ⟨net, hev, hsh, hbi, h1, h2, h3⟩ := Evaluate_shaped exp t.m_pNetwork e.m_inputs
    hs.network hs.bias (by rw [he.1, hs.numInputs])
  rw [hev, ok_bind]
  obtain ⟨t1, hbp, hs1⟩ := Backpropagate_ok { t with m_pNetwork := net } n h m
    e.m_expectedOutputs
    ⟨h1.trans hs.numInputs, h2.trans hs.numHidden, h3.trans hs.numOutputs, hsh, hbi,
      hs.deltaInputHidden, hs.deltaHiddenOutput, hs.errorGradientsHidden,
      hs.errorGradientsOutput⟩ he.2 hb
  rw [hbp, ok_bind]
  obtain ⟨c, hc⟩ := RunEpochOutputs_ok t1.m_pNetwork e.m_expectedOutputs MSE hs1.network
    (by rw [he.2, hs1.numOutputs])
  rw [hc, ok_bind]
  exact ⟨_, rfl, hs1⟩

theorem GetSetEntry_ok (exp : α → α) (e : TrainingEntry α) (t : NetworkTrainer α) (MSE : α)
    (n h m : Nat) (hs : t.ShapedAs n h m) (he : e.Fits n m) :
    ∃ r, GetSetEntry exp e t MSE = Except.ok r ∧ r.1.ShapedAs n h m := by
  unfold GetSetEntry
  obtain ⟨net, hev, hsh, hbi, h1, h2, h3⟩ := Evaluate_shaped exp t.m_pNetwork e.m_inputs
    hs.network hs.bias (by rw [he.1, hs.numInputs])
  rw [hev, ok_bind]
  obtain ⟨c, hc⟩ := GetSetOutputs_ok net e.m_expectedOutputs MSE hsh
    (by rw [he.2, h3, hs.numOutputs])
  simp only
  rw [hc, ok_bind]
  exact ⟨_, rfl, h1.trans hs.numInputs, h2.trans hs.numHidden, h3.trans hs.numOutputs, hsh, hbi,
      hs.deltaInputHidden, hs.deltaHiddenOutput, hs.errorGradientsHidden,
      hs.errorGradientsOutput⟩

theorem RunEpochStep_ok (exp : α → α) (e : TrainingEntry α) (s : NetworkTrainer α × α × α)
    (n h m : Nat) (hs : s.1.ShapedAs n h m) (he : e.Fits n m)
    (hb : s.1.m_useBatchLearning = true → m ≤ n + 1) :
    ∃ s', RunEpochStep exp e s = Except.ok s' ∧ s'.1.ShapedAs n h m := by
  unfold RunEpochStep
  obtain ⟨r, hr, hs1⟩ := RunEpochEntry_ok exp e s.1 s.2.2 n h m hs he hb
  rw [hr, ok_bind]
  split_ifs
  · exact ⟨_, rfl, hs1⟩
  · exact ⟨_, rfl, hs1⟩

theorem GetSetStep_ok (exp : α → α) (e : TrainingEntry α) (s : NetworkTrainer α × α × α)
    (n h m : Nat) (hs : s.1.ShapedAs n h m) (he : e.Fits n m) :
    ∃ s', GetSetStep exp e s = Except.ok s' ∧ s'.1.ShapedAs n h m := by
  unfold GetSetStep
  obtain ⟨r, hr, hs1⟩ := GetSetEntry_ok exp e s.1 s.2.2 n h m hs he
  rw [hr, ok_bind]
  split_ifs
  · exact ⟨_, rfl, hs1⟩
  · exact ⟨_, rfl, hs1⟩

/-- `RunEpoch` returns and keeps the invariant on a well-sized trainer and training set,
in stochastic mode for every shape and in batch mode when `m ≤ n + 1`. -/
theorem RunEpoch_ok (exp : α → α) (t : NetworkTrainer α) (S : TrainingSet α) (n h m : Nat)
    (hs : t.ShapedAs n h m) (hS : ∀ e, e ∈ S → e.Fits n m)
    (hb : t.m_useBatchLearning = true → m ≤ n + 1) :
    ∃ t', RunEpoch exp t S = Except.ok t' ∧ t'.ShapedAs n h m := by
  unfold RunEpoch
  obtain ⟨s, hrun, hsh, hfr⟩ := forEach_rule
    (fun (s : NetworkTrainer α × α × α) => s.1.ShapedAs n h m ∧ NetworkTrainer.EpochFrame t s.1)
    (RunEpochStep exp) S
    (by
      intro e s he hP
      obtain ⟨s', hstep, hs'⟩ := RunEpochStep_ok exp e s n h m hP.1 (hS e he)
        (by rw [hP.2.useBatchLearning]; exact hb)
      exact ⟨s', hstep, hs', EpochFrame.trans hP.2 (RunEpochStep_frame hstep)⟩)
    (t, 0, 0) ⟨hs, EpochFrame.refl t⟩
  rw [hrun, ok_bind]
  simp only
  split_ifs with hmode
  · obtain ⟨t1, hu, hs1⟩ := UpdateWeights_ok s.1 n h m hsh
      (by rw [hfr.useBatchLearning]; exact hb)
    rw [hu, ok_bind]
    exact ⟨_, rfl, hs1.1, hs1.2, hs1.3, hs1.4, hs1.5, hs1.6, hs1.7, hs1.8, hs1.9⟩
  · rw [pure_eq_ok, ok_bind]
    exact ⟨_, rfl, hsh.1, hsh.2, hsh.3, hsh.4, hsh.5, hsh.6, hsh.7, hsh.8, hsh.9⟩

/-- `GetSetAccuracyAndMSE` returns and keeps the invariant on a well-sized trainer and
set. -/
theorem GetSetAccuracyAndMSE_ok (exp : α → α) (t : NetworkTrainer α) (S : TrainingSet α)
    (n h m : Nat) (hs : t.ShapedAs n h m) (hS : ∀ e, e ∈ S → e.Fits n m) :
    ∃ r, GetSetAccuracyAndMSE exp t S = Except.ok r ∧ r.1.ShapedAs n h m := by
  unfold GetSetAccuracyAndMSE
  obtain ⟨s, hrun, hsh⟩ := forEach_rule
    (fun (s : NetworkTrainer α × α × α) => s.1.ShapedAs n h m) (GetSetStep exp) S
    (fun e s he hP => GetSetStep_ok exp e s n h m hP (hS e he)) (t, 0, 0) hs
  rw [hrun, ok_bind]
  exact ⟨_, rfl, hsh⟩

theorem TrainBody_ok (exp : α → α) (data : TrainingData α) (t : NetworkTrainer α)
    (n h m : Nat) (hs : t.ShapedAs n h m) (hd : data.Fits n m)
    (hb : t.m_useBatchLearning = true → m ≤ n + 1) :
    ∃ t', TrainBody exp data t = Except.ok t' ∧ t'.ShapedAs n h m := by
  unfold TrainBody
  obtain ⟨t1, hrun, hs1⟩ := RunEpoch_ok exp t data.m_trainingSet n h m hs hd.1 hb
  rw [hrun, ok_bind]
  obtain ⟨g, hget, hs2⟩ := GetSetAccuracyAndMSE_ok exp t1 data.m_generalizationSet n h m hs1 hd.2.1
  rw [hget, ok_bind]
  exact ⟨_, rfl, hs2.1, hs2.2, hs2.3, hs2.4, hs2.5, hs2.6, hs2.7, hs2.8, hs2.9⟩

/-- `Train` returns on a well-sized trainer and well-sized data when the budget is at
least `maxEpochs`, in stochastic mode for every shape and in batch mode when
`m ≤ n + 1`. -/
theorem Train_ok (exp : α → α) (fuel : Nat) (t : NetworkTrainer α) (data : TrainingData α)
    (n h m : Nat) (hs : t.ShapedAs n h m) (hd : data.Fits n m)
    (hb : t.m_useBatchLearning = true → m ≤ n + 1) (hfuel : t.m_maxEpochs ≤ fuel) :
    ∃ t', Train exp fuel t data = Except.ok t' := by
  unfold Train
  obtain ⟨s, hloop, ⟨hsh, hbatch, -⟩, -⟩ := whileLoop_rule
    (fun s => s.ShapedAs n h m ∧ s.m_useBatchLearning = t.m_useBatchLearning
      ∧ s.m_maxEpochs = t.m_maxEpochs)
    (fun s => s.m_maxEpochs - s.m_currentEpoch) TrainCondition (TrainBody exp data)
    (by
      intro s hP hc
      obtain ⟨s', hbody, hs'⟩ := TrainBody_ok exp data s n h m hP.1 hd
        (by rw [hP.2.1]; exact hb)
      obtain ⟨h1, h2, -⟩ := TrainBody_fields hbody
      have := TrainCondition_epoch hc
      refine ⟨s', hbody, ⟨hs', ?_, h1.trans hP.2.2⟩, by simp only [h1, h2]; omega⟩
      unfold TrainBody at hbody
      simp only [bind_eq_ok, pure_eq_ok, Except.ok.injEq] at hbody
      obtain ⟨t1, hrun, g, hget, rfl⟩ := hbody
      have hf := GetSetAccuracyAndMSE_frame hget t.m_pNetwork
      have h5 : (g.1.withNetwork t.m_pNetwork).m_useBatchLearning
          = (t1.withNetwork t.m_pNetwork).m_useBatchLearning := by rw [hf]
      exact (h5.trans (RunEpoch_frame hrun).useBatchLearning).trans hP.2.1)
    fuel (TrainReset t)
    ⟨⟨hs.1, hs.2, hs.3, hs.4, hs.5, hs.6, hs.7, hs.8, hs.9⟩, rfl, rfl⟩
    (by simpa [TrainReset] using hfuel)
  rw [show (TrainReset t) = TrainReset t from rfl] at hloop
  simp only
  rw [hloop, ok_bind]
  obtain ⟨v, hget, -⟩ := GetSetAccuracyAndMSE_ok exp s data.m_validationSet n h m hsh hd.2.2
  rw [hget, ok_bind]
  exact ⟨_, rfl⟩

end Success2

/-! ## The tally of `RunEpoch` -/

section Tally
variable {α : Type} [LinearOrderedField α]

theorem create_shapedAs (settings : TrainerSettings α) (net : Network α) (hs : net.Shaped)
    (hb : net.BiasSet) :
    (NetworkTrainer.create settings net).ShapedAs net.m_numInputs net.m_numHidden
      net.m_numOutputs := by
  refine ⟨rfl, rfl, rfl, hs, hb, ?_, ?_, ?_, ?_⟩
  · simp [NetworkTrainer.create, memsetZero, resize, hs.weightsInputHidden]
  · simp [NetworkTrainer.create, memsetZero, resize, hs.weightsHiddenOutput]
  · simp [NetworkTrainer.create, memsetZero, resize, hs.hiddenNeurons]
  · simp [NetworkTrainer.create, memsetZero, resize, hs.outputNeurons]

theorem sampleTrainer_shapedAs : sampleTrainer.ShapedAs 1 1 1 :=
  create_shapedAs _ sampleNet sampleNet_shaped sampleNet_biasSet

theorem lazyTrainer_shapedAs : lazyTrainer.ShapedAs 1 1 1 :=
  create_shapedAs _ sampleNet sampleNet_shaped sampleNet_biasSet

theorem sampleData_fits : sampleData.Fits 1 1 := by
  refine ⟨?_, ?_, ?_⟩ <;> intro e he <;> simp [sampleData] at he
  subst he
  exact ⟨rfl, rfl⟩

theorem fullData_fits : fullData.Fits 1 1 := by
  refine ⟨?_, ?_, ?_⟩ <;> intro e he <;> simp [fullData] at he <;> subst he <;>
    exact ⟨rfl, rfl⟩

/-- The counter `incorrectEntries` at the end of the entry loop of `RunEpoch` is its
initial value plus the number of entries tallied as incorrect. -/
theorem forEach_RunEpochStep_tally (exp : α → α) (es : List (TrainingEntry α)) :
    ∀ (t : NetworkTrainer α) (inc MSE : α) (s : NetworkTrainer α × α × α),
      forEach es (RunEpochStep exp) (t, inc, MSE) = Except.ok s →
      s.2.1 = inc + (RunEpochIncorrect exp es t MSE : α) := by
  induction es with
  | nil =>
    intro t inc MSE s h
    simp only [forEach_nil, Except.ok.injEq] at h
    subst h
    simp [RunEpochIncorrect]
  | cons e es ih =>
    intro t inc MSE s h
    rw [forEach_cons, bind_eq_ok] at h
    obtain ⟨s1, hstep, hrest⟩ := h
    unfold RunEpochStep at hstep
    simp only [bind_eq_ok] at hstep
    obtain ⟨r, hr, hstep⟩ := hstep
    rw [RunEpochIncorrect, hr]
    cases hflag : r.2.1 with
    | true =>
      simp only [hflag, Bool.not_true, Bool.false_eq_true, if_false, pure_eq_ok,
        Except.ok.injEq] at hstep
      subst hstep
      rw [ih r.1 inc r.2.2 s hrest]
      simp [hflag]
    | false =>
      simp only [hflag, Bool.not_false, if_true, pure_eq_ok, Except.ok.injEq] at hstep
      subst hstep
      rw [ih r.1 (inc + 1) r.2.2 s hrest]
      simp only [hflag, Bool.false_eq_true, if_false, Nat.cast_add, Nat.cast_one]
      ring

theorem RunEpochIncorrect_le (exp : α → α) (es : List (TrainingEntry α)) :
    ∀ (t : NetworkTrainer α) (MSE : α), RunEpochIncorrect exp es t MSE ≤ es.length := by
  induction es with
  | nil => intro t MSE; simp [RunEpochIncorrect]
  | cons e es ih =>
    intro t MSE
    rw [RunEpochIncorrect]
    split
    · rename_i r _
      have := ih r.1 r.2.2
      simp only [List.length_cons]
      split_ifs <;> omega
    · exact Nat.zero_le _

end Tally

/-! ## Claims about the network -/

section NetworkClaims
variable {α : Type} [LinearOrderedField α]

theorem getElem?_tabulate {β : Type} (F : Nat → β) (N : Nat) (tl : List β) (j : Nat)
    (hj : j < N) : ((List.range N).map F ++ tl)[j]? = some (F j) := by
  rw [List.getElem?_append_left (by simpa using hj)]
  simp [List.getElem?_range hj]

/-- C1: on a network that satisfies the class invariant and whose two bias slots hold
`-1`, `Evaluate` on an input `x` of length `numInputs` returns; hidden activation
`j < numHidden` is `sigma (sum_{i<n} x_i * W1[i*h+j] - W1[n*h+j])` and output
activation `k < numOutputs` is `sigma (sum_{j<h} hidden_j * W2[j*m+k] - W2[h*m+k])`
with `sigma z = 1 / (1 + e^(-z))` over the reals. -/
theorem C1_Evaluate_equals_reference (net : Network ℝ) (x : List ℝ)
    (hs : net.Shaped) (hb : net.BiasSet) (hx : x.length = net.m_numInputs) :
    ∃ net', Evaluate Real.exp net x = Except.ok net' ∧
      (∀ j, j < net.m_numHidden → net'.m_hiddenNeurons[j]? = some (1 / (1 + Real.exp (-(
        ∑ i in Finset.range net.m_numInputs,
          x.getD i 0 * net.m_weightsInputHidden.getD (i * net.m_numHidden + j) 0
        - net.m_weightsInputHidden.getD (net.m_numInputs * net.m_numHidden + j) 0))))) ∧
      (∀ k, k < net.m_numOutputs → net'.m_outputNeurons[k]? = some (1 / (1 + Real.exp (-(
        ∑ j in Finset.range net.m_numHidden,
          net'.m_hiddenNeurons.getD j 0 * net.m_weightsHiddenOutput.getD (j * net.m_numOutputs + k) 0
        - net.m_weightsHiddenOutput.getD (net.m_numHidden * net.m_numOutputs + k) 0))))) := by
  refine ⟨_, Evaluate_ok Real.exp net x hs hb hx, ?_, ?_⟩
  · intro j hj
    exact getElem?_tabulate _ _ _ _ hj
  · intro k hk
    simp only
    rw [List.getElem?_map, List.getElem?_range hk, Option.map_some']
    congr 1
    unfold Reference.output
    congr 5
    apply Finset.sum_congr rfl
    intro j hj
    rw [getD_tabulate_lt _ _ _ _ _ (Finset.mem_range.mp hj)]


/-- Witness for C1: the hypotheses hold for `sampleNetReal` and the input `[0]`. -/
theorem C1_Evaluate_equals_reference_witness :
    sampleNetReal.Shaped ∧ sampleNetReal.BiasSet ∧
      ∃ net', Evaluate Real.exp sampleNetReal [0] = Except.ok net' :=
  ⟨sampleNetReal_shaped, sampleNetReal_biasSet,
    (C1_Evaluate_equals_reference sampleNetReal [0] sampleNetReal_shaped
      sampleNetReal_biasSet rfl).imp (fun _ h => h.1)⟩

theorem ClampOutputValue_cases (y : α) :
    ClampOutputValue y = 0 ∨ ClampOutputValue y = 1 ∨ ClampOutputValue y = -1 := by
  unfold ClampOutputValue
  split_ifs <;> simp

/-- C2: on a network that satisfies the class invariant (bias slots at `-1`), `Evaluate`
on an input of length `numInputs` returns a clamped-output vector of length exactly
`numOutputs` whose elements are all `0`, `1` or `-1`. -/
theorem C2_Evaluate_clamped_vector (exp : α → α) (net : Network α) (x : List α)
    (hs : net.Shaped) (hb : net.BiasSet) (hx : x.length = net.m_numInputs) :
    ∃ net', Evaluate exp net x = Except.ok net' ∧
      net'.m_clampedOutputs.length = net.m_numOutputs ∧
      ∀ c, c ∈ net'.m_clampedOutputs → c = 0 ∨ c = 1 ∨ c = -1 := by
  refine ⟨_, Evaluate_ok exp net x hs hb hx, by simp, ?_⟩
  intro c hc
  simp only [List.mem_map, List.mem_range] at hc
  obtain ⟨k, _, rfl⟩ := hc
  exact ClampOutputValue_cases _

/-- Witness for C2: `sampleNet`, the input `[0]` and a constant in place of `exp`. -/
theorem C2_Evaluate_clamped_vector_witness :
    ∃ net', Evaluate (fun _ => (1 : ℚ)) sampleNet [0] = Except.ok net' ∧
      net'.m_clampedOutputs.length = 1 ∧
      ∀ c, c ∈ net'.m_clampedOutputs → c = 0 ∨ c = 1 ∨ c = -1 :=
  C2_Evaluate_clamped_vector (fun _ => (1 : ℚ)) sampleNet [0] sampleNet_shaped
    sampleNet_biasSet rfl

/-- C3: after `Evaluate`, for every output unit `k` the clamped output is `0` exactly
when the activation is below `0.1`, `1` exactly when it is above `0.9`, and `-1`
exactly in the remaining cases, among them the activations `0.1` and `0.9`. -/
theorem C3_clamp_thresholds (exp : α → α) (net : Network α) (x : List α)
    (hs : net.Shaped) (hb : net.BiasSet) (hx : x.length = net.m_numInputs) :
    ∃ net', Evaluate exp net x = Except.ok net' ∧
      ∀ k, k < net.m_numOutputs → ∃ y c,
        net'.m_outputNeurons[k]? = some y ∧ net'.m_clampedOutputs[k]? = some c ∧
        (c = 0 ↔ y < 0.1) ∧ (c = 1 ↔ y > 0.9) ∧
        (c = -1 ↔ (0.1 ≤ y ∧ y ≤ 0.9)) ∧ (y = 0.1 → c = -1) ∧ (y = 0.9 → c = -1) := by
  refine ⟨_, Evaluate_ok exp net x hs hb hx, ?_⟩
  intro k hk
  refine ⟨Reference.output exp net x k, ClampOutputValue (Reference.output exp net x k),
    ?_, ?_, ?_⟩
  · simp [List.getElem?_range hk]
  · simp [List.getElem?_range hk]
  · generalize Reference.output exp net x k = y
    have h19 : (0.1 : α) < 0.9 := by norm_num
    unfold ClampOutputValue
    refine ⟨?_, ?_, ?_, ?_, ?_⟩
    · split_ifs with h1 h2 <;> simp [h1]
    · split_ifs with h1 h2
      · simp; exact le_of_lt (lt_trans h1 h19)
      · simp [h2]
      · simp; exact not_lt.mp h2
    · split_ifs with h1 h2
      · simp; intro h; exact absurd h1 (not_lt.mpr h)
      · simp; intro _; exact h2
      · simp; exact ⟨not_lt.mp h1, not_lt.mp h2⟩
    · intro h; subst h; simp [le_of_lt h19]
    · intro h; subst h; simp [not_lt.mpr (le_of_lt h19)]

/-- Witness for C3: `sampleNet`, the input `[0]` and a constant in place of `exp`. -/
theorem C3_clamp_thresholds_witness :
    sampleNet.Shaped ∧ sampleNet.BiasSet ∧
      ∃ net', Evaluate (fun _ => (1 : ℚ)) sampleNet [0] = Except.ok net' :=
  ⟨sampleNet_shaped, sampleNet_biasSet,
    (C3_clamp_thresholds (fun _ => (1 : ℚ)) sampleNet [0] sampleNet_shaped
      sampleNet_biasSet rfl).imp (fun _ h => h.1)⟩

/-- C4: for positive dimensions, the weight-loading constructor stops on its assertion
exactly when the list length differs from `numInputs*numHidden + numHidden*numOutputs`,
and returns a network for every list of exactly that length. -/
theorem C4_load_rejects_iff_wrong_length (settings : NetworkSettings) (weights : List α)
    (hpos : settings.m_numInputs > 0 ∧ settings.m_numOutputs > 0 ∧ settings.m_numHidden > 0) :
    ((Network.load settings weights = (Except.error Fault.assertion : Exec (Network α))) ↔
        weights.length ≠ settings.m_numInputs * settings.m_numHidden
          + settings.m_numHidden * settings.m_numOutputs) ∧
      ((∃ net : Network α, Network.load settings weights = Except.ok net) ↔
        weights.length = settings.m_numInputs * settings.m_numHidden
          + settings.m_numHidden * settings.m_numOutputs) := by
  by_cases hlen : weights.length = settings.m_numInputs * settings.m_numHidden
      + settings.m_numHidden * settings.m_numOutputs
  · rw [Network.load_ok settings weights hpos hlen]
    simp [hlen]
  · rw [Network.load_wrong_length settings weights hlen]
    simp [hlen]

/-- Witness for C4: shape 1-1-1. -/
theorem C4_load_rejects_iff_wrong_length_witness :
    (∃ net : Network ℚ, Network.load ⟨1, 1, 1⟩ [1, 2] = Except.ok net) ∧
      Network.load ⟨1, 1, 1⟩ [1, 2, 3] = (Except.error Fault.assertion : Exec (Network ℚ)) :=
  ⟨(C4_load_rejects_iff_wrong_length ⟨1, 1, 1⟩ ([1, 2] : List ℚ) (by decide)).2.mpr rfl,
    (C4_load_rejects_iff_wrong_length ⟨1, 1, 1⟩ ([1, 2, 3] : List ℚ) (by decide)).1.mpr
      (by decide)⟩

/-- Counterexample to C5 as stated: for shape 1-1-1 and the list `[1, 2]` the two
weight arrays read back as `[1, 0, 0, 0]` and `[2, 0]`, not as `[1, 2]`. -/
theorem C5_roundtrip_counterexample :
    ∃ net : Network ℚ, Network.load ⟨1, 1, 1⟩ [1, 2] = Except.ok net ∧
      GetInputHiddenWeights net = [1, 0, 0, 0] ∧ GetHiddenOutputWeights net = [2, 0] ∧
      GetInputHiddenWeights net ++ GetHiddenOutputWeights net ≠ [1, 2] :=
  ⟨_, Network.load_ok ⟨1, 1, 1⟩ [1, 2] (by decide) rfl, rfl, rfl, by decide⟩

/-- C5 (amended): for positive dimensions and a list `L` of length `n*h + h*m`, the
constructor returns a network in which the first `n*h` entries of
`GetInputHiddenWeights` followed by the first `h*m` entries of
`GetHiddenOutputWeights` are `L`; the other `n+h+1` resp. `m` entries are zero. -/
theorem C5_load_roundtrip_on_loaded_slots (settings : NetworkSettings) (L : List α)
    (hpos : settings.m_numInputs > 0 ∧ settings.m_numOutputs > 0 ∧ settings.m_numHidden > 0)
    (hlen : L.length = settings.m_numInputs * settings.m_numHidden
      + settings.m_numHidden * settings.m_numOutputs) :
    ∃ net : Network α, Network.load settings L = Except.ok net ∧
      (GetInputHiddenWeights net).take (settings.m_numInputs * settings.m_numHidden)
        ++ (GetHiddenOutputWeights net).take (settings.m_numHidden * settings.m_numOutputs) = L ∧
      (GetInputHiddenWeights net).drop (settings.m_numInputs * settings.m_numHidden)
        = List.replicate (settings.m_numInputs + settings.m_numHidden + 1) 0 ∧
      (GetHiddenOutputWeights net).drop (settings.m_numHidden * settings.m_numOutputs)
        = List.replicate settings.m_numOutputs 0 := by
  have h1 : (L.take (settings.m_numInputs * settings.m_numHidden)).length
      = settings.m_numInputs * settings.m_numHidden := by
    rw [List.length_take]; omega
  have h2 : (L.drop (settings.m_numInputs * settings.m_numHidden)).length
      = settings.m_numHidden * settings.m_numOutputs := by
    rw [List.length_drop]; omega
  refine ⟨_, Network.load_ok settings L hpos hlen, ?_, ?_, ?_⟩
  · simp only [GetInputHiddenWeights, GetHiddenOutputWeights]
    rw [List.take_left' h1, List.take_left' h2, List.take_append_drop]
  · simp only [GetInputHiddenWeights]
    rw [List.drop_left' h1]
  · simp only [GetHiddenOutputWeights]
    rw [List.drop_left' h2]

/-- Witness for C5 (amended): shape 1-1-1 and the list `[1, 2]`. -/
theorem C5_load_roundtrip_on_loaded_slots_witness :
    ∃ net : Network ℚ, Network.load ⟨1, 1, 1⟩ [1, 2] = Except.ok net ∧
      (GetInputHiddenWeights net).take 1 ++ (GetHiddenOutputWeights net).take 1 = [1, 2] :=
  (C5_load_roundtrip_on_loaded_slots ⟨1, 1, 1⟩ ([1, 2] : List ℚ) (by decide) rfl).imp
    (fun _ h => ⟨h.1, h.2.1⟩)

/-- Counterexample to C6 as stated: for shape 1-1-1 the input->hidden weight array holds
`4` values, not `(1+1)*1 = 2`. -/
theorem C6_sizes_counterexample :
    ∃ net : Network ℚ, Network.load ⟨1, 1, 1⟩ [1, 2] = Except.ok net ∧
      net.m_weightsInputHidden.length = 4 ∧
      net.m_weightsInputHidden.length ≠ (net.m_numInputs + 1) * net.m_numHidden :=
  ⟨_, Network.load_ok ⟨1, 1, 1⟩ [1, 2] (by decide) rfl, rfl, by decide⟩

/-- C6 (amended): both constructors, when the dimensions are positive (and the list has
the accepted length), return a network whose input->hidden weight array holds exactly
`(n+1)*(h+1)` values and whose hidden->output weight array holds exactly `(h+1)*m`
values. -/
theorem C6_weight_array_sizes (settings : NetworkSettings)
    (hpos : settings.m_numInputs > 0 ∧ settings.m_numOutputs > 0 ∧ settings.m_numHidden > 0) :
    (∀ draw : Nat → α, ∃ net : Network α, Network.create draw settings = Except.ok net ∧
      net.m_weightsInputHidden.length = (settings.m_numInputs + 1) * (settings.m_numHidden + 1) ∧
      net.m_weightsHiddenOutput.length = (settings.m_numHidden + 1) * settings.m_numOutputs) ∧
    (∀ weights : List α,
      weights.length = settings.m_numInputs * settings.m_numHidden
        + settings.m_numHidden * settings.m_numOutputs →
      ∃ net : Network α, Network.load settings weights = Except.ok net ∧
      net.m_weightsInputHidden.length = (settings.m_numInputs + 1) * (settings.m_numHidden + 1) ∧
      net.m_weightsHiddenOutput.length = (settings.m_numHidden + 1) * settings.m_numOutputs) := by
  constructor
  · intro draw
    obtain ⟨w1, w2, hrun, h1, h2⟩ := Network.create_ok draw settings hpos
    exact ⟨_, hrun, h1, h2⟩
  · intro weights hlen
    refine ⟨_, Network.load_ok settings weights hpos hlen, ?_, ?_⟩
    · simp only [List.length_append, List.length_take, List.length_replicate]
      rw [Nat.min_eq_left (by omega)]
      ring
    · simp only [List.length_append, List.length_drop, List.length_replicate]
      rw [hlen]
      ring_nf
      omega

/-- Witness for C6 (amended): shape 1-1-1. -/
theorem C6_weight_array_sizes_witness :
    ∃ net : Network ℚ, Network.load ⟨1, 1, 1⟩ [1, 2] = Except.ok net ∧
      net.m_weightsInputHidden.length = 4 ∧ net.m_weightsHiddenOutput.length = 2 :=
  (C6_weight_array_sizes ⟨1, 1, 1⟩ (by decide)).2 ([1, 2] : List ℚ) rfl

end NetworkClaims

/-! ## Claims about the trainer -/

section TrainerClaims

variable {α : Type} [LinearOrderedField α]

/-- C7: the main loop of `Train` executes at most `maxEpochs` iterations: a budget of
`maxEpochs` iterations is never exhausted, a larger budget does not change the
outcome, every returning iteration adds exactly one to the epoch counter, and the
epoch counter of a returning `Train` is at most `maxEpochs`. -/
theorem C7_Train_at_most_maxEpochs (exp : α → α) (t : NetworkTrainer α)
    (data : TrainingData α) :
    NoFuelFault (Train exp t.m_maxEpochs t data) ∧
    (∀ fuel, t.m_maxEpochs ≤ fuel → Train exp fuel t data = Train exp t.m_maxEpochs t data) ∧
    (∀ s s', TrainBody exp data s = Except.ok s' → s'.m_currentEpoch = s.m_currentEpoch + 1) ∧
    (∀ fuel t', Train exp fuel t data = Except.ok t' → t'.m_currentEpoch ≤ t.m_maxEpochs) := by
  refine ⟨?_, ?_, ?_, ?_⟩
  · unfold Train
    exact NoFuelFault.bind (TrainLoop_noFuelFault exp data t _ (le_refl _))
      (fun s => NoFuelFault.bind (NoFuelFault.GetSetAccuracyAndMSE _ _ _)
        (fun v => NoFuelFault.pure _))
  · intro fuel hfuel
    unfold Train
    simp only
    rw [whileLoop_mono TrainCondition (TrainBody exp data) t.m_maxEpochs (TrainReset t)
      (TrainLoop_noFuelFault exp data t _ (le_refl _)) fuel hfuel]
  · intro s s' h
    exact (TrainBody_fields h).2.1
  · intro fuel t' h
    obtain ⟨s, hloop, -, h2, -⟩ := Train_eq_ok h
    have hpost := whileLoop_post
      (fun s => s.m_maxEpochs = t.m_maxEpochs ∧ s.m_currentEpoch ≤ s.m_maxEpochs)
      TrainCondition (TrainBody exp data)
      (by
        intro s s' hP hc hb
        obtain ⟨h1, h2, -⟩ := TrainBody_fields hb
        have := TrainCondition_epoch hc
        exact ⟨h1.trans hP.1, by rw [h1, h2]; omega⟩)
      fuel (TrainReset t) s ⟨rfl, Nat.zero_le _⟩ hloop
    rw [h2, ← hpost.1.1]
    exact hpost.1.2

/-- Counterexample to C8 as stated: with `desiredAccuracy = 0` (on the 0-100 scale) and
`maxEpochs = 1 > 0`, `Train` returns without having run an epoch: the epoch counter
is `0`. -/
theorem C8_no_epoch_counterexample :
    0 < lazyTrainer.m_maxEpochs ∧ 0 ≤ lazyTrainer.m_desiredAccuracy ∧
      lazyTrainer.m_desiredAccuracy ≤ 100 ∧
      ∃ t', Train (fun _ => (1 : ℚ)) 1 lazyTrainer sampleData = Except.ok t' ∧
        t'.m_currentEpoch = 0 := by
  refine ⟨by decide, ?_, ?_, ?_⟩
  · simp [lazyTrainer, NetworkTrainer.create]
  · simp [lazyTrainer, NetworkTrainer.create]
  · have hc : TrainCondition (TrainReset lazyTrainer) = false := by
      simp [TrainCondition, TrainReset, Stat.lt, lazyTrainer, NetworkTrainer.create]
    obtain ⟨t', hrun⟩ := Train_ok (fun _ => (1 : ℚ)) 1 lazyTrainer sampleData 1 1 1
      lazyTrainer_shapedAs sampleData_fits (by simp [lazyTrainer, NetworkTrainer.create])
      (by simp [lazyTrainer, NetworkTrainer.create])
    obtain ⟨s, hloop, -, h2, -⟩ := Train_eq_ok hrun
    rw [whileLoop_succ, hc] at hloop
    simp only [Bool.false_eq_true, if_false, Except.ok.injEq] at hloop
    subst hloop
    exact ⟨t', hrun, h2⟩

/-- C8 (amended): when `desiredAccuracy > 0` and `maxEpochs > 0`, the epoch counter of
a returning `Train` is at least `1`. -/
theorem C8_Train_runs_an_epoch (exp : α → α) (fuel : Nat) (t t' : NetworkTrainer α)
    (data : TrainingData α) (hd : 0 < t.m_desiredAccuracy) (hm : 0 < t.m_maxEpochs)
    (hrun : Train exp fuel t data = Except.ok t') : 1 ≤ t'.m_currentEpoch := by
  obtain ⟨s, hloop, -, h2, -⟩ := Train_eq_ok hrun
  rw [h2]
  have hc : TrainCondition (TrainReset t) = true := by
    simp [TrainCondition, TrainReset, Stat.lt, hd, hm]
  have hkeep : ∀ s s' : NetworkTrainer α, 1 ≤ s.m_currentEpoch → TrainCondition s = true →
      TrainBody exp data s = Except.ok s' → 1 ≤ s'.m_currentEpoch := by
    intro s s' hP _ hb
    rw [(TrainBody_fields hb).2.1]
    omega
  cases fuel with
  | zero =>
    rw [whileLoop_zero, hc] at hloop
    cases hloop
  | succ f =>
    rw [whileLoop_succ, hc] at hloop
    simp only [if_true, bind_eq_ok] at hloop
    obtain ⟨s1, hb, hrest⟩ := hloop
    have h1 : 1 ≤ s1.m_currentEpoch := by
      rw [(TrainBody_fields hb).2.1]
      omega
    exact (whileLoop_post (fun s => 1 ≤ s.m_currentEpoch) TrainCondition (TrainBody exp data)
      hkeep f s1 s h1 hrest).1

/-- Witness for C8 (amended): `sampleTrainer` (desired accuracy `90`, one epoch at most)
on `sampleData`. -/
theorem C8_Train_runs_an_epoch_witness :
    ∃ t', Train (fun _ => (1 : ℚ)) 1 sampleTrainer sampleData = Except.ok t' ∧
      1 ≤ t'.m_currentEpoch := by
  obtain ⟨t', hrun⟩ := Train_ok (fun _ => (1 : ℚ)) 1 sampleTrainer sampleData 1 1 1
    sampleTrainer_shapedAs sampleData_fits (by simp [sampleTrainer, NetworkTrainer.create])
    (by simp [sampleTrainer, NetworkTrainer.create])
  exact ⟨t', hrun, C8_Train_runs_an_epoch (fun _ => (1 : ℚ)) 1 sampleTrainer t' sampleData
    (by simp [sampleTrainer, NetworkTrainer.create])
    (by simp [sampleTrainer, NetworkTrainer.create]) hrun⟩

/-- With a non-empty set the accuracy `RunEpoch` stores is a real number. -/
theorem RunEpoch_accuracy_real {exp : α → α} {t t' : NetworkTrainer α} {S : TrainingSet α}
    (hne : S ≠ []) (h : RunEpoch exp t S = Except.ok t') :
    ∃ a, t'.m_trainingSetAccuracy = Stat.real a := by
  unfold RunEpoch at h
  simp only [bind_eq_ok, pure_eq_ok, Except.ok.injEq] at h
  obtain ⟨s, -, u, -, rfl⟩ := h
  have hN : S.length ≠ 0 := fun h0 => hne (List.length_eq_zero.mp h0)
  exact ⟨100 - s.2.1 / (S.length : α) * 100, by
    simp only [Stat.quot_of_ne _ hN, Stat.percent_real]⟩

/-- With a non-empty set the accuracy `GetSetAccuracyAndMSE` computes is a real
number. -/
theorem GetSetAccuracyAndMSE_accuracy_real {exp : α → α} {t : NetworkTrainer α}
    {S : TrainingSet α} {r : NetworkTrainer α × Stat α × Stat α} (hne : S ≠ [])
    (h : GetSetAccuracyAndMSE exp t S = Except.ok r) : ∃ a, r.2.1 = Stat.real a := by
  unfold GetSetAccuracyAndMSE at h
  simp only [bind_eq_ok, pure_eq_ok, Except.ok.injEq] at h
  obtain ⟨s, -, rfl⟩ := h
  have hN : S.length ≠ 0 := fun h0 => hne (List.length_eq_zero.mp h0)
  exact ⟨100 - s.2.1 / (S.length : α) * 100, by
    simp only [Stat.quot_of_ne _ hN, Stat.percent_real]⟩

/-- With a non-empty training and generalization set both accuracies a returning
iteration of the main loop of `Train` stores are real numbers. -/
theorem TrainBody_accuracies_real {exp : α → α} {data : TrainingData α}
    {t t' : NetworkTrainer α} (hT : data.m_trainingSet ≠ [])
    (hG : data.m_generalizationSet ≠ []) (h : TrainBody exp data t = Except.ok t') :
    (∃ a, t'.m_trainingSetAccuracy = Stat.real a) ∧
      ∃ g, t'.m_generalizationSetAccuracy = Stat.real g := by
  unfold TrainBody at h
  simp only [bind_eq_ok, pure_eq_ok, Except.ok.injEq] at h
  obtain ⟨t1, hrun, g, hget, rfl⟩ := h
  obtain ⟨a, ha⟩ := RunEpoch_accuracy_real hT hrun
  obtain ⟨b, hb⟩ := GetSetAccuracyAndMSE_accuracy_real hG hget
  obtain ⟨-, -, -, h4, -⟩ := GetSetAccuracyAndMSE_fields hget
  exact ⟨⟨a, by simp only [h4, ha]⟩, ⟨b, hb⟩⟩

/-- Counterexample to C9 as stated: on data whose three sets are empty, `Train` with
`maxEpochs = 3` and `desiredAccuracy = 90` returns after one epoch.  `RunEpoch` and
`GetSetAccuracyAndMSE` divide `0.0` by the size `0`, both accuracies are NaN, every
comparison with NaN is false, so the guard of the loop is false after the first
iteration: the epoch counter is `1`, not `maxEpochs`, and neither accuracy is at least
`desiredAccuracy`. -/
theorem C9_empty_sets_counterexample :
    (idleTrainer ℝ).m_maxEpochs = 3 ∧ (idleTrainer ℝ).m_desiredAccuracy = 90 ∧
    ∃ t', Train Real.exp 3 (idleTrainer ℝ) (emptyData ℝ) = Except.ok t' ∧
      t'.m_currentEpoch = 1 ∧
      t'.m_trainingSetAccuracy = Stat.nan ∧ t'.m_generalizationSetAccuracy = Stat.nan ∧
      ¬ (t'.m_currentEpoch = (idleTrainer ℝ).m_maxEpochs ∨
        (t'.m_trainingSetAccuracy.ge (idleTrainer ℝ).m_desiredAccuracy ∧
          t'.m_generalizationSetAccuracy.ge (idleTrainer ℝ).m_desiredAccuracy)) := by
  refine ⟨rfl, rfl, ?_⟩
  have hrun : Train Real.exp 3 (idleTrainer ℝ) (emptyData ℝ) = Except.ok
      { TrainReset (idleTrainer ℝ) with
        m_currentEpoch := 1
        m_trainingSetAccuracy := Stat.nan
        m_trainingSetMSE := Stat.nan
        m_generalizationSetAccuracy := Stat.nan
        m_generalizationSetMSE := Stat.nan
        m_validationSetAccuracy := Stat.nan
        m_validationSetMSE := Stat.nan } := by
    simp [Train, whileLoop, TrainBody, TrainCondition, TrainReset, RunEpoch,
      GetSetAccuracyAndMSE, Stat.quot, Stat.percent, Stat.lt, idleTrainer, emptyData,
      NetworkTrainer.create]
  refine ⟨_, hrun, rfl, rfl, rfl, ?_⟩
  simp [Stat.ge, idleTrainer, NetworkTrainer.create, TrainReset]

/-- C9 (amended): when `Train` returns on data whose training set and generalization set
are not empty, either the epoch counter equals `maxEpochs`, or the training-set accuracy
and the generalization-set accuracy it leaves behind are real numbers that are both at
least `desiredAccuracy`. -/
theorem C9_Train_terminal_condition (exp : α → α) (fuel : Nat) (t t' : NetworkTrainer α)
    (data : TrainingData α) (hT : data.m_trainingSet ≠ [])
    (hG : data.m_generalizationSet ≠ []) (hrun : Train exp fuel t data = Except.ok t') :
    t'.m_currentEpoch = t.m_maxEpochs ∨
      ∃ a g, t'.m_trainingSetAccuracy = Stat.real a ∧
        t'.m_generalizationSetAccuracy = Stat.real g ∧
        t.m_desiredAccuracy ≤ a ∧ t.m_desiredAccuracy ≤ g := by
  obtain ⟨s, hloop, -, h2, -, h4, h5⟩ := Train_eq_ok hrun
  obtain ⟨⟨hmax, hle, hda, ⟨a, ha⟩, ⟨g, hg⟩⟩, hc⟩ := whileLoop_post
    (fun s => s.m_maxEpochs = t.m_maxEpochs ∧ s.m_currentEpoch ≤ s.m_maxEpochs ∧
      s.m_desiredAccuracy = t.m_desiredAccuracy ∧
      (∃ a, s.m_trainingSetAccuracy = Stat.real a) ∧
      ∃ g, s.m_generalizationSetAccuracy = Stat.real g)
    TrainCondition (TrainBody exp data)
    (by
      intro s s' hP hc hb
      obtain ⟨h1, h2, h3⟩ := TrainBody_fields hb
      have := TrainCondition_epoch hc
      obtain ⟨hra, hrg⟩ := TrainBody_accuracies_real hT hG hb
      exact ⟨h1.trans hP.1, by rw [h1, h2]; omega, h3.trans hP.2.2.1, hra, hrg⟩)
    fuel (TrainReset t) s ⟨rfl, Nat.zero_le _, rfl, ⟨0, rfl⟩, ⟨0, rfl⟩⟩ hloop
  rw [h2, h4, h5]
  unfold TrainCondition at hc
  rw [ha, hg] at hc
  simp only [Stat.lt_real, Bool.and_eq_false_iff, Bool.or_eq_false_iff,
    decide_eq_false_iff_not, not_lt] at hc
  rcases hc with ⟨hca, hcg⟩ | he
  · right
    rw [← hda]
    exact ⟨a, g, ha, hg, hca, hcg⟩
  · left
    rw [← hmax]
    omega

/-- Witness for C9 (amended): `sampleTrainer` on `fullData`, whose sets hold one entry
each. -/
theorem C9_Train_terminal_condition_witness :
    fullData.m_trainingSet ≠ [] ∧ fullData.m_generalizationSet ≠ [] ∧
    ∃ t', Train (fun _ => (1 : ℚ)) 1 sampleTrainer fullData = Except.ok t' ∧
      (t'.m_currentEpoch = sampleTrainer.m_maxEpochs ∨
        ∃ a g, t'.m_trainingSetAccuracy = Stat.real a ∧
          t'.m_generalizationSetAccuracy = Stat.real g ∧
          sampleTrainer.m_desiredAccuracy ≤ a ∧ sampleTrainer.m_desiredAccuracy ≤ g) := by
  obtain ⟨t', hrun⟩ := Train_ok (fun _ => (1 : ℚ)) 1 sampleTrainer fullData 1 1 1
    sampleTrainer_shapedAs fullData_fits (by simp [sampleTrainer, NetworkTrainer.create])
    (by simp [sampleTrainer, NetworkTrainer.create])
  exact ⟨by simp [fullData], by simp [fullData], t', hrun,
    C9_Train_terminal_condition (fun _ => (1 : ℚ)) 1 sampleTrainer t'
      fullData (by simp [fullData]) (by simp [fullData]) hrun⟩

/-- C10: for a non-empty training set of `N` entries of which `c` are tallied as
incorrect, a returning `RunEpoch` leaves `trainingSetAccuracy = 100 * (1 - c/N)`, with
`c ≤ N`; for `N = 10` and `c = 3` this is `70`.  `RunEpoch` returns on a well-sized
trainer and training set (in batch mode when `m ≤ n + 1`). -/
theorem C10_RunEpoch_accuracy (exp : α → α) (t : NetworkTrainer α) (S : TrainingSet α)
    (hne : S ≠ []) :
    (∀ t', RunEpoch exp t S = Except.ok t' →
      RunEpochIncorrect exp S t 0 ≤ S.length ∧
      t'.m_trainingSetAccuracy
        = Stat.real (100 * (1 - (RunEpochIncorrect exp S t 0 : α) / (S.length : α))) ∧
      (S.length = 10 → RunEpochIncorrect exp S t 0 = 3 →
        t'.m_trainingSetAccuracy = Stat.real 70)) ∧
    (∀ n h m, t.ShapedAs n h m → (∀ e, e ∈ S → e.Fits n m) →
      (t.m_useBatchLearning = true → m ≤ n + 1) → ∃ t', RunEpoch exp t S = Except.ok t') := by
  constructor
  · intro t' hrun
    unfold RunEpoch at hrun
    simp only [bind_eq_ok, pure_eq_ok, Except.ok.injEq] at hrun
    obtain ⟨s, hloop, t1, -, rfl⟩ := hrun
    have htally := forEach_RunEpochStep_tally exp S t 0 0 s hloop
    rw [zero_add] at htally
    have hN0 : S.length ≠ 0 := fun h0 => hne (List.length_eq_zero.mp h0)
    have hacc : (Stat.quot s.2.1 S.length).percent
        = Stat.real (100 * (1 - (RunEpochIncorrect exp S t 0 : α) / (S.length : α))) := by
      rw [Stat.quot_of_ne _ hN0, Stat.percent_real, htally]
      congr 1
      ring
    refine ⟨RunEpochIncorrect_le exp S t 0, hacc, ?_⟩
    intro hN hc
    simp only
    rw [hacc, hN, hc]
    congr 1
    norm_num
  · intro n h m hs hS hb
    obtain ⟨t', hrun, -⟩ := RunEpoch_ok exp t S n h m hs hS hb
    exact ⟨t', hrun⟩

/-- Witness for C10: one epoch of `sampleTrainer` over the one-entry training set. -/
theorem C10_RunEpoch_accuracy_witness :
    ∃ t', RunEpoch (fun _ => (1 : ℚ)) sampleTrainer sampleData.m_trainingSet = Except.ok t' ∧
      t'.m_trainingSetAccuracy = Stat.real (100 * (1 -
        (RunEpochIncorrect (fun _ => (1 : ℚ)) sampleData.m_trainingSet sampleTrainer 0 : ℚ)
          / (sampleData.m_trainingSet.length : ℚ))) := by
  have h := C10_RunEpoch_accuracy (fun _ => (1 : ℚ)) sampleTrainer sampleData.m_trainingSet
    (by simp [sampleData])
  obtain ⟨t', hrun⟩ := h.2 1 1 1 sampleTrainer_shapedAs sampleData_fits.1
    (by simp [sampleTrainer, NetworkTrainer.create])
  exact ⟨t', hrun, (h.1 t' hrun).2.1⟩


end TrainerClaims

section NetFrames
variable {α : Type} [LinearOrderedField α]

theorem ActivationFrame_refl (net : Network α) : Network.ActivationFrame net net :=
  ⟨rfl, rfl, rfl, rfl, rfl, rfl, rfl⟩

theorem ActivationFrame_trans {n1 n2 n3 : Network α} (h12 : Network.ActivationFrame n1 n2)
    (h23 : Network.ActivationFrame n2 n3) : Network.ActivationFrame n1 n3 :=
  ⟨h23.1.trans h12.1, h23.2.trans h12.2, h23.3.trans h12.3, h23.4.trans h12.4,
    h23.5.trans h12.5, h23.6.trans h12.6, h23.7.trans h12.7⟩

/-- `UpdateWeights` writes the two weight arrays and `m_deltaInputHidden` only. -/
theorem UpdateWeights_network {t t' : NetworkTrainer α} (h : UpdateWeights t = Except.ok t') :
    Network.ActivationFrame t.m_pNetwork t'.m_pNetwork ∧
      t'.m_deltaHiddenOutput = t.m_deltaHiddenOutput ∧
      t'.m_errorGradientsHidden = t.m_errorGradientsHidden ∧
      t'.m_errorGradientsOutput = t.m_errorGradientsOutput := by
  unfold UpdateWeights at h
  simp only [bind_eq_ok, pure_eq_ok, Except.ok.injEq] at h
  obtain ⟨s, _, r, _, rfl⟩ := h
  exact ⟨⟨rfl, rfl, rfl, rfl, rfl, rfl, rfl⟩, rfl, rfl, rfl⟩

/-- In batch mode `Backpropagate` leaves the network as it is. -/
theorem Backpropagate_batch_network {t t' : NetworkTrainer α} {e : List Int}
    (hb : t.m_useBatchLearning = true) (h : Backpropagate t e = Except.ok t') :
    t'.m_pNetwork = t.m_pNetwork := by
  unfold Backpropagate at h
  simp only [bind_eq_ok] at h
  obtain ⟨s, _, r, _, h⟩ := h
  simp only [hb, Bool.not_true, Bool.false_eq_true, if_false, pure_eq_ok, Except.ok.injEq] at h
  subst h
  rfl

/-- In stochastic mode `Backpropagate` ends with one call of `UpdateWeights`, made on a
state whose network is still the one `Backpropagate` started with. -/
theorem Backpropagate_stochastic {t t' : NetworkTrainer α} {e : List Int}
    (hb : t.m_useBatchLearning = false) (h : Backpropagate t e = Except.ok t') :
    ∃ u, u.m_pNetwork = t.m_pNetwork ∧ u.m_useBatchLearning = false ∧
      UpdateWeights u = Except.ok t' := by
  unfold Backpropagate at h
  simp only [bind_eq_ok] at h
  obtain ⟨s, _, r, _, h⟩ := h
  simp only [hb, Bool.not_false, if_true] at h
  refine ⟨_, ?_, ?_, h⟩ <;> rfl

/-- `Backpropagate` never touches the activations, the clamped outputs or the
dimensions of the network. -/
theorem Backpropagate_network {t t' : NetworkTrainer α} {e : List Int}
    (h : Backpropagate t e = Except.ok t') :
    Network.ActivationFrame t.m_pNetwork t'.m_pNetwork := by
  cases hb : t.m_useBatchLearning with
  | true =>
    rw [Backpropagate_batch_network hb h]
    exact ActivationFrame_refl _
  | false =>
    obtain ⟨u, hu, -, hrun⟩ := Backpropagate_stochastic hb h
    rw [← hu]
    exact (UpdateWeights_network hrun).1

end NetFrames

section OutputLoop
variable {α : Type} [LinearOrderedField α]

theorem rd_eq_ok_getD {β : Type} {xs : List β} {i : Nat} {v : β} (h : rd xs i = Except.ok v)
    (d : β) : xs.getD i d = v := by
  rw [rd_eq_ok_iff] at h
  rw [List.getD_eq_getElem?_getD, h]
  rfl

/-- What the loop over the output units of `RunEpoch` computes: the flag tells whether
every clamped output equals its expected output, and the squared errors of all output
units are added to `MSE`. -/
theorem RunEpochOutputs_spec {net : Network α} {expectedOutputs : List Int} {MSE : α}
    {c : Bool × α} (h : RunEpochOutputs net expectedOutputs MSE = Except.ok c) :
    (c.1 = true ↔ ∀ k, k < net.m_numOutputs →
        net.m_clampedOutputs.getD k 0 = expectedOutputs.getD k 0) ∧
      c.2 = MSE + ∑ k in Finset.range net.m_numOutputs,
        (net.m_outputNeurons.getD k 0 - ((expectedOutputs.getD k 0 : Int) : α)) ^ 2 := by
  unfold RunEpochOutputs at h
  refine forLoop_post
    (fun n (s : Bool × α) =>
      (s.1 = true ↔ ∀ k, k < n → net.m_clampedOutputs.getD k 0 = expectedOutputs.getD k 0) ∧
      s.2 = MSE + ∑ k in Finset.range n,
        (net.m_outputNeurons.getD k 0 - ((expectedOutputs.getD k 0 : Int) : α)) ^ 2)
    net.m_numOutputs _ (true, MSE) c ?_ ?_ h
  · simp
  · intro k s s' hk hP hbody
    simp only [bind_eq_ok, pure_eq_ok, Except.ok.injEq] at hbody
    obtain ⟨cl, hcl, ex, hex, y, hy, rfl⟩ := hbody
    have h1 := rd_eq_ok_getD hcl 0
    have h2 := rd_eq_ok_getD hex 0
    have h3 := rd_eq_ok_getD hy 0
    constructor
    · simp only
      constructor
      · intro hflag k' hk'
        by_cases hc : cl = ex
        · simp only [hc, ne_eq, not_true_eq_false, if_false] at hflag
          rcases Nat.lt_succ_iff_lt_or_eq.mp hk' with hlt | heq
          · exact hP.1.mp hflag k' hlt
          · rw [heq, h1, h2, hc]
        · simp [hc] at hflag
      · intro hall
        have hc : cl = ex := by
          rw [← h1, ← h2]
          exact hall k (Nat.lt_succ_self k)
        simp only [hc, ne_eq, not_true_eq_false, if_false]
        exact hP.1.mpr (fun k' hk' => hall k' (Nat.lt_succ_of_lt hk'))
    · simp only
      rw [Finset.sum_range_succ, hP.2, h2, h3, add_assoc]

/-- The comparison after conversion to `double` made in `GetSetAccuracyAndMSE` decides
the same as the integer comparison made in `RunEpoch`. -/
theorem GetSetOutputs_eq (net : Network α) (expectedOutputs : List Int) (MSE : α) :
    GetSetOutputs net expectedOutputs MSE = RunEpochOutputs net expectedOutputs MSE := by
  unfold GetSetOutputs RunEpochOutputs
  simp only [ne_eq, Int.cast_inj]

theorem RunEpochStep_eq_ok {exp : α → α} {e : TrainingEntry α}
    {s s' : NetworkTrainer α × α × α} (h : RunEpochStep exp e s = Except.ok s') :
    ∃ net u c, Evaluate exp s.1.m_pNetwork e.m_inputs = Except.ok net ∧
      Backpropagate { s.1 with m_pNetwork := net } e.m_expectedOutputs = Except.ok u ∧
      RunEpochOutputs u.m_pNetwork e.m_expectedOutputs s.2.2 = Except.ok c ∧
      s' = (u, if c.1 then s.2.1 else s.2.1 + 1, c.2) := by
  unfold RunEpochStep RunEpochEntry at h
  simp only [bind_eq_ok, pure_eq_ok, Except.ok.injEq] at h
  obtain ⟨r, ⟨net, hev, u, hbp, c, hc, rfl⟩, h⟩ := h
  refine ⟨net, u, c, hev, hbp, hc, ?_⟩
  cases hflag : c.1 <;> simp [hflag] at h ⊢ <;> exact h.symm

theorem GetSetStep_eq_ok {exp : α → α} {e : TrainingEntry α}
    {s s' : NetworkTrainer α × α × α} (h : GetSetStep exp e s = Except.ok s') :
    ∃ net c, Evaluate exp s.1.m_pNetwork e.m_inputs = Except.ok net ∧
      RunEpochOutputs net e.m_expectedOutputs s.2.2 = Except.ok c ∧
      s' = ({ s.1 with m_pNetwork := net }, if c.1 then s.2.1 else s.2.1 + 1, c.2) := by
  unfold GetSetStep GetSetEntry at h
  simp only [bind_eq_ok, pure_eq_ok, Except.ok.injEq, GetSetOutputs_eq] at h
  obtain ⟨r, ⟨net, hev, c, hc, rfl⟩, h⟩ := h
  refine ⟨net, c, hev, hc, ?_⟩
  cases hflag : c.1 <;> simp [hflag] at h ⊢ <;> exact h.symm

end OutputLoop

section Claims12
variable {α : Type} [LinearOrderedField α]

theorem counter_succ_ne (x : α) : x + 1 ≠ x := by
  intro h
  have : (1 : α) = 0 := by linarith
  exact one_ne_zero this

theorem tally_iff {net : Network α} {expectedOutputs : List Int} {MSE inc inc' : α}
    {c : Bool × α} (hc : RunEpochOutputs net expectedOutputs MSE = Except.ok c)
    (hinc : inc' = if c.1 then inc else inc + 1) :
    (inc' = inc ↔ ∀ k, k < net.m_numOutputs →
        net.m_clampedOutputs.getD k 0 = expectedOutputs.getD k 0) ∧
    (inc' = inc + 1 ↔ ∃ k, k < net.m_numOutputs ∧
        net.m_clampedOutputs.getD k 0 ≠ expectedOutputs.getD k 0) := by
  have hspec := (RunEpochOutputs_spec hc).1
  cases hflag : c.1 with
  | true =>
    rw [hflag] at hinc hspec
    simp only [if_true] at hinc
    subst hinc
    have hall := hspec.mp rfl
    refine ⟨⟨fun _ => hall, fun _ => rfl⟩, ⟨fun h => absurd h.symm (counter_succ_ne _), ?_⟩⟩
    rintro ⟨k, hk, hne⟩
    exact absurd (hall k hk) hne
  | false =>
    rw [hflag] at hinc hspec
    simp only [Bool.false_eq_true, if_false] at hinc
    subst hinc
    have hnot : ¬ ∀ k, k < net.m_numOutputs →
        net.m_clampedOutputs.getD k 0 = expectedOutputs.getD k 0 := by
      intro hall
      have := hspec.mpr hall
      cases this
    refine ⟨⟨fun h => absurd h (counter_succ_ne _), fun h => absurd h hnot⟩,
      ⟨fun _ => ?_, fun _ => rfl⟩⟩
    by_contra hex
    apply hnot
    intro k hk
    by_contra hne
    exact hex ⟨k, hk, hne⟩

/-- C12: in `RunEpoch` and in `GetSetAccuracyAndMSE` the counter of incorrect entries
stays as it is exactly when every output unit's clamped value equals the entry's
expected output, and is incremented exactly when some unit differs; hence with
targets `0`/`1` an entry with a clamped output `-1` is counted incorrect. -/
theorem C12_entry_correct_iff_all_units_match (exp : α → α) (e : TrainingEntry α)
    (s : NetworkTrainer α × α × α) :
    (∀ s', RunEpochStep exp e s = Except.ok s' →
      (s'.2.1 = s.2.1 ↔ ∀ k, k < s'.1.m_pNetwork.m_numOutputs →
        s'.1.m_pNetwork.m_clampedOutputs.getD k 0 = e.m_expectedOutputs.getD k 0) ∧
      (s'.2.1 = s.2.1 + 1 ↔ ∃ k, k < s'.1.m_pNetwork.m_numOutputs ∧
        s'.1.m_pNetwork.m_clampedOutputs.getD k 0 ≠ e.m_expectedOutputs.getD k 0) ∧
      ((∀ k, k < s'.1.m_pNetwork.m_numOutputs →
          e.m_expectedOutputs.getD k 0 = 0 ∨ e.m_expectedOutputs.getD k 0 = 1) →
        (∃ k, k < s'.1.m_pNetwork.m_numOutputs ∧
          s'.1.m_pNetwork.m_clampedOutputs.getD k 0 = -1) → s'.2.1 = s.2.1 + 1)) ∧
    (∀ s', GetSetStep exp e s = Except.ok s' →
      (s'.2.1 = s.2.1 ↔ ∀ k, k < s'.1.m_pNetwork.m_numOutputs →
        s'.1.m_pNetwork.m_clampedOutputs.getD k 0 = e.m_expectedOutputs.getD k 0) ∧
      (s'.2.1 = s.2.1 + 1 ↔ ∃ k, k < s'.1.m_pNetwork.m_numOutputs ∧
        s'.1.m_pNetwork.m_clampedOutputs.getD k 0 ≠ e.m_expectedOutputs.getD k 0) ∧
      ((∀ k, k < s'.1.m_pNetwork.m_numOutputs →
          e.m_expectedOutputs.getD k 0 = 0 ∨ e.m_expectedOutputs.getD k 0 = 1) →
        (∃ k, k < s'.1.m_pNetwork.m_numOutputs ∧
          s'.1.m_pNetwork.m_clampedOutputs.getD k 0 = -1) → s'.2.1 = s.2.1 + 1)) := by
  have key : ∀ (net : Network α) (inc' : α) (c : Bool × α),
      RunEpochOutputs net e.m_expectedOutputs s.2.2 = Except.ok c →
      inc' = (if c.1 then s.2.1 else s.2.1 + 1) →
      (inc' = s.2.1 ↔ ∀ k, k < net.m_numOutputs →
        net.m_clampedOutputs.getD k 0 = e.m_expectedOutputs.getD k 0) ∧
      (inc' = s.2.1 + 1 ↔ ∃ k, k < net.m_numOutputs ∧
        net.m_clampedOutputs.getD k 0 ≠ e.m_expectedOutputs.getD k 0) ∧
      ((∀ k, k < net.m_numOutputs →
          e.m_expectedOutputs.getD k 0 = 0 ∨ e.m_expectedOutputs.getD k 0 = 1) →
        (∃ k, k < net.m_numOutputs ∧ net.m_clampedOutputs.getD k 0 = -1) →
        inc' = s.2.1 + 1) := by
    intro net inc' c hc hinc
    obtain ⟨h1, h2⟩ := tally_iff hc hinc
    refine ⟨h1, h2, ?_⟩
    rintro h01 ⟨k, hk, hminus⟩
    apply h2.mpr
    refine ⟨k, hk, ?_⟩
    rw [hminus]
    rcases h01 k hk with h0 | h1' <;> omega
  constructor
  · intro s' hstep
    obtain ⟨net, u, c, -, -, hc, rfl⟩ := RunEpochStep_eq_ok hstep
    exact key u.m_pNetwork _ c hc rfl
  · intro s' hstep
    obtain ⟨net, c, -, hc, rfl⟩ := GetSetStep_eq_ok hstep
    exact key net _ c hc rfl

/-- A returning iteration of the entry loop of `GetSetAccuracyAndMSE` changes the
network in its activations and clamped outputs only. -/
theorem GetSetStep_network {exp : α → α} {e : TrainingEntry α}
    {s s' : NetworkTrainer α × α × α} (h : GetSetStep exp e s = Except.ok s') :
    s'.1.m_pNetwork.m_numInputs = s.1.m_pNetwork.m_numInputs ∧
      s'.1.m_pNetwork.m_numHidden = s.1.m_pNetwork.m_numHidden ∧
      s'.1.m_pNetwork.m_numOutputs = s.1.m_pNetwork.m_numOutputs ∧
      s'.1.m_pNetwork.m_weightsInputHidden = s.1.m_pNetwork.m_weightsInputHidden ∧
      s'.1.m_pNetwork.m_weightsHiddenOutput = s.1.m_pNetwork.m_weightsHiddenOutput := by
  obtain ⟨net, c, hev, -, rfl⟩ := GetSetStep_eq_ok h
  exact Evaluate_dims hev

/-- C19: `GetSetAccuracyAndMSE` performs no learning.  A returning call leaves both
weight arrays, both delta buffers and both error-gradient buffers as they were; the
trainer it leaves differs from the one it started with in the three activation
vectors and the clamped outputs of the network at most. -/
theorem C19_GetSetAccuracyAndMSE_no_learning (exp : α → α) (t : NetworkTrainer α)
    (S : TrainingSet α) (r : NetworkTrainer α × Stat α × Stat α)
    (hrun : GetSetAccuracyAndMSE exp t S = Except.ok r) :
    r.1.m_pNetwork.m_weightsInputHidden = t.m_pNetwork.m_weightsInputHidden ∧
    r.1.m_pNetwork.m_weightsHiddenOutput = t.m_pNetwork.m_weightsHiddenOutput ∧
    r.1.m_deltaInputHidden = t.m_deltaInputHidden ∧
    r.1.m_deltaHiddenOutput = t.m_deltaHiddenOutput ∧
    r.1.m_errorGradientsHidden = t.m_errorGradientsHidden ∧
    r.1.m_errorGradientsOutput = t.m_errorGradientsOutput ∧
    r.1 = { t with m_pNetwork := { t.m_pNetwork with
      m_inputNeurons := r.1.m_pNetwork.m_inputNeurons
      m_hiddenNeurons := r.1.m_pNetwork.m_hiddenNeurons
      m_outputNeurons := r.1.m_pNetwork.m_outputNeurons
      m_clampedOutputs := r.1.m_pNetwork.m_clampedOutputs } } := by
  have hf := GetSetAccuracyAndMSE_frame hrun r.1.m_pNetwork
  have hr : r.1 = t.withNetwork r.1.m_pNetwork := hf
  unfold GetSetAccuracyAndMSE at hrun
  simp only [bind_eq_ok, pure_eq_ok, Except.ok.injEq] at hrun
  obtain ⟨s, hs, hrs⟩ := hrun
  have hnet := forEach_post
    (fun (s : NetworkTrainer α × α × α) =>
      s.1.m_pNetwork.m_numInputs = t.m_pNetwork.m_numInputs ∧
      s.1.m_pNetwork.m_numHidden = t.m_pNetwork.m_numHidden ∧
      s.1.m_pNetwork.m_numOutputs = t.m_pNetwork.m_numOutputs ∧
      s.1.m_pNetwork.m_weightsInputHidden = t.m_pNetwork.m_weightsInputHidden ∧
      s.1.m_pNetwork.m_weightsHiddenOutput = t.m_pNetwork.m_weightsHiddenOutput)
    (GetSetStep exp)
    (fun e s s' hP hstep => by
      obtain ⟨h1, h2, h3, h4, h5⟩ := GetSetStep_network hstep
      exact ⟨h1.trans hP.1, h2.trans hP.2.1, h3.trans hP.2.2.1, h4.trans hP.2.2.2.1,
        h5.trans hP.2.2.2.2⟩)
    S (t, 0, 0) s ⟨rfl, rfl, rfl, rfl, rfl⟩ hs
  have hs1 : s.1 = r.1 := by rw [← hrs]
  beta_reduce at hnet
  rw [hs1] at hnet
  obtain ⟨h1, h2, h3, h4, h5⟩ := hnet
  have hN : r.1.m_pNetwork = { t.m_pNetwork with
      m_inputNeurons := r.1.m_pNetwork.m_inputNeurons
      m_hiddenNeurons := r.1.m_pNetwork.m_hiddenNeurons
      m_outputNeurons := r.1.m_pNetwork.m_outputNeurons
      m_clampedOutputs := r.1.m_pNetwork.m_clampedOutputs } := by
    cases hrn : r.1.m_pNetwork
    rw [hrn] at h1 h2 h3 h4 h5
    simp only at h1 h2 h3 h4 h5
    simp only [h1, h2, h3, h4, h5]
  refine ⟨h4, h5, ?_, ?_, ?_, ?_, ?_⟩
  · rw [hr]; rfl
  · rw [hr]; rfl
  · rw [hr]; rfl
  · rw [hr]; rfl
  · conv_lhs => rw [hr]
    unfold NetworkTrainer.withNetwork
    rw [hN]

/-- Witness for C19: `sampleTrainer` evaluated on the training set of `sampleData`. -/
theorem C19_GetSetAccuracyAndMSE_no_learning_witness :
    ∃ r, GetSetAccuracyAndMSE (fun _ => (1 : ℚ)) sampleTrainer sampleData.m_trainingSet
        = Except.ok r ∧
      r.1.m_pNetwork.m_weightsInputHidden = sampleTrainer.m_pNetwork.m_weightsInputHidden ∧
      r.1.m_pNetwork.m_weightsHiddenOutput = sampleTrainer.m_pNetwork.m_weightsHiddenOutput := by
  obtain ⟨r, hrun, -⟩ := GetSetAccuracyAndMSE_ok (fun _ => (1 : ℚ)) sampleTrainer
    sampleData.m_trainingSet 1 1 1 sampleTrainer_shapedAs sampleData_fits.1
  have h := C19_GetSetAccuracyAndMSE_no_learning (fun _ => (1 : ℚ)) sampleTrainer
    sampleData.m_trainingSet r hrun
  exact ⟨r, hrun, h.1, h.2.1⟩

end Claims12

section MSE
variable {α : Type} [LinearOrderedField α]

/-- The accumulator `MSE` at the end of the entry loop of `RunEpoch` is its initial
value plus the squared errors of all entries. -/
theorem forEach_RunEpochStep_mse (exp : α → α) (es : List (TrainingEntry α)) :
    ∀ (t : NetworkTrainer α) (inc MSE : α) (s : NetworkTrainer α × α × α),
      forEach es (RunEpochStep exp) (t, inc, MSE) = Except.ok s →
      s.2.2 = MSE + RunEpochSquaredError exp es t := by
  induction es with
  | nil =>
    intro t inc MSE s h
    simp only [forEach_nil, Except.ok.injEq] at h
    subst h
    simp [RunEpochSquaredError]
  | cons e es ih =>
    intro t inc MSE s h
    rw [forEach_cons, bind_eq_ok] at h
    obtain ⟨s1, hstep, hrest⟩ := h
    obtain ⟨net, u, c, hev, hbp, hc, rfl⟩ := RunEpochStep_eq_ok hstep
    have hfr := Backpropagate_network hbp
    have hsq := (RunEpochOutputs_spec hc).2
    rw [hfr.outputNeurons, hfr.numOutputs] at hsq
    simp only at hev hbp hsq
    rw [ih u _ c.2 s hrest, RunEpochSquaredError, hev]
    simp only
    rw [hbp]
    simp only
    rw [hsq, add_assoc]

/-- The entry loop of `RunEpoch` keeps the dimensions of the network. -/
theorem forEach_RunEpochStep_dims (exp : α → α) (es : List (TrainingEntry α))
    (t : NetworkTrainer α) (s0 s : NetworkTrainer α × α × α) (h0 : s0.1 = t)
    (h : forEach es (RunEpochStep exp) s0 = Except.ok s) :
    s.1.m_pNetwork.m_numInputs = t.m_pNetwork.m_numInputs ∧
      s.1.m_pNetwork.m_numHidden = t.m_pNetwork.m_numHidden ∧
      s.1.m_pNetwork.m_numOutputs = t.m_pNetwork.m_numOutputs := by
  refine forEach_post
    (fun (s : NetworkTrainer α × α × α) =>
      s.1.m_pNetwork.m_numInputs = t.m_pNetwork.m_numInputs ∧
      s.1.m_pNetwork.m_numHidden = t.m_pNetwork.m_numHidden ∧
      s.1.m_pNetwork.m_numOutputs = t.m_pNetwork.m_numOutputs)
    (RunEpochStep exp) ?_ es s0 s (by subst h0; exact ⟨rfl, rfl, rfl⟩) h
  intro e s s' hP hstep
  obtain ⟨net, u, c, hev, hbp, -, rfl⟩ := RunEpochStep_eq_ok hstep
  have hfr := Backpropagate_network hbp
  obtain ⟨h1, h2, h3, -, -⟩ := Evaluate_dims hev
  exact ⟨(hfr.numInputs.trans h1).trans hP.1, (hfr.numHidden.trans h2).trans hP.2.1,
    (hfr.numOutputs.trans h3).trans hP.2.2⟩

/-- A returning `RunEpoch` in terms of its entry loop. -/
theorem RunEpoch_eq_ok {exp : α → α} {t t' : NetworkTrainer α} {S : TrainingSet α}
    (h : RunEpoch exp t S = Except.ok t') :
    ∃ s u, forEach S (RunEpochStep exp) (t, 0, 0) = Except.ok s ∧
      (if s.1.m_useBatchLearning then UpdateWeights s.1 else Except.ok s.1) = Except.ok u ∧
      t'.m_pNetwork = u.m_pNetwork ∧
      t'.m_trainingSetAccuracy = (Stat.quot s.2.1 S.length).percent ∧
      t'.m_trainingSetMSE = Stat.quot s.2.2 (u.m_pNetwork.m_numOutputs * S.length) := by
  unfold RunEpoch at h
  simp only [bind_eq_ok, pure_eq_ok, Except.ok.injEq] at h
  obtain ⟨s, hs, u, hu, rfl⟩ := h
  exact ⟨s, u, hs, hu, rfl, rfl, rfl⟩

/-- C11: for a non-empty training set of `N` entries, a returning `RunEpoch` leaves
`trainingSetMSE = (sum over entries e and output units k of (y_k(e) - t_k(e))^2) /
(numOutputs * N)`, where `y_k(e)` is the output activation produced by the `Evaluate`
call made for entry `e`: the quotient of that sum by the count `numOutputs * N`, a real
number when `numOutputs > 0`.  `RunEpoch` returns on a well-sized trainer and training
set (in batch mode when `m ≤ n + 1`). -/
theorem C11_RunEpoch_MSE (exp : α → α) (t : NetworkTrainer α) (S : TrainingSet α)
    (hne : S ≠ []) :
    (∀ t', RunEpoch exp t S = Except.ok t' →
      t'.m_trainingSetMSE
        = Stat.quot (RunEpochSquaredError exp S t) (t.m_pNetwork.m_numOutputs * S.length) ∧
      (0 < t.m_pNetwork.m_numOutputs →
        t'.m_trainingSetMSE = Stat.real (RunEpochSquaredError exp S t
          / ((t.m_pNetwork.m_numOutputs : α) * (S.length : α))))) ∧
    (∀ n h m, t.ShapedAs n h m → (∀ e, e ∈ S → e.Fits n m) →
      (t.m_useBatchLearning = true → m ≤ n + 1) → ∃ t', RunEpoch exp t S = Except.ok t') := by
  constructor
  · intro t' hrun
    obtain ⟨s, u, hloop, hu, -, -, hmse⟩ := RunEpoch_eq_ok hrun
    have hsum := forEach_RunEpochStep_mse exp S t 0 0 s hloop
    have hdims := (forEach_RunEpochStep_dims exp S t (t, 0, 0) s rfl hloop).2.2
    have hu' : u.m_pNetwork.m_numOutputs = s.1.m_pNetwork.m_numOutputs := by
      split_ifs at hu
      · exact (UpdateWeights_network hu).1.numOutputs
      · simp only [Except.ok.injEq] at hu
        rw [← hu]
    have hq : t'.m_trainingSetMSE
        = Stat.quot (RunEpochSquaredError exp S t) (t.m_pNetwork.m_numOutputs * S.length) := by
      rw [hmse, hsum, zero_add, hu', hdims]
    refine ⟨hq, fun hm => ?_⟩
    have hN0 : S.length ≠ 0 := fun h0 => hne (List.length_eq_zero.mp h0)
    rw [hq, Stat.quot_of_ne _ (Nat.mul_ne_zero (by omega) hN0), Nat.cast_mul]
  · intro n h m hs hS hb
    obtain ⟨t', hrun, -⟩ := RunEpoch_ok exp t S n h m hs hS hb
    exact ⟨t', hrun⟩

/-- Witness for C11: one epoch of `sampleTrainer` over the one-entry training set. -/
theorem C11_RunEpoch_MSE_witness :
    ∃ t', RunEpoch (fun _ => (1 : ℚ)) sampleTrainer sampleData.m_trainingSet = Except.ok t' ∧
      t'.m_trainingSetMSE
        = Stat.real (RunEpochSquaredError (fun _ => (1 : ℚ)) sampleData.m_trainingSet
            sampleTrainer
          / ((sampleTrainer.m_pNetwork.m_numOutputs : ℚ)
            * (sampleData.m_trainingSet.length : ℚ))) := by
  have h := C11_RunEpoch_MSE (fun _ => (1 : ℚ)) sampleTrainer sampleData.m_trainingSet
    (by simp [sampleData])
  obtain ⟨t', hrun⟩ := h.2 1 1 1 sampleTrainer_shapedAs sampleData_fits.1
    (by simp [sampleTrainer, NetworkTrainer.create])
  exact ⟨t', hrun, (h.1 t' hrun).2 (by decide)⟩

/-- In batch mode the entry loop of `GetSetAccuracyAndMSE`, started on the same network
and accumulators, follows the entry loop of `RunEpoch`: same accumulators, same
network. -/
theorem forEach_GetSetStep_of_batch (exp : α → α) (es : List (TrainingEntry α)) :
    ∀ (t1 t2 : NetworkTrainer α) (inc MSE : α) (s : NetworkTrainer α × α × α),
      t1.m_useBatchLearning = true → t2.m_pNetwork = t1.m_pNetwork →
      forEach es (RunEpochStep exp) (t1, inc, MSE) = Except.ok s →
      ∃ s2, forEach es (GetSetStep exp) (t2, inc, MSE) = Except.ok s2 ∧
        s2.2 = s.2 ∧ s2.1.m_pNetwork = s.1.m_pNetwork := by
  induction es with
  | nil =>
    intro t1 t2 inc MSE s _ hnet h
    simp only [forEach_nil, Except.ok.injEq] at h
    subst h
    exact ⟨(t2, inc, MSE), rfl, rfl, hnet⟩
  | cons e es ih =>
    intro t1 t2 inc MSE s hb hnet h
    rw [forEach_cons, bind_eq_ok] at h
    obtain ⟨s1, hstep, hrest⟩ := h
    obtain ⟨net, u, c, hev, hbp, hc, rfl⟩ := RunEpochStep_eq_ok hstep
    simp only at hev hbp hc
    have hunet : u.m_pNetwork = net := Backpropagate_batch_network (by exact hb) hbp
    have hub : u.m_useBatchLearning = true :=
      (Backpropagate_frame hbp).useBatchLearning.trans hb
    rw [hunet] at hc
    have hstep2 : GetSetStep exp e (t2, inc, MSE)
        = Except.ok ({ t2 with m_pNetwork := net }, if c.1 then inc else inc + 1, c.2) := by
      unfold GetSetStep GetSetEntry
      simp only [hnet, hev, ok_bind, GetSetOutputs_eq, hc, pure_eq_ok]
      cases c.1 <;> rfl
    obtain ⟨s2, h2, h3, h4⟩ := ih u { t2 with m_pNetwork := net } _ c.2 s hub hunet.symm hrest
    exact ⟨s2, by rw [forEach_cons, hstep2, ok_bind]; exact h2, h3, h4⟩

/-- C20: in batch mode, for a non-empty set `S`, whenever `RunEpoch` returns,
`GetSetAccuracyAndMSE` called on the state (hence the weights) the epoch started with
returns as well and computes the accuracy and the MSE that `RunEpoch` reports. -/
theorem C20_GetSet_agrees_with_RunEpoch (exp : α → α) (t t' : NetworkTrainer α)
    (S : TrainingSet α) (_hne : S ≠ []) (hb : t.m_useBatchLearning = true)
    (hrun : RunEpoch exp t S = Except.ok t') :
    ∃ r, GetSetAccuracyAndMSE exp t S = Except.ok r ∧
      r.2.1 = t'.m_trainingSetAccuracy ∧ r.2.2 = t'.m_trainingSetMSE ∧
      r.1.m_pNetwork.m_weightsInputHidden = t.m_pNetwork.m_weightsInputHidden ∧
      r.1.m_pNetwork.m_weightsHiddenOutput = t.m_pNetwork.m_weightsHiddenOutput := by
  obtain ⟨s, u, hloop, hu, -, hacc, hmse⟩ := RunEpoch_eq_ok hrun
  obtain ⟨s2, h2, h3, h4⟩ := forEach_GetSetStep_of_batch exp S t t 0 0 s hb rfl hloop
  have hu' : u.m_pNetwork.m_numOutputs = s.1.m_pNetwork.m_numOutputs := by
    split_ifs at hu
    · exact (UpdateWeights_network hu).1.numOutputs
    · simp only [Except.ok.injEq] at hu
      rw [← hu]
  have hget : GetSetAccuracyAndMSE exp t S = Except.ok (s2.1,
      (Stat.quot s2.2.1 S.length).percent,
      Stat.quot s2.2.2 (s2.1.m_pNetwork.m_numOutputs * S.length)) := by
    unfold GetSetAccuracyAndMSE
    rw [h2, ok_bind]
    rfl
  have hno := C19_GetSetAccuracyAndMSE_no_learning exp t S _ hget
  refine ⟨_, hget, ?_, ?_, hno.1, hno.2.1⟩
  · simp only [hacc, h3]
  · simp only [hmse, h3, h4, hu']

end MSE

section Claims15
variable {α : Type} [LinearOrderedField α]

theorem batchTrainer_shapedAs : batchTrainer.ShapedAs 1 1 1 :=
  create_shapedAs _ sampleNet sampleNet_shaped sampleNet_biasSet

/-- Witness for C20: one batch epoch of `batchTrainer` over the one-entry training
set. -/
theorem C20_GetSet_agrees_with_RunEpoch_witness :
    ∃ t' r, RunEpoch (fun _ => (1 : ℚ)) batchTrainer sampleData.m_trainingSet = Except.ok t' ∧
      GetSetAccuracyAndMSE (fun _ => (1 : ℚ)) batchTrainer sampleData.m_trainingSet
        = Except.ok r ∧
      r.2.1 = t'.m_trainingSetAccuracy ∧ r.2.2 = t'.m_trainingSetMSE := by
  obtain ⟨t', hrun, -⟩ := RunEpoch_ok (fun _ => (1 : ℚ)) batchTrainer
    sampleData.m_trainingSet 1 1 1 batchTrainer_shapedAs sampleData_fits.1 (fun _ => by decide)
  obtain ⟨r, hget, h1, h2, -⟩ := C20_GetSet_agrees_with_RunEpoch (fun _ => (1 : ℚ))
    batchTrainer t' sampleData.m_trainingSet (by simp [sampleData]) rfl hrun
  exact ⟨t', r, hrun, hget, h1, h2⟩

/-- In batch mode the entry loop of `RunEpoch` keeps both weight arrays. -/
theorem forEach_RunEpochStep_batch_weights (exp : α → α) (es : List (TrainingEntry α))
    (t : NetworkTrainer α) (hb : t.m_useBatchLearning = true) (s : NetworkTrainer α × α × α)
    (h : forEach es (RunEpochStep exp) (t, 0, 0) = Except.ok s) :
    s.1.m_useBatchLearning = true ∧
      s.1.m_pNetwork.m_weightsInputHidden = t.m_pNetwork.m_weightsInputHidden ∧
      s.1.m_pNetwork.m_weightsHiddenOutput = t.m_pNetwork.m_weightsHiddenOutput := by
  refine forEach_post
    (fun (s : NetworkTrainer α × α × α) =>
      s.1.m_useBatchLearning = true ∧
      s.1.m_pNetwork.m_weightsInputHidden = t.m_pNetwork.m_weightsInputHidden ∧
      s.1.m_pNetwork.m_weightsHiddenOutput = t.m_pNetwork.m_weightsHiddenOutput)
    (RunEpochStep exp) ?_ es (t, 0, 0) s ⟨hb, rfl, rfl⟩ h
  intro e s s' hP hstep
  obtain ⟨net, u, c, hev, hbp, -, rfl⟩ := RunEpochStep_eq_ok hstep
  obtain ⟨-, -, -, h4, h5⟩ := Evaluate_dims hev
  have hunet : u.m_pNetwork = net := Backpropagate_batch_network (by exact hP.1) hbp
  have hub : u.m_useBatchLearning = true :=
    (Backpropagate_frame hbp).useBatchLearning.trans hP.1
  simp only
  rw [hunet]
  exact ⟨hub, h4.trans hP.2.1, h5.trans hP.2.2⟩

/-- C15: in batch mode `Backpropagate` leaves both weight arrays unchanged; within one
`RunEpoch` every entry is processed in a state that still holds the weights the epoch
started with, and the weights `RunEpoch` leaves are those of the single
`UpdateWeights` call made after the entry loop.  In stochastic mode every
`Backpropagate` (one per entry) ends with one `UpdateWeights` call on the network it
started with, and `RunEpoch` makes no further call after the entry loop. -/
theorem C15_weights_change_only_in_UpdateWeights (exp : α → α) (t : NetworkTrainer α)
    (S : TrainingSet α) :
    (∀ (u u' : NetworkTrainer α) (e : List Int), u.m_useBatchLearning = true →
      Backpropagate u e = Except.ok u' →
      u'.m_pNetwork.m_weightsInputHidden = u.m_pNetwork.m_weightsInputHidden ∧
      u'.m_pNetwork.m_weightsHiddenOutput = u.m_pNetwork.m_weightsHiddenOutput) ∧
    (t.m_useBatchLearning = true → ∀ pre post s, S = pre ++ post →
      forEach pre (RunEpochStep exp) (t, 0, 0) = Except.ok s →
      s.1.m_pNetwork.m_weightsInputHidden = t.m_pNetwork.m_weightsInputHidden ∧
      s.1.m_pNetwork.m_weightsHiddenOutput = t.m_pNetwork.m_weightsHiddenOutput) ∧
    (t.m_useBatchLearning = true → ∀ t', RunEpoch exp t S = Except.ok t' →
      ∃ s u, forEach S (RunEpochStep exp) (t, 0, 0) = Except.ok s ∧
        s.1.m_pNetwork.m_weightsInputHidden = t.m_pNetwork.m_weightsInputHidden ∧
        s.1.m_pNetwork.m_weightsHiddenOutput = t.m_pNetwork.m_weightsHiddenOutput ∧
        UpdateWeights s.1 = Except.ok u ∧ t'.m_pNetwork = u.m_pNetwork) ∧
    (∀ (u u' : NetworkTrainer α) (e : List Int), u.m_useBatchLearning = false →
      Backpropagate u e = Except.ok u' →
      ∃ v, v.m_pNetwork = u.m_pNetwork ∧ UpdateWeights v = Except.ok u') ∧
    (t.m_useBatchLearning = false → ∀ t', RunEpoch exp t S = Except.ok t' →
      ∃ s, forEach S (RunEpochStep exp) (t, 0, 0) = Except.ok s ∧
        t'.m_pNetwork = s.1.m_pNetwork) := by
  refine ⟨?_, ?_, ?_, ?_, ?_⟩
  · intro u u' e hb h
    rw [Backpropagate_batch_network hb h]
    exact ⟨rfl, rfl⟩
  · intro hb pre post s _ h
    exact (forEach_RunEpochStep_batch_weights exp pre t hb s h).2
  · intro hb t' hrun
    obtain ⟨s, u, hloop, hu, hnet, -, -⟩ := RunEpoch_eq_ok hrun
    obtain ⟨h1, h2, h3⟩ := forEach_RunEpochStep_batch_weights exp S t hb s hloop
    rw [h1] at hu
    exact ⟨s, u, hloop, h2, h3, hu, hnet⟩
  · intro u u' e hb h
    obtain ⟨v, hv, -, hrun⟩ := Backpropagate_stochastic hb h
    exact ⟨v, hv, hrun⟩
  · intro hb t' hrun
    obtain ⟨s, u, hloop, hu, hnet, -, -⟩ := RunEpoch_eq_ok hrun
    have hsb : s.1.m_useBatchLearning = false := by
      have hfr := forEach_post (fun (s : NetworkTrainer α × α × α) =>
        NetworkTrainer.EpochFrame t s.1) (RunEpochStep exp)
        (fun e s s' hP hstep => EpochFrame.trans hP (RunEpochStep_frame hstep)) S (t, 0, 0) s
        (EpochFrame.refl t) hloop
      exact hfr.useBatchLearning.trans hb
    rw [hsb] at hu
    simp only [Bool.false_eq_true, if_false, Except.ok.injEq] at hu
    exact ⟨s, hloop, by rw [hnet, ← hu]⟩

end Claims15

section Eval
variable {α : Type} [LinearOrderedField α]

theorem slipNet_create :
    Network.create (fun k => ([0, 0, 2, 1] : List α).getD k 0) ⟨1, 1, 1⟩
      = Except.ok (slipNet α) := by
  simp [Network.create, check, InitializeNetwork, InitializeWeights, Network.members, setBack,
    memsetZero, resize, forLoop, wr, GetInputHiddenWeightIndex, GetHiddenOutputWeightIndex,
    slipNet]

theorem slip_Evaluate (exp : α → α) (hexp : exp 0 = 1) :
    Evaluate exp (slipNet α) [1] = Except.ok (slipEvaluated α) := by
  unfold slipEvaluated
  rw [Evaluate_ok exp (slipNet α) [1] ⟨rfl, rfl, rfl, rfl, rfl, rfl⟩ ⟨rfl, rfl⟩ rfl]
  have hh : Reference.hidden exp (slipNet α) [1] 0 = 1 / 2 := by
    simp [Reference.hidden, slipNet, hexp]
    norm_num
  have hh' := hh
  simp only [slipNet] at hh'
  have ho : Reference.output exp (slipNet α) [1] 0 = 1 / 2 := by
    simp [Reference.output, slipNet, hh', hexp]
    norm_num
  have hc : ClampOutputValue (1 / 2 : α) = -1 := by
    norm_num [ClampOutputValue]
  have hr : List.range 1 = [0] := rfl
  simp only [show (slipNet α).m_numHidden = 1 from rfl, show (slipNet α).m_numOutputs = 1 from rfl,
    hr, List.map_cons, List.map_nil, hh, ho, hc, List.cons_append, List.nil_append]

theorem slip_Backpropagate_batch :
    Backpropagate { slipTrainer α true with m_pNetwork := slipEvaluated α } [1]
      = Except.ok (slipUpdateState α true) := by
  simp [Backpropagate, forLoop, rd, wr, GetHiddenErrorGradient, GetOutputErrorGradient,
    GetInputHiddenWeightIndex, GetHiddenOutputWeightIndex, slipNet, slipEvaluated, slipTrainer,
    slipUpdateState, NetworkTrainer.create, memsetZero, resize]
  norm_num

theorem slip_Backpropagate_stochastic :
    Backpropagate { slipTrainer α false with m_pNetwork := slipEvaluated α } [1]
      = UpdateWeights (slipUpdateState α false) := by
  simp [Backpropagate, forLoop, rd, wr, GetHiddenErrorGradient, GetOutputErrorGradient,
    GetInputHiddenWeightIndex, GetHiddenOutputWeightIndex, slipNet, slipEvaluated, slipTrainer,
    slipUpdateState, NetworkTrainer.create, memsetZero, resize]
  congr 1
  norm_num

theorem slip_UpdateWeights (batch : Bool) :
    UpdateWeights (slipUpdateState α batch) = Except.ok (slipUpdated α batch) := by
  cases batch <;>
  · simp [UpdateWeights, forLoop, rd, wr, GetInputHiddenWeightIndex,
      GetHiddenOutputWeightIndex, slipNet, slipEvaluated, slipTrainer, slipUpdateState,
      slipUpdated, NetworkTrainer.create]
    norm_num

theorem slip_RunEpochStep (exp : α → α) (hexp : exp 0 = 1) (batch : Bool) :
    RunEpochStep exp ⟨[1], [1]⟩ (slipTrainer α batch, 0, 0)
      = Except.ok (if batch then slipUpdateState α true else slipUpdated α false, 1, 1 / 4) := by
  have hev : Evaluate exp (slipTrainer α batch).m_pNetwork [1]
      = Except.ok (slipEvaluated α) := slip_Evaluate exp hexp
  unfold RunEpochStep RunEpochEntry
  simp only [hev, ok_bind]
  cases batch with
  | true =>
    simp only [slip_Backpropagate_batch, ok_bind]
    simp [RunEpochOutputs, forLoop, rd, slipEvaluated, slipNet, slipUpdateState]
    norm_num
  | false =>
    simp only [slip_Backpropagate_stochastic, slip_UpdateWeights, ok_bind]
    simp [RunEpochOutputs, forLoop, rd, slipEvaluated, slipNet, slipUpdated]
    norm_num

/-- One epoch of the fresh trainer `slipTrainer` over the one-entry set `slipSet`, in
closed form for both learning modes. -/
theorem slip_RunEpoch (exp : α → α) (hexp : exp 0 = 1) (batch : Bool) :
    RunEpoch exp (slipTrainer α batch) (slipSet α) = Except.ok { slipUpdated α batch with
      m_trainingSetAccuracy := Stat.real 0
      m_trainingSetMSE := Stat.real (1 / 4) } := by
  unfold RunEpoch slipSet
  rw [forEach_cons, slip_RunEpochStep exp hexp, ok_bind, forEach_nil, ok_bind]
  cases batch with
  | true =>
    simp only [if_true, show (slipUpdateState α true).m_useBatchLearning = true from rfl,
      slip_UpdateWeights, ok_bind, pure_eq_ok]
    simp [slipUpdated, slipEvaluated, slipNet, Stat.quot, Stat.percent]
  | false =>
    simp only [Bool.false_eq_true, if_false,
      show (slipUpdated α false).m_useBatchLearning = false from rfl, pure_eq_ok, ok_bind]
    simp [slipUpdated, slipEvaluated, slipNet, Stat.quot, Stat.percent]

end Eval

section SlipClaims

/-- C13 (the code at the failing input): in stochastic mode `UpdateWeights` adds the
delta of slot `1` of the input->hidden array twice.  The state `slipUpdateState` is the
one in which `Backpropagate` calls `UpdateWeights` after `slipTrainer` has evaluated the
input `[1]`; slot `1` holds the weight `0` and the delta `-1/4`, and `UpdateWeights`
leaves `-1/2` instead of `-1/4` there. -/
theorem C13_stochastic_update_adds_delta_twice :
    Evaluate Real.exp (slipTrainer ℝ false).m_pNetwork [1] = Except.ok (slipEvaluated ℝ) ∧
    Backpropagate { slipTrainer ℝ false with m_pNetwork := slipEvaluated ℝ } [1]
      = UpdateWeights (slipUpdateState ℝ false) ∧
    (slipUpdateState ℝ false).m_useBatchLearning = false ∧
    ∃ t', UpdateWeights (slipUpdateState ℝ false) = Except.ok t' ∧
      (slipUpdateState ℝ false).m_pNetwork.m_weightsInputHidden.getD 1 0 = 0 ∧
      (slipUpdateState ℝ false).m_deltaInputHidden.getD 1 0 = -1 / 4 ∧
      t'.m_pNetwork.m_weightsInputHidden.getD 1 0 = -1 / 2 ∧
      t'.m_pNetwork.m_weightsInputHidden.getD 1 0
        ≠ (slipUpdateState ℝ false).m_pNetwork.m_weightsInputHidden.getD 1 0
          + (slipUpdateState ℝ false).m_deltaInputHidden.getD 1 0 := by
  refine ⟨slip_Evaluate Real.exp Real.exp_zero, slip_Backpropagate_stochastic, rfl,
    _, slip_UpdateWeights false, ?_, ?_, ?_, ?_⟩
  · simp [slipUpdateState, slipEvaluated, slipNet]
  · simp [slipUpdateState]
  · simp [slipUpdated]
  · simp [slipUpdated, slipUpdateState, slipEvaluated, slipNet]
    norm_num

/-- C14 (the code at the failing input): in batch mode `UpdateWeights` does not clear
`m_deltaHiddenOutput`.  The state `slipUpdateState` (batch) is the one `Backpropagate`
leaves for the call `RunEpoch` makes after its entry loop; after `UpdateWeights` the
hidden->output delta buffer still holds `[1/16, -1/8]`. -/
theorem C14_batch_update_keeps_hidden_output_deltas :
    Backpropagate { slipTrainer ℝ true with m_pNetwork := slipEvaluated ℝ } [1]
      = Except.ok (slipUpdateState ℝ true) ∧
    (slipUpdateState ℝ true).m_useBatchLearning = true ∧
    ∃ t', UpdateWeights (slipUpdateState ℝ true) = Except.ok t' ∧
      t'.m_deltaInputHidden = [0, 0, 0, 0] ∧
      t'.m_deltaHiddenOutput = [1 / 16, -1 / 8] ∧
      t'.m_deltaHiddenOutput.getD 0 0 ≠ 0 := by
  refine ⟨slip_Backpropagate_batch, rfl, _, slip_UpdateWeights true, ?_, ?_, ?_⟩
  · simp [slipUpdated]
  · simp [slipUpdated, slipUpdateState]
  · simp [slipUpdated, slipUpdateState]

/-- C16 (the code at the failing input): for the fresh trainer `slipTrainer` (all delta
buffers zero, momentum `0`, learning rate `1`) and the one-entry set `slipSet`, one
`RunEpoch` in batch mode and one in stochastic mode, from the same weights, leave
different input->hidden weights: slot `1` changes by `-5/16` in batch mode and by `-1/2`
in stochastic mode. -/
theorem C16_batch_and_stochastic_epochs_differ :
    (∀ b, (slipTrainer ℝ b).m_deltaInputHidden = [0, 0, 0, 0] ∧
      (slipTrainer ℝ b).m_deltaHiddenOutput = [0, 0] ∧ (slipTrainer ℝ b).m_momentum = 0 ∧
      (slipTrainer ℝ b).m_pNetwork = slipNet ℝ ∧ (slipTrainer ℝ b).m_useBatchLearning = b) ∧
    ∃ tB tS, RunEpoch Real.exp (slipTrainer ℝ true) (slipSet ℝ) = Except.ok tB ∧
      RunEpoch Real.exp (slipTrainer ℝ false) (slipSet ℝ) = Except.ok tS ∧
      tB.m_pNetwork.m_weightsInputHidden = [1 / 16, -5 / 16, 1 / 4, 0] ∧
      tS.m_pNetwork.m_weightsInputHidden = [1 / 16, -1 / 2, 1 / 4, 0] ∧
      tB.m_pNetwork.m_weightsInputHidden.getD 1 0 - (slipNet ℝ).m_weightsInputHidden.getD 1 0
        ≠ tS.m_pNetwork.m_weightsInputHidden.getD 1 0
          - (slipNet ℝ).m_weightsInputHidden.getD 1 0 := by
  refine ⟨?_, _, _, slip_RunEpoch Real.exp Real.exp_zero true,
    slip_RunEpoch Real.exp Real.exp_zero false, ?_, ?_, ?_⟩
  · intro b
    simp [slipTrainer, NetworkTrainer.create, memsetZero, resize, slipNet]
  · simp [slipUpdated]
  · simp [slipUpdated]
  · simp [slipUpdated, slipNet]
    norm_num

end SlipClaims

section Xor

theorem xorNet_load {α : Type} [LinearOrderedField α] :
    Network.load ⟨2, 2, 1⟩ (xorWeights α) = Except.ok (xorNet α) := by
  rw [Network.load_ok _ _ (by decide) (by rfl)]
  simp [Network.blank, xorWeights, xorNet, List.replicate]

theorem clamp_of_high {x : ℝ} (h : 9 / 10 < x) : ClampOutputValue x = 1 := by
  unfold ClampOutputValue
  rw [if_neg (by norm_num; linarith), if_pos (by norm_num; linarith)]

theorem clamp_of_low {x : ℝ} (h : x < 1 / 10) : ClampOutputValue x = 0 := by
  unfold ClampOutputValue
  rw [if_pos (by norm_num; linarith)]

theorem sigmoid_high {z : ℝ} (hz : 9 ≤ z) : 9 / 10 < (1 + Real.exp (-z))⁻¹ := by
  have h10 : (10 : ℝ) ≤ Real.exp z := by
    have := Real.add_one_le_exp z
    linarith
  have hx : Real.exp (-z) ≤ 1 / 10 := by
    rw [Real.exp_neg, inv_eq_one_div]
    exact one_div_le_one_div_of_le (by norm_num) h10
  have hp : 0 < 1 + Real.exp (-z) := by positivity
  rw [inv_eq_one_div, lt_div_iff₀ hp]
  linarith

theorem sigmoid_low {z : ℝ} (hz : z ≤ -9) : (1 + Real.exp (-z))⁻¹ < 1 / 10 := by
  have h10 : (10 : ℝ) ≤ Real.exp (-z) := by
    have := Real.add_one_le_exp (-z)
    linarith
  have hp : 0 < 1 + Real.exp (-z) := by positivity
  rw [inv_eq_one_div, div_lt_iff₀ hp]
  linarith

theorem xor_output_high (net : Network ℝ) (hn : net.m_numInputs = 2) (hh : net.m_numHidden = 2)
    (hm : net.m_numOutputs = 1)
    (hw1 : net.m_weightsInputHidden = [0, -10, 0, 0, 0, 0, 0, 0, 0])
    (hw2 : net.m_weightsHiddenOutput = [40, -60, 0]) :
    9 / 10 < Reference.output Real.exp net [1, 0] 0 := by
  have e10 : (11 : ℝ) ≤ Real.exp 10 := by
    have := Real.add_one_le_exp (10 : ℝ)
    linarith
  have hpos : (0 : ℝ) < 1 + Real.exp 10 := by positivity
  have hz : (9 : ℝ) ≤ 20 - 60 / (1 + Real.exp 10) := by
    have : 60 / (1 + Real.exp 10) ≤ 5 := by
      rw [div_le_iff₀ hpos]
      linarith
    linarith
  have key := sigmoid_high hz
  simp only [Reference.output, Reference.hidden, hn, hh, hm, hw1, hw2, Finset.sum_range_succ,
    Finset.sum_range_zero]
  simp
  norm_num
  convert key using 3
  ring_nf

theorem xor_output_low (net : Network ℝ) (hn : net.m_numInputs = 2) (hh : net.m_numHidden = 2)
    (hm : net.m_numOutputs = 1)
    (hw1 : net.m_weightsInputHidden = [0, -10, 0, 0, 0, 0, 0, 0, 0])
    (hw2 : net.m_weightsHiddenOutput = [40, -60, 0]) :
    Reference.output Real.exp net [0, 0] 0 < 1 / 10 := by
  have key := sigmoid_low (z := -10) (by norm_num)
  simp only [Reference.output, Reference.hidden, hn, hh, hm, hw1, hw2, Finset.sum_range_succ,
    Finset.sum_range_zero]
  simp
  norm_num
  convert key using 3
  norm_num

/-- C18: the weight list `xorWeights = [0, -10, 0, 0, 40, -60]` is accepted by the
weight-loading constructor for the shape `(2, 2, 1)`; on the loaded network `Evaluate`
on `[1, 0]` returns the clamped output `[1]` and `Evaluate` on `[0, 0]` returns the
clamped output `[0]`, whether it is called on the fresh network or after the first
call. -/
theorem C18_xor_scenario :
    ∃ net : Network ℝ, Network.load ⟨2, 2, 1⟩ (xorWeights ℝ) = Except.ok net ∧
      (∃ n1, Evaluate Real.exp net [1, 0] = Except.ok n1 ∧ n1.m_clampedOutputs = [1] ∧
        ∃ n0, Evaluate Real.exp n1 [0, 0] = Except.ok n0 ∧ n0.m_clampedOutputs = [0]) ∧
      (∃ n0, Evaluate Real.exp net [0, 0] = Except.ok n0 ∧ n0.m_clampedOutputs = [0]) := by
  have hs : (xorNet ℝ).Shaped := ⟨rfl, rfl, rfl, rfl, rfl, rfl⟩
  have hb : (xorNet ℝ).BiasSet := ⟨rfl, rfl⟩
  have hr : List.range 1 = [0] := rfl
  obtain ⟨n1, h1, hs1, hb1, hn1, hh1, hm1⟩ := Evaluate_shaped Real.exp (xorNet ℝ) [1, 0] hs hb rfl
  have hw1 := (Evaluate_dims h1).2.2.2
  refine ⟨xorNet ℝ, xorNet_load, ⟨n1, h1, ?_, _, Evaluate_ok Real.exp n1 [0, 0] hs1 hb1
    (by rw [hn1]; rfl), ?_⟩, _, Evaluate_ok Real.exp (xorNet ℝ) [0, 0] hs hb rfl, ?_⟩
  · rw [Evaluate_ok Real.exp (xorNet ℝ) [1, 0] hs hb rfl] at h1
    cases h1
    simp only [show (xorNet ℝ).m_numOutputs = 1 from rfl, hr, List.map_cons, List.map_nil]
    rw [clamp_of_high (xor_output_high _ rfl rfl rfl rfl rfl)]
  · simp only [hm1, show (xorNet ℝ).m_numOutputs = 1 from rfl, hr, List.map_cons, List.map_nil]
    rw [clamp_of_low (xor_output_low _ (by rw [hn1]; rfl) (by rw [hh1]; rfl)
      (by rw [hm1]; rfl) (by rw [hw1.1]; rfl) (by rw [hw1.2]; rfl))]
  · simp only [show (xorNet ℝ).m_numOutputs = 1 from rfl, hr, List.map_cons, List.map_nil]
    rw [clamp_of_low (xor_output_low _ rfl rfl rfl rfl rfl)]

end Xor

section Pointwise
variable {α : Type} [LinearOrderedField α]

theorem wr_eq_ok {β : Type} {xs xs' : List β} {i : Nat} {v : β} (h : wr xs i v = Except.ok xs') :
    i < xs.length ∧ xs' = xs.set i v := by
  by_cases hi : i < xs.length
  · rw [wr_ok hi] at h
    exact ⟨hi, (Except.ok.inj h).symm⟩
  · rw [wr_error (Nat.le_of_not_lt hi)] at h
    cases h

theorem getD_set_ne {β : Type} (xs : List β) {i p : Nat} (h : i ≠ p) (v d : β) :
    (xs.set i v).getD p d = xs.getD p d := by
  simp [List.getD_eq_getElem?_getD, List.getElem?_set_ne h]

theorem idx_inj {j k j' k' m : Nat} (hk : k < m) (hk' : k' < m)
    (h : j * m + k = j' * m + k') : j = j' ∧ k = k' := by
  have h1 : (j * m + k) % m = (j' * m + k') % m := by rw [h]
  rw [Nat.mul_comm j m, Nat.mul_comm j' m, Nat.mul_add_mod, Nat.mul_add_mod,
    Nat.mod_eq_of_lt hk, Nat.mod_eq_of_lt hk'] at h1
  subst h1
  exact ⟨Nat.eq_of_mul_eq_mul_right (by omega) (Nat.add_right_cancel h), rfl⟩

/-- A loop whose `i`-th iteration rewrites the slot `idx i` of one list of its state,
through `F i`, visits every slot `idx i` once when `idx` is injective: each visited
slot holds `F i` of its old value, every other slot keeps its value. -/
theorem forLoop_pointwise {σ β : Type} (proj : σ → List β) (N : Nat) (idx : Nat → Nat)
    (F : Nat → β → β) (d : β) (body : Nat → σ → Exec σ)
    (hinj : ∀ i i', i < N → i' < N → idx i = idx i' → i = i')
    (hbody : ∀ i s s', i < N → body i s = Except.ok s' →
      idx i < (proj s).length ∧ proj s' = (proj s).set (idx i) (F i ((proj s).getD (idx i) d)))
    (s s' : σ) (hrun : forLoop N body s = Except.ok s') :
    (proj s').length = (proj s).length ∧
    (∀ i, i < N → (proj s').getD (idx i) d = F i ((proj s).getD (idx i) d)) ∧
    (∀ p, (∀ i, i < N → idx i ≠ p) → (proj s').getD p d = (proj s).getD p d) := by
  have key := forLoop_post (fun n (r : σ) => (proj r).length = (proj s).length ∧
      (∀ i, i < N → (proj r).getD (idx i) d
        = if i < n then F i ((proj s).getD (idx i) d) else (proj s).getD (idx i) d) ∧
      (∀ p, (∀ i, i < N → idx i ≠ p) → (proj r).getD p d = (proj s).getD p d))
    N body s s' ⟨rfl, fun i _ => by simp, fun p _ => rfl⟩ ?_ hrun
  · obtain ⟨h1, h2, h3⟩ := key
    refine ⟨h1, fun i hi => ?_, h3⟩
    rw [h2 i hi, if_pos hi]
  · intro n r r' hn ⟨hlen, hvis, hrest⟩ hb
    obtain ⟨hlt, hset⟩ := hbody n r r' hn hb
    refine ⟨by rw [hset, List.length_set, hlen], fun i hi => ?_, fun p hp => ?_⟩
    · rw [hset]
      by_cases hin : i = n
      · subst hin
        rw [getD_set_self hlt, if_pos (Nat.lt_succ_self i), hvis i hi, if_neg (Nat.lt_irrefl i)]
      · have hne : idx n ≠ idx i := fun h => hin (hinj n i hn hi h).symm
        rw [getD_set_ne _ hne, hvis i hi]
        by_cases hlt' : i < n
        · rw [if_pos hlt', if_pos (Nat.lt_succ_of_lt hlt')]
        · rw [if_neg hlt', if_neg (by omega)]
    · rw [hset, getD_set_ne _ (hp n hn), hrest p hp]

/-- The nested form of `forLoop_pointwise`: a loop nest whose iteration `(i, j)` rewrites
the slot `idx i j` through `F i j`, for an injective `idx`. -/
theorem forLoop_nest_pointwise {σ β : Type} (proj : σ → List β) (N M : Nat)
    (idx : Nat → Nat → Nat) (F : Nat → Nat → β → β) (d : β) (body : Nat → Nat → σ → Exec σ)
    (hinj : ∀ i j i' j', i < N → j < M → i' < N → j' < M → idx i j = idx i' j' →
      i = i' ∧ j = j')
    (hbody : ∀ i j s s', i < N → j < M → body i j s = Except.ok s' →
      idx i j < (proj s).length ∧
        proj s' = (proj s).set (idx i j) (F i j ((proj s).getD (idx i j) d)))
    (s s' : σ)
    (hrun : forLoop N (fun i s => forLoop M (fun j s => body i j s) s) s = Except.ok s') :
    (proj s').length = (proj s).length ∧
    (∀ i j, i < N → j < M → (proj s').getD (idx i j) d = F i j ((proj s).getD (idx i j) d)) ∧
    (∀ p, (∀ i j, i < N → j < M → idx i j ≠ p) → (proj s').getD p d = (proj s).getD p d) := by
  have key := forLoop_post (fun n (r : σ) => (proj r).length = (proj s).length ∧
      (∀ i j, i < N → j < M → (proj r).getD (idx i j) d
        = if i < n then F i j ((proj s).getD (idx i j) d) else (proj s).getD (idx i j) d) ∧
      (∀ p, (∀ i j, i < N → j < M → idx i j ≠ p) → (proj r).getD p d = (proj s).getD p d))
    N (fun i s => forLoop M (fun j s => body i j s) s) s s'
    ⟨rfl, fun i j _ _ => by simp, fun p _ => rfl⟩ ?_ hrun
  · obtain ⟨h1, h2, h3⟩ := key
    refine ⟨h1, fun i j hi hj => ?_, h3⟩
    rw [h2 i j hi hj, if_pos hi]
  · intro n r r' hn ⟨hlen, hvis, hrest⟩ hb
    obtain ⟨ilen, ivis, irest⟩ := forLoop_pointwise proj M (fun j => idx n j) (fun j => F n j) d
      (fun j s => body n j s)
      (fun j j' hj hj' h => (hinj n j n j' hn hj hn hj' h).2)
      (fun j s s' hj h => hbody n j s s' hn hj h) r r' hb
    refine ⟨ilen.trans hlen, fun i j hi hj => ?_, fun p hp => ?_⟩
    · by_cases hin : i = n
      · subst hin
        rw [ivis j hj, hvis i j hi hj, if_neg (Nat.lt_irrefl i), if_pos (Nat.lt_succ_self i)]
      · rw [irest _ (fun j' hj' h => hin (hinj n j' i j hn hj' hi hj h).1.symm), hvis i j hi hj]
        by_cases hlt' : i < n
        · rw [if_pos hlt', if_pos (Nat.lt_succ_of_lt hlt')]
        · rw [if_neg hlt', if_neg (by omega)]
    · rw [irest p (fun j hj => hp n j hn hj), hrest p hp]

end Pointwise

section DeltaForms
variable {α : Type} [LinearOrderedField α]

/-- The second loop nest of `UpdateWeights`: every hidden->output weight `(j, k)`,
`j <= numHidden`, `k < numOutputs`, gets its delta added once, in both modes. -/
theorem UpdateWeights_hiddenOutput {t t' : NetworkTrainer α}
    (hrun : UpdateWeights t = Except.ok t') (j k : Nat) (hj : j ≤ t.m_pNetwork.m_numHidden)
    (hk : k < t.m_pNetwork.m_numOutputs) :
    t'.m_pNetwork.m_weightsHiddenOutput.getD (j * t.m_pNetwork.m_numOutputs + k) 0
      = t.m_pNetwork.m_weightsHiddenOutput.getD (j * t.m_pNetwork.m_numOutputs + k) 0
        + t.m_deltaHiddenOutput.getD (j * t.m_pNetwork.m_numOutputs + k) 0 := by
  unfold UpdateWeights at hrun
  simp only [bind_eq_ok, pure_eq_ok, Except.ok.injEq, GetHiddenOutputWeightIndex] at hrun
  obtain ⟨s, -, r, hr, rfl⟩ := hrun
  have key := forLoop_nest_pointwise (fun (r : List α × List α) => r.1)
    (t.m_pNetwork.m_numHidden + 1) t.m_pNetwork.m_numOutputs
    (fun j k => j * t.m_pNetwork.m_numOutputs + k)
    (fun j k w => w + t.m_deltaHiddenOutput.getD (j * t.m_pNetwork.m_numOutputs + k) 0) 0 _
    (fun j k j' k' _ hk _ hk' h => idx_inj hk hk' h) ?_ _ _ hr
  · exact key.2.1 j k (Nat.lt_succ_of_le hj) hk
  · intro j k r r' _ _ hb
    simp only [bind_eq_ok] at hb
    obtain ⟨d, hd, w, hw, wHO, hwr, hfin⟩ := hb
    obtain ⟨hlt, rfl⟩ := wr_eq_ok hwr
    beta_reduce
    rw [rd_eq_ok_getD hd 0, rd_eq_ok_getD hw 0]
    refine ⟨hlt, ?_⟩
    split at hfin
    · simp only [bind_eq_ok, pure_eq_ok, Except.ok.injEq] at hfin
      obtain ⟨_, _, rfl⟩ := hfin
      rfl
    · simp only [pure_eq_ok, Except.ok.injEq] at hfin
      subst hfin
      rfl

/-- The first loop nest of `Backpropagate`: the output error gradients are tabulated,
and every hidden->output delta slot `(j, k)` is rewritten once with the delta rule. -/
theorem Backpropagate_outputLayer {t t' : NetworkTrainer α} {e : List Int}
    (hrun : Backpropagate t e = Except.ok t') :
    (∀ k, k < t.m_pNetwork.m_numOutputs → t'.m_errorGradientsOutput.getD k 0
      = GetOutputErrorGradient ((e.getD k 0 : Int) : α) (t.m_pNetwork.m_outputNeurons.getD k 0)) ∧
    (∀ j k, j ≤ t.m_pNetwork.m_numHidden → k < t.m_pNetwork.m_numOutputs →
      t'.m_deltaHiddenOutput.getD (j * t.m_pNetwork.m_numOutputs + k) 0
        = Reference.delta t (t.m_deltaHiddenOutput.getD (j * t.m_pNetwork.m_numOutputs + k) 0)
            (t.m_pNetwork.m_hiddenNeurons.getD j 0)
            (GetOutputErrorGradient ((e.getD k 0 : Int) : α)
              (t.m_pNetwork.m_outputNeurons.getD k 0))) := by
  unfold Backpropagate at hrun
  simp only [bind_eq_ok, GetHiddenOutputWeightIndex] at hrun
  obtain ⟨s, hs, r, -, hfin⟩ := hrun
  have key := forLoop_post (fun K (s : List α × List α) =>
      (∀ k, k < K → s.1.getD k 0
        = GetOutputErrorGradient ((e.getD k 0 : Int) : α) (t.m_pNetwork.m_outputNeurons.getD k 0)) ∧
      (∀ j k, j ≤ t.m_pNetwork.m_numHidden → k < t.m_pNetwork.m_numOutputs →
        s.2.getD (j * t.m_pNetwork.m_numOutputs + k) 0
          = if k < K then
              Reference.delta t (t.m_deltaHiddenOutput.getD (j * t.m_pNetwork.m_numOutputs + k) 0)
                (t.m_pNetwork.m_hiddenNeurons.getD j 0)
                (GetOutputErrorGradient ((e.getD k 0 : Int) : α)
                  (t.m_pNetwork.m_outputNeurons.getD k 0))
            else t.m_deltaHiddenOutput.getD (j * t.m_pNetwork.m_numOutputs + k) 0))
    _ _ _ _ ⟨fun k hk => absurd hk (Nat.not_lt_zero k), fun j k _ _ => by simp⟩ ?_ hs
  · have hres : t'.m_errorGradientsOutput = s.1 ∧ t'.m_deltaHiddenOutput = s.2 := by
      cases hb : t.m_useBatchLearning with
      | true =>
        simp only [hb, Bool.not_true, Bool.false_eq_true, if_false, pure_eq_ok,
          Except.ok.injEq] at hfin
        subst hfin
        exact ⟨rfl, rfl⟩
      | false =>
        simp only [hb, Bool.not_false, if_true] at hfin
        obtain ⟨-, h2, -, h4⟩ := UpdateWeights_network hfin
        exact ⟨h4, h2⟩
    rw [hres.1, hres.2]
    refine ⟨key.1, fun j k hj hk => ?_⟩
    rw [key.2 j k hj hk, if_pos hk]
  · intro K s s' hK ⟨hg, hd⟩ hb
    simp only [bind_eq_ok, pure_eq_ok, Except.ok.injEq] at hb
    obtain ⟨ev, hev, y, hy, gO, hwr, dHO, hin, rfl⟩ := hb
    obtain ⟨hKlt, rfl⟩ := wr_eq_ok hwr
    have hevD := rd_eq_ok_getD hev 0
    have hyD := rd_eq_ok_getD hy 0
    have inner := forLoop_pointwise (fun (dl : List α) => dl) (t.m_pNetwork.m_numHidden + 1)
      (fun j => j * t.m_pNetwork.m_numOutputs + K)
      (fun j d => Reference.delta t d (t.m_pNetwork.m_hiddenNeurons.getD j 0)
        (GetOutputErrorGradient ((e.getD K 0 : Int) : α) (t.m_pNetwork.m_outputNeurons.getD K 0)))
      0 _ (fun j j' _ _ h => (idx_inj hK hK h).1) ?_ _ _ hin
    · obtain ⟨-, ivis, irest⟩ := inner
      refine ⟨fun k hk => ?_, fun j k hj hk => ?_⟩
      · by_cases hkK : k = K
        · subst hkK
          rw [getD_set_self hKlt, hevD, hyD]
        · rw [getD_set_ne _ (Ne.symm hkK)]
          exact hg k (by omega)
      · by_cases hkK : k = K
        · subst hkK
          rw [ivis j (Nat.lt_succ_of_le hj), hd j k hj hk, if_neg (Nat.lt_irrefl k),
            if_pos (Nat.lt_succ_self k)]
        · rw [irest _ (fun j' _ h => hkK (idx_inj hK hk h).2.symm), hd j k hj hk]
          by_cases hlt : k < K
          · rw [if_pos hlt, if_pos (Nat.lt_succ_of_lt hlt)]
          · rw [if_neg hlt, if_neg (by omega)]
    · intro j dl dl' _ hb
      simp only [bind_eq_ok] at hb
      obtain ⟨hn, hhn, g, hgr, d, hdr, hw⟩ := hb
      have hgD : g = GetOutputErrorGradient ((e.getD K 0 : Int) : α)
          (t.m_pNetwork.m_outputNeurons.getD K 0) := by
        rw [← rd_eq_ok_getD hgr 0, getD_set_self hKlt, hevD, hyD]
      beta_reduce
      rw [rd_eq_ok_getD hhn 0, rd_eq_ok_getD hdr 0, ← hgD]
      unfold Reference.delta
      split at hw
      · rename_i hbt
        rw [if_pos hbt]
        exact wr_eq_ok hw
      · rename_i hbt
        rw [if_neg hbt]
        exact wr_eq_ok hw

/-- In stochastic mode `Backpropagate` moves every hidden->output weight `(j, k)` by
the delta the first loop nest computed for it. -/
theorem Backpropagate_hiddenOutput_weights {t t' : NetworkTrainer α} {e : List Int}
    (hb : t.m_useBatchLearning = false) (hrun : Backpropagate t e = Except.ok t')
    (j k : Nat) (hj : j ≤ t.m_pNetwork.m_numHidden) (hk : k < t.m_pNetwork.m_numOutputs) :
    t'.m_pNetwork.m_weightsHiddenOutput.getD (j * t.m_pNetwork.m_numOutputs + k) 0
      = t.m_pNetwork.m_weightsHiddenOutput.getD (j * t.m_pNetwork.m_numOutputs + k) 0
        + Reference.delta t (t.m_deltaHiddenOutput.getD (j * t.m_pNetwork.m_numOutputs + k) 0)
            (t.m_pNetwork.m_hiddenNeurons.getD j 0)
            (GetOutputErrorGradient ((e.getD k 0 : Int) : α)
              (t.m_pNetwork.m_outputNeurons.getD k 0)) := by
  obtain ⟨u, hu, -, hupd⟩ := Backpropagate_stochastic hb hrun
  have h1 := UpdateWeights_hiddenOutput hupd j k (by rw [hu]; exact hj) (by rw [hu]; exact hk)
  rw [hu, ← (UpdateWeights_network hupd).2.1] at h1
  rw [h1, (Backpropagate_outputLayer hrun).2 j k hj hk]

/-- The output activations `Evaluate` returns are those of `Reference.outputLayer` on
the hidden activations it returns. -/
theorem Evaluate_outputLayer (exp : α → α) (net n1 : Network α) (x : List α)
    (hs : net.Shaped) (hb : net.BiasSet) (hx : x.length = net.m_numInputs)
    (h1 : Evaluate exp net x = Except.ok n1) (k : Nat) (hk : k < net.m_numOutputs) :
    n1.m_outputNeurons.getD k 0 = Reference.outputLayer exp n1.m_hiddenNeurons
      net.m_weightsHiddenOutput net.m_numHidden net.m_numOutputs k := by
  rw [Evaluate_ok exp net x hs hb hx] at h1
  cases h1
  have h0 := getD_tabulate_lt (Reference.output exp net x) net.m_numOutputs [] 0 k hk
  rw [List.append_nil] at h0
  simp only [h0, Reference.output, Reference.outputLayer, Finset.sum_range_succ,
    getD_tabulate_eq]
  congr 4
  rw [sub_eq_add_neg]
  congr 1
  · apply Finset.sum_congr rfl
    intro j hj
    rw [getD_tabulate_lt _ _ _ _ _ (Finset.mem_range.mp hj)]
  · ring

end DeltaForms

section GradientSign

theorem sigmoid_pos (z : ℝ) : 0 < 1 / (1 + Real.exp (-z)) := by positivity

theorem sigmoid_lt_one (z : ℝ) : 1 / (1 + Real.exp (-z)) < 1 := by
  rw [div_lt_one (by positivity)]
  linarith [Real.exp_pos (-z)]

theorem sigmoid_mono {z z' : ℝ} (h : z ≤ z') :
    1 / (1 + Real.exp (-z)) ≤ 1 / (1 + Real.exp (-z')) := by
  apply one_div_le_one_div_of_le (by positivity)
  have := Real.exp_le_exp.mpr (neg_le_neg h)
  linarith

/-- One step along the output error gradient, scaled by a non-negative factor, does
not move a sigmoid output away from a `0`/`1` target. -/
theorem sigmoid_step (tk : ℝ) (ht : tk = 0 ∨ tk = 1) (z c : ℝ) (hc : 0 ≤ c) :
    |tk - 1 / (1 + Real.exp (-(z + c * GetOutputErrorGradient tk (1 / (1 + Real.exp (-z))))))|
      ≤ |tk - 1 / (1 + Real.exp (-z))| := by
  have hp := sigmoid_pos z
  have hl := sigmoid_lt_one z
  unfold GetOutputErrorGradient
  rcases ht with rfl | rfl
  · have hg : (1 / (1 + Real.exp (-z))) * (1 - 1 / (1 + Real.exp (-z)))
        * (0 - 1 / (1 + Real.exp (-z))) ≤ 0 := by
      have : 0 ≤ (1 / (1 + Real.exp (-z))) * (1 - 1 / (1 + Real.exp (-z)))
          * (1 / (1 + Real.exp (-z))) := by
        apply mul_nonneg (mul_nonneg hp.le (by linarith)) hp.le
      linarith
    have hz : z + c * ((1 / (1 + Real.exp (-z))) * (1 - 1 / (1 + Real.exp (-z)))
        * (0 - 1 / (1 + Real.exp (-z)))) ≤ z := by
      have := mul_nonpos_of_nonneg_of_nonpos hc hg
      linarith
    have hm := sigmoid_mono hz
    have hp' := sigmoid_pos (z + c * ((1 / (1 + Real.exp (-z)))
      * (1 - 1 / (1 + Real.exp (-z))) * (0 - 1 / (1 + Real.exp (-z)))))
    have habs : ∀ a : ℝ, 0 < a → |0 - a| = a := fun a ha => by
      rw [zero_sub, abs_neg, abs_of_pos ha]
    rw [habs _ hp', habs _ hp]
    exact hm
  · have hg : 0 ≤ (1 / (1 + Real.exp (-z))) * (1 - 1 / (1 + Real.exp (-z)))
        * (1 - 1 / (1 + Real.exp (-z))) := by
      apply mul_nonneg (mul_nonneg hp.le (by linarith)) (by linarith)
    have hz : z ≤ z + c * ((1 / (1 + Real.exp (-z))) * (1 - 1 / (1 + Real.exp (-z)))
        * (1 - 1 / (1 + Real.exp (-z)))) := by
      have := mul_nonneg hc hg
      linarith
    have hm := sigmoid_mono hz
    have hl' := sigmoid_lt_one (z + c * ((1 / (1 + Real.exp (-z)))
      * (1 - 1 / (1 + Real.exp (-z))) * (1 - 1 / (1 + Real.exp (-z)))))
    rw [abs_of_pos (by linarith), abs_of_pos (by linarith)]
    linarith

end GradientSign

section GradientSignClaim

/-- C17 (amended): for a positive learning rate, in stochastic mode, starting from zero
hidden->output deltas and with `0`/`1` targets, `Evaluate` followed by one
`Backpropagate` step on the entry returns, moves every hidden->output weight `(j, k)`,
`j <= numHidden`, by `learningRate * hidden_j * g_k`, and the output unit `k`
recomputed from the hidden activations of that forward pass with the updated
hidden->output weights is no farther from its target than the output `y_k` of the
forward pass. -/
theorem C17_output_layer_moves_toward_target (t : NetworkTrainer ℝ) (n h m : Nat)
    (e : TrainingEntry ℝ) (hs : t.ShapedAs n h m) (he : e.Fits n m)
    (h01 : ∀ k, k < m → e.m_expectedOutputs.getD k 0 = 0 ∨ e.m_expectedOutputs.getD k 0 = 1)
    (hlr : 0 < t.m_learningRate) (hmode : t.m_useBatchLearning = false)
    (hzero : ∀ p, t.m_deltaHiddenOutput.getD p 0 = 0) :
    ∃ n1 t1, Evaluate Real.exp t.m_pNetwork e.m_inputs = Except.ok n1 ∧
      Backpropagate { t with m_pNetwork := n1 } e.m_expectedOutputs = Except.ok t1 ∧
      (∀ j k, j ≤ h → k < m →
        t1.m_pNetwork.m_weightsHiddenOutput.getD (j * m + k) 0
          = t.m_pNetwork.m_weightsHiddenOutput.getD (j * m + k) 0
            + t.m_learningRate * n1.m_hiddenNeurons.getD j 0
              * GetOutputErrorGradient ((e.m_expectedOutputs.getD k 0 : Int) : ℝ)
                  (n1.m_outputNeurons.getD k 0)) ∧
      ∀ k, k < m →
        |((e.m_expectedOutputs.getD k 0 : Int) : ℝ)
            - Reference.outputLayer Real.exp n1.m_hiddenNeurons
                t1.m_pNetwork.m_weightsHiddenOutput h m k|
          ≤ |((e.m_expectedOutputs.getD k 0 : Int) : ℝ) - n1.m_outputNeurons.getD k 0| := by
  obtain ⟨hn, hh, hm, hnet, hbias, hdIH, hdHO, hgH, hgO⟩ := hs
  subst hn hh hm
  obtain ⟨n1, h1, hs1, hb1, hn1, hh1, hm1⟩ :=
    Evaluate_shaped Real.exp t.m_pNetwork e.m_inputs hnet hbias he.1
  have hw := (Evaluate_dims h1).2.2.2.2
  have hs0 : NetworkTrainer.ShapedAs { t with m_pNetwork := n1 } t.m_pNetwork.m_numInputs
      t.m_pNetwork.m_numHidden t.m_pNetwork.m_numOutputs :=
    ⟨hn1, hh1, hm1, hs1, hb1, hdIH, hdHO, hgH, hgO⟩
  obtain ⟨t1, hbp, -⟩ := Backpropagate_ok _ _ _ _ e.m_expectedOutputs hs0 he.2
    (fun hb => by rw [show ({ t with m_pNetwork := n1 } : NetworkTrainer ℝ).m_useBatchLearning
      = false from hmode] at hb; cases hb)
  have hW : ∀ j k, j ≤ t.m_pNetwork.m_numHidden → k < t.m_pNetwork.m_numOutputs →
      t1.m_pNetwork.m_weightsHiddenOutput.getD (j * t.m_pNetwork.m_numOutputs + k) 0
        = t.m_pNetwork.m_weightsHiddenOutput.getD (j * t.m_pNetwork.m_numOutputs + k) 0
          + t.m_learningRate * n1.m_hiddenNeurons.getD j 0
            * GetOutputErrorGradient ((e.m_expectedOutputs.getD k 0 : Int) : ℝ)
                (n1.m_outputNeurons.getD k 0) := by
    intro j k hj hk
    have key := Backpropagate_hiddenOutput_weights (t := { t with m_pNetwork := n1 }) hmode hbp
      j k (by rw [← hh1] at hj; exact hj) (by rw [← hm1] at hk; exact hk)
    simp only [hm1, hw] at key
    rw [key, Reference.delta, if_neg (by simp [hmode]), hzero, mul_zero, add_zero]
  refine ⟨n1, t1, h1, hbp, hW, fun k hk => ?_⟩
  have hy := Evaluate_outputLayer Real.exp t.m_pNetwork n1 e.m_inputs hnet hbias he.1 h1 k hk
  have ht : ((e.m_expectedOutputs.getD k 0 : Int) : ℝ) = 0
      ∨ ((e.m_expectedOutputs.getD k 0 : Int) : ℝ) = 1 := by
    rcases h01 k hk with h | h <;> rw [h] <;> simp
  have hc : 0 ≤ t.m_learningRate * ∑ j in Finset.range (t.m_pNetwork.m_numHidden + 1),
      n1.m_hiddenNeurons.getD j 0 * n1.m_hiddenNeurons.getD j 0 :=
    mul_nonneg hlr.le (Finset.sum_nonneg (fun j _ => mul_self_nonneg _))
  have hstep := sigmoid_step _ ht (∑ j in Finset.range (t.m_pNetwork.m_numHidden + 1),
      n1.m_hiddenNeurons.getD j 0
        * t.m_pNetwork.m_weightsHiddenOutput.getD (j * t.m_pNetwork.m_numOutputs + k) 0) _ hc
  rw [hy]
  unfold Reference.outputLayer at hy ⊢
  convert hstep using 7
  rw [Finset.mul_sum, Finset.sum_mul, ← Finset.sum_add_distrib]
  apply Finset.sum_congr rfl
  intro j hj
  rw [hW j k (Nat.lt_succ_iff.mp (Finset.mem_range.mp hj)) hk, hy]
  ring

end GradientSignClaim

section Ascent
variable {α : Type} [LinearOrderedField α]

theorem ascent_Evaluate (exp : α → α) (hexp : exp 0 = 1) :
    Evaluate exp (slipNet α) [0] = Except.ok (ascentEvaluated α) := by
  unfold ascentEvaluated
  rw [Evaluate_ok exp (slipNet α) [0] ⟨rfl, rfl, rfl, rfl, rfl, rfl⟩ ⟨rfl, rfl⟩ rfl]
  have hh : Reference.hidden exp (slipNet α) [0] 0 = 1 / 2 := by
    simp [Reference.hidden, slipNet, hexp]
    norm_num
  have hh' := hh
  simp only [slipNet] at hh'
  have ho : Reference.output exp (slipNet α) [0] 0 = 1 / 2 := by
    simp [Reference.output, slipNet, hh', hexp]
    norm_num
  have hc : ClampOutputValue (1 / 2 : α) = -1 := by
    norm_num [ClampOutputValue]
  have hr : List.range 1 = [0] := rfl
  simp only [show (slipNet α).m_numHidden = 1 from rfl, show (slipNet α).m_numOutputs = 1 from rfl,
    hr, List.map_cons, List.map_nil, hh, ho, hc, List.cons_append, List.nil_append]

theorem ascent_Backpropagate :
    Backpropagate { ascentTrainer α with m_pNetwork := ascentEvaluated α } [1]
      = Except.ok (ascentUpdated α) := by
  simp [Backpropagate, UpdateWeights, forLoop, rd, wr, GetHiddenErrorGradient,
    GetOutputErrorGradient, GetInputHiddenWeightIndex, GetHiddenOutputWeightIndex, slipNet,
    ascentEvaluated, ascentTrainer, ascentUpdated, NetworkTrainer.create, memsetZero, resize]
  norm_num

theorem steep_Evaluate (exp : α → α) (hexp : exp 0 = 1) :
    Evaluate exp (steepNet α) [-4] = Except.ok (steepEvaluated α) := by
  unfold steepEvaluated
  rw [Evaluate_ok exp (steepNet α) [-4] ⟨rfl, rfl, rfl, rfl, rfl, rfl⟩ ⟨rfl, rfl⟩ rfl]
  have hh : Reference.hidden exp (steepNet α) [-4] 0 = 1 / 2 := by
    simp [Reference.hidden, steepNet, hexp]
    norm_num
  have hh' := hh
  simp only [steepNet] at hh'
  have ho : Reference.output exp (steepNet α) [-4] 0 = 1 / 2 := by
    simp [Reference.output, steepNet, hh', hexp]
    norm_num
    rw [hexp]
    norm_num
  have hc : ClampOutputValue (1 / 2 : α) = -1 := by
    norm_num [ClampOutputValue]
  have hr : List.range 1 = [0] := rfl
  simp only [show (steepNet α).m_numHidden = 1 from rfl,
    show (steepNet α).m_numOutputs = 1 from rfl,
    hr, List.map_cons, List.map_nil, hh, ho, hc, List.cons_append, List.nil_append]

theorem steep_Backpropagate :
    Backpropagate { steepTrainer α with m_pNetwork := steepEvaluated α } [1]
      = Except.ok (steepUpdated α) := by
  simp [Backpropagate, UpdateWeights, forLoop, rd, wr, GetHiddenErrorGradient,
    GetOutputErrorGradient, GetInputHiddenWeightIndex, GetHiddenOutputWeightIndex, steepNet,
    steepEvaluated, steepTrainer, steepUpdated, NetworkTrainer.create, memsetZero, resize]
  norm_num

/-- C17 (counterexample): the claimed gradient-sign property fails on two concrete
runs of `Evaluate`, `Backpropagate`, `Evaluate` on the same entry, each with a fresh
stochastic trainer (all deltas zero, momentum `0`) and the target `1`.  With learning
rate `-1`, network `slipNet` and input `[0]`, and with learning rate `1`, network
`steepNet` and input `[-4]`, the output is `1/2` before the step and farther from the
target after it. -/
theorem C17_gradient_sign_counterexample :
    ((ascentTrainer ℝ).m_learningRate ≠ 0 ∧ (ascentTrainer ℝ).m_useBatchLearning = false ∧
      (ascentTrainer ℝ).m_deltaInputHidden = [0, 0, 0, 0] ∧
      (ascentTrainer ℝ).m_deltaHiddenOutput = [0, 0] ∧
      ∃ n1 t1 n2, Evaluate Real.exp (ascentTrainer ℝ).m_pNetwork [0] = Except.ok n1 ∧
        Backpropagate { ascentTrainer ℝ with m_pNetwork := n1 } [1] = Except.ok t1 ∧
        Evaluate Real.exp t1.m_pNetwork [0] = Except.ok n2 ∧
        |1 - n1.m_outputNeurons.getD 0 0| < |1 - n2.m_outputNeurons.getD 0 0|) ∧
    ((steepTrainer ℝ).m_learningRate = 1 ∧ (steepTrainer ℝ).m_useBatchLearning = false ∧
      (steepTrainer ℝ).m_deltaInputHidden = [0, 0, 0, 0] ∧
      (steepTrainer ℝ).m_deltaHiddenOutput = [0, 0] ∧
      ∃ n1 t1 n2, Evaluate Real.exp (steepTrainer ℝ).m_pNetwork [-4] = Except.ok n1 ∧
        Backpropagate { steepTrainer ℝ with m_pNetwork := n1 } [1] = Except.ok t1 ∧
        Evaluate Real.exp t1.m_pNetwork [-4] = Except.ok n2 ∧
        |1 - n1.m_outputNeurons.getD 0 0| < |1 - n2.m_outputNeurons.getD 0 0|) := by
  have hr : List.range 1 = [0] := rfl
  have hlow : ∀ z : ℝ, z < 0 → |1 - (1 / 2 : ℝ)| < |1 - 1 / (1 + Real.exp (-z))| := by
    intro z hz
    have h1 : 1 < Real.exp (-z) := by
      have := Real.add_one_le_exp (-z)
      linarith
    have h2 : 1 / (1 + Real.exp (-z)) < 1 / 2 := by
      exact one_div_lt_one_div_of_lt (by norm_num) (by linarith)
    rw [abs_of_pos (by norm_num), abs_of_pos (by linarith)]
    linarith
  refine ⟨⟨?_, rfl, ?_, ?_, ascentEvaluated ℝ, ascentUpdated ℝ, _,
      ascent_Evaluate Real.exp Real.exp_zero, ascent_Backpropagate,
      Evaluate_ok Real.exp (ascentUpdated ℝ).m_pNetwork [0] ⟨rfl, rfl, rfl, rfl, rfl, rfl⟩
        ⟨rfl, rfl⟩ rfl, ?_⟩,
    ⟨?_, rfl, ?_, ?_, steepEvaluated ℝ, steepUpdated ℝ, _,
      steep_Evaluate Real.exp Real.exp_zero, steep_Backpropagate,
      Evaluate_ok Real.exp (steepUpdated ℝ).m_pNetwork [-4] ⟨rfl, rfl, rfl, rfl, rfl, rfl⟩
        ⟨rfl, rfl⟩ rfl, ?_⟩⟩
  · simp [ascentTrainer, NetworkTrainer.create]
  · simp [ascentTrainer, NetworkTrainer.create, memsetZero, resize, slipNet]
  · simp [ascentTrainer, NetworkTrainer.create, memsetZero, resize, slipNet]
  · have hz : Reference.output Real.exp (ascentUpdated ℝ).m_pNetwork [0] 0
        = 1 / (1 + Real.exp (-(-5 / 32))) := by
      simp [Reference.output, Reference.hidden, ascentUpdated, ascentEvaluated, slipNet]
      norm_num
    simp only [show (ascentUpdated ℝ).m_pNetwork.m_numOutputs = 1 from rfl, hr, List.map_cons,
      List.map_nil, List.getD_cons_zero, hz]
    exact hlow _ (by norm_num)
  · simp [steepTrainer, NetworkTrainer.create]
  · simp [steepTrainer, NetworkTrainer.create, memsetZero, resize, steepNet]
  · simp [steepTrainer, NetworkTrainer.create, memsetZero, resize, steepNet]
  · have e4 : (5 : ℝ) ≤ Real.exp 4 := by
      have := Real.add_one_le_exp (4 : ℝ)
      linarith
    have hh : (1 + Real.exp 4)⁻¹ ≤ (1 / 6 : ℝ) := by
      rw [inv_eq_one_div]
      exact one_div_le_one_div_of_le (by norm_num) (by linarith)
    have hz : Reference.output Real.exp (steepUpdated ℝ).m_pNetwork [-4] 0
        = 1 / (1 + Real.exp (-((1 + Real.exp 4)⁻¹ * (129 / 16) - 31 / 8))) := by
      simp [Reference.output, Reference.hidden, steepUpdated, steepEvaluated, steepNet]
      norm_num
    simp only [show (steepUpdated ℝ).m_pNetwork.m_numOutputs = 1 from rfl, hr, List.map_cons,
      List.map_nil, List.getD_cons_zero, hz]
    exact hlow _ (by linarith)

/-- Witness for C17 (amended): the fresh stochastic trainer `slipTrainer` (learning rate
`1`) on the entry with input `[1]` and target `[1]`. -/
theorem C17_output_layer_moves_toward_target_witness :
    ∃ n1 t1, Evaluate Real.exp (slipTrainer ℝ false).m_pNetwork [1] = Except.ok n1 ∧
      Backpropagate { slipTrainer ℝ false with m_pNetwork := n1 } [1] = Except.ok t1 ∧
      |(1 : ℝ) - Reference.outputLayer Real.exp n1.m_hiddenNeurons
          t1.m_pNetwork.m_weightsHiddenOutput 1 1 0|
        ≤ |(1 : ℝ) - n1.m_outputNeurons.getD 0 0| := by
  obtain ⟨n1, t1, h1, hbp, -, hall⟩ := C17_output_layer_moves_toward_target
    (slipTrainer ℝ false) 1 1 1 ⟨[1], [1]⟩
    (create_shapedAs _ (slipNet ℝ) ⟨rfl, rfl, rfl, rfl, rfl, rfl⟩ ⟨rfl, rfl⟩) ⟨rfl, rfl⟩
    (fun k hk => by
      have hk0 : k = 0 := by omega
      subst hk0
      exact Or.inr rfl)
    (by simp [slipTrainer, NetworkTrainer.create]) rfl
    (fun p => by
      rcases p with _ | _ | p <;>
        simp [slipTrainer, NetworkTrainer.create, memsetZero, resize, slipNet])
  refine ⟨n1, t1, h1, hbp, ?_⟩
  simpa using hall 0 (by decide)

end Ascent

section MoreWitnesses

/-- Witness for C12: the entry step of `RunEpoch` on `sampleTrainer` and the entry with
input `[0]` and target `[0]` returns, and the counter is judged as the theorem says. -/
theorem C12_entry_correct_iff_all_units_match_witness :
    ∃ s', RunEpochStep (fun _ => (1 : ℚ)) ⟨[0], [0]⟩ (sampleTrainer, 0, 0) = Except.ok s' ∧
      (s'.2.1 = 0 ↔ ∀ k, k < s'.1.m_pNetwork.m_numOutputs →
        s'.1.m_pNetwork.m_clampedOutputs.getD k 0 = ([0] : List Int).getD k 0) ∧
      (s'.2.1 = 0 + 1 ↔ ∃ k, k < s'.1.m_pNetwork.m_numOutputs ∧
        s'.1.m_pNetwork.m_clampedOutputs.getD k 0 ≠ ([0] : List Int).getD k 0) := by
  obtain ⟨s', hs', -⟩ := RunEpochStep_ok (fun _ => (1 : ℚ)) ⟨[0], [0]⟩ (sampleTrainer, 0, 0)
    1 1 1 sampleTrainer_shapedAs ⟨rfl, rfl⟩ (fun _ => by decide)
  have key := (C12_entry_correct_iff_all_units_match (fun _ => (1 : ℚ)) ⟨[0], [0]⟩
    (sampleTrainer, 0, 0)).1 s' hs'
  exact ⟨s', hs', key.1, key.2.1⟩

/-- Witness for C15: one batch epoch of `batchTrainer` over the one-entry training set
returns; the entry loop ends on the weights the epoch started with and the weights of
the epoch are those of the one `UpdateWeights` call after it. -/
theorem C15_weights_change_only_in_UpdateWeights_witness :
    ∃ t' s u, RunEpoch (fun _ => (1 : ℚ)) batchTrainer sampleData.m_trainingSet = Except.ok t' ∧
      forEach sampleData.m_trainingSet (RunEpochStep (fun _ => (1 : ℚ))) (batchTrainer, 0, 0)
        = Except.ok s ∧
      s.1.m_pNetwork.m_weightsInputHidden = batchTrainer.m_pNetwork.m_weightsInputHidden ∧
      s.1.m_pNetwork.m_weightsHiddenOutput = batchTrainer.m_pNetwork.m_weightsHiddenOutput ∧
      UpdateWeights s.1 = Except.ok u ∧ t'.m_pNetwork = u.m_pNetwork := by
  obtain ⟨t', hrun, -⟩ := RunEpoch_ok (fun _ => (1 : ℚ)) batchTrainer
    sampleData.m_trainingSet 1 1 1 batchTrainer_shapedAs sampleData_fits.1 (fun _ => by decide)
  obtain ⟨s, u, h1, h2, h3, h4, h5⟩ := (C15_weights_change_only_in_UpdateWeights
    (fun _ => (1 : ℚ)) batchTrainer sampleData.m_trainingSet).2.2.1 rfl t' hrun
  exact ⟨t', s, u, hrun, h1, h2, h3, h4, h5⟩

end MoreWitnesses

section EvaluateClaims
variable {α : Type} [LinearOrderedField α]

/-- The reference activations depend on the network through its dimensions and its two
weight arrays only. -/
theorem Reference_congr (exp : α → α) {net1 net2 : Network α}
    (hn : net2.m_numInputs = net1.m_numInputs) (hh : net2.m_numHidden = net1.m_numHidden)
    (hm : net2.m_numOutputs = net1.m_numOutputs)
    (hw1 : net2.m_weightsInputHidden = net1.m_weightsInputHidden)
    (hw2 : net2.m_weightsHiddenOutput = net1.m_weightsHiddenOutput) (x : List α) :
    Reference.hidden exp net2 x = Reference.hidden exp net1 x ∧
      Reference.output exp net2 x = Reference.output exp net1 x := by
  have h1 : Reference.hidden exp net2 x = Reference.hidden exp net1 x := by
    funext j
    simp only [Reference.hidden, hn, hh, hw1]
  refine ⟨h1, ?_⟩
  funext k
  simp only [Reference.output, h1, hh, hm, hw2]

/-- Two networks with the same dimensions and weights are taken by `Evaluate` to the
same state, whatever activations they held before. -/
theorem Evaluate_congr (exp : α → α) (net1 net2 : Network α) (x : List α)
    (hs1 : net1.Shaped) (hb1 : net1.BiasSet) (hs2 : net2.Shaped) (hb2 : net2.BiasSet)
    (hn : net2.m_numInputs = net1.m_numInputs) (hh : net2.m_numHidden = net1.m_numHidden)
    (hm : net2.m_numOutputs = net1.m_numOutputs)
    (hw1 : net2.m_weightsInputHidden = net1.m_weightsInputHidden)
    (hw2 : net2.m_weightsHiddenOutput = net1.m_weightsHiddenOutput)
    (hx : x.length = net1.m_numInputs) :
    Evaluate exp net2 x = Evaluate exp net1 x := by
  rw [Evaluate_ok exp net1 x hs1 hb1 hx, Evaluate_ok exp net2 x hs2 hb2 (by rw [hx, hn])]
  obtain ⟨e1, e2⟩ := Reference_congr exp hn hh hm hw1 hw2 x
  rw [e1, e2, hh, hm]
  cases net1
  cases net2
  simp only at hn hh hm hw1 hw2
  subst hn hh hm hw1 hw2
  rfl

/-- C21: `Evaluate` is deterministic in the weights and the input.  Two networks with
the same dimensions and weights (class invariant, bias slots `-1`), whatever
activations earlier calls left in them, are taken by `Evaluate` on the same input to
one and the same state, hence to the same output activations and clamped outputs; and
a second `Evaluate` on the same input leaves that state as it is. -/
theorem C21_Evaluate_deterministic (exp : α → α) (net1 net2 : Network α) (x : List α)
    (hs1 : net1.Shaped) (hb1 : net1.BiasSet) (hs2 : net2.Shaped) (hb2 : net2.BiasSet)
    (hn : net2.m_numInputs = net1.m_numInputs) (hh : net2.m_numHidden = net1.m_numHidden)
    (hm : net2.m_numOutputs = net1.m_numOutputs)
    (hw1 : net2.m_weightsInputHidden = net1.m_weightsInputHidden)
    (hw2 : net2.m_weightsHiddenOutput = net1.m_weightsHiddenOutput)
    (hx : x.length = net1.m_numInputs) :
    ∃ r, Evaluate exp net1 x = Except.ok r ∧ Evaluate exp net2 x = Except.ok r ∧
      Evaluate exp r x = Except.ok r := by
  obtain ⟨r, hr, hsr, hbr, hnr, hhr, hmr⟩ := Evaluate_shaped exp net1 x hs1 hb1 hx
  obtain ⟨-, -, -, hwr1, hwr2⟩ := Evaluate_dims hr
  refine ⟨r, hr, ?_, ?_⟩
  · rw [Evaluate_congr exp net1 net2 x hs1 hb1 hs2 hb2 hn hh hm hw1 hw2 hx, hr]
  · rw [Evaluate_congr exp net1 r x hs1 hb1 hsr hbr hnr hhr hmr hwr1 hwr2 hx, hr]

/-- Witness for C21: `sampleNet` and the same network with other activations left in
its hidden, output and clamped vectors. -/
theorem C21_Evaluate_deterministic_witness :
    ∃ r, Evaluate (fun _ => (1 : ℚ)) sampleNet [0] = Except.ok r ∧
      Evaluate (fun _ => (1 : ℚ))
        { sampleNet with m_inputNeurons := [5, -1], m_hiddenNeurons := [7, -1],
                         m_outputNeurons := [3], m_clampedOutputs := [1] } [0] = Except.ok r ∧
      Evaluate (fun _ => (1 : ℚ)) r [0] = Except.ok r :=
  C21_Evaluate_deterministic (fun _ => (1 : ℚ)) sampleNet
    { sampleNet with m_inputNeurons := [5, -1], m_hiddenNeurons := [7, -1],
                     m_outputNeurons := [3], m_clampedOutputs := [1] } [0]
    sampleNet_shaped sampleNet_biasSet ⟨rfl, rfl, rfl, rfl, rfl, rfl⟩ ⟨rfl, rfl⟩
    rfl rfl rfl rfl rfl rfl

/-- C22: `Evaluate` on an input of length `numInputs` returns and leaves both weight
arrays and the three dimensions as they were; it writes the three activation vectors
and the clamped outputs only. -/
theorem C22_Evaluate_frame (exp : α → α) (net : Network α) (x : List α)
    (hs : net.Shaped) (hb : net.BiasSet) (hx : x.length = net.m_numInputs) :
    ∃ net', Evaluate exp net x = Except.ok net' ∧
      net'.m_weightsInputHidden = net.m_weightsInputHidden ∧
      net'.m_weightsHiddenOutput = net.m_weightsHiddenOutput ∧
      net'.m_numInputs = net.m_numInputs ∧ net'.m_numHidden = net.m_numHidden ∧
      net'.m_numOutputs = net.m_numOutputs ∧
      net' = { net with
        m_inputNeurons := net'.m_inputNeurons
        m_hiddenNeurons := net'.m_hiddenNeurons
        m_outputNeurons := net'.m_outputNeurons
        m_clampedOutputs := net'.m_clampedOutputs } := by
  refine ⟨_, Evaluate_ok exp net x hs hb hx, rfl, rfl, rfl, rfl, rfl, rfl⟩

/-- Witness for C22: `sampleNet` on the input `[0]`. -/
theorem C22_Evaluate_frame_witness :
    ∃ net', Evaluate (fun _ => (1 : ℚ)) sampleNet [0] = Except.ok net' ∧
      net'.m_weightsInputHidden = [1, 0, 0, 0] ∧ net'.m_weightsHiddenOutput = [2, 0] ∧
      net'.m_numInputs = 1 ∧ net'.m_numHidden = 1 ∧ net'.m_numOutputs = 1 := by
  obtain ⟨net', h, h1, h2, h3, h4, h5, -⟩ := C22_Evaluate_frame (fun _ => (1 : ℚ)) sampleNet [0]
    sampleNet_shaped sampleNet_biasSet rfl
  exact ⟨net', h, h1, h2, h3, h4, h5⟩

/-- `Evaluate` stops on its first assertion when the input has the wrong length. -/
theorem Evaluate_wrong_length (exp : α → α) (net : Network α) (x : List α)
    (hx : x.length ≠ net.m_numInputs) :
    Evaluate exp net x = Except.error Fault.assertion := by
  unfold Evaluate
  rw [check_error hx]
  rfl

/-- C24: on a network satisfying the class invariant, `Evaluate` stops on its assertion
exactly when the input length differs from `numInputs` (this half needs no invariant:
the length test is its first statement), and returns a state exactly when the input
has length `numInputs`. -/
theorem C24_Evaluate_rejects_iff_wrong_length (exp : α → α) (net : Network α) (x : List α)
    (hs : net.Shaped) (hb : net.BiasSet) :
    (Evaluate exp net x = Except.error Fault.assertion ↔ x.length ≠ net.m_numInputs) ∧
      ((∃ net', Evaluate exp net x = Except.ok net') ↔ x.length = net.m_numInputs) := by
  by_cases hx : x.length = net.m_numInputs
  · rw [Evaluate_ok exp net x hs hb hx]
    simp [hx]
  · rw [Evaluate_wrong_length exp net x hx]
    simp [hx]

/-- Witness for C24: `sampleNet` accepts `[0]` and rejects `[0, 0]` and `[]`. -/
theorem C24_Evaluate_rejects_iff_wrong_length_witness :
    (∃ net', Evaluate (fun _ => (1 : ℚ)) sampleNet [0] = Except.ok net') ∧
      Evaluate (fun _ => (1 : ℚ)) sampleNet [0, 0] = Except.error Fault.assertion ∧
      Evaluate (fun _ => (1 : ℚ)) sampleNet [] = Except.error Fault.assertion :=
  ⟨(C24_Evaluate_rejects_iff_wrong_length (fun _ => (1 : ℚ)) sampleNet [0] sampleNet_shaped
      sampleNet_biasSet).2.mpr rfl,
    (C24_Evaluate_rejects_iff_wrong_length (fun _ => (1 : ℚ)) sampleNet [0, 0] sampleNet_shaped
      sampleNet_biasSet).1.mpr (by decide),
    (C24_Evaluate_rejects_iff_wrong_length (fun _ => (1 : ℚ)) sampleNet [] sampleNet_shaped
      sampleNet_biasSet).1.mpr (by decide)⟩

end EvaluateClaims

section BiasAndReset
variable {α : Type} [LinearOrderedField α]

/-- C23: the bias invariant.  Both constructors return (for positive dimensions, and a
weight list of the right length) a network whose last input activation and last hidden
activation are `-1`; `Evaluate` on an input of length `numInputs`, whatever its
values, returns a network with both slots still at `-1`; `Backpropagate` and
`UpdateWeights` leave both activation vectors, hence both slots, as they are. -/
theorem C23_bias_invariant (exp : α → α) :
    (∀ (draw : Nat → α) (settings : NetworkSettings),
      (settings.m_numInputs > 0 ∧ settings.m_numOutputs > 0 ∧ settings.m_numHidden > 0 →
        ∃ net, Network.create draw settings = Except.ok net) ∧
      ∀ net, Network.create draw settings = Except.ok net →
        net.m_inputNeurons.getLast? = some (-1) ∧ net.m_hiddenNeurons.getLast? = some (-1) ∧
        net.m_inputNeurons.length = settings.m_numInputs + 1 ∧
        net.m_hiddenNeurons.length = settings.m_numHidden + 1) ∧
    (∀ (settings : NetworkSettings) (weights : List α),
      (settings.m_numInputs > 0 ∧ settings.m_numOutputs > 0 ∧ settings.m_numHidden > 0 →
        weights.length = settings.m_numInputs * settings.m_numHidden
          + settings.m_numHidden * settings.m_numOutputs →
        ∃ net : Network α, Network.load settings weights = Except.ok net) ∧
      ∀ net : Network α, Network.load settings weights = Except.ok net →
        net.m_inputNeurons.getLast? = some (-1) ∧ net.m_hiddenNeurons.getLast? = some (-1) ∧
        net.m_inputNeurons.length = settings.m_numInputs + 1 ∧
        net.m_hiddenNeurons.length = settings.m_numHidden + 1) ∧
    (∀ (net : Network α) (x : List α), net.Shaped → net.BiasSet →
      x.length = net.m_numInputs →
      ∃ net', Evaluate exp net x = Except.ok net' ∧
        net'.m_inputNeurons.getLast? = some (-1) ∧ net'.m_hiddenNeurons.getLast? = some (-1) ∧
        net'.m_inputNeurons.length = net.m_numInputs + 1 ∧
        net'.m_hiddenNeurons.length = net.m_numHidden + 1) ∧
    (∀ (t t' : NetworkTrainer α) (e : List Int), Backpropagate t e = Except.ok t' →
      t'.m_pNetwork.m_inputNeurons = t.m_pNetwork.m_inputNeurons ∧
      t'.m_pNetwork.m_hiddenNeurons = t.m_pNetwork.m_hiddenNeurons) ∧
    (∀ (t t' : NetworkTrainer α), UpdateWeights t = Except.ok t' →
      t'.m_pNetwork.m_inputNeurons = t.m_pNetwork.m_inputNeurons ∧
      t'.m_pNetwork.m_hiddenNeurons = t.m_pNetwork.m_hiddenNeurons) := by
  refine ⟨fun draw settings => ⟨fun hpos => ?_, fun net hnet => ?_⟩,
    fun settings weights => ⟨fun hpos hlen => ?_, fun net hnet => ?_⟩,
    fun net x hs hb hx => ?_, fun t t' e h => ?_, fun t t' h => ?_⟩
  · obtain ⟨w1, w2, h, -⟩ := Network.create_ok draw settings hpos
    exact ⟨_, h⟩
  · by_cases hpos : settings.m_numInputs > 0 ∧ settings.m_numOutputs > 0
        ∧ settings.m_numHidden > 0
    · obtain ⟨w1, w2, h, -⟩ := Network.create_ok draw settings hpos
      rw [h] at hnet
      cases hnet
      exact ⟨(blank_biasSet settings).1, (blank_biasSet settings).2,
        (blank_shaped settings).inputNeurons, (blank_shaped settings).hiddenNeurons⟩
    · rw [Network.create_not_pos draw settings hpos] at hnet
      cases hnet
  · exact ⟨_, Network.load_ok settings weights hpos hlen⟩
  · by_cases hpos : settings.m_numInputs > 0 ∧ settings.m_numOutputs > 0
        ∧ settings.m_numHidden > 0
    · by_cases hlen : weights.length = settings.m_numInputs * settings.m_numHidden
          + settings.m_numHidden * settings.m_numOutputs
      · rw [Network.load_ok settings weights hpos hlen] at hnet
        cases hnet
        exact ⟨(blank_biasSet settings).1, (blank_biasSet settings).2,
          (blank_shaped settings).inputNeurons, (blank_shaped settings).hiddenNeurons⟩
      · rw [Network.load_wrong_length settings weights hlen] at hnet
        cases hnet
    · rw [Network.load_not_pos settings weights hpos] at hnet
      cases hnet
  · obtain ⟨net', h, hs', hb', hn, hh, -⟩ := Evaluate_shaped exp net x hs hb hx
    exact ⟨net', h, hb'.1, hb'.2, by rw [hs'.inputNeurons, hn], by rw [hs'.hiddenNeurons, hh]⟩
  · have hf := Backpropagate_network h
    exact ⟨hf.inputNeurons, hf.hiddenNeurons⟩
  · have hf := (UpdateWeights_network h).1
    exact ⟨hf.inputNeurons, hf.hiddenNeurons⟩

/-- Witness for C23: the loading constructor for shape 1-1-1; and `sampleNet` after
`Evaluate` on the input `[5]` followed by `Backpropagate` with the target `[1]`. -/
theorem C23_bias_invariant_witness :
    (∃ net : Network ℚ, Network.load ⟨1, 1, 1⟩ [1, 2] = Except.ok net ∧
      net.m_inputNeurons.getLast? = some (-1) ∧ net.m_hiddenNeurons.getLast? = some (-1)) ∧
    ∃ (net' : Network ℚ) (t' : NetworkTrainer ℚ),
      Evaluate (fun _ => (1 : ℚ)) sampleNet [5] = Except.ok net' ∧
      net'.m_inputNeurons.getLast? = some (-1) ∧ net'.m_hiddenNeurons.getLast? = some (-1) ∧
      Backpropagate (NetworkTrainer.create ⟨1 / 2, 0, false, 1, 90⟩ net') [1] = Except.ok t' ∧
      t'.m_pNetwork.m_inputNeurons.getLast? = some (-1) ∧
      t'.m_pNetwork.m_hiddenNeurons.getLast? = some (-1) := by
  have key := C23_bias_invariant (fun _ => (1 : ℚ))
  obtain ⟨net, hload⟩ := (key.2.1 ⟨1, 1, 1⟩ [1, 2]).1 (by decide) rfl
  obtain ⟨b1, b2, -, -⟩ := (key.2.1 ⟨1, 1, 1⟩ [1, 2]).2 net hload
  obtain ⟨net', hev, hs', hb', -, -, hm⟩ := Evaluate_shaped (fun _ => (1 : ℚ)) sampleNet [5]
    sampleNet_shaped sampleNet_biasSet rfl
  obtain ⟨t', hbp, -⟩ := Backpropagate_returns
    (NetworkTrainer.create ⟨1 / 2, 0, false, 1, 90⟩ net') _ _ _ [1]
    (create_shapedAs _ net' hs' hb') (by rw [hm]; rfl)
  obtain ⟨e1, e2⟩ := key.2.2.2.1 _ t' [1] hbp
  refine ⟨⟨net, hload, b1, b2⟩, net', t', hev, hb'.1, hb'.2, hbp, ?_, ?_⟩
  · rw [e1]; exact hb'.1
  · rw [e2]; exact hb'.2

/-- C25: `Train` resets the epoch counter and the six statistics before anything else.
Two trainers that agree on the network, the settings and the four buffers, and differ
in the epoch counter and the statistics at most, are taken by `Train` on the same data
to the same outcome: the same final state (same number of epochs, weights and
statistics) or the same fault. -/
theorem C25_Train_resets_statistics (exp : α → α) (fuel : Nat) (t1 t2 : NetworkTrainer α)
    (data : TrainingData α)
    (hnet : t2.m_pNetwork = t1.m_pNetwork) (hlr : t2.m_learningRate = t1.m_learningRate)
    (hmom : t2.m_momentum = t1.m_momentum)
    (hacc : t2.m_desiredAccuracy = t1.m_desiredAccuracy)
    (hmax : t2.m_maxEpochs = t1.m_maxEpochs)
    (hmode : t2.m_useBatchLearning = t1.m_useBatchLearning)
    (hdIH : t2.m_deltaInputHidden = t1.m_deltaInputHidden)
    (hdHO : t2.m_deltaHiddenOutput = t1.m_deltaHiddenOutput)
    (hgH : t2.m_errorGradientsHidden = t1.m_errorGradientsHidden)
    (hgO : t2.m_errorGradientsOutput = t1.m_errorGradientsOutput) :
    Train exp fuel t2 data = Train exp fuel t1 data := by
  have hreset : TrainReset t2 = TrainReset t1 := by
    cases t1
    cases t2
    simp only at hnet hlr hmom hacc hmax hmode hdIH hdHO hgH hgO
    subst hnet hlr hmom hacc hmax hmode hdIH hdHO hgH hgO
    rfl
  unfold Train
  simp only [hreset]

/-- Witness for C25: `sampleTrainer` and the same trainer with epoch counter `7` and
other statistics; both runs of `Train` return the same state. -/
theorem C25_Train_resets_statistics_witness :
    ∃ t', Train (fun _ => (1 : ℚ)) 1 sampleTrainer sampleData = Except.ok t' ∧
      Train (fun _ => (1 : ℚ)) 1
        { sampleTrainer with
          m_currentEpoch := 7
          m_trainingSetAccuracy := Stat.real 50
          m_validationSetAccuracy := Stat.real 40
          m_generalizationSetAccuracy := Stat.real 30
          m_trainingSetMSE := Stat.real 3
          m_validationSetMSE := Stat.real 2
          m_generalizationSetMSE := Stat.real 1 }
        sampleData = Except.ok t' := by
  obtain ⟨t', h⟩ := Train_ok (fun _ => (1 : ℚ)) 1 sampleTrainer sampleData 1 1 1
    sampleTrainer_shapedAs sampleData_fits (fun _ => by decide) (le_refl _)
  refine ⟨t', h, ?_⟩
  rw [C25_Train_resets_statistics (fun _ => (1 : ℚ)) 1 sampleTrainer
    { sampleTrainer with
      m_currentEpoch := 7
      m_trainingSetAccuracy := Stat.real 50
      m_validationSetAccuracy := Stat.real 40
      m_generalizationSetAccuracy := Stat.real 30
      m_trainingSetMSE := Stat.real 3
      m_validationSetMSE := Stat.real 2
      m_generalizationSetMSE := Stat.real 1 }
    sampleData rfl rfl rfl rfl rfl rfl rfl rfl rfl rfl, h]

end BiasAndReset

section Sizes
variable {α : Type} [LinearOrderedField α]

theorem SameSizes_refl (t : NetworkTrainer α) : NetworkTrainer.SameSizes t t :=
  ⟨rfl, rfl, rfl, rfl⟩

theorem SameSizes_trans {t1 t2 t3 : NetworkTrainer α} (h12 : NetworkTrainer.SameSizes t1 t2)
    (h23 : NetworkTrainer.SameSizes t2 t3) : NetworkTrainer.SameSizes t1 t3 :=
  ⟨h23.1.trans h12.1, h23.2.1.trans h12.2.1, h23.2.2.1.trans h12.2.2.1,
    h23.2.2.2.trans h12.2.2.2⟩

theorem SameSizes_deltaSized {t t' : NetworkTrainer α} (h : NetworkTrainer.SameSizes t t')
    (hd : t.DeltaSized) : t'.DeltaSized :=
  ⟨by rw [h.2.2.1, h.1, hd.1], by rw [h.2.2.2, h.2.1, hd.2]⟩

/-- Partial-correctness rule for a loop nest with an invariant that does not depend on
the counters. -/
theorem forLoop_nest_post {σ : Type} (P : σ → Prop) (N M : Nat)
    (body : Nat → Nat → σ → Exec σ)
    (hbody : ∀ i j s s', P s → body i j s = Except.ok s' → P s') (s s' : σ) (h0 : P s)
    (hrun : forLoop N (fun i s => forLoop M (fun j s => body i j s) s) s = Except.ok s') :
    P s' :=
  forLoop_post (fun _ s => P s) N _ s s' h0
    (fun i s1 s2 _ hP h =>
      forLoop_post (fun _ s => P s) M _ s1 s2 hP (fun j a b _ hPa hb => hbody i j a b hPa hb) h)
    hrun

/-- A returning `UpdateWeights` keeps the lengths of both weight arrays and both delta
buffers. -/
theorem UpdateWeights_sizes {t t' : NetworkTrainer α} (h : UpdateWeights t = Except.ok t') :
    NetworkTrainer.SameSizes t t' := by
  unfold UpdateWeights at h
  simp only [bind_eq_ok, pure_eq_ok, Except.ok.injEq] at h
  obtain ⟨s, hs, r, hr, rfl⟩ := h
  have step : ∀ (a b : Nat) (src : List α) (idx : Nat) (p p' : List α × List α),
      (p.1.length = a ∧ p.2.length = b) →
      (do
        let d ← rd src idx
        let w ← rd p.1 idx
        let wn ← wr p.1 idx (w + d)
        if t.m_useBatchLearning then
          let dn ← wr p.2 idx 0
          pure (wn, dn)
        else
          pure (wn, p.2)) = Except.ok p' →
      (p'.1.length = a ∧ p'.2.length = b) := by
    intro a b src idx p p' hP hb
    simp only [bind_eq_ok] at hb
    obtain ⟨d, -, w, -, wn, hwn, hfin⟩ := hb
    obtain ⟨-, rfl⟩ := wr_eq_ok hwn
    split at hfin
    · simp only [bind_eq_ok, pure_eq_ok, Except.ok.injEq] at hfin
      obtain ⟨dn, hdn, rfl⟩ := hfin
      obtain ⟨-, rfl⟩ := wr_eq_ok hdn
      exact ⟨by simpa using hP.1, by simpa using hP.2⟩
    · simp only [pure_eq_ok, Except.ok.injEq] at hfin
      subst hfin
      exact ⟨by simpa using hP.1, hP.2⟩
  have h1 := forLoop_nest_post
    (fun (p : List α × List α) => p.1.length = t.m_pNetwork.m_weightsInputHidden.length
      ∧ p.2.length = t.m_deltaInputHidden.length) _ _ _
    (by intro i j p p' hP hb; exact step _ _ p.2 _ p p' hP hb) _ _ ⟨rfl, rfl⟩ hs
  have h2 := forLoop_nest_post
    (fun (p : List α × List α) => p.1.length = t.m_pNetwork.m_weightsHiddenOutput.length
      ∧ p.2.length = t.m_deltaInputHidden.length) _ _ _ ?_
    (t.m_pNetwork.m_weightsHiddenOutput, s.2) r ⟨rfl, h1.2⟩ hr
  · exact ⟨h1.1, h2.1, h2.2, rfl⟩
  · intro i j p p' hP hb
    exact step _ _ t.m_deltaHiddenOutput _ p p' hP hb

/-- A returning delta loop of `Backpropagate` keeps the length of the delta buffer. -/
theorem deltaLoop_length (batch : Bool) (lr mom : α) (src grad : List α) (gi : Nat)
    (idx : Nat → Nat) (N : Nat) (d0 d1 : List α)
    (h : forLoop N (fun i (dl : List α) => do
        let x ← rd src i
        let g ← rd grad gi
        let d ← rd dl (idx i)
        if batch then
          wr dl (idx i) (d + lr * x * g)
        else
          wr dl (idx i) (lr * x * g + mom * d)) d0 = Except.ok d1) :
    d1.length = d0.length := by
  refine forLoop_post (fun _ (dl : List α) => dl.length = d0.length) N _ d0 d1 rfl ?_ h
  intro i dl dl' _ hP hb
  simp only [bind_eq_ok] at hb
  obtain ⟨x, -, g, -, d, -, hw⟩ := hb
  split at hw
  · obtain ⟨-, rfl⟩ := wr_eq_ok hw
    simpa using hP
  · obtain ⟨-, rfl⟩ := wr_eq_ok hw
    simpa using hP

/-- A returning `Backpropagate` keeps the lengths of both weight arrays and both delta
buffers. -/
theorem Backpropagate_sizes {t t' : NetworkTrainer α} {e : List Int}
    (h : Backpropagate t e = Except.ok t') : NetworkTrainer.SameSizes t t' := by
  unfold Backpropagate at h
  simp only [bind_eq_ok] at h
  obtain ⟨s, hs, r, hr, hfin⟩ := h
  have h1 := forLoop_post (fun _ (p : List α × List α) =>
      p.2.length = t.m_deltaHiddenOutput.length) _ _ _ _ rfl
    (by
      intro k p p' _ hP hb
      simp only [bind_eq_ok, pure_eq_ok, Except.ok.injEq] at hb
      obtain ⟨ev, -, y, -, gO, -, dHO, hin, rfl⟩ := hb
      exact (deltaLoop_length _ _ _ _ _ _ _ _ _ _ hin).trans hP) hs
  have h2 := forLoop_post (fun _ (p : List α × List α) =>
      p.2.length = t.m_deltaInputHidden.length) _ _ _ _ rfl
    (by
      intro j p p' _ hP hb
      simp only [bind_eq_ok, pure_eq_ok, Except.ok.injEq] at hb
      obtain ⟨gh, -, gH, -, dIH, hin, rfl⟩ := hb
      exact (deltaLoop_length _ _ _ _ _ _ _ _ _ _ hin).trans hP) hr
  have hmid : NetworkTrainer.SameSizes t
      { t with m_errorGradientsOutput := s.1, m_deltaHiddenOutput := s.2,
               m_errorGradientsHidden := r.1, m_deltaInputHidden := r.2 } :=
    ⟨rfl, rfl, h2, h1⟩
  split at hfin
  · exact SameSizes_trans hmid (UpdateWeights_sizes hfin)
  · simp only [pure_eq_ok, Except.ok.injEq] at hfin
    subst hfin
    exact hmid

theorem RunEpochStep_sizes {exp : α → α} {e : TrainingEntry α}
    {s s' : NetworkTrainer α × α × α} (h : RunEpochStep exp e s = Except.ok s') :
    NetworkTrainer.SameSizes s.1 s'.1 := by
  obtain ⟨net, u, c, hev, hbp, -, rfl⟩ := RunEpochStep_eq_ok h
  obtain ⟨-, -, -, hw1, hw2⟩ := Evaluate_dims hev
  have hb := Backpropagate_sizes hbp
  exact ⟨by rw [hb.1]; exact congrArg List.length hw1,
    by rw [hb.2.1]; exact congrArg List.length hw2, hb.2.2.1, hb.2.2.2⟩

/-- A returning `RunEpoch` keeps the lengths of both weight arrays and both delta
buffers. -/
theorem RunEpoch_sizes {exp : α → α} {t t' : NetworkTrainer α} {S : TrainingSet α}
    (h : RunEpoch exp t S = Except.ok t') : NetworkTrainer.SameSizes t t' := by
  unfold RunEpoch at h
  simp only [bind_eq_ok, pure_eq_ok, Except.ok.injEq] at h
  obtain ⟨s, hs, u, hu, rfl⟩ := h
  have h1 := forEach_post (fun (s : NetworkTrainer α × α × α) => NetworkTrainer.SameSizes t s.1)
    (RunEpochStep exp) (fun e a b hP hb => SameSizes_trans hP (RunEpochStep_sizes hb)) S _ _
    (SameSizes_refl t) hs
  have h2 : NetworkTrainer.SameSizes s.1 u := by
    split at hu
    · exact UpdateWeights_sizes hu
    · simp only [pure_eq_ok, Except.ok.injEq] at hu
      subst hu
      exact SameSizes_refl _
  exact SameSizes_trans h1 h2

theorem GetSetStep_sizes {exp : α → α} {e : TrainingEntry α}
    {s s' : NetworkTrainer α × α × α} (h : GetSetStep exp e s = Except.ok s') :
    NetworkTrainer.SameSizes s.1 s'.1 := by
  obtain ⟨net, c, hev, -, rfl⟩ := GetSetStep_eq_ok h
  obtain ⟨-, -, -, hw1, hw2⟩ := Evaluate_dims hev
  exact ⟨congrArg List.length hw1, congrArg List.length hw2, rfl, rfl⟩

/-- A returning `GetSetAccuracyAndMSE` keeps the lengths of both weight arrays and both
delta buffers. -/
theorem GetSetAccuracyAndMSE_sizes {exp : α → α} {t : NetworkTrainer α} {S : TrainingSet α}
    {r : NetworkTrainer α × Stat α × Stat α} (h : GetSetAccuracyAndMSE exp t S = Except.ok r) :
    NetworkTrainer.SameSizes t r.1 := by
  unfold GetSetAccuracyAndMSE at h
  simp only [bind_eq_ok, pure_eq_ok, Except.ok.injEq] at h
  obtain ⟨s, hs, rfl⟩ := h
  have key := forEach_post (fun (s : NetworkTrainer α × α × α) => NetworkTrainer.SameSizes t s.1)
    (GetSetStep exp) (fun e a b hP hb => SameSizes_trans hP (GetSetStep_sizes hb)) S (t, 0, 0) s
    (SameSizes_refl t) hs
  exact key

theorem TrainBody_sizes {exp : α → α} {data : TrainingData α} {t t' : NetworkTrainer α}
    (h : TrainBody exp data t = Except.ok t') : NetworkTrainer.SameSizes t t' := by
  unfold TrainBody at h
  simp only [bind_eq_ok, pure_eq_ok, Except.ok.injEq] at h
  obtain ⟨t1, hrun, g, hget, rfl⟩ := h
  exact SameSizes_trans (RunEpoch_sizes hrun) (GetSetAccuracyAndMSE_sizes hget)

/-- A returning `Train` keeps the lengths of both weight arrays and both delta
buffers. -/
theorem Train_sizes {exp : α → α} {fuel : Nat} {t t' : NetworkTrainer α}
    {data : TrainingData α} (h : Train exp fuel t data = Except.ok t') :
    NetworkTrainer.SameSizes t t' := by
  unfold Train at h
  simp only [bind_eq_ok, pure_eq_ok, Except.ok.injEq] at h
  obtain ⟨s, hloop, v, hget, rfl⟩ := h
  have h1 := (whileLoop_post (fun s => NetworkTrainer.SameSizes t s) TrainCondition
    (TrainBody exp data) (fun a b hP _ hb => SameSizes_trans hP (TrainBody_sizes hb))
    fuel (TrainReset t) s ⟨rfl, rfl, rfl, rfl⟩ hloop).1
  exact SameSizes_trans h1 (GetSetAccuracyAndMSE_sizes hget)

/-- C26: the size invariant.  The constructor of the trainer gives each delta buffer
the length of its weight array; a returning `Evaluate` keeps the lengths of both weight
arrays; and a returning `Backpropagate`, `UpdateWeights`, `RunEpoch`,
`GetSetAccuracyAndMSE` or `Train` keeps the lengths of both weight arrays and of both
delta buffers, so each delta buffer still has the length of its weight array. -/
theorem C26_size_invariant (exp : α → α) :
    (∀ (settings : TrainerSettings α) (net : Network α),
      (NetworkTrainer.create settings net).m_pNetwork = net ∧
      (NetworkTrainer.create settings net).DeltaSized) ∧
    (∀ (net net' : Network α) (x : List α), Evaluate exp net x = Except.ok net' →
      net'.m_weightsInputHidden.length = net.m_weightsInputHidden.length ∧
      net'.m_weightsHiddenOutput.length = net.m_weightsHiddenOutput.length) ∧
    (∀ (t t' : NetworkTrainer α) (e : List Int), Backpropagate t e = Except.ok t' →
      NetworkTrainer.SameSizes t t' ∧ (t.DeltaSized → t'.DeltaSized)) ∧
    (∀ (t t' : NetworkTrainer α), UpdateWeights t = Except.ok t' →
      NetworkTrainer.SameSizes t t' ∧ (t.DeltaSized → t'.DeltaSized)) ∧
    (∀ (t t' : NetworkTrainer α) (S : TrainingSet α), RunEpoch exp t S = Except.ok t' →
      NetworkTrainer.SameSizes t t' ∧ (t.DeltaSized → t'.DeltaSized)) ∧
    (∀ (t : NetworkTrainer α) (S : TrainingSet α) (r : NetworkTrainer α × Stat α × Stat α),
      GetSetAccuracyAndMSE exp t S = Except.ok r →
      NetworkTrainer.SameSizes t r.1 ∧ (t.DeltaSized → r.1.DeltaSized)) ∧
    (∀ (fuel : Nat) (t t' : NetworkTrainer α) (data : TrainingData α),
      Train exp fuel t data = Except.ok t' →
      NetworkTrainer.SameSizes t t' ∧ (t.DeltaSized → t'.DeltaSized)) := by
  refine ⟨fun settings net => ⟨rfl, ?_, ?_⟩, fun net net' x h => ?_, fun t t' e h => ?_,
    fun t t' h => ?_, fun t t' S h => ?_, fun t S r h => ?_, fun fuel t t' data h => ?_⟩
  · simp [NetworkTrainer.create, memsetZero, resize]
  · simp [NetworkTrainer.create, memsetZero, resize]
  · obtain ⟨-, -, -, hw1, hw2⟩ := Evaluate_dims h
    exact ⟨congrArg List.length hw1, congrArg List.length hw2⟩
  · exact ⟨Backpropagate_sizes h, SameSizes_deltaSized (Backpropagate_sizes h)⟩
  · exact ⟨UpdateWeights_sizes h, SameSizes_deltaSized (UpdateWeights_sizes h)⟩
  · exact ⟨RunEpoch_sizes h, SameSizes_deltaSized (RunEpoch_sizes h)⟩
  · exact ⟨GetSetAccuracyAndMSE_sizes h, SameSizes_deltaSized (GetSetAccuracyAndMSE_sizes h)⟩
  · exact ⟨Train_sizes h, SameSizes_deltaSized (Train_sizes h)⟩

/-- Witness for C26: `Train` on `sampleTrainer` returns; the weight arrays still have
`4` and `2` entries, and so have the delta buffers. -/
theorem C26_size_invariant_witness :
    ∃ t', Train (fun _ => (1 : ℚ)) 1 sampleTrainer sampleData = Except.ok t' ∧
      t'.m_pNetwork.m_weightsInputHidden.length = 4 ∧
      t'.m_pNetwork.m_weightsHiddenOutput.length = 2 ∧
      t'.m_deltaInputHidden.length = 4 ∧ t'.m_deltaHiddenOutput.length = 2 := by
  obtain ⟨t', h⟩ := Train_ok (fun _ => (1 : ℚ)) 1 sampleTrainer sampleData 1 1 1
    sampleTrainer_shapedAs sampleData_fits (fun _ => by decide) (le_refl _)
  obtain ⟨h1, h2, h3, h4⟩ :=
    ((C26_size_invariant (fun _ => (1 : ℚ))).2.2.2.2.2.2 1 sampleTrainer t' sampleData h).1
  exact ⟨t', h, h1.trans rfl, h2.trans rfl, h3.trans rfl, h4.trans rfl⟩

end Sizes

section BackpropSteps
variable {α : Type} [LinearOrderedField α]

/-- The value `GetHiddenErrorGradient` returns:
`hidden_j * (1 - hidden_j) * sum_k (W2[j*m+k] * g_k)`. -/
theorem GetHiddenErrorGradient_eq {t : NetworkTrainer α} {j : Nat} {v : α}
    (h : GetHiddenErrorGradient t j = Except.ok v) :
    v = t.m_pNetwork.m_hiddenNeurons.getD j 0 * (1 - t.m_pNetwork.m_hiddenNeurons.getD j 0)
      * ∑ k in Finset.range t.m_pNetwork.m_numOutputs,
          t.m_pNetwork.m_weightsHiddenOutput.getD (j * t.m_pNetwork.m_numOutputs + k) 0
            * t.m_errorGradientsOutput.getD k 0 := by
  unfold GetHiddenErrorGradient at h
  simp only [bind_eq_ok, pure_eq_ok, Except.ok.injEq, GetHiddenOutputWeightIndex] at h
  obtain ⟨ws, hws, hn, hhn, rfl⟩ := h
  have key := forLoop_post (fun K (ws : α) => ws = ∑ k in Finset.range K,
      t.m_pNetwork.m_weightsHiddenOutput.getD (j * t.m_pNetwork.m_numOutputs + k) 0
        * t.m_errorGradientsOutput.getD k 0) _ _ _ _ (by simp) ?_ hws
  · rw [key, rd_eq_ok_getD hhn 0]
  · intro K a b _ hP hb
    simp only [bind_eq_ok, pure_eq_ok, Except.ok.injEq] at hb
    obtain ⟨w, hw, g, hg, rfl⟩ := hb
    rw [Finset.sum_range_succ, ← hP, rd_eq_ok_getD hw 0, rd_eq_ok_getD hg 0]

/-- The second loop nest of `Backpropagate` stores, for every hidden index `j` (bias
slot included), the value `GetHiddenErrorGradient` computes from the hidden->output
weights the call started with and the output gradients of the same call. -/
theorem Backpropagate_hiddenLayer {t t' : NetworkTrainer α} {e : List Int}
    (hrun : Backpropagate t e = Except.ok t') (j : Nat) (hj : j ≤ t.m_pNetwork.m_numHidden) :
    t'.m_errorGradientsHidden.getD j 0
      = t.m_pNetwork.m_hiddenNeurons.getD j 0 * (1 - t.m_pNetwork.m_hiddenNeurons.getD j 0)
        * ∑ k in Finset.range t.m_pNetwork.m_numOutputs,
            t.m_pNetwork.m_weightsHiddenOutput.getD (j * t.m_pNetwork.m_numOutputs + k) 0
              * t'.m_errorGradientsOutput.getD k 0 := by
  unfold Backpropagate at hrun
  simp only [bind_eq_ok] at hrun
  obtain ⟨s, -, r, hr, hfin⟩ := hrun
  have hres : t'.m_errorGradientsOutput = s.1 ∧ t'.m_errorGradientsHidden = r.1 := by
    cases hb : t.m_useBatchLearning with
    | true =>
      simp only [hb, Bool.not_true, Bool.false_eq_true, if_false, pure_eq_ok,
        Except.ok.injEq] at hfin
      subst hfin
      exact ⟨rfl, rfl⟩
    | false =>
      simp only [hb, Bool.not_false, if_true] at hfin
      obtain ⟨-, -, h3, h4⟩ := UpdateWeights_network hfin
      exact ⟨h4, h3⟩
  rw [hres.1, hres.2]
  have key := forLoop_post (fun J (r : List α × List α) => ∀ j, j < J → r.1.getD j 0
      = t.m_pNetwork.m_hiddenNeurons.getD j 0 * (1 - t.m_pNetwork.m_hiddenNeurons.getD j 0)
        * ∑ k in Finset.range t.m_pNetwork.m_numOutputs,
            t.m_pNetwork.m_weightsHiddenOutput.getD (j * t.m_pNetwork.m_numOutputs + k) 0
              * s.1.getD k 0) _ _ _ _ (fun j hj => absurd hj (Nat.not_lt_zero j)) ?_ hr
  · exact key j (Nat.lt_succ_of_le hj)
  · intro J a b _ hP hb
    simp only [bind_eq_ok, pure_eq_ok, Except.ok.injEq] at hb
    obtain ⟨gh, hgh, gH, hwr, dIH, -, rfl⟩ := hb
    obtain ⟨hJ, rfl⟩ := wr_eq_ok hwr
    intro j hj
    by_cases hjJ : j = J
    · subst hjJ
      rw [getD_set_self hJ, GetHiddenErrorGradient_eq hgh]
    · rw [getD_set_ne _ (Ne.symm hjJ)]
      exact hP j (by omega)

/-- C30: step 1 of `Backpropagate`.  On a well-sized trainer and an expected-output
vector of `numOutputs` entries the call returns, and for every output unit `k` it has
stored the output error gradient `y_k * (1 - y_k) * (t_k - y_k)`, where `y_k` is the
output activation held by the network (left there by the preceding `Evaluate`) and
`t_k` the expected output converted to a real. -/
theorem C30_output_gradient (t : NetworkTrainer α) (n h m : Nat) (e : List Int)
    (hs : t.ShapedAs n h m) (he : e.length = m) :
    ∃ t', Backpropagate t e = Except.ok t' ∧
      ∀ k, k < m → t'.m_errorGradientsOutput.getD k 0
        = t.m_pNetwork.m_outputNeurons.getD k 0 * (1 - t.m_pNetwork.m_outputNeurons.getD k 0)
          * (((e.getD k 0 : Int) : α) - t.m_pNetwork.m_outputNeurons.getD k 0) := by
  obtain ⟨t', hrun, -⟩ := Backpropagate_returns t n h m e hs he
  refine ⟨t', hrun, fun k hk => ?_⟩
  rw [(Backpropagate_outputLayer hrun).1 k (by rw [hs.numOutputs]; exact hk)]
  rfl

/-- C28: step 2 of `Backpropagate`.  On a well-sized trainer the call returns, and for
every hidden index `j <= numHidden` (bias row included) and output unit
`k < numOutputs` the delta stored at index `j*numOutputs + k` is
`learningRate * hidden_j * g_k + momentum * delta_prev` in stochastic mode and
`delta_prev + learningRate * hidden_j * g_k` in batch mode, `g_k` being the output
error gradient stored by the same call and `delta_prev` the value before the call. -/
theorem C28_hidden_output_delta (t : NetworkTrainer α) (n h m : Nat) (e : List Int)
    (hs : t.ShapedAs n h m) (he : e.length = m) :
    ∃ t', Backpropagate t e = Except.ok t' ∧
      ∀ j k, j ≤ h → k < m →
        (t.m_useBatchLearning = false →
          t'.m_deltaHiddenOutput.getD (j * m + k) 0
            = t.m_learningRate * t.m_pNetwork.m_hiddenNeurons.getD j 0
                * t'.m_errorGradientsOutput.getD k 0
              + t.m_momentum * t.m_deltaHiddenOutput.getD (j * m + k) 0) ∧
        (t.m_useBatchLearning = true →
          t'.m_deltaHiddenOutput.getD (j * m + k) 0
            = t.m_deltaHiddenOutput.getD (j * m + k) 0
              + t.m_learningRate * t.m_pNetwork.m_hiddenNeurons.getD j 0
                * t'.m_errorGradientsOutput.getD k 0) := by
  obtain ⟨t', hrun, -⟩ := Backpropagate_returns t n h m e hs he
  obtain ⟨hg, hd⟩ := Backpropagate_outputLayer hrun
  refine ⟨t', hrun, fun j k hj hk => ?_⟩
  have hj' : j ≤ t.m_pNetwork.m_numHidden := by rw [hs.numHidden]; exact hj
  have hk' : k < t.m_pNetwork.m_numOutputs := by rw [hs.numOutputs]; exact hk
  have key := hd j k hj' hk'
  rw [← hg k hk', hs.numOutputs] at key
  constructor
  · intro hb
    rw [key, Reference.delta, if_neg (by simp [hb])]
  · intro hb
    rw [key, Reference.delta, if_pos hb]

/-- C29: step 3 of `Backpropagate` and its ordering.  On a well-sized trainer the call
returns, and for every hidden unit `j < numHidden` the stored hidden error gradient is
`hidden_j * (1 - hidden_j) * sum_k (W2[j*numOutputs+k] * g_k)`, where `W2` is the
hidden->output weight array as it stood before the call and `g_k` the output gradient
stored by the same call, in both modes. -/
theorem C29_hidden_gradient (t : NetworkTrainer α) (n h m : Nat) (e : List Int)
    (hs : t.ShapedAs n h m) (he : e.length = m) :
    ∃ t', Backpropagate t e = Except.ok t' ∧
      (∀ j, j < h → t'.m_errorGradientsHidden.getD j 0
        = t.m_pNetwork.m_hiddenNeurons.getD j 0 * (1 - t.m_pNetwork.m_hiddenNeurons.getD j 0)
          * ∑ k in Finset.range m,
              t.m_pNetwork.m_weightsHiddenOutput.getD (j * m + k) 0
                * t'.m_errorGradientsOutput.getD k 0) ∧
      (∀ k, k < m → t'.m_errorGradientsOutput.getD k 0
        = GetOutputErrorGradient ((e.getD k 0 : Int) : α)
            (t.m_pNetwork.m_outputNeurons.getD k 0)) := by
  obtain ⟨t', hrun, -⟩ := Backpropagate_returns t n h m e hs he
  refine ⟨t', hrun, fun j hj => ?_, fun k hk => ?_⟩
  · have key := Backpropagate_hiddenLayer hrun j (by rw [hs.numHidden]; exact Nat.le_of_lt hj)
    rw [hs.numOutputs] at key
    exact key
  · exact (Backpropagate_outputLayer hrun).1 k (by rw [hs.numOutputs]; exact hk)

theorem slipState_shapedAs (batch : Bool) :
    NetworkTrainer.ShapedAs { slipTrainer α batch with m_pNetwork := slipEvaluated α } 1 1 1 :=
  create_shapedAs ⟨1, 0, batch, 1, 90⟩ (slipEvaluated α) ⟨rfl, rfl, rfl, rfl, rfl, rfl⟩
    ⟨rfl, rfl⟩

theorem slip_Backpropagate (batch : Bool) :
    Backpropagate { slipTrainer α batch with m_pNetwork := slipEvaluated α } [1]
      = Except.ok (if batch then slipUpdateState α true else slipUpdated α false) := by
  cases batch
  · rw [slip_Backpropagate_stochastic, slip_UpdateWeights]
    rfl
  · rw [slip_Backpropagate_batch]
    rfl

/-- Witness for C30: `slipTrainer` after `Evaluate` on `[1]`, target `[1]`: the stored
output gradient is `1/2 * (1 - 1/2) * (1 - 1/2) = 1/8`. -/
theorem C30_output_gradient_witness :
    ∃ t', Backpropagate { slipTrainer ℚ false with m_pNetwork := slipEvaluated ℚ } [1]
        = Except.ok t' ∧ t'.m_errorGradientsOutput.getD 0 0 = 1 / 8 := by
  obtain ⟨t', h, hall⟩ := C30_output_gradient
    { slipTrainer ℚ false with m_pNetwork := slipEvaluated ℚ } 1 1 1 [1]
    (slipState_shapedAs false) rfl
  refine ⟨t', h, ?_⟩
  rw [hall 0 (by decide)]
  simp [slipEvaluated]
  norm_num

/-- Witness for C28: `slipTrainer` after `Evaluate` on `[1]`, target `[1]`, in both
modes: the delta of the weight from hidden unit `0` to output `0` is
`1 * (1/2) * (1/8) = 1/16`. -/
theorem C28_hidden_output_delta_witness :
    (∃ t', Backpropagate { slipTrainer ℚ false with m_pNetwork := slipEvaluated ℚ } [1]
        = Except.ok t' ∧ t'.m_deltaHiddenOutput.getD (0 * 1 + 0) 0 = 1 / 16) ∧
    (∃ t', Backpropagate { slipTrainer ℚ true with m_pNetwork := slipEvaluated ℚ } [1]
        = Except.ok t' ∧ t'.m_deltaHiddenOutput.getD (0 * 1 + 0) 0 = 1 / 16) := by
  constructor
  · obtain ⟨t', h, hall⟩ := C28_hidden_output_delta
      { slipTrainer ℚ false with m_pNetwork := slipEvaluated ℚ } 1 1 1 [1]
      (slipState_shapedAs false) rfl
    refine ⟨t', h, ?_⟩
    have ht : t' = slipUpdated ℚ false := by
      rw [slip_Backpropagate false] at h
      exact (Except.ok.inj h).symm
    rw [((hall 0 0 (by decide) (by decide)).1 rfl), ht]
    simp [slipUpdated, slipUpdateState, slipTrainer, NetworkTrainer.create, slipEvaluated,
      memsetZero, resize, slipNet]
    norm_num
  · obtain ⟨t', h, hall⟩ := C28_hidden_output_delta
      { slipTrainer ℚ true with m_pNetwork := slipEvaluated ℚ } 1 1 1 [1]
      (slipState_shapedAs true) rfl
    refine ⟨t', h, ?_⟩
    have ht : t' = slipUpdateState ℚ true := by
      rw [slip_Backpropagate true] at h
      exact (Except.ok.inj h).symm
    rw [((hall 0 0 (by decide) (by decide)).2 rfl), ht]
    simp [slipUpdateState, slipTrainer, NetworkTrainer.create, slipEvaluated,
      memsetZero, resize, slipNet]
    norm_num

/-- Witness for C29: `slipTrainer` after `Evaluate` on `[1]`, target `[1]`: the stored
gradient of hidden unit `0` is `1/2 * (1 - 1/2) * (2 * 1/8) = 1/16`, computed with the
weight `2` the call started with (the call leaves `33/16` in that slot). -/
theorem C29_hidden_gradient_witness :
    ∃ t', Backpropagate { slipTrainer ℚ false with m_pNetwork := slipEvaluated ℚ } [1]
        = Except.ok t' ∧ t'.m_errorGradientsHidden.getD 0 0 = 1 / 16 ∧
      t'.m_pNetwork.m_weightsHiddenOutput.getD 0 0 = 33 / 16 := by
  obtain ⟨t', h, hall, -⟩ := C29_hidden_gradient
    { slipTrainer ℚ false with m_pNetwork := slipEvaluated ℚ } 1 1 1 [1]
    (slipState_shapedAs false) rfl
  have ht : t' = slipUpdated ℚ false := by
    rw [slip_Backpropagate false] at h
    exact (Except.ok.inj h).symm
  refine ⟨t', h, ?_, ?_⟩
  · rw [hall 0 (by decide), ht]
    simp [slipUpdated, slipUpdateState, slipEvaluated, slipNet]
    norm_num
  · rw [ht]
    simp [slipUpdated]

/-- C27 (the code at the failing input): the delta of the input->hidden weight
`(i, j) = (1, 0)` (bias row, hidden unit `0`; index `1*1 + 0 = 1`) after one
`Backpropagate` of `slipTrainer` (learning rate `1`, momentum `0`, zero deltas) on the
evaluated input `[1]` with target `[1]`.  The claimed value is
`learningRate * input_1 * h_0 = 1 * (-1) * (1/16) = -1/16` in both modes; the call
leaves `-1/4` in stochastic mode and `-5/16` in batch mode, because the slot is
written again for the pair (input `0`, hidden index `1`). -/
theorem C27_input_hidden_delta_overwritten :
    (∃ t', Backpropagate { slipTrainer ℝ false with m_pNetwork := slipEvaluated ℝ } [1]
        = Except.ok t' ∧
      (slipEvaluated ℝ).m_inputNeurons.getD 1 0 = -1 ∧
      t'.m_errorGradientsHidden.getD 0 0 = 1 / 16 ∧
      (slipTrainer ℝ false).m_deltaInputHidden.getD (1 * 1 + 0) 0 = 0 ∧
      t'.m_deltaInputHidden.getD (1 * 1 + 0) 0 = -1 / 4 ∧
      t'.m_deltaInputHidden.getD (1 * 1 + 0) 0
        ≠ (slipTrainer ℝ false).m_learningRate * (slipEvaluated ℝ).m_inputNeurons.getD 1 0
            * t'.m_errorGradientsHidden.getD 0 0
          + (slipTrainer ℝ false).m_momentum
            * (slipTrainer ℝ false).m_deltaInputHidden.getD (1 * 1 + 0) 0) ∧
    (∃ t', Backpropagate { slipTrainer ℝ true with m_pNetwork := slipEvaluated ℝ } [1]
        = Except.ok t' ∧
      t'.m_errorGradientsHidden.getD 0 0 = 1 / 16 ∧
      (slipTrainer ℝ true).m_deltaInputHidden.getD (1 * 1 + 0) 0 = 0 ∧
      t'.m_deltaInputHidden.getD (1 * 1 + 0) 0 = -5 / 16 ∧
      t'.m_deltaInputHidden.getD (1 * 1 + 0) 0
        ≠ (slipTrainer ℝ true).m_deltaInputHidden.getD (1 * 1 + 0) 0
          + (slipTrainer ℝ true).m_learningRate * (slipEvaluated ℝ).m_inputNeurons.getD 1 0
            * t'.m_errorGradientsHidden.getD 0 0) := by
  refine ⟨⟨slipUpdated ℝ false, slip_Backpropagate false, ?_, ?_, ?_, ?_, ?_⟩,
    ⟨slipUpdateState ℝ true, slip_Backpropagate true, ?_, ?_, ?_, ?_⟩⟩
  · simp [slipEvaluated]
  · simp [slipUpdated, slipUpdateState]
  · simp [slipTrainer, NetworkTrainer.create, memsetZero, resize, slipNet]
  · simp [slipUpdated]
  · simp [slipUpdated, slipUpdateState, slipTrainer, NetworkTrainer.create, memsetZero, resize,
      slipNet, slipEvaluated]
    norm_num
  · simp [slipUpdateState]
  · simp [slipTrainer, NetworkTrainer.create, memsetZero, resize, slipNet]
  · simp [slipUpdateState]
  · simp [slipUpdateState, slipTrainer, NetworkTrainer.create, memsetZero, resize,
      slipNet, slipEvaluated]
    norm_num

end BackpropSteps

section InputLayer
variable {α : Type} [LinearOrderedField α]

/-- In stochastic mode `UpdateWeights` does not write `m_deltaInputHidden`. -/
theorem UpdateWeights_stochastic_delta {t t' : NetworkTrainer α}
    (hb : t.m_useBatchLearning = false) (h : UpdateWeights t = Except.ok t') :
    t'.m_deltaInputHidden = t.m_deltaInputHidden := by
  unfold UpdateWeights at h
  simp only [bind_eq_ok, pure_eq_ok, Except.ok.injEq, hb, Bool.false_eq_true, if_false] at h
  obtain ⟨s, hs, r, hr, rfl⟩ := h
  have h1 := forLoop_nest_post (fun (p : List α × List α) => p.2 = t.m_deltaInputHidden)
    _ _ _ ?_ (t.m_pNetwork.m_weightsInputHidden, t.m_deltaInputHidden) s rfl hs
  · have h2 := forLoop_nest_post (fun (p : List α × List α) => p.2 = t.m_deltaInputHidden)
      _ _ _ ?_ (t.m_pNetwork.m_weightsHiddenOutput, s.2) r h1 hr
    · exact h2
    · intro i j p p' hP hbody
      simp only [bind_eq_ok, Except.ok.injEq] at hbody
      obtain ⟨d, -, w, -, wn, -, rfl⟩ := hbody
      exact hP
  · intro i j p p' hP hbody
    simp only [bind_eq_ok, Except.ok.injEq] at hbody
    obtain ⟨d, -, w, -, wn, -, rfl⟩ := hbody
    exact hP

/-- The second loop nest of `Backpropagate` on the input->hidden delta slots that are
written once: for `i <= numInputs` and `j < numHidden` with `j >= 1` or `i = 0`, the
slot `i*numHidden + j` is rewritten with the delta rule for the input activation `i`
and the hidden gradient `j` stored by the same call. -/
theorem Backpropagate_inputLayer_unaliased {t t' : NetworkTrainer α} {e : List Int}
    (hrun : Backpropagate t e = Except.ok t') (i j : Nat)
    (hi : i ≤ t.m_pNetwork.m_numInputs) (hj : j < t.m_pNetwork.m_numHidden)
    (hu : 1 ≤ j ∨ i = 0) :
    t'.m_deltaInputHidden.getD (i * t.m_pNetwork.m_numHidden + j) 0
      = Reference.delta t (t.m_deltaInputHidden.getD (i * t.m_pNetwork.m_numHidden + j) 0)
          (t.m_pNetwork.m_inputNeurons.getD i 0) (t'.m_errorGradientsHidden.getD j 0) := by
  have hgrad := Backpropagate_hiddenLayer hrun
  unfold Backpropagate at hrun
  simp only [bind_eq_ok, GetInputHiddenWeightIndex] at hrun
  obtain ⟨s, -, r, hr, hfin⟩ := hrun
  have hres : t'.m_errorGradientsHidden = r.1 ∧ t'.m_deltaInputHidden = r.2 := by
    cases hb : t.m_useBatchLearning with
    | true =>
      simp only [hb, Bool.not_true, Bool.false_eq_true, if_false, pure_eq_ok,
        Except.ok.injEq] at hfin
      subst hfin
      exact ⟨rfl, rfl⟩
    | false =>
      simp only [hb, Bool.not_false, if_true] at hfin
      obtain ⟨-, -, h3, -⟩ := UpdateWeights_network hfin
      exact ⟨h3, UpdateWeights_stochastic_delta rfl hfin⟩
  have hpos : 0 < t.m_pNetwork.m_numHidden := by omega
  rw [hres.2]
  have key := forLoop_post (fun J (r : List α × List α) =>
      (∀ j, j < J → r.1.getD j 0 = t'.m_errorGradientsHidden.getD j 0) ∧
      (∀ i j, i ≤ t.m_pNetwork.m_numInputs → j < t.m_pNetwork.m_numHidden → (1 ≤ j ∨ i = 0) →
        r.2.getD (i * t.m_pNetwork.m_numHidden + j) 0
          = if j < J then
              Reference.delta t
                (t.m_deltaInputHidden.getD (i * t.m_pNetwork.m_numHidden + j) 0)
                (t.m_pNetwork.m_inputNeurons.getD i 0) (t'.m_errorGradientsHidden.getD j 0)
            else t.m_deltaInputHidden.getD (i * t.m_pNetwork.m_numHidden + j) 0))
    _ _ _ _ ⟨fun j hj => absurd hj (Nat.not_lt_zero j), fun i j _ _ _ => by simp⟩ ?_ hr
  · rw [key.2 i j hi hj hu, if_pos (Nat.lt_succ_of_lt hj)]
  · intro J a b hJ ⟨hg, hd⟩ hb
    simp only [bind_eq_ok, pure_eq_ok, Except.ok.injEq] at hb
    obtain ⟨gh, hgh, gH, hwr, dIH, hin, rfl⟩ := hb
    obtain ⟨hJlt, rfl⟩ := wr_eq_ok hwr
    have hghv : gh = t'.m_errorGradientsHidden.getD J 0 := by
      rw [hgrad J (Nat.le_of_lt_succ hJ), GetHiddenErrorGradient_eq hgh]
      have hgo : t'.m_errorGradientsOutput = s.1 := by
        cases hb : t.m_useBatchLearning with
        | true =>
          simp only [hb, Bool.not_true, Bool.false_eq_true, if_false, pure_eq_ok,
            Except.ok.injEq] at hfin
          subst hfin
          rfl
        | false =>
          simp only [hb, Bool.not_false, if_true] at hfin
          exact (UpdateWeights_network hfin).2.2.2
      rw [hgo]
    have inner := forLoop_pointwise (fun (dl : List α) => dl) (t.m_pNetwork.m_numInputs + 1)
      (fun i => i * t.m_pNetwork.m_numHidden + J)
      (fun i d => Reference.delta t d (t.m_pNetwork.m_inputNeurons.getD i 0)
        (t'.m_errorGradientsHidden.getD J 0))
      0 _ (fun a b _ _ h => Nat.eq_of_mul_eq_mul_right hpos (Nat.add_right_cancel h)) ?_ _ _ hin
    · obtain ⟨-, ivis, irest⟩ := inner
      refine ⟨fun j hj => ?_, fun i j hi hj hu => ?_⟩
      · by_cases hjJ : j = J
        · subst hjJ
          rw [getD_set_self hJlt, hghv]
        · rw [getD_set_ne _ (Ne.symm hjJ)]
          exact hg j (by omega)
      · by_cases hjJ : j = J
        · subst hjJ
          rw [ivis i (Nat.lt_succ_of_le hi), hd i j hi hj hu, if_neg (Nat.lt_irrefl j),
            if_pos (Nat.lt_succ_self j)]
        · have hne : ∀ i', i' < t.m_pNetwork.m_numInputs + 1 →
              i' * t.m_pNetwork.m_numHidden + J ≠ i * t.m_pNetwork.m_numHidden + j := by
            intro i' _ heq
            by_cases hJh : J < t.m_pNetwork.m_numHidden
            · exact hjJ (idx_inj hJh hj heq).2.symm
            · have hJe : J = t.m_pNetwork.m_numHidden := by omega
              have heq' : (i' + 1) * t.m_pNetwork.m_numHidden + 0
                  = i * t.m_pNetwork.m_numHidden + j := by
                rw [← heq, hJe]
                ring
              obtain ⟨h1, h2⟩ := idx_inj hpos hj heq'
              rcases hu with hu | hu
              · omega
              · omega
          rw [irest _ hne, hd i j hi hj hu]
          by_cases hlt : j < J
          · rw [if_pos hlt, if_pos (Nat.lt_succ_of_lt hlt)]
          · rw [if_neg hlt, if_neg (by omega)]
    · intro i dl dl' _ hb
      simp only [bind_eq_ok] at hb
      obtain ⟨x, hx, g, hgr, d, hdr, hw⟩ := hb
      have hgD : g = t'.m_errorGradientsHidden.getD J 0 := by
        rw [← rd_eq_ok_getD hgr 0, getD_set_self hJlt, hghv]
      beta_reduce
      rw [rd_eq_ok_getD hx 0, rd_eq_ok_getD hdr 0, ← hgD]
      unfold Reference.delta
      split at hw
      · rename_i hbt
        rw [if_pos hbt]
        exact wr_eq_ok hw
      · rename_i hbt
        rw [if_neg hbt]
        exact wr_eq_ok hw

end InputLayer

section IndexSafety
variable {α : Type} [LinearOrderedField α]

/-- C31: on the logical weight matrices the flattening is a bijection.
`GetInputHiddenWeightIndex` maps the pairs `i <= numInputs`, `j < numHidden` into
`0 .. (numInputs+1)*numHidden - 1`, injectively and onto;
`GetHiddenOutputWeightIndex` maps the pairs `j <= numHidden`, `k < numOutputs` into
`0 .. (numHidden+1)*numOutputs - 1`, injectively and onto. -/
theorem C31_flattening_bijective (net : Network α) :
    (∀ i j, i ≤ net.m_numInputs → j < net.m_numHidden →
      GetInputHiddenWeightIndex net i j < (net.m_numInputs + 1) * net.m_numHidden) ∧
    (∀ i j i' j', i ≤ net.m_numInputs → j < net.m_numHidden → i' ≤ net.m_numInputs →
      j' < net.m_numHidden →
      GetInputHiddenWeightIndex net i j = GetInputHiddenWeightIndex net i' j' →
      i = i' ∧ j = j') ∧
    (∀ p, p < (net.m_numInputs + 1) * net.m_numHidden →
      ∃ i j, i ≤ net.m_numInputs ∧ j < net.m_numHidden ∧
        GetInputHiddenWeightIndex net i j = p) ∧
    (∀ j k, j ≤ net.m_numHidden → k < net.m_numOutputs →
      GetHiddenOutputWeightIndex net j k < (net.m_numHidden + 1) * net.m_numOutputs) ∧
    (∀ j k j' k', j ≤ net.m_numHidden → k < net.m_numOutputs → j' ≤ net.m_numHidden →
      k' < net.m_numOutputs →
      GetHiddenOutputWeightIndex net j k = GetHiddenOutputWeightIndex net j' k' →
      j = j' ∧ k = k') ∧
    (∀ p, p < (net.m_numHidden + 1) * net.m_numOutputs →
      ∃ j k, j ≤ net.m_numHidden ∧ k < net.m_numOutputs ∧
        GetHiddenOutputWeightIndex net j k = p) := by
  have onto : ∀ a b p : Nat, p < (a + 1) * b → ∃ i j, i ≤ a ∧ j < b ∧ i * b + j = p := by
    intro a b p hp
    have hb : 0 < b := by
      rcases Nat.eq_zero_or_pos b with h | h
      · subst h
        simp at hp
      · exact h
    refine ⟨p / b, p % b, ?_, Nat.mod_lt _ hb, ?_⟩
    · exact Nat.le_of_lt_succ ((Nat.div_lt_iff_lt_mul hb).mpr hp)
    · rw [Nat.mul_comm]
      exact Nat.div_add_mod p b
  unfold GetInputHiddenWeightIndex GetHiddenOutputWeightIndex
  exact ⟨fun i j hi hj => idx_lt_of_le hi hj, fun i j i' j' _ hj _ hj' h => idx_inj hj hj' h,
    onto _ _, fun j k hj hk => idx_lt_of_le hj hk,
    fun j k j' k' _ hk _ hk' h => idx_inj hk hk' h, onto _ _⟩

/-- C32 (the code at the failing input): in batch mode `UpdateWeights` on a fresh
trainer for the network of shape `(1, 1, 3)` stops on an access outside a buffer: its
second loop nest writes `m_deltaInputHidden[weightIdx]` with the hidden->output index
`1*3 + 1 = 4`, and `m_deltaInputHidden` has `(1+1)*(1+1) = 4` entries.  So does
`RunEpoch`, which calls `UpdateWeights` after its entry loop. -/
theorem C32_batch_update_out_of_bounds :
    Network.load ⟨1, 1, 3⟩ ([0, 0, 0, 0] : List ℝ) = Except.ok (wideNet ℝ) ∧
    (wideTrainer ℝ).m_useBatchLearning = true ∧
    (wideTrainer ℝ).m_deltaInputHidden.length = 4 ∧
    (wideTrainer ℝ).m_deltaHiddenOutput.length = 6 ∧
    GetHiddenOutputWeightIndex (wideNet ℝ) 1 1 = 4 ∧
    UpdateWeights (wideTrainer ℝ) = Except.error Fault.outOfBounds ∧
    (∀ exp : ℝ → ℝ, RunEpoch exp (wideTrainer ℝ) [] = Except.error Fault.outOfBounds) := by
  have hU : UpdateWeights (wideTrainer ℝ) = Except.error Fault.outOfBounds := by
    simp [UpdateWeights, forLoop, rd, wr, GetInputHiddenWeightIndex, GetHiddenOutputWeightIndex,
      wideTrainer, wideNet, NetworkTrainer.create, memsetZero, resize]
  refine ⟨?_, rfl, ?_, ?_, rfl, hU, fun exp => ?_⟩
  · rw [Network.load_ok _ _ (by decide) (by rfl)]
    simp [Network.blank, wideNet, List.replicate]
  · simp [wideTrainer, NetworkTrainer.create, memsetZero, resize, wideNet]
  · simp [wideTrainer, NetworkTrainer.create, memsetZero, resize, wideNet]
  · unfold RunEpoch
    simp only [forEach_nil, ok_bind]
    rw [if_pos (by rfl), hU]
    rfl

/-- C33: index safety of the forward and the backward pass.  Every vector access of the
model is bounds checked, so a returning call has made no access outside a buffer.
Both constructors return networks satisfying the class invariant; on such a network
`Evaluate` returns for every input of length `numInputs`; on a trainer satisfying its
invariant `GetHiddenErrorGradient` returns for every hidden index `j <= numHidden` and
`Backpropagate` returns (keeping the invariant) for every expected-output vector of
length `numOutputs`, in both modes. -/
theorem C33_forward_backward_in_bounds (exp : α → α) :
    (∀ (draw : Nat → α) (settings : NetworkSettings),
      settings.m_numInputs > 0 ∧ settings.m_numOutputs > 0 ∧ settings.m_numHidden > 0 →
      ∃ net, Network.create draw settings = Except.ok net ∧ net.Shaped ∧ net.BiasSet ∧
        net.m_numInputs = settings.m_numInputs ∧ net.m_numHidden = settings.m_numHidden ∧
        net.m_numOutputs = settings.m_numOutputs) ∧
    (∀ (ts : TrainerSettings α) (net : Network α), net.Shaped → net.BiasSet →
      (NetworkTrainer.create ts net).ShapedAs net.m_numInputs net.m_numHidden
        net.m_numOutputs) ∧
    (∀ (net : Network α) (x : List α), net.Shaped → net.BiasSet →
      x.length = net.m_numInputs →
      ∃ net', Evaluate exp net x = Except.ok net' ∧ net'.Shaped ∧ net'.BiasSet) ∧
    (∀ (t : NetworkTrainer α) (n h m j : Nat), t.ShapedAs n h m → j ≤ h →
      ∃ g, GetHiddenErrorGradient t j = Except.ok g) ∧
    (∀ (t : NetworkTrainer α) (n h m : Nat) (e : List Int), t.ShapedAs n h m →
      e.length = m →
      ∃ t', Backpropagate t e = Except.ok t' ∧ t'.ShapedAs n h m) := by
  refine ⟨fun draw settings hpos => ?_, fun ts net hs hb => create_shapedAs ts net hs hb,
    fun net x hs hb hx => ?_, fun t n h m j hs hj => ?_,
    fun t n h m e hs he => Backpropagate_returns t n h m e hs he⟩
  · obtain ⟨w1, w2, hrun, h1, h2⟩ := Network.create_ok draw settings hpos
    have hbs : (Network.blank α settings).Shaped := blank_shaped settings
    have hbb : (Network.blank α settings).BiasSet := blank_biasSet settings
    exact ⟨_, hrun, ⟨hbs.inputNeurons, hbs.hiddenNeurons, hbs.outputNeurons,
      hbs.clampedOutputs, h1, h2⟩, hbb, rfl, rfl, rfl⟩
  · obtain ⟨net', h, hs', hb', -⟩ := Evaluate_shaped exp net x hs hb hx
    exact ⟨net', h, hs', hb'⟩
  · obtain ⟨hn, hh, hm, hnet, -, -, -, -, hgO⟩ := hs
    exact GetHiddenErrorGradient_ok t j hnet.weightsHiddenOutput (by rw [hgO, hm])
      hnet.hiddenNeurons (by rw [hh]; exact hj)

/-- Witness for C33: `sampleNet` evaluates the input `[5]`, and a fresh batch-mode
trainer on the result back-propagates the target `[1]`. -/
theorem C33_forward_backward_in_bounds_witness :
    ∃ (net' : Network ℚ) (t' : NetworkTrainer ℚ),
      Evaluate (fun _ => (1 : ℚ)) sampleNet [5] = Except.ok net' ∧
      Backpropagate (NetworkTrainer.create ⟨1 / 2, 0, true, 1, 90⟩ net') [1] = Except.ok t' := by
  have key := C33_forward_backward_in_bounds (fun _ => (1 : ℚ))
  obtain ⟨net', hev, hs', hb'⟩ := key.2.2.1 sampleNet [5] sampleNet_shaped sampleNet_biasSet rfl
  have hm : net'.m_numOutputs = 1 := (Evaluate_dims hev).2.2.1
  obtain ⟨t', hbp, -⟩ := key.2.2.2.2 (NetworkTrainer.create ⟨1 / 2, 0, true, 1, 90⟩ net') _ _ _ [1]
    (key.2.1 _ net' hs' hb') (by rw [hm]; rfl)
  exact ⟨net', t', hev, hbp⟩

end IndexSafety

section TallyFrame
variable {α : Type} [LinearOrderedField α]

/-- The loop over the output units of `RunEpoch` reads the number of outputs, the
output activations and the clamped outputs of the network, nothing else. -/
theorem RunEpochOutputs_congr {net net' : Network α} (hm : net'.m_numOutputs = net.m_numOutputs)
    (ho : net'.m_outputNeurons = net.m_outputNeurons)
    (hc : net'.m_clampedOutputs = net.m_clampedOutputs) (e : List Int) (MSE : α) :
    RunEpochOutputs net' e MSE = RunEpochOutputs net e MSE := by
  unfold RunEpochOutputs
  rw [hm, ho, hc]

/-- C35: `Backpropagate` and `UpdateWeights` leave the input, hidden and output
activations and the clamped outputs of the network as they are.  Hence what a returning
entry step of `RunEpoch` adds to the tally and to `MSE` is computed from the clamped
outputs and output activations of the forward pass `Evaluate` made for that entry, on
the weights in force before the entry's own update. -/
theorem C35_tally_from_forward_pass (exp : α → α) :
    (∀ (t t' : NetworkTrainer α) (e : List Int), Backpropagate t e = Except.ok t' →
      t'.m_pNetwork.m_inputNeurons = t.m_pNetwork.m_inputNeurons ∧
      t'.m_pNetwork.m_hiddenNeurons = t.m_pNetwork.m_hiddenNeurons ∧
      t'.m_pNetwork.m_outputNeurons = t.m_pNetwork.m_outputNeurons ∧
      t'.m_pNetwork.m_clampedOutputs = t.m_pNetwork.m_clampedOutputs) ∧
    (∀ (t t' : NetworkTrainer α), UpdateWeights t = Except.ok t' →
      t'.m_pNetwork.m_inputNeurons = t.m_pNetwork.m_inputNeurons ∧
      t'.m_pNetwork.m_hiddenNeurons = t.m_pNetwork.m_hiddenNeurons ∧
      t'.m_pNetwork.m_outputNeurons = t.m_pNetwork.m_outputNeurons ∧
      t'.m_pNetwork.m_clampedOutputs = t.m_pNetwork.m_clampedOutputs) ∧
    (∀ (e : TrainingEntry α) (s s' : NetworkTrainer α × α × α),
      RunEpochStep exp e s = Except.ok s' →
      ∃ net, Evaluate exp s.1.m_pNetwork e.m_inputs = Except.ok net ∧
        net.m_weightsInputHidden = s.1.m_pNetwork.m_weightsInputHidden ∧
        net.m_weightsHiddenOutput = s.1.m_pNetwork.m_weightsHiddenOutput ∧
        (s'.2.1 = s.2.1 ↔ ∀ k, k < net.m_numOutputs →
          net.m_clampedOutputs.getD k 0 = e.m_expectedOutputs.getD k 0) ∧
        (s'.2.1 = s.2.1 ∨ s'.2.1 = s.2.1 + 1) ∧
        s'.2.2 = s.2.2 + ∑ k in Finset.range net.m_numOutputs,
          (net.m_outputNeurons.getD k 0 - ((e.m_expectedOutputs.getD k 0 : Int) : α)) ^ 2) := by
  refine ⟨fun t t' e h => ?_, fun t t' h => ?_, fun e s s' h => ?_⟩
  · have hf := Backpropagate_network h
    exact ⟨hf.inputNeurons, hf.hiddenNeurons, hf.outputNeurons, hf.clampedOutputs⟩
  · have hf := (UpdateWeights_network h).1
    exact ⟨hf.inputNeurons, hf.hiddenNeurons, hf.outputNeurons, hf.clampedOutputs⟩
  · obtain ⟨net, u, c, hev, hbp, hc, rfl⟩ := RunEpochStep_eq_ok h
    have hf := Backpropagate_network hbp
    rw [RunEpochOutputs_congr hf.numOutputs hf.outputNeurons hf.clampedOutputs] at hc
    obtain ⟨hflag, hmse⟩ := RunEpochOutputs_spec hc
    obtain ⟨-, -, -, hw1, hw2⟩ := Evaluate_dims hev
    refine ⟨net, hev, hw1, hw2, ?_, ?_, hmse⟩
    · rw [← hflag]
      cases hc1 : c.1
      · simp
      · simp
    · cases hc1 : c.1
      · right; simp
      · left; simp

/-- Witness for C35: the entry step of `RunEpoch` on `sampleTrainer` and the entry with
input `[0]` and target `[0]` returns. -/
theorem C35_tally_from_forward_pass_witness :
    ∃ s' net, RunEpochStep (fun _ => (1 : ℚ)) ⟨[0], [0]⟩ (sampleTrainer, 0, 0) = Except.ok s' ∧
      Evaluate (fun _ => (1 : ℚ)) sampleNet [0] = Except.ok net ∧
      s'.2.2 = 0 + ∑ k in Finset.range net.m_numOutputs,
        (net.m_outputNeurons.getD k 0 - ((([0] : List Int).getD k 0 : Int) : ℚ)) ^ 2 := by
  obtain ⟨s', hs', -⟩ := RunEpochStep_ok (fun _ => (1 : ℚ)) ⟨[0], [0]⟩ (sampleTrainer, 0, 0)
    1 1 1 sampleTrainer_shapedAs ⟨rfl, rfl⟩ (fun _ => by decide)
  obtain ⟨net, hev, -, -, -, -, hmse⟩ :=
    (C35_tally_from_forward_pass (fun _ => (1 : ℚ))).2.2 ⟨[0], [0]⟩ (sampleTrainer, 0, 0) s' hs'
  exact ⟨s', net, hs', hev, hmse⟩

end TallyFrame

section LoadedBias

/-- C36: a network built by the weight-loading constructor has zero bias rows: every
input->hidden entry at an index `>= numInputs*numHidden` and every hidden->output entry
at an index `>= numHidden*numOutputs` is `0`; and `Evaluate` on the all-zero input
gives every hidden unit `j < numHidden` the activation `1/2`, whatever list was
loaded. -/
theorem C36_loaded_bias_rows_zero (settings : NetworkSettings) (weights : List ℝ)
    (hpos : settings.m_numInputs > 0 ∧ settings.m_numOutputs > 0 ∧ settings.m_numHidden > 0)
    (hlen : weights.length = settings.m_numInputs * settings.m_numHidden
      + settings.m_numHidden * settings.m_numOutputs) :
    ∃ net : Network ℝ, Network.load settings weights = Except.ok net ∧
      (∀ p, settings.m_numInputs * settings.m_numHidden ≤ p →
        net.m_weightsInputHidden.getD p 0 = 0) ∧
      (∀ p, settings.m_numHidden * settings.m_numOutputs ≤ p →
        net.m_weightsHiddenOutput.getD p 0 = 0) ∧
      ∃ net', Evaluate Real.exp net (List.replicate settings.m_numInputs 0) = Except.ok net' ∧
        ∀ j, j < settings.m_numHidden → net'.m_hiddenNeurons.getD j 0 = 1 / 2 := by
  have h1 : (weights.take (settings.m_numInputs * settings.m_numHidden)).length
      = settings.m_numInputs * settings.m_numHidden := by
    rw [List.length_take, hlen]
    omega
  have h2 : (weights.drop (settings.m_numInputs * settings.m_numHidden)).length
      = settings.m_numHidden * settings.m_numOutputs := by
    rw [List.length_drop, hlen]
    omega
  have hz : ∀ (l : List ℝ) (c p : Nat), l.length ≤ p →
      (l ++ List.replicate c 0).getD p 0 = 0 := by
    intro l c p hp
    rw [List.getD_eq_getElem?_getD, List.getElem?_append_right hp]
    by_cases hc : p - l.length < c
    · rw [List.getElem?_replicate_of_lt hc]
      rfl
    · rw [List.getElem?_eq_none (by simpa using hc)]
      rfl
  have hW1 : ∀ p, settings.m_numInputs * settings.m_numHidden ≤ p →
      (weights.take (settings.m_numInputs * settings.m_numHidden)
        ++ List.replicate (settings.m_numInputs + settings.m_numHidden + 1) (0 : ℝ)).getD p 0
        = 0 := fun p hp => hz _ _ p (by rw [h1]; exact hp)
  refine ⟨_, Network.load_ok settings weights hpos hlen, hW1,
    fun p hp => hz _ _ p (by rw [h2]; exact hp), ?_⟩
  have hs : Network.Shaped ({ Network.blank ℝ settings with
      m_weightsInputHidden := weights.take (settings.m_numInputs * settings.m_numHidden)
        ++ List.replicate (settings.m_numInputs + settings.m_numHidden + 1) 0
      m_weightsHiddenOutput := weights.drop (settings.m_numInputs * settings.m_numHidden)
        ++ List.replicate settings.m_numOutputs 0 } : Network ℝ) := by
    have hb : (Network.blank ℝ settings).Shaped := blank_shaped settings
    refine ⟨hb.inputNeurons, hb.hiddenNeurons, hb.outputNeurons, hb.clampedOutputs, ?_, ?_⟩
    · simp only [List.length_append, h1, List.length_replicate, Network.blank]
      ring
    · simp only [List.length_append, h2, List.length_replicate, Network.blank]
      ring
  refine ⟨_, Evaluate_ok Real.exp _ _ hs (blank_biasSet settings) (by simp [Network.blank]),
    fun j hj => ?_⟩
  have hj' : j < ({ Network.blank ℝ settings with
      m_weightsInputHidden := weights.take (settings.m_numInputs * settings.m_numHidden)
        ++ List.replicate (settings.m_numInputs + settings.m_numHidden + 1) 0
      m_weightsHiddenOutput := weights.drop (settings.m_numInputs * settings.m_numHidden)
        ++ List.replicate settings.m_numOutputs 0 } : Network ℝ).m_numHidden := hj
  simp only [getD_tabulate_lt _ _ _ _ _ hj', Reference.hidden]
  have hsum : ∀ (W : List ℝ) (N H : Nat), ∑ i in Finset.range N,
      (List.replicate N (0 : ℝ)).getD i 0 * W.getD (i * H + j) 0 = 0 := by
    intro W N H
    apply Finset.sum_eq_zero
    intro i hi
    have : (List.replicate N (0 : ℝ)).getD i 0 = 0 := by
      rw [List.getD_eq_getElem?_getD, List.getElem?_replicate_of_lt (Finset.mem_range.mp hi)]
      rfl
    rw [this, zero_mul]
  rw [show (Network.blank ℝ settings).m_numInputs = settings.m_numInputs from rfl,
    show (Network.blank ℝ settings).m_numHidden = settings.m_numHidden from rfl, hsum,
    hW1 _ (Nat.le_add_right _ _)]
  norm_num

/-- Witness for C36: shape `(1, 1, 1)` and the list `[7, 3]`. -/
theorem C36_loaded_bias_rows_zero_witness :
    ∃ net : Network ℝ, Network.load ⟨1, 1, 1⟩ [7, 3] = Except.ok net ∧
      net.m_weightsInputHidden.getD 1 0 = 0 ∧ net.m_weightsHiddenOutput.getD 1 0 = 0 ∧
      ∃ net', Evaluate Real.exp net [0] = Except.ok net' ∧
        net'.m_hiddenNeurons.getD 0 0 = 1 / 2 := by
  obtain ⟨net, hl, h1, h2, net', hev, hh⟩ := C36_loaded_bias_rows_zero ⟨1, 1, 1⟩ [7, 3]
    (by decide) rfl
  exact ⟨net, hl, h1 1 (by decide), h2 1 (by decide), net', hev, hh 0 (by decide)⟩

end LoadedBias

section UnitInterval

/-- Every output activation `Evaluate` produces lies strictly between `0` and `1`. -/
theorem Evaluate_output_unit {net net' : Network ℝ} {x : List ℝ} (hs : net.Shaped)
    (hb : net.BiasSet) (hx : x.length = net.m_numInputs)
    (h : Evaluate Real.exp net x = Except.ok net') (k : Nat) (hk : k < net.m_numOutputs) :
    0 < net'.m_outputNeurons.getD k 0 ∧ net'.m_outputNeurons.getD k 0 < 1 := by
  rw [Evaluate_ok Real.exp net x hs hb hx] at h
  cases h
  have h0 := getD_tabulate_lt (Reference.output Real.exp net x) net.m_numOutputs [] 0 k hk
  rw [List.append_nil] at h0
  simp only [h0, Reference.output]
  exact ⟨sigmoid_pos _, sigmoid_lt_one _⟩

/-- The squared errors of `m` output units, each activation in `(0, 1)` and each target
`0` or `1`, add up to a value in `[0, m]`, and to less than `m` when `m > 0`. -/
theorem squaredError_bounds (out : List ℝ) (e : List Int) (m : Nat)
    (hout : ∀ k, k < m → 0 < out.getD k 0 ∧ out.getD k 0 < 1)
    (he : ∀ k, k < m → e.getD k 0 = 0 ∨ e.getD k 0 = 1) :
    0 ≤ ∑ k in Finset.range m, (out.getD k 0 - ((e.getD k 0 : Int) : ℝ)) ^ 2 ∧
    ∑ k in Finset.range m, (out.getD k 0 - ((e.getD k 0 : Int) : ℝ)) ^ 2 ≤ m ∧
    (0 < m → ∑ k in Finset.range m, (out.getD k 0 - ((e.getD k 0 : Int) : ℝ)) ^ 2 < m) := by
  have hterm : ∀ k, k ∈ Finset.range m →
      (out.getD k 0 - ((e.getD k 0 : Int) : ℝ)) ^ 2 < 1 := by
    intro k hk
    obtain ⟨h0, h1⟩ := hout k (Finset.mem_range.mp hk)
    rcases he k (Finset.mem_range.mp hk) with h | h
    · rw [h]
      simp only [Int.cast_zero, sub_zero]
      nlinarith
    · rw [h]
      simp only [Int.cast_one]
      nlinarith
  refine ⟨Finset.sum_nonneg (fun k _ => sq_nonneg _), ?_, fun hm => ?_⟩
  · calc ∑ k in Finset.range m, (out.getD k 0 - ((e.getD k 0 : Int) : ℝ)) ^ 2
        ≤ ∑ _k in Finset.range m, (1 : ℝ) := Finset.sum_le_sum (fun k hk => (hterm k hk).le)
      _ = m := by simp
  · calc ∑ k in Finset.range m, (out.getD k 0 - ((e.getD k 0 : Int) : ℝ)) ^ 2
        < ∑ _k in Finset.range m, (1 : ℝ) :=
          Finset.sum_lt_sum_of_nonempty (Finset.nonempty_range_iff.mpr (Nat.pos_iff_ne_zero.mp hm))
            hterm
      _ = m := by simp

/-- One returning entry step of `RunEpoch` on a well-sized trainer keeps the invariant
and moves `MSE` up by a value from `[0, m]`, less than `m` when `m > 0`. -/
theorem RunEpochStep_mse_bounds {e : TrainingEntry ℝ} {s s' : NetworkTrainer ℝ × ℝ × ℝ}
    {n h m : Nat} (hs : s.1.ShapedAs n h m) (he : e.Fits n m)
    (h01 : ∀ k, k < m → e.m_expectedOutputs.getD k 0 = 0 ∨ e.m_expectedOutputs.getD k 0 = 1)
    (hrun : RunEpochStep Real.exp e s = Except.ok s') :
    s'.1.ShapedAs n h m ∧ s.2.2 ≤ s'.2.2 ∧ s'.2.2 ≤ s.2.2 + m ∧
      (0 < m → s'.2.2 < s.2.2 + m) := by
  obtain ⟨net, u, c, hev, hbp, hc, rfl⟩ := RunEpochStep_eq_ok hrun
  obtain ⟨net1, hev1, hsh, hbi, h1, h2, h3⟩ := Evaluate_shaped Real.exp s.1.m_pNetwork e.m_inputs
    hs.network hs.bias (by rw [he.1, hs.numInputs])
  rw [hev] at hev1
  cases hev1
  obtain ⟨u1, hbp1, hu⟩ := Backpropagate_returns { s.1 with m_pNetwork := net } n h m
    e.m_expectedOutputs
    ⟨h1.trans hs.numInputs, h2.trans hs.numHidden, h3.trans hs.numOutputs, hsh, hbi,
      hs.deltaInputHidden, hs.deltaHiddenOutput, hs.errorGradientsHidden,
      hs.errorGradientsOutput⟩ he.2
  rw [hbp] at hbp1
  cases hbp1
  have hf := Backpropagate_network hbp
  obtain ⟨-, hmse⟩ := RunEpochOutputs_spec hc
  have hb := squaredError_bounds u.m_pNetwork.m_outputNeurons e.m_expectedOutputs m
    (fun k hk => by
      have hout : u.m_pNetwork.m_outputNeurons = net.m_outputNeurons := hf.outputNeurons
      rw [hout]
      exact Evaluate_output_unit hs.network hs.bias (by rw [he.1, hs.numInputs]) hev k
        (by rw [hs.numOutputs]; exact hk)) h01
  rw [hu.numOutputs] at hmse
  refine ⟨hu, ?_, ?_, fun hm => ?_⟩
  · simp only [hmse]; linarith [hb.1]
  · simp only [hmse]; linarith [hb.2.1]
  · simp only [hmse]; linarith [hb.2.2 hm]

/-- The same for the entry step of `GetSetAccuracyAndMSE`. -/
theorem GetSetStep_mse_bounds {e : TrainingEntry ℝ} {s s' : NetworkTrainer ℝ × ℝ × ℝ}
    {n h m : Nat} (hs : s.1.ShapedAs n h m) (he : e.Fits n m)
    (h01 : ∀ k, k < m → e.m_expectedOutputs.getD k 0 = 0 ∨ e.m_expectedOutputs.getD k 0 = 1)
    (hrun : GetSetStep Real.exp e s = Except.ok s') :
    s'.1.ShapedAs n h m ∧ s.2.2 ≤ s'.2.2 ∧ s'.2.2 ≤ s.2.2 + m ∧
      (0 < m → s'.2.2 < s.2.2 + m) := by
  obtain ⟨net, c, hev, hc, rfl⟩ := GetSetStep_eq_ok hrun
  obtain ⟨net1, hev1, hsh, hbi, h1, h2, h3⟩ := Evaluate_shaped Real.exp s.1.m_pNetwork e.m_inputs
    hs.network hs.bias (by rw [he.1, hs.numInputs])
  rw [hev] at hev1
  cases hev1
  obtain ⟨-, hmse⟩ := RunEpochOutputs_spec hc
  have hb := squaredError_bounds net.m_outputNeurons e.m_expectedOutputs m
    (fun k hk => Evaluate_output_unit hs.network hs.bias (by rw [he.1, hs.numInputs]) hev k
        (by rw [hs.numOutputs]; exact hk)) h01
  rw [h3.trans hs.numOutputs] at hmse
  refine ⟨⟨h1.trans hs.numInputs, h2.trans hs.numHidden, h3.trans hs.numOutputs, hsh, hbi,
      hs.deltaInputHidden, hs.deltaHiddenOutput, hs.errorGradientsHidden,
      hs.errorGradientsOutput⟩, ?_, ?_, fun hm => ?_⟩
  · simp only [hmse]; linarith [hb.1]
  · simp only [hmse]; linarith [hb.2.1]
  · simp only [hmse]; linarith [hb.2.2 hm]

/-- Bounds on the accumulator of an entry loop whose steps keep the invariant and add a
value from `[0, m]` (less than `m` when `m > 0`) each. -/
theorem forEach_mse_bounds (step : TrainingEntry ℝ → NetworkTrainer ℝ × ℝ × ℝ →
      Exec (NetworkTrainer ℝ × ℝ × ℝ)) (n h m : Nat) (Q : TrainingEntry ℝ → Prop)
    (hstep : ∀ e s s', s.1.ShapedAs n h m → Q e → step e s = Except.ok s' →
      s'.1.ShapedAs n h m ∧ s.2.2 ≤ s'.2.2 ∧ s'.2.2 ≤ s.2.2 + m ∧
        (0 < m → s'.2.2 < s.2.2 + m)) :
    ∀ (es : List (TrainingEntry ℝ)) (s s' : NetworkTrainer ℝ × ℝ × ℝ),
      s.1.ShapedAs n h m → (∀ e, e ∈ es → Q e) → forEach es step s = Except.ok s' →
      s'.1.ShapedAs n h m ∧ s.2.2 ≤ s'.2.2 ∧ s'.2.2 ≤ s.2.2 + (es.length * m : Nat) ∧
        (es ≠ [] → 0 < m → s'.2.2 < s.2.2 + (es.length * m : Nat)) := by
  intro es
  induction es with
  | nil =>
    intro s s' hs _ hrun
    simp only [forEach_nil, Except.ok.injEq] at hrun
    subst hrun
    exact ⟨hs, le_refl _, by simp, fun hne => absurd rfl hne⟩
  | cons e es ih =>
    intro s s' hs hQ hrun
    rw [forEach_cons, bind_eq_ok] at hrun
    obtain ⟨s1, h1, h2⟩ := hrun
    obtain ⟨hs1, a1, a2, a3⟩ := hstep e s s1 hs (hQ e (List.mem_cons_self _ _)) h1
    obtain ⟨hs2, b1, b2, -⟩ := ih s1 s' hs1 (fun e' he' => hQ e' (List.mem_cons_of_mem _ he')) h2
    have hlen : (((e :: es).length * m : Nat) : ℝ) = (m : ℝ) + ((es.length * m : Nat) : ℝ) := by
      rw [List.length_cons]
      push_cast
      ring
    refine ⟨hs2, le_trans a1 b1, ?_, fun _ hm => ?_⟩
    · rw [hlen]; linarith
    · rw [hlen]; linarith [a3 hm]

/-- C37: on a well-sized trainer `Evaluate` returns for every input of length
`numInputs`, and every output activation it produces lies strictly between `0` and `1`
(over the reals); consequently, with `numOutputs > 0` and a non-empty set whose entries
are well sized with targets `0` or `1`, `GetSetAccuracyAndMSE` returns an MSE with
`0 <= MSE < 1`, and so is the MSE that a returning `RunEpoch` stores (`RunEpoch`
returns in stochastic mode, and in batch mode when `numOutputs <= numInputs + 1`). -/
theorem C37_outputs_and_MSE_in_unit_interval (t : NetworkTrainer ℝ) (n h m : Nat)
    (S : TrainingSet ℝ) (hs : t.ShapedAs n h m) (hm : 0 < m) (hne : S ≠ [])
    (hS : ∀ e, e ∈ S → e.Fits n m ∧
      ∀ k, k < m → e.m_expectedOutputs.getD k 0 = 0 ∨ e.m_expectedOutputs.getD k 0 = 1) :
    (∀ x : List ℝ, x.length = n →
      ∃ net', Evaluate Real.exp t.m_pNetwork x = Except.ok net' ∧
        ∀ k, k < m → 0 < net'.m_outputNeurons.getD k 0 ∧ net'.m_outputNeurons.getD k 0 < 1) ∧
    (∀ t', RunEpoch Real.exp t S = Except.ok t' →
      ∃ v, t'.m_trainingSetMSE = Stat.real v ∧ 0 ≤ v ∧ v < 1) ∧
    ((t.m_useBatchLearning = true → m ≤ n + 1) → ∃ t', RunEpoch Real.exp t S = Except.ok t') ∧
    (∃ r, GetSetAccuracyAndMSE Real.exp t S = Except.ok r ∧
      ∃ v, r.2.2 = Stat.real v ∧ 0 ≤ v ∧ v < 1) := by
  have hmN : m * S.length ≠ 0 := (Nat.mul_pos hm (List.length_pos.mpr hne)).ne'
  have hN : 0 < S.length := List.length_pos.mpr hne
  have hpos : (0 : ℝ) < ((m * S.length : Nat) : ℝ) := by
    exact_mod_cast Nat.mul_pos hm hN
  have fin : ∀ v : ℝ, 0 ≤ v → v < 0 + ((S.length * m : Nat) : ℝ) →
      0 ≤ v / ((m * S.length : Nat) : ℝ) ∧ v / ((m * S.length : Nat) : ℝ) < 1 := by
    intro v h0 h1
    refine ⟨div_nonneg h0 hpos.le, (div_lt_one hpos).mpr ?_⟩
    rw [Nat.mul_comm]
    linarith
  have hfit : ∀ e, e ∈ S → e.Fits n m := fun e he => (hS e he).1
  obtain ⟨r, hrun⟩ : ∃ r, GetSetAccuracyAndMSE Real.exp t S = Except.ok r := by
    obtain ⟨r, hr, -⟩ := GetSetAccuracyAndMSE_ok Real.exp t S n h m hs hfit
    exact ⟨r, hr⟩
  refine ⟨fun x hx => ?_, fun t' hrun => ?_, fun hb => ?_, r, hrun, ?_⟩
  · obtain ⟨net', hev, -⟩ := Evaluate_shaped Real.exp t.m_pNetwork x hs.network hs.bias
      (by rw [hx, hs.numInputs])
    exact ⟨net', hev, fun k hk => Evaluate_output_unit hs.network hs.bias
      (by rw [hx, hs.numInputs]) hev k (by rw [hs.numOutputs]; exact hk)⟩
  · unfold RunEpoch at hrun
    simp only [bind_eq_ok, pure_eq_ok, Except.ok.injEq] at hrun
    obtain ⟨s, hloop, u, hu, rfl⟩ := hrun
    obtain ⟨hsh, b1, -, b3⟩ := forEach_mse_bounds (RunEpochStep Real.exp) n h m
      (fun e => e.Fits n m ∧
        ∀ k, k < m → e.m_expectedOutputs.getD k 0 = 0 ∨ e.m_expectedOutputs.getD k 0 = 1)
      (fun e a b ha hQ hb => RunEpochStep_mse_bounds ha hQ.1 hQ.2 hb) S (t, 0, 0) s hs hS hloop
    have hum : u.m_pNetwork.m_numOutputs = m := by
      split at hu
      · exact ((UpdateWeights_network hu).1.numOutputs).trans hsh.numOutputs
      · simp only [pure_eq_ok, Except.ok.injEq] at hu
        subst hu
        exact hsh.numOutputs
    refine ⟨_, ?_, fin _ b1 (b3 hne hm)⟩
    show Stat.quot s.2.2 (u.m_pNetwork.m_numOutputs * S.length) = _
    rw [hum, Stat.quot_of_ne _ hmN]
  · obtain ⟨t', ht', -⟩ := RunEpoch_ok Real.exp t S n h m hs hfit hb
    exact ⟨t', ht'⟩
  · unfold GetSetAccuracyAndMSE at hrun
    simp only [bind_eq_ok, pure_eq_ok, Except.ok.injEq] at hrun
    obtain ⟨s, hloop, rfl⟩ := hrun
    obtain ⟨hsh, b1, -, b3⟩ := forEach_mse_bounds (GetSetStep Real.exp) n h m
      (fun e => e.Fits n m ∧
        ∀ k, k < m → e.m_expectedOutputs.getD k 0 = 0 ∨ e.m_expectedOutputs.getD k 0 = 1)
      (fun e a b ha hQ hb => GetSetStep_mse_bounds ha hQ.1 hQ.2 hb) S (t, 0, 0) s hs hS hloop
    refine ⟨_, ?_, fin _ b1 (b3 hne hm)⟩
    show Stat.quot s.2.2 (s.1.m_pNetwork.m_numOutputs * S.length) = _
    rw [hsh.numOutputs, Stat.quot_of_ne _ hmN]

/-- Witness for C37: one epoch of `slipTrainer` over `slipSet`, and the statistics of
the same set, over the reals. -/
theorem C37_outputs_and_MSE_in_unit_interval_witness :
    (∃ t', RunEpoch Real.exp (slipTrainer ℝ false) (slipSet ℝ) = Except.ok t' ∧
      ∃ v, t'.m_trainingSetMSE = Stat.real v ∧ 0 ≤ v ∧ v < 1) ∧
    (∃ r, GetSetAccuracyAndMSE Real.exp (slipTrainer ℝ false) (slipSet ℝ) = Except.ok r ∧
      ∃ v, r.2.2 = Stat.real v ∧ 0 ≤ v ∧ v < 1) := by
  have hsh : (slipTrainer ℝ false).ShapedAs 1 1 1 :=
    create_shapedAs _ (slipNet ℝ) ⟨rfl, rfl, rfl, rfl, rfl, rfl⟩ ⟨rfl, rfl⟩
  have hfit : ∀ e, e ∈ slipSet ℝ → e.Fits 1 1 := by
    intro e he
    simp [slipSet] at he
    subst he
    exact ⟨rfl, rfl⟩
  have key := C37_outputs_and_MSE_in_unit_interval (slipTrainer ℝ false) 1 1 1 (slipSet ℝ) hsh
    (by decide) (by simp [slipSet])
    (fun e he => ⟨hfit e he, fun k hk => by
      simp [slipSet] at he
      subst he
      have hk0 : k = 0 := by omega
      subst hk0
      exact Or.inr rfl⟩)
  obtain ⟨t', ht'⟩ := key.2.2.1 (fun hb => by cases hb)
  exact ⟨⟨t', ht', key.2.1 t' ht'⟩, key.2.2.2⟩

end UnitInterval

section Reader

theorem forRange_push {β : Type} (L : List β) (lo hi : Nat) (hhi : hi ≤ L.length)
    (set : List β) :
    forRange lo hi (fun entryIdx set => do
      let e ← rd L entryIdx
      pure (set ++ [e])) set = Except.ok (set ++ (L.drop lo).take (hi - lo)) := by
  unfold forRange
  generalize hc : hi - lo = c
  induction c generalizing hi with
  | zero => simp
  | succ k ih =>
    have hk : (hi - 1) - lo = k := by omega
    have h1 := ih (hi - 1) (by omega) hk
    rw [forLoop_succ, h1, ok_bind]
    have hlt : lo + k < L.length := by omega
    beta_reduce
    rw [rd_ok hlt, ok_bind, pure_eq_ok, List.append_assoc]
    congr 2
    rw [List.take_succ, List.getElem?_drop, List.getElem?_eq_getElem hlt]
    rfl

theorem split_counts (N : Nat) :
    ⌊(0.6 : ℚ) * (N : ℚ)⌋₊ = 3 * N / 5 ∧ ⌈(0.2 : ℚ) * (N : ℚ)⌉₊ = (N + 4) / 5 ∧
      ⌊(0.6 : ℚ) * (N : ℚ)⌋₊ + ⌈(0.2 : ℚ) * (N : ℚ)⌉₊ ≤ N := by
  have h1 : ⌊(0.6 : ℚ) * (N : ℚ)⌋₊ = 3 * N / 5 := by
    have : (0.6 : ℚ) * (N : ℚ) = ((3 * N : Nat) : ℚ) / ((5 : Nat) : ℚ) := by
      push_cast
      norm_num
      ring
    rw [this, Nat.floor_div_eq_div]
  have h2 : ⌈(0.2 : ℚ) * (N : ℚ)⌉₊ = (N + 4) / 5 := by
    apply le_antisymm
    · rw [Nat.ceil_le]
      have h5 : N ≤ 5 * ((N + 4) / 5) := by omega
      have : (N : ℚ) ≤ 5 * (((N + 4) / 5 : Nat) : ℚ) := by exact_mod_cast h5
      norm_num
      linarith
    · by_contra hcon
      push_neg at hcon
      have hlt : ⌈(0.2 : ℚ) * (N : ℚ)⌉₊ + 1 ≤ (N + 4) / 5 := hcon
      have hle := Nat.le_ceil ((0.2 : ℚ) * (N : ℚ))
      have h5 : 5 * ⌈(0.2 : ℚ) * (N : ℚ)⌉₊ + 5 ≤ N + 4 := by omega
      have : (5 : ℚ) * (⌈(0.2 : ℚ) * (N : ℚ)⌉₊ : ℚ) + 5 ≤ (N : ℚ) + 4 := by exact_mod_cast h5
      norm_num at hle
      linarith
  refine ⟨h1, h2, ?_⟩
  rw [h1, h2]
  omega

/-- C38: `CreateTrainingData` on a reader with a non-empty entry list and empty sets
returns; with `L` the shuffled entry list and `N` its length, the training set is the
first `floor(0.6*N)` entries of `L`, the generalization set the next `ceil(0.2*N)`
entries and the validation set the remaining ones; the two counts add up to at most
`N`, the three lengths add up to `N`, and the three sets concatenated in this order
are `L`. -/
theorem C38_CreateTrainingData_partition {α : Type}
    (shuffle : List (TrainingEntry α) → List (TrainingEntry α)) (r : TrainingDataReader α)
    (hne : r.m_entries ≠ []) (h1 : r.m_data.m_trainingSet = [])
    (h2 : r.m_data.m_generalizationSet = []) (h3 : r.m_data.m_validationSet = []) :
    ∃ r', CreateTrainingData shuffle r = Except.ok r' ∧
      r'.m_entries = shuffle r.m_entries ∧
      ⌊(0.6 : ℚ) * ((shuffle r.m_entries).length : ℚ)⌋₊
        + ⌈(0.2 : ℚ) * ((shuffle r.m_entries).length : ℚ)⌉₊ ≤ (shuffle r.m_entries).length ∧
      r'.m_data.m_trainingSet
        = (shuffle r.m_entries).take ⌊(0.6 : ℚ) * ((shuffle r.m_entries).length : ℚ)⌋₊ ∧
      r'.m_data.m_generalizationSet
        = ((shuffle r.m_entries).drop ⌊(0.6 : ℚ) * ((shuffle r.m_entries).length : ℚ)⌋₊).take
            ⌈(0.2 : ℚ) * ((shuffle r.m_entries).length : ℚ)⌉₊ ∧
      r'.m_data.m_validationSet
        = (shuffle r.m_entries).drop (⌊(0.6 : ℚ) * ((shuffle r.m_entries).length : ℚ)⌋₊
            + ⌈(0.2 : ℚ) * ((shuffle r.m_entries).length : ℚ)⌉₊) ∧
      r'.m_data.m_trainingSet ++ r'.m_data.m_generalizationSet ++ r'.m_data.m_validationSet
        = shuffle r.m_entries ∧
      r'.m_data.m_trainingSet.length + r'.m_data.m_generalizationSet.length
        + r'.m_data.m_validationSet.length = (shuffle r.m_entries).length := by
  obtain ⟨-, -, hsum⟩ := split_counts (shuffle r.m_entries).length
  generalize hL : shuffle r.m_entries = L at hsum ⊢
  generalize ha : ⌊(0.6 : ℚ) * (L.length : ℚ)⌋₊ = a at hsum ⊢
  generalize hb : ⌈(0.2 : ℚ) * (L.length : ℚ)⌉₊ = b at hsum ⊢
  have hrun : CreateTrainingData shuffle r = Except.ok { r with
      m_entries := L
      m_data := { m_trainingSet := L.take a
                  m_generalizationSet := (L.drop a).take b
                  m_validationSet := L.drop (a + b) } } := by
    unfold CreateTrainingData
    rw [check_ok (by simpa [List.length_eq_zero] using hne)]
    simp only [ok_bind, hL, ha, hb, h1, h2, h3]
    rw [forRange_push L 0 a (by omega), ok_bind, forRange_push L a (a + b) hsum, ok_bind,
      forRange_push L (a + b) L.length (le_refl _), ok_bind]
    simp only [pure_eq_ok, List.nil_append, Nat.sub_zero, List.drop_zero, Nat.add_sub_cancel_left]
    congr 3
    rw [List.take_of_length_le (by simp)]
  have hcat : L.take a ++ (L.drop a).take b ++ L.drop (a + b) = L := by
    rw [List.append_assoc, ← List.drop_drop, List.take_append_drop, List.take_append_drop]
  refine ⟨_, hrun, rfl, hsum, rfl, rfl, rfl, hcat, ?_⟩
  simp only [List.length_take, List.length_drop]
  omega

/-- Witness for C38: five entries, no rearrangement: three entries go to the training
set, one to the generalization set and one to the validation set. -/
theorem C38_CreateTrainingData_partition_witness :
    ∃ r', CreateTrainingData id
        (⟨"data.csv", 1, 1, [⟨[1], [0]⟩, ⟨[2], [0]⟩, ⟨[3], [1]⟩, ⟨[4], [1]⟩, ⟨[5], [0]⟩],
          ⟨[], [], []⟩⟩ : TrainingDataReader ℚ) = Except.ok r' ∧
      r'.m_data.m_trainingSet.length = 3 ∧ r'.m_data.m_generalizationSet.length = 1 ∧
      r'.m_data.m_validationSet.length = 1 ∧
      r'.m_data.m_trainingSet ++ r'.m_data.m_generalizationSet ++ r'.m_data.m_validationSet
        = [⟨[1], [0]⟩, ⟨[2], [0]⟩, ⟨[3], [1]⟩, ⟨[4], [1]⟩, ⟨[5], [0]⟩] := by
  obtain ⟨r', hrun, -, -, ht, hg, hv, hcat, -⟩ := C38_CreateTrainingData_partition id
    (⟨"data.csv", 1, 1, [⟨[1], [0]⟩, ⟨[2], [0]⟩, ⟨[3], [1]⟩, ⟨[4], [1]⟩, ⟨[5], [0]⟩],
      ⟨[], [], []⟩⟩ : TrainingDataReader ℚ) (by simp) rfl rfl rfl
  simp only [id, List.length_cons, List.length_nil] at ht hg hv hcat
  norm_num at ht hg hv
  refine ⟨r', hrun, ?_, ?_, ?_, hcat⟩
  · rw [ht]; rfl
  · rw [hg]; rfl
  · rw [hv]; rfl

end Reader

section LegacyEval
variable {α : Type} [LinearOrderedField α]

theorem legacy_slip_feedForward (exp : α → α) (hexp : exp 0 = 1) :
    Legacy.feedForward exp (Legacy.slipNet α) [1] = Except.ok (Legacy.slipFed α) := by
  simp [Legacy.feedForward, Legacy.rd2, Legacy.activationFunction, forLoop, rd, wr,
    Legacy.slipNet, Legacy.slipFed, hexp]
  norm_num [hexp]

theorem legacy_slip_backpropagate :
    Legacy.backpropagate { Legacy.slipTrainer α with NN := Legacy.slipFed α } [1]
      = Except.ok (Legacy.slipTrained α) := by
  simp [Legacy.backpropagate, Legacy.updateWeights, Legacy.getHiddenErrorGradient,
    Legacy.getOutputErrorGradient, Legacy.rd2, Legacy.wr2, forLoop, rd, wr,
    Legacy.slipNet, Legacy.slipFed, Legacy.slipTrainer, Legacy.slipTrained,
    Legacy.setTrainingParameters, Legacy.neuralNetworkTrainer.create]
  norm_num

theorem ite_ok {σ : Type} (c : Prop) [Decidable c] (a b : σ) :
    (if c then (Except.ok a : Exec σ) else Except.ok b) = Except.ok (if c then a else b) := by
  split <;> rfl

theorem legacy_unit_feedForward (exp : α → α) (x h o a b w v p : α) :
    ∃ h' o', Legacy.feedForward exp (Legacy.unitNet x h o a b w v) [p]
      = Except.ok (Legacy.unitNet p h' o' a b w v) := by
  simp [Legacy.feedForward, Legacy.rd2, forLoop, rd, wr, Legacy.unitNet]

theorem legacy_unit_getSetAccuracy (exp : α → α) (x h o a b w v p d : α) :
    ∃ x' h' o' r, Legacy.getSetAccuracy exp (Legacy.unitNet x h o a b w v) [⟨[p], [d]⟩]
      = Except.ok (Legacy.unitNet x' h' o' a b w v, r) := by
  obtain ⟨h', o', hf⟩ := legacy_unit_feedForward exp x h o a b w v p
  refine ⟨p, h', o', ?_⟩
  simp [Legacy.getSetAccuracy, forLoop, rd, hf, ite_ok]
  simp [Legacy.unitNet, forLoop, rd, ite_ok]
  split <;> rfl

theorem legacy_unit_getSetMSE (exp : α → α) (x h o a b w v p d : α) :
    ∃ x' h' o' r, Legacy.getSetMSE exp (Legacy.unitNet x h o a b w v) [⟨[p], [d]⟩]
      = Except.ok (Legacy.unitNet x' h' o' a b w v, r) := by
  obtain ⟨h', o', hf⟩ := legacy_unit_feedForward exp x h o a b w v p
  refine ⟨p, h', o', ?_⟩
  simp [Legacy.getSetMSE, forLoop, rd, hf, ite_ok]
  simp [Legacy.unitNet, forLoop, rd, ite_ok]

/-- The two validation measurements that end `trainNetwork`. -/
theorem legacy_trainNetwork_eq (exp : α → α) (fuel : Nat) (t : Legacy.neuralNetworkTrainer α)
    (tSet : Legacy.trainingDataSet α) :
    Legacy.trainNetwork exp fuel t tSet
      = (whileLoop fuel Legacy.trainCondition (Legacy.trainBody exp tSet)
          { t with epoch := 0, lastEpochLogged := -t.logResolution } >>= fun t => do
        let a ← Legacy.getSetAccuracy exp t.NN tSet.validationSet
        let m ← Legacy.getSetMSE exp a.1 tSet.validationSet
        pure { t with
          NN := m.1
          validationSetAccuracy := a.2
          validationSetMSE := m.2 }) := rfl

theorem legacy_unit_validation (exp : α → α) (t : Legacy.neuralNetworkTrainer α)
    (x h o a b w v p d : α) (hN : t.NN = Legacy.unitNet x h o a b w v) :
    ∃ x' h' o' r q,
      (do
        let a ← Legacy.getSetAccuracy exp t.NN [⟨[p], [d]⟩]
        let m ← Legacy.getSetMSE exp a.1 [⟨[p], [d]⟩]
        pure { t with
          NN := m.1
          validationSetAccuracy := a.2
          validationSetMSE := m.2 } : Exec (Legacy.neuralNetworkTrainer α))
      = Except.ok { t with
          NN := Legacy.unitNet x' h' o' a b w v
          validationSetAccuracy := r
          validationSetMSE := q } := by
  obtain ⟨x1, h1, o1, r, hacc⟩ := legacy_unit_getSetAccuracy exp x h o a b w v p d
  obtain ⟨x2, h2, o2, q, hmse⟩ := legacy_unit_getSetMSE exp x1 h1 o1 a b w v p d
  refine ⟨x2, h2, o2, r, q, ?_⟩
  rw [hN, hacc]
  simp only [ok_bind, hmse, pure_eq_ok]

theorem legacy_slip_backpropagate_frame (t : Legacy.neuralNetworkTrainer α)
    (hlr : t.learningRate = 1) (hm : t.momentum = 0)
    (hb : t.useBatch = false) (hdi : t.deltaInputHidden = [[0], [0]])
    (hdo : t.deltaHiddenOutput = [[0], [0]]) (hgh : t.hiddenErrorGradients = [0, 0])
    (hgo : t.outputErrorGradients = [0, 0]) :
    Legacy.backpropagate { t with NN := Legacy.slipFed α } [1] = Except.ok { t with
      NN := (Legacy.slipTrained α).NN
      deltaInputHidden := [[1 / 16], [-1 / 16]]
      deltaHiddenOutput := [[1 / 16], [-1 / 8]]
      hiddenErrorGradients := [1 / 16, 0]
      outputErrorGradients := [1 / 8, 0] } := by
  obtain ⟨NN, lr, mom, ep, mx, da, dIH, dHO, gH, gO, ta, va, ga, tm, vm, gm, ub, le, lo, lr', ll⟩ := t
  simp only at hlr hm hb hdi hdo hgh hgo
  subst hlr hm hb hdi hdo hgh hgo
  simp [Legacy.backpropagate, Legacy.updateWeights, Legacy.getHiddenErrorGradient,
    Legacy.getOutputErrorGradient, Legacy.rd2, Legacy.wr2, forLoop, rd, wr,
    Legacy.slipNet, Legacy.slipFed, Legacy.slipTrainer, Legacy.slipTrained]
  norm_num

theorem legacy_slip_step (exp : α → α) (hexp : exp 0 = 1) (t : Legacy.neuralNetworkTrainer α)
    (hN : t.NN = Legacy.slipNet α) (hlr : t.learningRate = 1) (hm : t.momentum = 0)
    (hb : t.useBatch = false) (hdi : t.deltaInputHidden = [[0], [0]])
    (hdo : t.deltaHiddenOutput = [[0], [0]]) (hgh : t.hiddenErrorGradients = [0, 0])
    (hgo : t.outputErrorGradients = [0, 0]) :
    Legacy.runTrainingEpoch exp t [⟨[1], [1]⟩] = Except.ok { t with
      NN := (Legacy.slipTrained α).NN
      deltaInputHidden := [[1 / 16], [-1 / 16]]
      deltaHiddenOutput := [[1 / 16], [-1 / 8]]
      hiddenErrorGradients := [1 / 16, 0]
      outputErrorGradients := [1 / 8, 0]
      trainingSetAccuracy := Stat.real 0
      trainingSetMSE := Stat.real (1 / 4) } := by
  unfold Legacy.runTrainingEpoch
  simp only [List.length_cons, List.length_nil, forLoop_succ, forLoop_zero, ok_bind, rd,
    List.getElem?_cons_zero, Nat.zero_add, hN, legacy_slip_feedForward exp hexp,
    legacy_slip_backpropagate_frame t hlr hm hb hdi hdo hgh hgo]
  simp [Legacy.slipTrained, Legacy.slipFed, Legacy.slipNet, Legacy.clampOutput, forLoop, rd, hb,
    Stat.quot, Stat.percent]
  norm_num

theorem whileLoop_done {σ : Type} (fuel : Nat) (cond : σ → Bool) (body : σ → Exec σ) (s : σ)
    (h : cond s = false) : whileLoop fuel cond body s = Except.ok s := by
  cases fuel <;> simp [whileLoop, h]

/-- When both accuracies the trainer holds have reached `desiredAccuracy`, the loop of
`trainNetwork` does not run: the call resets the two counters and measures the
validation set. -/
theorem legacy_trainNetwork_skip (exp : α → α) (fuel : Nat) (t : Legacy.neuralNetworkTrainer α)
    (tSet : Legacy.trainingDataSet α) (hT : t.trainingSetAccuracy.lt t.desiredAccuracy = false)
    (hG : t.generalizationSetAccuracy.lt t.desiredAccuracy = false) :
    Legacy.trainNetwork exp fuel t tSet = (do
      let a ← Legacy.getSetAccuracy exp t.NN tSet.validationSet
      let m ← Legacy.getSetMSE exp a.1 tSet.validationSet
      pure { t with
        epoch := 0
        lastEpochLogged := -t.logResolution
        NN := m.1
        validationSetAccuracy := a.2
        validationSetMSE := m.2 }) := by
  rw [legacy_trainNetwork_eq, whileLoop_done]
  · rfl
  · simp [Legacy.trainCondition, hT, hG]

theorem legacy_slip_trainBody (exp : α → α) (hexp : exp 0 = 1)
    (t : Legacy.neuralNetworkTrainer α)
    (hN : t.NN = Legacy.slipNet α) (hlr : t.learningRate = 1) (hm : t.momentum = 0)
    (hb : t.useBatch = false) (hdi : t.deltaInputHidden = [[0], [0]])
    (hdo : t.deltaHiddenOutput = [[0], [0]]) (hgh : t.hiddenErrorGradients = [0, 0])
    (hgo : t.outputErrorGradients = [0, 0]) (hlog : t.loggingEnabled = false) :
    ∃ t', Legacy.trainBody exp (Legacy.slipData α) t = Except.ok t' ∧
      t'.epoch = t.epoch + 1 ∧ t'.maxEpochs = t.maxEpochs ∧
      ∃ x h o, t'.NN = Legacy.unitNet x h o (1 / 16) (-1 / 16) (33 / 16) (7 / 8) := by
  obtain ⟨x1, h1, o1, r, hacc⟩ := legacy_unit_getSetAccuracy exp 1 (1 / 2) (1 / 2) (1 / 16)
    (-1 / 16) (33 / 16) (7 / 8) (1 : α) 1
  obtain ⟨x2, h2, o2, q, hmse⟩ := legacy_unit_getSetMSE exp x1 h1 o1 (1 / 16)
    (-1 / 16) (33 / 16) (7 / 8) (1 : α) 1
  have hNN : (Legacy.slipTrained α).NN
      = Legacy.unitNet 1 (1 / 2) (1 / 2) (1 / 16) (-1 / 16) (33 / 16) (7 / 8) := rfl
  have key : Legacy.trainBody exp (Legacy.slipData α) t = Except.ok { t with
      NN := Legacy.unitNet x2 h2 o2 (1 / 16) (-1 / 16) (33 / 16) (7 / 8)
      deltaInputHidden := [[1 / 16], [-1 / 16]]
      deltaHiddenOutput := [[1 / 16], [-1 / 8]]
      hiddenErrorGradients := [1 / 16, 0]
      outputErrorGradients := [1 / 8, 0]
      trainingSetAccuracy := Stat.real 0
      trainingSetMSE := Stat.real (1 / 4)
      generalizationSetAccuracy := r
      generalizationSetMSE := q
      epoch := t.epoch + 1 } := by
    unfold Legacy.trainBody
    simp only [Legacy.slipData, legacy_slip_step exp hexp t hN hlr hm hb hdi hdo hgh hgo,
      ok_bind, hNN, hacc, hmse, hlog, Bool.false_and, pure_eq_ok]
    rfl
  exact ⟨_, key, rfl, rfl, x2, h2, o2, rfl⟩

theorem legacy_stale_zero (exp : α → α) (hexp : exp 0 = 1) (fuel : Nat) :
    ∃ a, Legacy.trainNetwork exp (fuel + 1) (Legacy.staleTrainer α 0) (Legacy.slipData α)
        = Except.ok a ∧
      a.epoch = 1 ∧ a.NN.wInputHidden = [[1 / 16], [-1 / 16]] ∧
      a.NN.wHiddenOutput = [[33 / 16], [7 / 8]] := by
  obtain ⟨t', hbody, hep, hmx, x, h, o, hN⟩ := legacy_slip_trainBody exp hexp
    { Legacy.staleTrainer α 0 with
      epoch := 0
      lastEpochLogged := -(Legacy.staleTrainer α 0).logResolution }
    rfl rfl rfl rfl rfl rfl rfl rfl rfl
  obtain ⟨x', h', o', r', q', hval⟩ := legacy_unit_validation exp t' x h o (1 / 16) (-1 / 16)
    (33 / 16) (7 / 8) 1 1 hN
  have hep' : t'.epoch = 1 := by rw [hep]; rfl
  have hmx' : t'.maxEpochs = 1 := by rw [hmx]; rfl
  have hstart : Legacy.trainCondition
      ({ Legacy.staleTrainer α 0 with
        epoch := 0
        lastEpochLogged := -(Legacy.staleTrainer α 0).logResolution }) = true := by
    simp [Legacy.trainCondition, Legacy.staleTrainer, Legacy.setStoppingConditions, Stat.lt]
  refine ⟨_, Eq.trans ?_ hval, hep', rfl, rfl⟩
  rw [legacy_trainNetwork_eq, whileLoop_succ]
  dsimp only at hstart hbody ⊢
  rw [if_pos hstart, hbody, ok_bind,
    whileLoop_done _ _ _ _ (by simp [Legacy.trainCondition, hep', hmx']), ok_bind]
  rfl

theorem legacy_stale_hundred (exp : α → α) (fuel : Nat) :
    ∃ b, Legacy.trainNetwork exp fuel (Legacy.staleTrainer α 100) (Legacy.slipData α)
        = Except.ok b ∧
      b.epoch = 0 ∧ b.NN.wInputHidden = [[0], [0]] ∧ b.NN.wHiddenOutput = [[2], [1]] ∧
      b.trainingSetAccuracy = Stat.real 100 ∧
      b.generalizationSetAccuracy = Stat.real 100 := by
  obtain ⟨x', h', o', r', q', hval⟩ := legacy_unit_validation exp
    { Legacy.staleTrainer α 100 with
      epoch := 0
      lastEpochLogged := -(Legacy.staleTrainer α 100).logResolution } 0 0 0 0 0 2 1 1 1 rfl
  refine ⟨_, Eq.trans ?_ hval, rfl, rfl, rfl, rfl, rfl⟩
  rw [legacy_trainNetwork_skip exp fuel _ _
    (by simp [Legacy.staleTrainer, Legacy.setStoppingConditions, Stat.lt]; norm_num)
    (by simp [Legacy.staleTrainer, Legacy.setStoppingConditions, Stat.lt]; norm_num)]
  rfl

end LegacyEval

section LegacyPersist
variable {β : Type}

theorem rd2_mid (A B : List (List β)) (row : List β) (i j : Nat) (hi : A.length = i)
    (hj : j < row.length) : Legacy.rd2 (A ++ row :: B) i j = Except.ok row[j] := by
  subst hi
  have h1 : rd (A ++ row :: B) A.length = Except.ok row := rd_eq_ok_iff.mpr (by
    rw [List.getElem?_append_right (le_refl _), Nat.sub_self, List.getElem?_cons_zero])
  simp only [Legacy.rd2, h1, ok_bind, rd_ok hj]

theorem wr2_mid (A B : List (List β)) (row : List β) (i j : Nat) (v : β) (hi : A.length = i)
    (hj : j < row.length) :
    Legacy.wr2 (A ++ row :: B) i j v = Except.ok (A ++ row.set j v :: B) := by
  subst hi
  have h1 : rd (A ++ row :: B) A.length = Except.ok row := rd_eq_ok_iff.mpr (by
    rw [List.getElem?_append_right (le_refl _), Nat.sub_self, List.getElem?_cons_zero])
  have h2 : wr (A ++ row :: B) A.length (row.set j v) = Except.ok (A ++ row.set j v :: B) := by
    rw [wr_ok (by simp), List.set_append_right _ _ (le_refl _), Nat.sub_self, List.set_cons_zero]
  simp only [Legacy.wr2, h1, ok_bind, wr_ok hj, h2]

theorem Rect_length_flatten (xs : List (List β)) (r c : Nat) (h : Legacy.Rect xs r c) :
    xs.flatten.length = r * c := by
  obtain ⟨hr, hc⟩ := h
  subst hr
  induction xs with
  | nil => simp
  | cons row tl ih =>
    have h1 : row.length = c := hc row (List.mem_cons_self _ _)
    have h2 := ih (fun r hr => hc r (List.mem_cons_of_mem _ hr))
    simp only [List.flatten_cons, List.length_append, List.length_cons, h1, h2]
    ring

theorem save_row (A B : List (List β)) (row : List β) (i : Nat) (hi : A.length = i)
    (out : List β) (k : Nat) (hk : k ≤ row.length) :
    forLoop k (fun j (out : List β) => do
        let w ← Legacy.rd2 (A ++ row :: B) i j
        pure (out ++ [w])) out
      = Except.ok (out ++ row.take k) := by
  induction k with
  | zero => simp
  | succ k ih =>
    rw [forLoop_succ, ih (by omega), ok_bind]
    rw [rd2_mid A B row i k hi (by omega), ok_bind, pure_eq_ok, List.append_assoc]
    congr 2
    rw [List.take_succ, List.getElem?_eq_getElem (by omega)]
    rfl

theorem save_rows (xs : List (List β)) (c : Nat) (hc : ∀ row ∈ xs, row.length = c)
    (out : List β) (k : Nat) (hk : k ≤ xs.length) :
    forLoop k (fun i out =>
        forLoop c (fun j (out : List β) => do
          let w ← Legacy.rd2 xs i j
          pure (out ++ [w])) out) out
      = Except.ok (out ++ (xs.take k).flatten) := by
  induction k with
  | zero => simp
  | succ k ih =>
    rw [forLoop_succ, ih (by omega), ok_bind]
    have hlt : k < xs.length := by omega
    have hx : xs = xs.take k ++ xs[k] :: xs.drop (k + 1) := by
      rw [← List.drop_eq_getElem_cons hlt, List.take_append_drop]
    have hrow : xs[k].length = c := hc _ (List.getElem_mem _)
    have hsave := save_row (xs.take k) (xs.drop (k + 1)) xs[k] k
      (by rw [List.length_take]; omega) (out ++ (xs.take k).flatten) c (by omega)
    rw [← hx] at hsave
    have hfl : (xs.take (k + 1)).flatten = (xs.take k).flatten ++ xs[k] := by
      rw [List.take_succ, List.getElem?_eq_getElem hlt]
      simp only [Option.toList, List.flatten_append, List.flatten_cons, List.flatten_nil,
        List.append_nil]
    rw [hsave, hfl, List.append_assoc]
    congr 3
    rw [← hrow, List.take_length]

theorem row_fill_step (ws row : List β) (pos k : Nat) (hk : k < row.length)
    (hpos : pos + row.length ≤ ws.length) (hlt : pos + k < ws.length) :
    ((ws.drop pos).take k ++ row.drop k).set k ws[pos + k]
      = (ws.drop pos).take (k + 1) ++ row.drop (k + 1) := by
  have h1 : ((ws.drop pos).take k).length = k := by
    rw [List.length_take, List.length_drop]; omega
  rw [List.set_append_right _ _ (by omega), h1, Nat.sub_self, List.drop_eq_getElem_cons hk,
    List.set_cons_zero, List.take_succ,
    List.getElem?_eq_getElem (by rw [List.length_drop]; omega), List.getElem_drop]
  simp

theorem load_row (ws : List β) (A B : List (List β)) (row : List β) (pos i : Nat)
    (hi : A.length = i) (hpos : pos + row.length ≤ ws.length) (k : Nat)
    (hk : k ≤ row.length) :
    forLoop k (fun j (s : List (List β) × Nat) => do
        let v ← rd ws s.2
        let w ← Legacy.wr2 s.1 i j v
        pure (w, s.2 + 1)) (A ++ row :: B, pos)
      = Except.ok (A ++ ((ws.drop pos).take k ++ row.drop k) :: B, pos + k) := by
  induction k with
  | zero => simp
  | succ k ih =>
    rw [forLoop_succ, ih (by omega), ok_bind]
    have hlt : pos + k < ws.length := by omega
    rw [rd_ok hlt, ok_bind]
    rw [wr2_mid A B _ i k _ hi (by
      rw [List.length_append, List.length_take, List.length_drop, List.length_drop]; omega),
      ok_bind, pure_eq_ok, row_fill_step ws row pos k (by omega) hpos hlt]
    rfl

theorem load_rows (ws : List β) (w0 : List (List β)) (c pos : Nat)
    (hc : ∀ row ∈ w0, row.length = c) (hpos : pos + w0.length * c ≤ ws.length) (k : Nat)
    (hk : k ≤ w0.length) :
    forLoop k (fun i s =>
        forLoop c (fun j (s : List (List β) × Nat) => do
          let v ← rd ws s.2
          let w ← Legacy.wr2 s.1 i j v
          pure (w, s.2 + 1)) s) (w0, pos)
      = Except.ok ((List.range k).map (fun i => (ws.drop (pos + i * c)).take c) ++ w0.drop k,
          pos + k * c) := by
  induction k with
  | zero => simp
  | succ k ih =>
    rw [forLoop_succ, ih (by omega), ok_bind]
    have hlt : k < w0.length := by omega
    have hrow : w0[k].length = c := hc _ (List.getElem_mem _)
    have hle : (k + 1) * c ≤ w0.length * c := Nat.mul_le_mul_right c (by omega)
    rw [List.drop_eq_getElem_cons hlt]
    have hload := load_row ws ((List.range k).map (fun i => (ws.drop (pos + i * c)).take c))
      (w0.drop (k + 1)) w0[k] (pos + k * c) k (by simp)
      (by rw [hrow]; nlinarith) c (by omega)
    rw [hload, ← hrow, List.drop_length, List.append_nil, List.range_succ, List.map_append,
      List.append_assoc]
    simp only [List.map_cons, List.map_nil, List.singleton_append, hrow]
    congr 2
    ring

theorem flatten_drop (xs : List (List β)) (c : Nat) (hc : ∀ row ∈ xs, row.length = c) (i : Nat) :
    xs.flatten.drop (i * c) = (xs.drop i).flatten := by
  induction xs generalizing i with
  | nil => simp
  | cons row tl ih =>
    cases i with
    | zero => simp
    | succ i =>
      have h1 : row.length = c := hc row (List.mem_cons_self _ _)
      rw [List.flatten_cons, List.drop_succ_cons, ← ih (fun r hr => hc r (List.mem_cons_of_mem _ hr)),
        Nat.succ_mul, Nat.add_comm, ← List.drop_drop]
      congr 1
      rw [← h1, List.drop_left]

theorem chunk_flatten (pre post : List β) (xs : List (List β)) (c : Nat)
    (hc : ∀ row ∈ xs, row.length = c) (i : Nat) (hi : i < xs.length) :
    ((pre ++ (xs.flatten ++ post)).drop (pre.length + i * c)).take c = xs[i] := by
  have hrow : xs[i].length = c := hc _ (List.getElem_mem _)
  have hlen : i * c ≤ xs.flatten.length := by
    rw [Rect_length_flatten xs xs.length c ⟨rfl, hc⟩]
    exact Nat.mul_le_mul_right c (by omega)
  rw [← List.drop_drop, List.drop_left, List.drop_append_of_le_length hlen,
    flatten_drop xs c hc, List.drop_eq_getElem_cons hi, List.flatten_cons, List.append_assoc,
    ← hrow, List.take_left]

theorem chunks_flatten (pre post : List β) (xs : List (List β)) (c : Nat)
    (hc : ∀ row ∈ xs, row.length = c) :
    (List.range xs.length).map
      (fun i => ((pre ++ (xs.flatten ++ post)).drop (pre.length + i * c)).take c) = xs := by
  apply List.ext_getElem
  · simp
  · intro i h1 h2
    rw [List.getElem_map, List.getElem_range]
    exact chunk_flatten pre post xs c hc i h2

end LegacyPersist

section LegacyRoundTrip
variable {α : Type} [LinearOrderedField α]

/-- The sequence `saveWeights` emits: the rows of `wInputHidden` one after the other,
then the rows of `wHiddenOutput`. -/
theorem legacy_saveWeights_eq (nn : Legacy.neuralNetwork α)
    (h1 : Legacy.Rect nn.wInputHidden (nn.nInput + 1) nn.nHidden)
    (h2 : Legacy.Rect nn.wHiddenOutput (nn.nHidden + 1) nn.nOutput) :
    Legacy.saveWeights nn
      = Except.ok (nn.wInputHidden.flatten ++ nn.wHiddenOutput.flatten) := by
  unfold Legacy.saveWeights
  have s1 := save_rows nn.wInputHidden nn.nHidden h1.2 [] (nn.nInput + 1) (by rw [h1.1])
  rw [s1, ok_bind]
  have s2 := save_rows nn.wHiddenOutput nn.nOutput h2.2
    ([] ++ (nn.wInputHidden.take (nn.nInput + 1)).flatten) (nn.nHidden + 1) (by rw [h2.1])
  rw [s2, ← h1.1, ← h2.1, List.take_length, List.take_length, List.nil_append]

/-- A sequence of another length is refused and the network is left as it was. -/
theorem legacy_loadWeights_reject (nn : Legacy.neuralNetwork α) (ws : List α)
    (h : ws.length ≠ (nn.nInput + 1) * nn.nHidden + (nn.nHidden + 1) * nn.nOutput) :
    Legacy.loadWeights nn ws = Except.ok (nn, false) := by
  unfold Legacy.loadWeights
  rw [if_pos h]
  rfl

/-- A sequence of the right length is accepted: row `i` of `wInputHidden` becomes the
`i`-th block of `nHidden` values, row `i` of `wHiddenOutput` the `i`-th block of `nOutput`
values after the first `(nInput + 1) * nHidden`. -/
theorem legacy_loadWeights_accept (nn : Legacy.neuralNetwork α) (ws : List α)
    (h1 : Legacy.Rect nn.wInputHidden (nn.nInput + 1) nn.nHidden)
    (h2 : Legacy.Rect nn.wHiddenOutput (nn.nHidden + 1) nn.nOutput)
    (h : ws.length = (nn.nInput + 1) * nn.nHidden + (nn.nHidden + 1) * nn.nOutput) :
    Legacy.loadWeights nn ws = Except.ok ({ nn with
      wInputHidden := (List.range (nn.nInput + 1)).map
        (fun i => (ws.drop (0 + i * nn.nHidden)).take nn.nHidden)
      wHiddenOutput := (List.range (nn.nHidden + 1)).map
        (fun i => (ws.drop (0 + (nn.nInput + 1) * nn.nHidden + i * nn.nOutput)).take
          nn.nOutput) }, true) := by
  unfold Legacy.loadWeights
  rw [if_neg (not_not.mpr h)]
  have l1 := load_rows ws nn.wInputHidden nn.nHidden 0 h1.2 (by rw [h1.1]; omega)
    (nn.nInput + 1) (by rw [h1.1])
  rw [l1, ok_bind]
  have l2 := load_rows ws nn.wHiddenOutput nn.nOutput (0 + (nn.nInput + 1) * nn.nHidden) h2.2
    (by rw [h2.1]; omega) (nn.nHidden + 1) (by rw [h2.1])
  dsimp only
  rw [l2, ok_bind]
  have d1 : nn.wInputHidden.drop (nn.nInput + 1) = [] := by
    rw [← h1.1, List.drop_length]
  have d2 : nn.wHiddenOutput.drop (nn.nHidden + 1) = [] := by
    rw [← h2.1, List.drop_length]
  simp only [d1, d2, List.append_nil, pure_eq_ok]

end LegacyRoundTrip

section LegacyClaims

/-- C39: for a 2008 network `nn` whose weight arrays have the sizes the constructor
allocates, `saveWeights` emits the rows of `wInputHidden` followed by the rows of
`wHiddenOutput`, `(nInput+1)*nHidden + (nHidden+1)*nOutput` values in all; on a network
`nn0` of the same shape `loadWeights` returns for every parsed sequence and answers
`true` exactly when the sequence has that length (a refused sequence leaves `nn0` as it
was); and loading the emitted sequence into `nn0` makes both weight arrays, bias rows
included, equal to those of `nn` and changes nothing else. -/
theorem C39_save_load_round_trip {α : Type} [LinearOrderedField α]
    (nn nn0 : Legacy.neuralNetwork α)
    (h1 : Legacy.Rect nn.wInputHidden (nn.nInput + 1) nn.nHidden)
    (h2 : Legacy.Rect nn.wHiddenOutput (nn.nHidden + 1) nn.nOutput)
    (hI : nn0.nInput = nn.nInput) (hH : nn0.nHidden = nn.nHidden)
    (hO : nn0.nOutput = nn.nOutput)
    (h1' : Legacy.Rect nn0.wInputHidden (nn.nInput + 1) nn.nHidden)
    (h2' : Legacy.Rect nn0.wHiddenOutput (nn.nHidden + 1) nn.nOutput) :
    ∃ out, Legacy.saveWeights nn = Except.ok out ∧
      out = nn.wInputHidden.flatten ++ nn.wHiddenOutput.flatten ∧
      out.length = (nn.nInput + 1) * nn.nHidden + (nn.nHidden + 1) * nn.nOutput ∧
      (∀ ws : List α, ∃ r, Legacy.loadWeights nn0 ws = Except.ok r ∧
        (r.2 = true ↔
          ws.length = (nn.nInput + 1) * nn.nHidden + (nn.nHidden + 1) * nn.nOutput) ∧
        (r.2 = false → r.1 = nn0)) ∧
      Legacy.loadWeights nn0 out = Except.ok ({ nn0 with
        wInputHidden := nn.wInputHidden
        wHiddenOutput := nn.wHiddenOutput }, true) := by
  have hlen : (nn.wInputHidden.flatten ++ nn.wHiddenOutput.flatten).length
      = (nn.nInput + 1) * nn.nHidden + (nn.nHidden + 1) * nn.nOutput := by
    rw [List.length_append, Rect_length_flatten _ _ _ h1, Rect_length_flatten _ _ _ h2]
  have h1n : Legacy.Rect nn0.wInputHidden (nn0.nInput + 1) nn0.nHidden := by
    rw [hI, hH]; exact h1'
  have h2n : Legacy.Rect nn0.wHiddenOutput (nn0.nHidden + 1) nn0.nOutput := by
    rw [hH, hO]; exact h2'
  refine ⟨_, legacy_saveWeights_eq nn h1 h2, rfl, hlen, ?_, ?_⟩
  · intro ws
    by_cases h : ws.length = (nn.nInput + 1) * nn.nHidden + (nn.nHidden + 1) * nn.nOutput
    · refine ⟨_, legacy_loadWeights_accept nn0 ws h1n h2n (by rw [hI, hH, hO]; exact h), ?_, ?_⟩
      · simp [h]
      · intro hf
        simp at hf
    · refine ⟨_, legacy_loadWeights_reject nn0 ws (by rw [hI, hH, hO]; exact h), ?_, ?_⟩
      · simp [h]
      · intro _
        rfl
  · rw [legacy_loadWeights_accept nn0 _ h1n h2n (by rw [hI, hH, hO]; exact hlen)]
    have c1 := chunks_flatten ([] : List α) nn.wHiddenOutput.flatten nn.wInputHidden
      nn.nHidden h1.2
    have c2 := chunks_flatten nn.wInputHidden.flatten ([] : List α) nn.wHiddenOutput
      nn.nOutput h2.2
    rw [h1.1] at c1
    rw [h2.1, Rect_length_flatten _ _ _ h1, List.append_nil] at c2
    simp only [List.nil_append, List.length_nil] at c1
    rw [hI, hH, hO]
    simp only [Nat.zero_add] at c1 c2 ⊢
    rw [c1, c2]

/-- Witness for C39: the network with `wInputHidden = [[1], [2]]` and
`wHiddenOutput = [[3], [4]]` emits `[1, 2, 3, 4]`, and loading that sequence into
`Legacy.slipNet` gives it these weights. -/
theorem C39_save_load_round_trip_witness :
    Legacy.saveWeights (Legacy.unitNet (0 : ℚ) 0 0 1 2 3 4) = Except.ok [1, 2, 3, 4] ∧
    Legacy.loadWeights (Legacy.slipNet ℚ) [1, 2, 3, 4] = Except.ok ({ Legacy.slipNet ℚ with
        wInputHidden := [[1], [2]]
        wHiddenOutput := [[3], [4]] }, true) := by
  obtain ⟨out, hsave, hout, _, _, hload⟩ := C39_save_load_round_trip
    (Legacy.unitNet (0 : ℚ) 0 0 1 2 3 4) (Legacy.slipNet ℚ)
    ⟨rfl, by simp [Legacy.unitNet]⟩ ⟨rfl, by simp [Legacy.unitNet]⟩ rfl rfl rfl
    ⟨rfl, by simp [Legacy.slipNet, Legacy.unitNet]⟩
    ⟨rfl, by simp [Legacy.slipNet, Legacy.unitNet]⟩
  have hval : out = [1, 2, 3, 4] := by rw [hout]; rfl
  rw [hval] at hsave hload
  exact ⟨hsave, hload⟩

/-- C34 (evaluation at the failing input): `slipNet` (2017) and `Legacy.slipNet` (2008)
have the shape `(1, 1, 1)` and the same logical weights, their trainers the learning rate
`1`, the momentum `0` and zero delta buffers.  On the entry with input `[1]` and target
`[1]`, `feedForward` followed by the 2008 `backpropagate` leaves the weight from the
input bias to the hidden unit at `-1/16`, its delta `1 * (-1) * 1/16`; `Evaluate`
followed by the 2017 `Backpropagate` leaves that logical weight, slot
`GetInputHiddenWeightIndex 1 0`, at `-1/2`.  The three other logical weights come out
equal. -/
theorem C34_stochastic_step_differs_from_2008 :
    (∀ i j, i ≤ 1 → j < 1 →
      (slipNet ℝ).m_weightsInputHidden.getD (GetInputHiddenWeightIndex (slipNet ℝ) i j) 0
        = ((Legacy.slipNet ℝ).wInputHidden.getD i []).getD j 0) ∧
    (∀ j k, j ≤ 1 → k < 1 →
      (slipNet ℝ).m_weightsHiddenOutput.getD (GetHiddenOutputWeightIndex (slipNet ℝ) j k) 0
        = ((Legacy.slipNet ℝ).wHiddenOutput.getD j []).getD k 0) ∧
    (slipTrainer ℝ false).m_pNetwork = slipNet ℝ ∧
    (Legacy.slipTrainer ℝ).NN = Legacy.slipNet ℝ ∧
    (slipTrainer ℝ false).m_learningRate = (Legacy.slipTrainer ℝ).learningRate ∧
    (slipTrainer ℝ false).m_momentum = (Legacy.slipTrainer ℝ).momentum ∧
    (slipTrainer ℝ false).m_useBatchLearning = false ∧
    (Legacy.slipTrainer ℝ).useBatch = false ∧
    (slipTrainer ℝ false).m_deltaInputHidden = [0, 0, 0, 0] ∧
    (slipTrainer ℝ false).m_deltaHiddenOutput = [0, 0] ∧
    (Legacy.slipTrainer ℝ).deltaInputHidden = [[0], [0]] ∧
    (Legacy.slipTrainer ℝ).deltaHiddenOutput = [[0], [0]] ∧
    (Evaluate Real.exp (slipNet ℝ) [1] >>= fun n =>
        Backpropagate { slipTrainer ℝ false with m_pNetwork := n } [1])
      = Except.ok (slipUpdated ℝ false) ∧
    (Legacy.feedForward Real.exp (Legacy.slipNet ℝ) [1] >>= fun n =>
        Legacy.backpropagate { Legacy.slipTrainer ℝ with NN := n } [1])
      = Except.ok (Legacy.slipTrained ℝ) ∧
    (slipUpdated ℝ false).m_pNetwork.m_weightsInputHidden.getD
      (GetInputHiddenWeightIndex (slipNet ℝ) 1 0) 0 = -1 / 2 ∧
    (((Legacy.slipTrained ℝ).NN.wInputHidden.getD 1 []).getD 0 0 : ℝ) = -1 / 16 ∧
    (slipUpdated ℝ false).m_pNetwork.m_weightsInputHidden.getD
        (GetInputHiddenWeightIndex (slipNet ℝ) 1 0) 0
      ≠ ((Legacy.slipTrained ℝ).NN.wInputHidden.getD 1 []).getD 0 0 ∧
    (slipUpdated ℝ false).m_pNetwork.m_weightsInputHidden.getD
        (GetInputHiddenWeightIndex (slipNet ℝ) 0 0) 0
      = ((Legacy.slipTrained ℝ).NN.wInputHidden.getD 0 []).getD 0 0 ∧
    (∀ j k, j ≤ 1 → k < 1 →
      (slipUpdated ℝ false).m_pNetwork.m_weightsHiddenOutput.getD
          (GetHiddenOutputWeightIndex (slipNet ℝ) j k) 0
        = ((Legacy.slipTrained ℝ).NN.wHiddenOutput.getD j []).getD k 0) := by
  refine ⟨?_, ?_, rfl, rfl, rfl, rfl, rfl, rfl, rfl, rfl, rfl, rfl, ?_, ?_, ?_, ?_, ?_, ?_, ?_⟩
  · intro i j hi hj
    interval_cases i <;> interval_cases j <;>
      simp [slipNet, Legacy.slipNet, GetInputHiddenWeightIndex]
  · intro j k hj hk
    interval_cases j <;> interval_cases k <;>
      simp [slipNet, Legacy.slipNet, GetHiddenOutputWeightIndex]
  · rw [slip_Evaluate Real.exp Real.exp_zero, ok_bind]
    exact slip_Backpropagate false
  · rw [legacy_slip_feedForward Real.exp Real.exp_zero, ok_bind]
    exact legacy_slip_backpropagate
  · simp [slipUpdated, slipNet, GetInputHiddenWeightIndex]
  · simp [Legacy.slipTrained]
  · simp [slipUpdated, slipNet, GetInputHiddenWeightIndex, Legacy.slipTrained]
    norm_num
  · simp [slipUpdated, slipNet, GetInputHiddenWeightIndex, Legacy.slipTrained]
  · intro j k hj hk
    interval_cases j <;> interval_cases k <;>
      simp [slipUpdated, slipNet, GetHiddenOutputWeightIndex, Legacy.slipTrained]

/-- C40 (counterexample): `Legacy.staleTrainer ℝ 0` and `Legacy.staleTrainer ℝ 100` differ
only in the training and generalization accuracies they hold (`0`, the value of a fresh
trainer, and `100`, the value a call that reached full accuracy leaves behind); with
`maxEpochs = 1` and `desiredAccuracy = 90` the call of `trainNetwork` on the first runs one
epoch and moves the weights, the call on the second runs none, keeps the weights and
still holds the accuracies `100` afterwards. -/
theorem C40_stale_accuracies_counterexample :
    Legacy.staleTrainer ℝ 100 = { Legacy.staleTrainer ℝ 0 with
      trainingSetAccuracy := Stat.real 100
      generalizationSetAccuracy := Stat.real 100 } ∧
    ∃ a b,
      Legacy.trainNetwork Real.exp 1 (Legacy.staleTrainer ℝ 0) (Legacy.slipData ℝ)
        = Except.ok a ∧
      Legacy.trainNetwork Real.exp 1 (Legacy.staleTrainer ℝ 100) (Legacy.slipData ℝ)
        = Except.ok b ∧
      a.epoch = 1 ∧ b.epoch = 0 ∧
      a.NN.wInputHidden = [[1 / 16], [-1 / 16]] ∧ a.NN.wHiddenOutput = [[33 / 16], [7 / 8]] ∧
      b.NN.wInputHidden = [[0], [0]] ∧ b.NN.wHiddenOutput = [[2], [1]] ∧
      b.trainingSetAccuracy = Stat.real 100 ∧
      b.generalizationSetAccuracy = Stat.real 100 := by
  obtain ⟨a, ha, h1, h2, h3⟩ := legacy_stale_zero Real.exp Real.exp_zero 0
  obtain ⟨b, hb, h4, h5, h6, h7, h8⟩ := legacy_stale_hundred Real.exp 1
  exact ⟨rfl, a, b, ha, hb, h1, h4, h2, h3, h5, h6, h7, h8⟩

/-- C40 (amended): `trainNetwork` resets the epoch counter and the log counter
`lastEpochLogged` and nothing else.  The outcome of a call therefore does not depend on
the values these two counters held before it; the accuracies are kept, and when neither
the training nor the generalization accuracy held before the call compares below
`desiredAccuracy` (both have reached it) the call runs no epoch: it only resets the two
counters and measures the validation set. -/
theorem C40_trainNetwork_resets_counters_only {α : Type} [LinearOrderedField α]
    (exp : α → α) (fuel : Nat) (t : Legacy.neuralNetworkTrainer α)
    (tSet : Legacy.trainingDataSet α) :
    (∀ e l : Int, Legacy.trainNetwork exp fuel { t with epoch := e, lastEpochLogged := l } tSet
      = Legacy.trainNetwork exp fuel t tSet) ∧
    (t.trainingSetAccuracy.lt t.desiredAccuracy = false →
      t.generalizationSetAccuracy.lt t.desiredAccuracy = false →
      Legacy.trainNetwork exp fuel t tSet = (do
        let a ← Legacy.getSetAccuracy exp t.NN tSet.validationSet
        let m ← Legacy.getSetMSE exp a.1 tSet.validationSet
        pure { t with
          epoch := 0
          lastEpochLogged := -t.logResolution
          NN := m.1
          validationSetAccuracy := a.2
          validationSetMSE := m.2 })) :=
  ⟨fun _ _ => rfl, legacy_trainNetwork_skip exp fuel t tSet⟩

/-- Witness for C40 (amended): the trainer `Legacy.staleTrainer ℝ 100`, which holds the
accuracies `100` with `desiredAccuracy = 90`, on `Legacy.slipData`. -/
theorem C40_trainNetwork_resets_counters_only_witness :
    (Legacy.staleTrainer ℝ 100).trainingSetAccuracy.lt
      (Legacy.staleTrainer ℝ 100).desiredAccuracy = false ∧
    (Legacy.staleTrainer ℝ 100).generalizationSetAccuracy.lt
      (Legacy.staleTrainer ℝ 100).desiredAccuracy = false ∧
    Legacy.trainNetwork Real.exp 1500 { Legacy.staleTrainer ℝ 100 with
        epoch := 7
        lastEpochLogged := 3 } (Legacy.slipData ℝ)
      = Legacy.trainNetwork Real.exp 1500 (Legacy.staleTrainer ℝ 100) (Legacy.slipData ℝ) ∧
    Legacy.trainNetwork Real.exp 1500 (Legacy.staleTrainer ℝ 100) (Legacy.slipData ℝ) = (do
      let a ← Legacy.getSetAccuracy Real.exp (Legacy.staleTrainer ℝ 100).NN
        (Legacy.slipData ℝ).validationSet
      let m ← Legacy.getSetMSE Real.exp a.1 (Legacy.slipData ℝ).validationSet
      pure { Legacy.staleTrainer ℝ 100 with
        epoch := 0
        lastEpochLogged := -(Legacy.staleTrainer ℝ 100).logResolution
        NN := m.1
        validationSetAccuracy := a.2
        validationSetMSE := m.2 }) := by
  have h90 : (Legacy.staleTrainer ℝ 100).trainingSetAccuracy.lt
      (Legacy.staleTrainer ℝ 100).desiredAccuracy = false := by
    simp [Legacy.staleTrainer, Legacy.setStoppingConditions, Stat.lt]
    norm_num
  have h90' : (Legacy.staleTrainer ℝ 100).generalizationSetAccuracy.lt
      (Legacy.staleTrainer ℝ 100).desiredAccuracy = false := by
    simp [Legacy.staleTrainer, Legacy.setStoppingConditions, Stat.lt]
    norm_num
  exact ⟨h90, h90',
    (C40_trainNetwork_resets_counters_only Real.exp 1500 (Legacy.staleTrainer ℝ 100)
      (Legacy.slipData ℝ)).1 7 3,
    (C40_trainNetwork_resets_counters_only Real.exp 1500 (Legacy.staleTrainer ℝ 100)
      (Legacy.slipData ℝ)).2 h90 h90'⟩

end LegacyClaims

end BPN
